import Mathlib

/-!
# gtk-vnc 0.6.0, `src/vncconnection.c`: a shallow embedding

The client side of the RFB protocol engine is embedded as state-passing
functions over a record `Conn` that mirrors `struct _VncConnectionPrivate`.
What lies outside the file is kept outside the functions:

* the transport is plain (no TLS session, no SASL layer); the bytes the
  server will deliver are `io.incoming`, the size of each receive is taken
  from `io.recv_sizes`, and the end of `io.incoming` is the server closing
  the connection; sends always succeed;
* an active zlib region is represented by the bytes that inflate will still
  produce for it (`io.compressed`), and running out of them is the
  non-`Z_OK` result;
* signals, framebuffer calls and audio calls are appended to logs, in the
  order in which the code issues them; a framebuffer call is logged with the
  values of its argument expressions;
* memory that C leaves uninitialised (`g_malloc`, local arrays) holds zero bytes;
* the host acts while the session task waits for it (`g_condition_wait`): its
  calls are `host_calls`, taken in order, and a host with no call left shuts the
  connection down, which ends every wait;
* the cipher and library routines of authentication (`d3des`, GnuTLS, SASL, the
  Diffie-Hellman helpers) are parameters, collected in `Library`;
* a palette array that is indexed with data from the wire is a list of its
  entries, and a decoder that would reach outside the array gives `none`;
* the zlib streams are not part of the record: the Tight decoder hands back the
  numbers of the streams it resets, and what a stream inflates is a parameter,
  collected with the other routines of the Tight decoder in `TightExternal`.
-/

namespace GtkVnc

/-! ## Constants -/

/-- Modelled from the spec: GLib's byte-order tags, declared outside src/. -/
def G_LITTLE_ENDIAN : Nat := 1234

/-- Modelled from the spec: GLib's byte-order tags, declared outside src/. -/
def G_BIG_ENDIAN : Nat := 4321

def EIO : Int := 5
def EAGAIN : Int := 11
def EINVAL : Int := 22
def EPIPE : Int := 32

/-- Modelled from the spec: the encoding codes of `vncconnection.h` (spec §6 and §4.6.1). -/
def VNC_CONNECTION_ENCODING_RAW : Int := 0
def VNC_CONNECTION_ENCODING_COPY_RECT : Int := 1
def VNC_CONNECTION_ENCODING_RRE : Int := 2
def VNC_CONNECTION_ENCODING_HEXTILE : Int := 5
def VNC_CONNECTION_ENCODING_TIGHT : Int := 7
def VNC_CONNECTION_ENCODING_ZRLE : Int := 16
def VNC_CONNECTION_ENCODING_DESKTOP_RESIZE : Int := -223
def VNC_CONNECTION_ENCODING_RICH_CURSOR : Int := -239
def VNC_CONNECTION_ENCODING_XCURSOR : Int := -240
def VNC_CONNECTION_ENCODING_POINTER_CHANGE : Int := -257
def VNC_CONNECTION_ENCODING_EXT_KEY_EVENT : Int := -258
def VNC_CONNECTION_ENCODING_AUDIO_CODE : Int := -259
def VNC_CONNECTION_ENCODING_LED_STATE : Int := -261
def VNC_CONNECTION_ENCODING_WMVi : Int := 0x574D5669

def VNC_CONNECTION_CLIENT_MESSAGE_SET_PIXEL_FORMAT : Nat := 0
def VNC_CONNECTION_CLIENT_MESSAGE_SET_ENCODINGS : Nat := 2
def VNC_CONNECTION_CLIENT_MESSAGE_FRAMEBUFFER_UPDATE_REQUEST : Nat := 3
def VNC_CONNECTION_CLIENT_MESSAGE_KEY : Nat := 4
def VNC_CONNECTION_CLIENT_MESSAGE_POINTER : Nat := 5
def VNC_CONNECTION_CLIENT_MESSAGE_CUT_TEXT : Nat := 6
def VNC_CONNECTION_CLIENT_MESSAGE_QEMU : Nat := 255

/-! ## Data model -/

/-- Modelled from the spec: the `VncPixelFormat` record (its declaration is in a
header outside src/). Fields are naturals; `VncPixelFormat.fits` states the
widths the wire format gives them. -/
structure VncPixelFormat where
  bits_per_pixel : Nat
  depth : Nat
  byte_order : Nat
  true_color_flag : Nat
  red_max : Nat
  green_max : Nat
  blue_max : Nat
  red_shift : Nat
  green_shift : Nat
  blue_shift : Nat
deriving DecidableEq, Repr

/-- The field widths of a pixel format: 8-bit sizes, flag and shifts, 16-bit maxima. -/
def VncPixelFormat.fits (f : VncPixelFormat) : Prop :=
  f.bits_per_pixel < 256 ∧ f.depth < 256 ∧ f.true_color_flag < 256 ∧
  f.red_max < 65536 ∧ f.green_max < 65536 ∧ f.blue_max < 65536 ∧
  f.red_shift < 256 ∧ f.green_shift < 256 ∧ f.blue_shift < 256

instance (f : VncPixelFormat) : Decidable f.fits := by
  unfold VncPixelFormat.fits; infer_instance

/-- The text given to `vnc_connection_set_error`: a literal, a format with its
integer arguments, or a C string received from the server. -/
inductive ErrorText where
  | lit (text : String)
  | fmt (format : String) (args : List Int)
  | cstr (bytes : List UInt8)
deriving DecidableEq, Repr

/-- A cursor as built by `vnc_cursor_new`: 32-bit RGBA pixels, hotspot and size. -/
structure VncCursor where
  data : List Nat
  hotx : Int
  hoty : Int
  width : Int
  height : Int
deriving DecidableEq, Repr

/-- The signals of the `signals[]` table, with the parameters they carry. -/
inductive Signal where
  | cursor_changed (cursor : Option VncCursor)
  | pointer_mode_changed (absPointer : Nat)
  | bell
  | server_cut_text (text : List UInt8)
  | framebuffer_update (x y width height : Int)
  | desktop_resize (width height : Int)
  | pixel_format_changed (fmt : VncPixelFormat)
  | led_state (ledstate : Nat)
  | auth_failure (reason : ErrorText)
  | auth_unsupported (authType : Nat)
  | auth_credential (kinds : List Nat)
  | auth_choose_type (types : List Nat)
  | auth_choose_subtype (authType : Nat) (types : List Nat)
  | connected
  | initialized
  | disconnected
  | error (message : ErrorText)
deriving DecidableEq, Repr

/-- Calls made on the external framebuffer, with the argument values of the call. -/
inductive FbOp where
  | blt (src : List UInt8) (rowstride : Int) (x y width height : Int)
  | fill (src : List UInt8) (x y width height : Int)
  | copyrect (srcx srcy dstx dsty width height : Int)
  | set_pixel_at (src : List UInt8) (x y : Int)
  | rgb24_blt (src : List UInt8) (rowstride : Int) (x y width height : Int)
  | set_color_map (first : Nat) (entries : List (Nat × Nat × Nat))
  | store (offset : Int) (bytes : List UInt8)
deriving DecidableEq, Repr

/-- What crosses the transport: bytes sent and bytes received, in order. -/
inductive WireEvent where
  | tx (bytes : List UInt8)
  | rx (bytes : List UInt8)
deriving DecidableEq, Repr

/-- The buffered I/O layer of the connection together with its transport. -/
structure IOState where
  read_buffer : List UInt8
  read_offset : Nat
  write_buffer : List UInt8
  compressed : Option (List UInt8)
  incoming : List UInt8
  recv_sizes : List Nat
  log : List WireEvent
deriving DecidableEq, Repr

structure UpdateRequest where
  incremental : Bool
  x : Nat
  y : Nat
  width : Nat
  height : Nat
deriving DecidableEq, Repr

/-- A pending audio sample: its bytes (`length` of them) and its capacity. -/
structure VncAudioSample where
  data : List UInt8
  length : Nat
  capacity : Nat
deriving DecidableEq, Repr

/-- Calls made on the audio sink through `vnc_connection_audio_action`. -/
inductive AudioOp where
  | playback_stop
  | playback_start
  | playback_data (sample : Option VncAudioSample)
deriving DecidableEq, Repr

/-- The calls the host makes on the connection while the session task waits for it. -/
inductive HostCall where
  | set_auth_type (type : Nat)
  | set_auth_subtype (type : Nat)
  | set_credential (type : Int) (data : List UInt8)
  | shutdown
deriving DecidableEq, Repr

/-- The fields of `struct _VncConnectionPrivate` the embedded functions use, and
`host_calls`, the calls the host will still make. -/
structure Conn where
  fmt : VncPixelFormat
  error : Option ErrorText
  coroutine_stop : Bool
  width : Int
  height : Int
  major : Int
  minor : Int
  io : IOState
  fb_perfect_format_match : Bool
  fb_rowstride : Int
  fbSwapRemote : Bool
  cursor : Option VncCursor
  absPointer : Nat
  xmit_buffer : List UInt8
  xmit_buffer_capacity : Nat
  wakeups : List (List UInt8)
  zrle_pi : Nat
  zrle_pi_bits : Int
  ledstate : Nat
  has_ext_key_event : Bool
  lastUpdateRequest : UpdateRequest
  has_audio : Bool
  audio_format_pending : Bool
  audio_enable_pending : Bool
  audio_disable_pending : Bool
  audio_format : Nat × Nat × Nat
  audio : Bool
  audio_sample : Option VncAudioSample
  audio_timer : Nat
  signals : List Signal
  fbops : List FbOp
  audioops : List AudioOp
  name : Option (List UInt8)
  auth_type : Nat
  auth_subtype : Nat
  sharedFlag : Nat
  want_cred_username : Bool
  want_cred_password : Bool
  want_cred_x509 : Bool
  cred_username : Option (List UInt8)
  cred_password : Option (List UInt8)
  cred_x509_cacert : Option (List UInt8)
  host_calls : List HostCall
deriving DecidableEq, Repr

/-! ## Signals and errors -/

/-- The signal bridge: the signal is delivered synchronously, so it is logged here. -/
def vnc_connection_emit_main_context (s : Conn) (sig : Signal) : Conn :=
  { s with signals := s.signals ++ [sig] }

def vnc_connection_set_error (s : Conn) (msg : ErrorText) : Conn :=
  vnc_connection_emit_main_context
    { s with error := some msg, coroutine_stop := true } (Signal.error msg)

def vnc_connection_has_error (s : Conn) : Bool :=
  s.coroutine_stop

/-! ## Reading -/

def vnc_connection_use_compression (s : Conn) : Bool :=
  s.io.compressed.isSome

/-- The bytes a read can still obtain: inflate output inside a compressed
region, otherwise the unread part of the read buffer and then the transport. -/
def IOState.pending (io : IOState) : List UInt8 :=
  match io.compressed with
  | some d => d
  | none => io.read_buffer.drop io.read_offset ++ io.incoming

/-- The function `vnc_connection_zread` over the inflate output of the region: it
copies `size` bytes, or what is left and fails with -1. -/
def vnc_connection_zread (s : Conn) (size : Nat) : Int × List UInt8 × Conn :=
  let d := s.io.compressed.getD []
  if size ≤ d.length then
    (size, d.take size, { s with io := { s.io with compressed := some (d.drop size) } })
  else
    (-1, d, { s with io := { s.io with compressed := some [] } })

/-! ## The xmit queue -/

/-- The function `vnc_connection_buffered_write`: the queue grows to a multiple of 4096 when
the free room (`left`, a `size_t`) is too small, and the data is appended. -/
def vnc_connection_buffered_write (s : Conn) (data : List UInt8) : Conn :=
  let left : Int := ((s.xmit_buffer_capacity : Int) - s.xmit_buffer.length) % 2 ^ 64
  let cap := if left < data.length then
      (s.xmit_buffer_capacity + data.length + 4095) / 4096 * 4096
    else s.xmit_buffer_capacity
  { s with xmit_buffer := s.xmit_buffer ++ data, xmit_buffer_capacity := cap }

/-- Big-endian bytes of `v`, `n` of them (the value is cut to `8 * n` bits). -/
def be_bytes : Nat → Nat → List UInt8
  | 0, _ => []
  | n + 1, v => be_bytes n (v / 256) ++ [UInt8.ofNat (v % 256)]

/-- The value of a big-endian byte string. -/
def be_value (bytes : List UInt8) : Nat :=
  bytes.foldl (fun acc b => acc * 256 + b.toNat) 0

/-- A 32-bit pattern read as `gint32`. -/
def toInt32 (v : Nat) : Int :=
  if v % 2 ^ 32 < 2 ^ 31 then (v % 2 ^ 32 : Nat) else ((v % 2 ^ 32 : Nat) : Int) - 2 ^ 32

/-- A `gint32` as its 32-bit pattern. -/
def ofInt32 (v : Int) : Nat :=
  (v % 2 ^ 32).toNat

def vnc_connection_buffered_write_u8 (s : Conn) (value : Nat) : Conn :=
  vnc_connection_buffered_write s (be_bytes 1 value)

def vnc_connection_buffered_write_u16 (s : Conn) (value : Nat) : Conn :=
  vnc_connection_buffered_write s (be_bytes 2 value)

def vnc_connection_buffered_write_u32 (s : Conn) (value : Nat) : Conn :=
  vnc_connection_buffered_write s (be_bytes 4 value)

def vnc_connection_buffered_write_s32 (s : Conn) (value : Int) : Conn :=
  vnc_connection_buffered_write s (be_bytes 4 (ofInt32 value))

/-- The function `vnc_connection_buffered_flush` only wakes the session task; what the
woken task does is in `vnc_connection_read_wire`. -/
def vnc_connection_buffered_flush (s : Conn) : Conn := s

/-! ## Reading -/

/-- How many bytes one receive of at most `len` bytes returns. -/
def recvSize (sizes : List Nat) (len : Nat) : Nat :=
  match sizes with
  | [] => len
  | n :: _ => max 1 (min n len)

/-- The function `vnc_connection_read_wire` on the plain socket. A wake-up queued by
the host interrupts an interruptable wait: the host has then appended its
message to the xmit queue. -/
def vnc_connection_read_wire (interruptable : Bool) (s : Conn) (len : Nat) :
    Int × List UInt8 × Conn :=
  if s.coroutine_stop then (-EINVAL, [], s)
  else
    match interruptable, s.wakeups with
    | true, w :: ws =>
      (-EAGAIN, [], vnc_connection_buffered_write { s with wakeups := ws } w)
    | _, _ =>
      let data := s.io.incoming.take (recvSize s.io.recv_sizes len)
      if data.length = 0 then
        (-EPIPE, [], vnc_connection_set_error s (ErrorText.lit "Server closed the connection"))
      else
        (data.length, data,
          { s with io := { s.io with incoming := s.io.incoming.drop data.length,
                                     recv_sizes := s.io.recv_sizes.tail,
                                     log := s.io.log ++ [WireEvent.rx data] } })

def vnc_connection_read_plain (interruptable : Bool) (s : Conn) : Int × Conn :=
  match vnc_connection_read_wire interruptable s 4096 with
  | (ret, data, s1) =>
    if ret < 0 then (ret, s1)
    else (ret, { s1 with io := { s1.io with read_buffer := data } })

def vnc_connection_read_buf (interruptable : Bool) (s : Conn) : Int × Conn :=
  vnc_connection_read_plain interruptable s

/-- The loop of `vnc_connection_read`: `acc` holds the bytes copied so far, so
`offset` is `acc.length`. Every turn copies at least one byte, so `len` turns
are enough. -/
def vnc_connection_read_loop (interruptable : Bool) (len : Nat) :
    Nat → Conn → List UInt8 → Int × List UInt8 × Conn
  | 0, s, acc => (0, acc, s)
  | fuel + 1, s, acc =>
    if acc.length < len then
      if vnc_connection_use_compression s then
        match vnc_connection_zread s len with
        | (ret, bytes, s1) =>
          if ret = -1 then
            (- EIO, acc ++ bytes,
              vnc_connection_set_error s1 (ErrorText.lit "Failure decompressing data"))
          else vnc_connection_read_loop interruptable len fuel s1 (acc ++ bytes)
      else
        let r := if s.io.read_offset = s.io.read_buffer.length then
            match vnc_connection_read_buf interruptable s with
            | (ret, s1) =>
              if ret < 0 then (ret, s1)
              else (0, { s1 with io := { s1.io with read_offset := 0 } })
          else (0, s)
        if r.1 < 0 then (r.1, acc, r.2)
        else
          let s2 := r.2
          let tmp := min (s2.io.read_buffer.length - s2.io.read_offset) (len - acc.length)
          vnc_connection_read_loop interruptable len fuel
            { s2 with io := { s2.io with read_offset := s2.io.read_offset + tmp } }
            (acc ++ (s2.io.read_buffer.drop s2.io.read_offset).take tmp)
    else (0, acc, s)

/-- The function `vnc_connection_read` filling a buffer whose contents were `init`:
the result is the return code, the buffer afterwards and the new state. -/
def vnc_connection_read_gen (interruptable : Bool) (s : Conn) (init : List UInt8) (len : Nat) :
    Int × List UInt8 × Conn :=
  if s.coroutine_stop then (-EINVAL, init, s)
  else
    match vnc_connection_read_loop interruptable len len s [] with
    | (ret, got, s1) => (ret, got ++ init.drop got.length, s1)

def vnc_connection_read (s : Conn) (init : List UInt8) (len : Nat) : Int × List UInt8 × Conn :=
  vnc_connection_read_gen false s init len

def vnc_connection_pixel_size (s : Conn) : Nat :=
  s.fmt.bits_per_pixel / 8

/-- The function `vnc_connection_read_pixel`; `pixel` is the buffer before the call. -/
def vnc_connection_read_pixel (s : Conn) (pixel : List UInt8) : List UInt8 × Conn :=
  match vnc_connection_read s pixel (vnc_connection_pixel_size s) with
  | (_, buf, s1) => (buf, s1)

def vnc_connection_read_u8 (s : Conn) : Nat × Conn :=
  match vnc_connection_read s [0] 1 with
  | (_, buf, s1) => (be_value buf, s1)

/-- The function `vnc_connection_read_u8_interruptable`; `value` is what the byte held
before the call. -/
def vnc_connection_read_u8_interruptable (s : Conn) (value : UInt8) : Int × UInt8 × Conn :=
  match vnc_connection_read_gen true s [value] 1 with
  | (ret, buf, s1) => (ret, buf.headD value, s1)

def vnc_connection_read_u16 (s : Conn) : Nat × Conn :=
  match vnc_connection_read s [0, 0] 2 with
  | (_, buf, s1) => (be_value buf, s1)

def vnc_connection_read_u32 (s : Conn) : Nat × Conn :=
  match vnc_connection_read s [0, 0, 0, 0] 4 with
  | (_, buf, s1) => (be_value buf, s1)

def vnc_connection_read_s32 (s : Conn) : Int × Conn :=
  match vnc_connection_read s [0, 0, 0, 0] 4 with
  | (_, buf, s1) => (toInt32 (be_value buf), s1)

/-! ## Writing -/

/-- The function `vnc_connection_flush_wire` on the plain socket: nothing is sent once
`coroutine_stop` is set; the transport takes every send in full. -/
def vnc_connection_flush_wire (s : Conn) (data : List UInt8) : Conn :=
  if data.length = 0 then s
  else if s.coroutine_stop then s
  else { s with io := { s.io with log := s.io.log ++ [WireEvent.tx data] } }

def vnc_connection_flush_plain (s : Conn) : Conn :=
  vnc_connection_flush_wire s s.io.write_buffer

def vnc_connection_flush (s : Conn) : Conn :=
  let s1 := vnc_connection_flush_plain s
  { s1 with io := { s1.io with write_buffer := [] } }

/-- The loop of `vnc_connection_write`; `data` is what is left to copy. -/
def vnc_connection_write_loop : Nat → Conn → List UInt8 → Conn
  | 0, s, _ => s
  | fuel + 1, s, data =>
    if data.length = 0 then s
    else
      let s1 := if s.io.write_buffer.length = 4096 then vnc_connection_flush s else s
      let tmp := min (4096 - s1.io.write_buffer.length) data.length
      vnc_connection_write_loop fuel
        { s1 with io := { s1.io with write_buffer := s1.io.write_buffer ++ data.take tmp } }
        (data.drop tmp)

def vnc_connection_write (s : Conn) (data : List UInt8) : Conn :=
  vnc_connection_write_loop data.length s data

def vnc_connection_write_u8 (s : Conn) (value : Nat) : Conn :=
  vnc_connection_write s (be_bytes 1 value)

def vnc_connection_write_u16 (s : Conn) (value : Nat) : Conn :=
  vnc_connection_write s (be_bytes 2 value)

def vnc_connection_write_u32 (s : Conn) (value : Nat) : Conn :=
  vnc_connection_write s (be_bytes 4 value)

/-! ## Pixel format on the wire -/

/-- The function `vnc_connection_read_pixel_format`; the result is the format read. -/
def vnc_connection_read_pixel_format (s : Conn) : VncPixelFormat × Conn :=
  let (bits_per_pixel, s) := vnc_connection_read_u8 s
  let (depth, s) := vnc_connection_read_u8 s
  let (order, s) := vnc_connection_read_u8 s
  let (true_color_flag, s) := vnc_connection_read_u8 s
  let (red_max, s) := vnc_connection_read_u16 s
  let (green_max, s) := vnc_connection_read_u16 s
  let (blue_max, s) := vnc_connection_read_u16 s
  let (red_shift, s) := vnc_connection_read_u8 s
  let (green_shift, s) := vnc_connection_read_u8 s
  let (blue_shift, s) := vnc_connection_read_u8 s
  let (_, _, s) := vnc_connection_read s [0, 0, 0] 3
  ({ bits_per_pixel := bits_per_pixel, depth := depth,
     byte_order := if order ≠ 0 then G_BIG_ENDIAN else G_LITTLE_ENDIAN,
     true_color_flag := true_color_flag,
     red_max := red_max, green_max := green_max, blue_max := blue_max,
     red_shift := red_shift, green_shift := green_shift, blue_shift := blue_shift }, s)

/-! ## Client messages -/

def vnc_connection_set_pixel_format (s : Conn) (fmt : VncPixelFormat) : Bool × Conn :=
  let s := vnc_connection_buffered_write_u8 s VNC_CONNECTION_CLIENT_MESSAGE_SET_PIXEL_FORMAT
  let s := vnc_connection_buffered_write s [0, 0, 0]
  let s := vnc_connection_buffered_write_u8 s fmt.bits_per_pixel
  let s := vnc_connection_buffered_write_u8 s fmt.depth
  let s := vnc_connection_buffered_write_u8 s (if fmt.byte_order = G_BIG_ENDIAN then 1 else 0)
  let s := vnc_connection_buffered_write_u8 s fmt.true_color_flag
  let s := vnc_connection_buffered_write_u16 s fmt.red_max
  let s := vnc_connection_buffered_write_u16 s fmt.green_max
  let s := vnc_connection_buffered_write_u16 s fmt.blue_max
  let s := vnc_connection_buffered_write_u8 s fmt.red_shift
  let s := vnc_connection_buffered_write_u8 s fmt.green_shift
  let s := vnc_connection_buffered_write_u8 s fmt.blue_shift
  let s := vnc_connection_buffered_write s [0, 0, 0]
  let s := vnc_connection_buffered_flush s
  let s := { s with fmt := fmt }
  (!vnc_connection_has_error s, s)

/-- The first loop of `vnc_connection_set_encodings`: the number of entries to drop. -/
def count_skip_zrle (fmt : VncPixelFormat) : List Int → Nat
  | [] => 0
  | e :: es =>
    (if fmt.depth = 32 ∧ (fmt.red_max > 255 ∨ fmt.blue_max > 255 ∨ fmt.green_max > 255) ∧
        e = VNC_CONNECTION_ENCODING_ZRLE then 1 else 0) + count_skip_zrle fmt es

/-- The second loop of `vnc_connection_set_encodings`. -/
def write_encodings (skip_zrle : Nat) : Conn → List Int → Conn
  | s, [] => s
  | s, e :: es =>
    if skip_zrle ≠ 0 ∧ e = VNC_CONNECTION_ENCODING_ZRLE then write_encodings skip_zrle s es
    else write_encodings skip_zrle (vnc_connection_buffered_write_s32 s e) es

def vnc_connection_set_encodings (s : Conn) (encoding : List Int) : Bool × Conn :=
  let skip_zrle := count_skip_zrle s.fmt encoding
  let s := { s with has_ext_key_event := false, has_audio := false }
  let s := vnc_connection_buffered_write_u8 s VNC_CONNECTION_CLIENT_MESSAGE_SET_ENCODINGS
  let s := vnc_connection_buffered_write s [0]
  let s := vnc_connection_buffered_write_u16 s (encoding.length - skip_zrle)
  let s := write_encodings skip_zrle s encoding
  let s := vnc_connection_buffered_flush s
  (!vnc_connection_has_error s, s)

def vnc_connection_framebuffer_update_request (s : Conn) (incremental : Bool)
    (x y width height : Nat) : Bool × Conn :=
  let s := { s with lastUpdateRequest :=
    { incremental := incremental, x := x, y := y, width := width, height := height } }
  let s := vnc_connection_buffered_write_u8 s
    VNC_CONNECTION_CLIENT_MESSAGE_FRAMEBUFFER_UPDATE_REQUEST
  let s := vnc_connection_buffered_write_u8 s (if incremental then 1 else 0)
  let s := vnc_connection_buffered_write_u16 s x
  let s := vnc_connection_buffered_write_u16 s y
  let s := vnc_connection_buffered_write_u16 s width
  let s := vnc_connection_buffered_write_u16 s height
  let s := vnc_connection_buffered_flush s
  (!vnc_connection_has_error s, s)

def vnc_connection_resend_framebuffer_update_request (s : Conn) : Bool × Conn :=
  let s := vnc_connection_write_u8 s VNC_CONNECTION_CLIENT_MESSAGE_FRAMEBUFFER_UPDATE_REQUEST
  let s := vnc_connection_write_u8 s (if s.lastUpdateRequest.incremental then 1 else 0)
  let s := vnc_connection_write_u16 s s.lastUpdateRequest.x
  let s := vnc_connection_write_u16 s s.lastUpdateRequest.y
  let s := vnc_connection_write_u16 s s.lastUpdateRequest.width
  let s := vnc_connection_write_u16 s s.lastUpdateRequest.height
  let s := vnc_connection_flush s
  (!vnc_connection_has_error s, s)

def vnc_connection_key_event (s : Conn) (down_flag : Bool) (key scancode : Nat) : Bool × Conn :=
  let s := if s.has_ext_key_event then
      let s := vnc_connection_buffered_write_u8 s VNC_CONNECTION_CLIENT_MESSAGE_QEMU
      let s := vnc_connection_buffered_write_u8 s 0
      let s := vnc_connection_buffered_write_u16 s (if down_flag then 1 else 0)
      let s := vnc_connection_buffered_write_u32 s key
      vnc_connection_buffered_write_u32 s scancode
    else
      let s := vnc_connection_buffered_write_u8 s VNC_CONNECTION_CLIENT_MESSAGE_KEY
      let s := vnc_connection_buffered_write_u8 s (if down_flag then 1 else 0)
      let s := vnc_connection_buffered_write s [0, 0]
      vnc_connection_buffered_write_u32 s key
  let s := vnc_connection_buffered_flush s
  (!vnc_connection_has_error s, s)

def vnc_connection_pointer_event (s : Conn) (button_mask x y : Nat) : Bool × Conn :=
  let s := vnc_connection_buffered_write_u8 s VNC_CONNECTION_CLIENT_MESSAGE_POINTER
  let s := vnc_connection_buffered_write_u8 s button_mask
  let s := vnc_connection_buffered_write_u16 s x
  let s := vnc_connection_buffered_write_u16 s y
  let s := vnc_connection_buffered_flush s
  (!vnc_connection_has_error s, s)

def vnc_connection_client_cut_text (s : Conn) (data : List UInt8) : Bool × Conn :=
  let s := vnc_connection_buffered_write_u8 s VNC_CONNECTION_CLIENT_MESSAGE_CUT_TEXT
  let s := vnc_connection_buffered_write s [0, 0, 0]
  let s := vnc_connection_buffered_write_u32 s data.length
  let s := vnc_connection_buffered_write s data
  let s := vnc_connection_buffered_flush s
  (!vnc_connection_has_error s, s)

def vnc_connection_send_audio_format (s : Conn) : Conn :=
  let s := vnc_connection_buffered_write_u8 s VNC_CONNECTION_CLIENT_MESSAGE_QEMU
  let s := vnc_connection_buffered_write_u8 s 1
  let s := vnc_connection_buffered_write_u16 s 2
  let s := vnc_connection_buffered_write_u8 s s.audio_format.1
  let s := vnc_connection_buffered_write_u8 s s.audio_format.2.1
  let s := vnc_connection_buffered_write_u32 s s.audio_format.2.2
  let s := vnc_connection_buffered_flush s
  { s with audio_format_pending := false }

def vnc_connection_audio_enable (s : Conn) : Bool × Conn :=
  let s := if s.has_audio then
      let s := vnc_connection_buffered_write_u8 s VNC_CONNECTION_CLIENT_MESSAGE_QEMU
      let s := vnc_connection_buffered_write_u8 s 1
      let s := vnc_connection_buffered_write_u16 s 0
      let s := vnc_connection_buffered_flush s
      { s with audio_enable_pending := false }
    else { s with audio_enable_pending := true }
  (!vnc_connection_has_error s, s)

def vnc_connection_audio_disable (s : Conn) : Bool × Conn :=
  let s := { s with audio_disable_pending := true }
  let s := if s.has_audio then
      let s := vnc_connection_buffered_write_u8 s VNC_CONNECTION_CLIENT_MESSAGE_QEMU
      let s := vnc_connection_buffered_write_u8 s 1
      let s := vnc_connection_buffered_write_u16 s 1
      let s := vnc_connection_buffered_flush s
      { s with audio_disable_pending := false }
    else { s with audio_disable_pending := true }
  (!vnc_connection_has_error s, s)

/-! ## Rectangle decoders -/

/-- The rows of `vnc_connection_raw_update` when the framebuffer format matches: each row
is read straight into the framebuffer memory at `dst`. -/
def raw_update_direct (width : Nat) : Nat → Conn → Int → Conn
  | 0, s, _ => s
  | rows + 1, s, dst =>
    match vnc_connection_read s [] (width * (s.fmt.bits_per_pixel / 8)) with
    | (_, got, s1) =>
      let s2 := if got.length = 0 then s1
        else { s1 with fbops := s1.fbops ++ [FbOp.store dst got] }
      raw_update_direct width rows s2 (dst + s2.fb_rowstride)

/-- The rows of `vnc_connection_raw_update` through the row buffer `dst`; `i` is the row. -/
def raw_update_blt (x y width : Nat) : Nat → Conn → List UInt8 → Nat → Conn
  | 0, s, _, _ => s
  | rows + 1, s, dst, i =>
    match vnc_connection_read s dst (width * (s.fmt.bits_per_pixel / 8)) with
    | (_, buf, s1) =>
      raw_update_blt x y width rows
        { s1 with fbops := s1.fbops ++ [FbOp.blt buf 0 x (y + i) width 1] } buf (i + 1)

def vnc_connection_raw_update (s : Conn) (x y width height : Nat) : Conn :=
  if s.fb_perfect_format_match then
    raw_update_direct width height s
      ((y : Int) * s.fb_rowstride + (x : Int) * ((s.fmt.bits_per_pixel / 8 : Nat) : Int))
  else
    raw_update_blt x y width height s
      (List.replicate (width * (s.fmt.bits_per_pixel / 8)) 0) 0

def vnc_connection_copyrect_update (s : Conn) (dst_x dst_y width height : Nat) : Conn :=
  let (src_x, s) := vnc_connection_read_u16 s
  let (src_y, s) := vnc_connection_read_u16 s
  { s with fbops := s.fbops ++ [FbOp.copyrect src_x src_y dst_x dst_y width height] }

def nibhi (a : Nat) : Nat := (a >>> 4) &&& 0x0F

def niblo (a : Nat) : Nat := a &&& 0x0F

/-- The sub-rectangle loop of `vnc_connection_hextile_rect`; `n` sub-rectangles are left. -/
def hextile_subrects (flags x y : Nat) : Nat → Conn → List UInt8 → List UInt8 × Conn
  | 0, s, fg => (fg, s)
  | n + 1, s, fg =>
    let (fg, s) := if flags &&& 0x10 ≠ 0 then vnc_connection_read_pixel s fg else (fg, s)
    let (xy, s) := vnc_connection_read_u8 s
    let (wh, s) := vnc_connection_read_u8 s
    hextile_subrects flags x y n
      { s with fbops := s.fbops ++
          [FbOp.fill fg (x + nibhi xy) (y + niblo xy) (nibhi wh + 1) (niblo wh + 1)] } fg

/-- The function `vnc_connection_hextile_rect`; the result carries the foreground and
background buffers after the call. -/
def vnc_connection_hextile_rect (s : Conn) (flags x y width height : Nat)
    (fg bg : List UInt8) : List UInt8 × List UInt8 × Conn :=
  if flags &&& 0x01 ≠ 0 then
    (fg, bg, vnc_connection_raw_update s x y width height)
  else
    let (bg, s) := if flags &&& 0x02 ≠ 0 then vnc_connection_read_pixel s bg else (bg, s)
    let (fg, s) := if flags &&& 0x04 ≠ 0 then vnc_connection_read_pixel s fg else (fg, s)
    let s := { s with fbops := s.fbops ++ [FbOp.fill bg x y width height] }
    if flags &&& 0x08 ≠ 0 then
      let (n_rects, s) := vnc_connection_read_u8 s
      let (fg, s) := hextile_subrects flags x y n_rects s fg
      (fg, bg, s)
    else (fg, bg, s)

/-- The inner loop of `vnc_connection_hextile_update` (over `i`, in steps of 16). -/
def hextile_update_cols (x y width height j : Nat) :
    Nat → Nat → Conn → List UInt8 → List UInt8 → List UInt8 × List UInt8 × Conn
  | 0, _, s, fg, bg => (fg, bg, s)
  | fuel + 1, i, s, fg, bg =>
    if i < width then
      let w := min 16 (width - i)
      let h := min 16 (height - j)
      let (flags, s) := vnc_connection_read_u8 s
      let (fg, bg, s) := vnc_connection_hextile_rect s flags ((x + i) % 65536) ((y + j) % 65536)
        w h fg bg
      hextile_update_cols x y width height j fuel (i + 16) s fg bg
    else (fg, bg, s)

/-- The outer loop of `vnc_connection_hextile_update` (over `j`, in steps of 16). -/
def hextile_update_rows (x y width height : Nat) :
    Nat → Nat → Conn → List UInt8 → List UInt8 → List UInt8 × List UInt8 × Conn
  | 0, _, s, fg, bg => (fg, bg, s)
  | fuel + 1, j, s, fg, bg =>
    if j < height then
      let (fg, bg, s) := hextile_update_cols x y width height j width 0 s fg bg
      hextile_update_rows x y width height fuel (j + 16) s fg bg
    else (fg, bg, s)

def vnc_connection_hextile_update (s : Conn) (x y width height : Nat) : Conn :=
  (hextile_update_rows x y width height height 0 s [0, 0, 0, 0] [0, 0, 0, 0]).2.2

/-- The sub-rectangle loop of `vnc_connection_rre_update`; `n` sub-rectangles are left. -/
def rre_subrects (x y : Nat) : Nat → Conn → Conn
  | 0, s => s
  | n + 1, s =>
    let (fg, s) := vnc_connection_read_pixel s [0, 0, 0, 0]
    let (sub_x, s) := vnc_connection_read_u16 s
    let (sub_y, s) := vnc_connection_read_u16 s
    let (sub_w, s) := vnc_connection_read_u16 s
    let (sub_h, s) := vnc_connection_read_u16 s
    rre_subrects x y n
      { s with fbops := s.fbops ++ [FbOp.fill fg (x + sub_x) (y + sub_y) sub_w sub_h] }

def vnc_connection_rre_update (s : Conn) (x y width height : Nat) : Conn :=
  let (num, s) := vnc_connection_read_u32 s
  let (bg, s) := vnc_connection_read_pixel s [0, 0, 0, 0]
  let s := { s with fbops := s.fbops ++ [FbOp.fill bg x y width height] }
  rre_subrects x y num s

/-- The expression `a << n` on `int` as a two's-complement machine computes it (the
count is taken modulo 32); it is `a * 2 ^ n` wherever C defines the result. -/
def shl_int (a n : Nat) : Int :=
  toInt32 (a <<< (n % 32))

/-- The function `vnc_connection_read_cpixel`; `pixel` is the buffer before the call. -/
def vnc_connection_read_cpixel (s : Conn) (pixel : List UInt8) : List UInt8 × Conn :=
  let bpp := vnc_connection_pixel_size s
  let pixel := List.replicate bpp 0 ++ pixel.drop bpp
  if bpp = 4 ∧ s.fmt.true_color_flag ≠ 0 then
    let fitsInMSB := s.fmt.red_shift > 7 ∧ s.fmt.green_shift > 7 ∧ s.fmt.blue_shift > 7
    let fitsInLSB := shl_int s.fmt.red_max s.fmt.red_shift < 2 ^ 24 ∧
      shl_int s.fmt.green_max s.fmt.green_shift < 2 ^ 24 ∧
      shl_int s.fmt.blue_max s.fmt.blue_shift < 2 ^ 24
    if fitsInMSB ∨ fitsInLSB then
      if s.fmt.depth = 24 ∧ s.fmt.byte_order = G_BIG_ENDIAN then
        match vnc_connection_read s (pixel.drop 1) 3 with
        | (_, buf, s1) => (pixel.take 1 ++ buf, s1)
      else
        match vnc_connection_read s pixel 3 with
        | (_, buf, s1) => (buf, s1)
    else
      match vnc_connection_read s pixel bpp with
      | (_, buf, s1) => (buf, s1)
  else
    match vnc_connection_read s pixel bpp with
    | (_, buf, s1) => (buf, s1)

/-- An `int` result cut to 32 bits, two's complement. -/
def wrap_int (v : Int) : Int :=
  toInt32 (v % 2 ^ 32).toNat

/-- The do-while loop of `vnc_connection_read_zrle_rl`. A turn that goes on has read
a byte, so one turn more than there are pending bytes is enough. -/
def read_zrle_rl_loop : Nat → Conn → Int → Int × Conn
  | 0, s, rl => (rl, s)
  | fuel + 1, s, rl =>
    let (b, s) := vnc_connection_read_u8 s
    let rl := wrap_int (rl + b)
    if !vnc_connection_has_error s && b == 255 then read_zrle_rl_loop fuel s rl
    else (rl, s)

def vnc_connection_read_zrle_rl (s : Conn) : Int × Conn :=
  read_zrle_rl_loop (s.io.pending.length + 1) s 1

def vnc_connection_read_cint (s : Conn) : Nat × Conn :=
  let (val, s) := vnc_connection_read_u8 s
  let value := val &&& 0x7F
  if val &&& 0x80 = 0 then (value, s)
  else
    let (val, s) := vnc_connection_read_u8 s
    let value := value ||| ((val &&& 0x7F) <<< 7)
    if val &&& 0x80 = 0 then (value, s)
    else
      let (val, s) := vnc_connection_read_u8 s
      (value ||| (val <<< 14), s)

/-! ## Pseudo-encodings and notifications -/

def vnc_connection_ledstate_change (s : Conn) : Conn :=
  let (ledstate, s) := vnc_connection_read_u8 s
  let s := { s with ledstate := ledstate }
  vnc_connection_emit_main_context s (Signal.led_state s.ledstate)

def vnc_connection_update (s : Conn) (x y width height : Int) : Conn :=
  if s.coroutine_stop then s
  else vnc_connection_emit_main_context s (Signal.framebuffer_update x y width height)

def vnc_connection_bell (s : Conn) : Conn :=
  if s.coroutine_stop then s
  else vnc_connection_emit_main_context s Signal.bell

def vnc_connection_server_cut_text (s : Conn) (data : List UInt8) (len : Nat) : Conn :=
  if s.coroutine_stop then s
  else vnc_connection_emit_main_context s (Signal.server_cut_text (data.take len))

def vnc_connection_resize (s : Conn) (width height : Int) : Conn :=
  if s.coroutine_stop then s
  else
    let s := { s with width := width, height := height }
    vnc_connection_emit_main_context s (Signal.desktop_resize width height)

def vnc_connection_pixel_format (s : Conn) : Conn :=
  if s.coroutine_stop then s
  else vnc_connection_emit_main_context s (Signal.pixel_format_changed s.fmt)

def vnc_connection_pointer_type_change (s : Conn) (absPointer : Nat) : Conn :=
  if s.absPointer = absPointer then s
  else
    let s := { s with absPointer := absPointer }
    if s.coroutine_stop then s
    else vnc_connection_emit_main_context s (Signal.pointer_mode_changed absPointer)

/-- What the file takes from outside: the cursor blitter chosen by pixel size (from
`vncconnectionblt.h`), and the ZRLE and Tight rectangle decoders, which run over
zlib and the host image layer. -/
structure External where
  rich_cursor_blt : VncPixelFormat → List UInt8 → List UInt8 → Int → Int → Int → List Nat
  zrle_update : Conn → Nat → Nat → Nat → Nat → Conn
  tight_update : Conn → Nat → Nat → Nat → Nat → Conn

def vnc_connection_rich_cursor (ext : External) (s : Conn) (x y width height : Int) : Conn :=
  let s := { s with cursor := none }
  let s := if width ≠ 0 ∧ height ≠ 0 then
      let imagelen := width * height * ((s.fmt.bits_per_pixel / 8 : Nat) : Int)
      let masklen := ((width + 7) / 8) * height
      match vnc_connection_read s (List.replicate imagelen.toNat 0) imagelen.toNat with
      | (_, image, s1) =>
        match vnc_connection_read s1 (List.replicate masklen.toNat 0) masklen.toNat with
        | (_, mask, s2) =>
          let pixbuf := ext.rich_cursor_blt s2.fmt image mask
            (width * ((s2.fmt.bits_per_pixel / 8 : Nat) : Int)) width height
          { s2 with cursor := some (VncCursor.mk pixbuf x y width height) }
    else s
  if s.coroutine_stop then s
  else vnc_connection_emit_main_context s (Signal.cursor_changed s.cursor)

/-- Bit `7 - (x1 % 8)` of byte `x1 / 8` of a bitmap row. -/
def xcursor_bit (row : List UInt8) (x1 : Nat) : Nat :=
  ((row.getD (x1 / 8) 0).toNat >>> (7 - (x1 % 8))) &&& 1

/-- The pixels of `vnc_connection_xcursor`, row by row. -/
def xcursor_pixels (data mask : List UInt8) (rowlen width height fg bg : Nat) : List Nat :=
  (List.range height).flatMap fun y1 =>
    (List.range width).map fun x1 =>
      if xcursor_bit (mask.drop (y1 * rowlen)) x1 ≠ 0 then
        (if xcursor_bit (data.drop (y1 * rowlen)) x1 ≠ 0 then fg else bg)
      else 0

def vnc_connection_xcursor (s : Conn) (x y width height : Int) : Conn :=
  let s := { s with cursor := none }
  let s := if width ≠ 0 ∧ height ≠ 0 then
      match vnc_connection_read s [0, 0, 0] 3 with
      | (_, fgrgb, s1) =>
        match vnc_connection_read s1 [0, 0, 0] 3 with
        | (_, bgrgb, s2) =>
          let fg := (255 <<< 24) ||| ((fgrgb.getD 0 0).toNat <<< 16) |||
            ((fgrgb.getD 1 0).toNat <<< 8) ||| (fgrgb.getD 2 0).toNat
          let bg := (255 <<< 24) ||| ((bgrgb.getD 0 0).toNat <<< 16) |||
            ((bgrgb.getD 1 0).toNat <<< 8) ||| (bgrgb.getD 2 0).toNat
          let rowlen := (width + 7) / 8
          let n := (rowlen * height).toNat
          match vnc_connection_read s2 (List.replicate n 0) n with
          | (_, data, s3) =>
            match vnc_connection_read s3 (List.replicate n 0) n with
            | (_, mask, s4) =>
              { s4 with cursor := some (VncCursor.mk
                  (xcursor_pixels data mask rowlen.toNat width.toNat height.toNat fg bg)
                  x y width height) }
    else s
  if s.coroutine_stop then s
  else vnc_connection_emit_main_context s (Signal.cursor_changed s.cursor)

def vnc_connection_ext_key_event (s : Conn) : Conn :=
  { s with has_ext_key_event := true }

/-! ## Framebuffer updates -/

def vnc_connection_validate_boundary (s : Conn) (x y width height : Nat) : Bool × Conn :=
  let s := if ((x : Int) + width) > s.width ∨ ((y : Int) + height) > s.height then
      vnc_connection_set_error s
        (ErrorText.fmt "Framebuffer update %dx%d at %d,%d outside boundary %dx%d"
          [width, height, x, y, s.width, s.height])
    else s
  (!vnc_connection_has_error s, s)

def vnc_connection_framebuffer_update (ext : External) (s : Conn) (etype : Int)
    (x y width height : Nat) : Bool × Conn :=
  if vnc_connection_has_error s then (!vnc_connection_has_error s, s)
  else
    let s :=
      if etype = VNC_CONNECTION_ENCODING_RAW then
        match vnc_connection_validate_boundary s x y width height with
        | (false, s) => s
        | (true, s) =>
          vnc_connection_update (vnc_connection_raw_update s x y width height) x y width height
      else if etype = VNC_CONNECTION_ENCODING_COPY_RECT then
        match vnc_connection_validate_boundary s x y width height with
        | (false, s) => s
        | (true, s) =>
          vnc_connection_update (vnc_connection_copyrect_update s x y width height)
            x y width height
      else if etype = VNC_CONNECTION_ENCODING_RRE then
        match vnc_connection_validate_boundary s x y width height with
        | (false, s) => s
        | (true, s) =>
          vnc_connection_update (vnc_connection_rre_update s x y width height) x y width height
      else if etype = VNC_CONNECTION_ENCODING_HEXTILE then
        match vnc_connection_validate_boundary s x y width height with
        | (false, s) => s
        | (true, s) =>
          vnc_connection_update (vnc_connection_hextile_update s x y width height)
            x y width height
      else if etype = VNC_CONNECTION_ENCODING_ZRLE then
        match vnc_connection_validate_boundary s x y width height with
        | (false, s) => s
        | (true, s) =>
          vnc_connection_update (ext.zrle_update s x y width height) x y width height
      else if etype = VNC_CONNECTION_ENCODING_TIGHT then
        match vnc_connection_validate_boundary s x y width height with
        | (false, s) => s
        | (true, s) =>
          vnc_connection_update (ext.tight_update s x y width height) x y width height
      else if etype = VNC_CONNECTION_ENCODING_DESKTOP_RESIZE then
        vnc_connection_resize s width height
      else if etype = VNC_CONNECTION_ENCODING_POINTER_CHANGE then
        (vnc_connection_resend_framebuffer_update_request
          (vnc_connection_pointer_type_change s x)).2
      else if etype = VNC_CONNECTION_ENCODING_LED_STATE then
        (vnc_connection_resend_framebuffer_update_request (vnc_connection_ledstate_change s)).2
      else if etype = VNC_CONNECTION_ENCODING_WMVi then
        match vnc_connection_read_pixel_format s with
        | (fmt, s1) => vnc_connection_pixel_format { s1 with fmt := fmt }
      else if etype = VNC_CONNECTION_ENCODING_RICH_CURSOR then
        (vnc_connection_resend_framebuffer_update_request
          (vnc_connection_rich_cursor ext s x y width height)).2
      else if etype = VNC_CONNECTION_ENCODING_XCURSOR then
        (vnc_connection_resend_framebuffer_update_request
          (vnc_connection_xcursor s x y width height)).2
      else if etype = VNC_CONNECTION_ENCODING_EXT_KEY_EVENT then
        (vnc_connection_resend_framebuffer_update_request (vnc_connection_ext_key_event s)).2
      else if etype = VNC_CONNECTION_ENCODING_AUDIO_CODE then
        let s := { s with has_audio := true }
        let s := if s.audio_disable_pending then (vnc_connection_audio_disable s).2 else s
        let s := if s.audio_format_pending then vnc_connection_send_audio_format s else s
        if s.audio_enable_pending then (vnc_connection_audio_enable s).2 else s
      else
        vnc_connection_set_error s
          (ErrorText.fmt "Received an unknown encoding type: %d" [etype])
    (!vnc_connection_has_error s, s)

/-! ## The message loop -/

def vnc_connection_audio_action (s : Conn) (action : Nat) : Conn :=
  { s with audioops := s.audioops ++
      [if action = 0 then AudioOp.playback_stop
       else if action = 1 then AudioOp.playback_start
       else AudioOp.playback_data s.audio_sample] }

/-- The do-while loop at the head of `vnc_connection_server_message`: the xmit queue is
written out and flushed, then the message byte is read; a wake-up (`-EAGAIN`)
repeats the turn, and each repeat has used up one queued wake-up. -/
def server_message_wait : Nat → Conn → UInt8 → Int × UInt8 × Conn
  | 0, s, msg => (-EAGAIN, msg, s)
  | fuel + 1, s, msg =>
    let s := if s.xmit_buffer.length ≠ 0 then
        let s := vnc_connection_write s s.xmit_buffer
        let s := vnc_connection_flush s
        { s with xmit_buffer := [] }
      else s
    match vnc_connection_read_u8_interruptable s msg with
    | (ret, msg, s1) =>
      if ret = -EAGAIN then server_message_wait fuel s1 msg else (ret, msg, s1)

/-- The rectangle loop of a FramebufferUpdate message; `n` rectangles are left. -/
def framebuffer_update_rects (ext : External) : Nat → Conn → Conn
  | 0, s => s
  | n + 1, s =>
    let (x, s) := vnc_connection_read_u16 s
    let (y, s) := vnc_connection_read_u16 s
    let (w, s) := vnc_connection_read_u16 s
    let (h, s) := vnc_connection_read_u16 s
    let (etype, s) := vnc_connection_read_s32 s
    match vnc_connection_framebuffer_update ext s etype x y w h with
    | (false, s1) => s1
    | (true, s1) => framebuffer_update_rects ext n s1

/-- The entry loop of a SetColorMapEntries message; `n` entries are left. -/
def color_map_entries : Nat → Conn → List (Nat × Nat × Nat) → List (Nat × Nat × Nat) × Conn
  | 0, s, acc => (acc, s)
  | n + 1, s, acc =>
    let (red, s) := vnc_connection_read_u16 s
    let (green, s) := vnc_connection_read_u16 s
    let (blue, s) := vnc_connection_read_u16 s
    color_map_entries n s (acc ++ [(red, green, blue)])

/-- The QEMU audio Data sub-message, after its length has been read. -/
def server_message_audio_data (s : Conn) (n_length : Nat) : Conn :=
  if n_length > 1024 * 1024 then
    vnc_connection_set_error s
      (ErrorText.fmt "Audio sample length %u longer than permitted %d" [n_length, 1024 * 1024])
  else if s.coroutine_stop then s
  else if !s.audio then
    vnc_connection_set_error s (ErrorText.lit "No audio playback sink configured")
  else
    let s := match s.audio_sample with
      | some sample =>
        if (sample.capacity + 2 ^ 32 - sample.length) % 2 ^ 32 < n_length then
          let s := vnc_connection_audio_action s 2
          { s with audio_sample := none }
        else s
      | none => s
    let s := match s.audio_sample with
      | none => { s with audio_sample := some (VncAudioSample.mk [] 0 (1024 * 1024)),
                         audio_timer := 1 }
      | some _ => s
    match s.audio_sample with
    | none => s
    | some sample =>
      match vnc_connection_read s [] n_length with
      | (_, got, s1) =>
        { s1 with audio_sample := some (VncAudioSample.mk (sample.data ++ got)
            ((sample.length + n_length) % 2 ^ 32) sample.capacity) }

/-- The switch of `vnc_connection_server_message` on the message byte. -/
def server_message_dispatch (ext : External) (s : Conn) (msg : Nat) : Conn :=
  if msg = 0 then
    let (_, _, s) := vnc_connection_read s [0] 1
    let (n_rects, s) := vnc_connection_read_u16 s
    framebuffer_update_rects ext n_rects s
  else if msg = 1 then
    let (_, _, s) := vnc_connection_read s [0] 1
    let (first_color, s) := vnc_connection_read_u16 s
    let (n_colors, s) := vnc_connection_read_u16 s
    let (entries, s) := color_map_entries n_colors s []
    { s with fbops := s.fbops ++ [FbOp.set_color_map first_color entries] }
  else if msg = 2 then
    vnc_connection_bell s
  else if msg = 3 then
    let (_, _, s) := vnc_connection_read s [0, 0, 0] 3
    let (n_text, s) := vnc_connection_read_u32 s
    if n_text > 32 * 2 ^ 20 then
      vnc_connection_set_error s
        (ErrorText.fmt "Cut text length %u longer than permitted %d" [n_text, 32 * 2 ^ 20])
    else
      let (_, data, s) := vnc_connection_read s (List.replicate (n_text + 1) 0) n_text
      vnc_connection_server_cut_text s (data.set n_text 0) n_text
  else if msg = 255 then
    let (n_type, s) := vnc_connection_read_u8 s
    if s.coroutine_stop then s
    else if n_type = 1 then
      let (n_subtype, s) := vnc_connection_read_u16 s
      if n_subtype = 2 then
        let (n_length, s) := vnc_connection_read_u32 s
        server_message_audio_data s n_length
      else if n_subtype = 1 then
        if s.audio then vnc_connection_audio_action s 1
        else vnc_connection_set_error s (ErrorText.lit "No audio sink configured")
      else if n_subtype = 0 then
        if s.audio then
          let s := match s.audio_sample with
            | some _ =>
              let s := vnc_connection_audio_action s 2
              { s with audio_sample := none }
            | none => s
          vnc_connection_audio_action s 0
        else vnc_connection_set_error s (ErrorText.lit "No audio sink configured")
      else
        vnc_connection_set_error s
          (ErrorText.fmt "Received unknown QEMU audio message: %u" [n_subtype])
    else
      vnc_connection_set_error s
        (ErrorText.fmt "Received an unknown QEMU message: %u" [n_type])
  else
    vnc_connection_set_error s (ErrorText.fmt "Received an unknown message: %u" [msg])

/-- The function `vnc_connection_server_message`; `msg0` is what the local `msg` holds
before it is read. -/
def vnc_connection_server_message (ext : External) (s : Conn) (msg0 : UInt8) : Bool × Conn :=
  if vnc_connection_has_error s then (!vnc_connection_has_error s, s)
  else
    match server_message_wait (s.wakeups.length + 1) s msg0 with
    | (ret, msg, s) =>
      if ret < 0 then (!vnc_connection_has_error s, s)
      else
        let s := server_message_dispatch ext s msg.toNat
        (!vnc_connection_has_error s, s)

/-! ## Authentication result -/

/-- The bytes of a C string: what precedes the first NUL. -/
def c_string (buf : List UInt8) : List UInt8 :=
  buf.takeWhile (fun b => b ≠ 0)

def vnc_connection_check_auth_result (s : Conn) : Bool × Conn :=
  let (result, s) := vnc_connection_read_u32 s
  if result = 0 then (true, s)
  else if s.minor ≥ 8 then
    let (len, s) := vnc_connection_read_u32 s
    if len > 1024 - 1 then (false, s)
    else
      let (_, reason, s) := vnc_connection_read s (List.replicate 1024 0) len
      let reason := reason.set len 0
      if !s.coroutine_stop then
        let s := vnc_connection_set_error s (ErrorText.cstr (c_string reason))
        (false, vnc_connection_emit_main_context s
          (Signal.auth_failure (ErrorText.cstr (c_string reason))))
      else (false, s)
  else
    if !s.coroutine_stop then
      let s := vnc_connection_set_error s (ErrorText.lit "Unknown authentication failure")
      (false, vnc_connection_emit_main_context s
        (Signal.auth_failure (ErrorText.lit "Unknown authentication failure")))
    else (false, s)

/-! ## Vocabulary of the statements -/

/-- The session can read: no error is set, the read offset lies inside the read
buffer, and the bytes still to come are `l`. -/
def Ready (s : Conn) (l : List UInt8) : Prop :=
  s.coroutine_stop = false ∧ s.io.read_offset ≤ s.io.read_buffer.length ∧ s.io.pending = l

/-- What reading leaves alone in the I/O layer: the kind of source and the write
buffer; the transport log only grows by receive events. -/
def SameOutput (io io' : IOState) : Prop :=
  io'.compressed.isSome = io.compressed.isSome ∧ io'.write_buffer = io.write_buffer ∧
  ∃ rxs : List (List UInt8), io'.log = io.log ++ rxs.map WireEvent.rx

/-- A live session over the plain transport that has sent and received nothing yet:
pixel format `fmt`, size `width` x `height`, and `incoming` as the bytes the
server will send. -/
def session (fmt : VncPixelFormat) (width height : Int) (incoming : List UInt8) : Conn :=
  { fmt := fmt, error := none, coroutine_stop := false, width := width, height := height,
    major := 3, minor := 8,
    io := { read_buffer := [], read_offset := 0, write_buffer := [], compressed := none,
            incoming := incoming, recv_sizes := [], log := [] },
    fb_perfect_format_match := false, fb_rowstride := 4 * width, fbSwapRemote := false,
    cursor := none, absPointer := 1, xmit_buffer := [], xmit_buffer_capacity := 0,
    wakeups := [], zrle_pi := 0, zrle_pi_bits := 0, ledstate := 0,
    has_ext_key_event := false,
    lastUpdateRequest := { incremental := false, x := 0, y := 0, width := 0, height := 0 },
    has_audio := false, audio_format_pending := false, audio_enable_pending := false,
    audio_disable_pending := false, audio_format := (0, 0, 0), audio := false,
    audio_sample := none, audio_timer := 0, signals := [], fbops := [], audioops := [],
    name := none, auth_type := 0, auth_subtype := 0, sharedFlag := 0,
    want_cred_username := false, want_cred_password := false, want_cred_x509 := false,
    cred_username := none, cred_password := none, cred_x509_cacert := none, host_calls := [] }

/-- The usual 32-bit true-colour format: depth 24, little endian, 8 bits per channel. -/
def rgb888 : VncPixelFormat :=
  { bits_per_pixel := 32, depth := 24, byte_order := G_LITTLE_ENDIAN, true_color_flag := 1,
    red_max := 255, green_max := 255, blue_max := 255,
    red_shift := 16, green_shift := 8, blue_shift := 0 }

/-- The Tight compact length of `n` as the specification words it: one byte below
2^7, two below 2^14, three otherwise; the first two bytes carry 7 data bits
under a continuation bit, the third carries 8 data bits. -/
def cint_encode (n : Nat) : List UInt8 :=
  if n < 2 ^ 7 then [UInt8.ofNat n]
  else if n < 2 ^ 14 then [UInt8.ofNat (0x80 ||| (n &&& 0x7F)), UInt8.ofNat (n >>> 7)]
  else [UInt8.ofNat (0x80 ||| (n &&& 0x7F)), UInt8.ofNat (0x80 ||| ((n >>> 7) &&& 0x7F)),
        UInt8.ofNat (n >>> 14)]

/-- The ZRLE run length `r` as the specification words it: `(r - 1) / 255` bytes of
0xFF, then the byte `(r - 1) % 255`. -/
def zrle_rl_encode (r : Nat) : List UInt8 :=
  List.replicate ((r - 1) / 255) 0xFF ++ [UInt8.ofNat ((r - 1) % 255)]

/-- The condition under which `vnc_connection_set_encodings` drops ZRLE. -/
def zrle_broken (fmt : VncPixelFormat) : Prop :=
  fmt.depth = 32 ∧ (fmt.red_max > 255 ∨ fmt.green_max > 255 ∨ fmt.blue_max > 255)

instance (fmt : VncPixelFormat) : Decidable (zrle_broken fmt) := by
  unfold zrle_broken; infer_instance

/-- The list the specification says is advertised: the input list, without its ZRLE
entries when the pixel format is one of the broken ones. -/
def advertised (fmt : VncPixelFormat) (encoding : List Int) : List Int :=
  if zrle_broken fmt then encoding.filter (fun e => e ≠ VNC_CONNECTION_ENCODING_ZRLE)
  else encoding

/-- The SetEncodings message for a list `l`: type 2, a pad byte, the count as 16
bits and every entry as 32 bits, all big endian. -/
def set_encodings_message (l : List Int) : List UInt8 :=
  [2, 0] ++ be_bytes 2 l.length ++ l.flatMap (fun e => be_bytes 4 (ofInt32 e))

/-- An environment for concrete runs: the cursor blitter yields no pixels and the
ZRLE and Tight decoders leave the state alone. -/
def idle_external : External :=
  ⟨fun _ _ _ _ _ _ => [], fun c _ _ _ _ => c, fun c _ _ _ _ => c⟩

/-- The wire bytes of Hextile sub-rectangles, each given by its pixel bytes (none
when sub-rectangles are not coloured) and its two packed bytes. -/
def subrect_bytes : List (List UInt8 × UInt8 × UInt8) → List UInt8
  | [] => []
  | (p, xy, wh) :: t => p ++ xy :: wh :: subrect_bytes t

/-- The fills the specification gives for Hextile sub-rectangles of a tile at (x, y):
sub-rectangle (xy, wh) is filled with the current foreground at
(x + (xy >> 4), y + (xy & 15)) with size ((wh >> 4) + 1, (wh & 15) + 1). -/
def subrect_fills (x y : Nat) : List UInt8 → List (List UInt8 × UInt8 × UInt8) → List FbOp
  | _, [] => []
  | fg, (p, xy, wh) :: t =>
    FbOp.fill (p ++ fg.drop p.length)
        ((x : Int) + ((xy.toNat >>> 4 : Nat) : Int)) ((y : Int) + ((xy.toNat &&& 15 : Nat) : Int))
        (((wh.toNat >>> 4 : Nat) : Int) + 1) (((wh.toNat &&& 15 : Nat) : Int) + 1) ::
      subrect_fills x y (p ++ fg.drop p.length) t

/-- The foreground buffer after the sub-rectangles have been read. -/
def subrect_fg : List UInt8 → List (List UInt8 × UInt8 × UInt8) → List UInt8
  | fg, [] => fg
  | fg, (p, _, _) :: t => subrect_fg (p ++ fg.drop p.length) t

/-- The bytes of the pixel value `P` in the byte order of `fmt`. -/
def pixel_bytes (fmt : VncPixelFormat) (P : Nat) : List UInt8 :=
  if fmt.byte_order = G_BIG_ENDIAN then be_bytes (fmt.bits_per_pixel / 8) P
  else (be_bytes (fmt.bits_per_pixel / 8) P).reverse

/-- The CPIXEL of `P` as the specification words it: for a 32-bit true-colour format
whose channels lie in the upper three bytes (all shifts above 7) or in the lower
three bytes (every `max << shift` below 2^24), the three bytes of `P` that carry
the channel bits, in the byte order of `fmt`; otherwise all the bytes of `P`. -/
def cpixel_encode (fmt : VncPixelFormat) (P : Nat) : List UInt8 :=
  if fmt.bits_per_pixel = 32 ∧ fmt.true_color_flag ≠ 0 then
    if fmt.red_shift > 7 ∧ fmt.green_shift > 7 ∧ fmt.blue_shift > 7 then
      if fmt.byte_order = G_BIG_ENDIAN then be_bytes 3 (P / 256)
      else (be_bytes 3 (P / 256)).reverse
    else if fmt.red_max <<< fmt.red_shift < 2 ^ 24 ∧ fmt.green_max <<< fmt.green_shift < 2 ^ 24 ∧
        fmt.blue_max <<< fmt.blue_shift < 2 ^ 24 then
      if fmt.byte_order = G_BIG_ENDIAN then be_bytes 3 P else (be_bytes 3 P).reverse
    else pixel_bytes fmt P
  else pixel_bytes fmt P

/-- A big-endian 32-bit true-colour format with 8-bit channels in the upper three
bytes (shifts 24, 16, 8), depth 24. -/
def rgbx_be : VncPixelFormat :=
  { bits_per_pixel := 32, depth := 24, byte_order := G_BIG_ENDIAN, true_color_flag := 1,
    red_max := 255, green_max := 255, blue_max := 255,
    red_shift := 24, green_shift := 16, blue_shift := 8 }

/-! ## Authentication: constants and the outside -/

/-- Modelled from the spec: the authentication codes of `vncconnection.h` (spec §6);
`VNC_CONNECTION_AUTH_INVALID` is the value of an unset choice. -/
def VNC_CONNECTION_AUTH_INVALID : Nat := 0
def VNC_CONNECTION_AUTH_NONE : Nat := 1
def VNC_CONNECTION_AUTH_VNC : Nat := 2
def VNC_CONNECTION_AUTH_TLS : Nat := 18
def VNC_CONNECTION_AUTH_VENCRYPT : Nat := 19
def VNC_CONNECTION_AUTH_SASL : Nat := 20
def VNC_CONNECTION_AUTH_ARD : Nat := 30
def VNC_CONNECTION_AUTH_MSLOGON : Nat := 0xfffffffa

def VNC_CONNECTION_AUTH_VENCRYPT_PLAIN : Nat := 256
def VNC_CONNECTION_AUTH_VENCRYPT_TLSNONE : Nat := 257
def VNC_CONNECTION_AUTH_VENCRYPT_TLSVNC : Nat := 258
def VNC_CONNECTION_AUTH_VENCRYPT_TLSPLAIN : Nat := 259
def VNC_CONNECTION_AUTH_VENCRYPT_X509NONE : Nat := 260
def VNC_CONNECTION_AUTH_VENCRYPT_X509VNC : Nat := 261
def VNC_CONNECTION_AUTH_VENCRYPT_X509PLAIN : Nat := 262
def VNC_CONNECTION_AUTH_VENCRYPT_TLSSASL : Nat := 263
def VNC_CONNECTION_AUTH_VENCRYPT_X509SASL : Nat := 264

/-- Modelled from the spec: the credential kinds of `vncconnection.h`, in the order
the spec lists them (PASSWORD, USERNAME, CLIENTNAME). -/
def VNC_CONNECTION_CREDENTIAL_PASSWORD : Int := 0
def VNC_CONNECTION_CREDENTIAL_USERNAME : Int := 1
def VNC_CONNECTION_CREDENTIAL_CLIENTNAME : Int := 2

/-- The positions of the two choice signals in the signal enumeration. -/
def VNC_AUTH_CHOOSE_TYPE : Nat := 11
def VNC_AUTH_CHOOSE_SUBTYPE : Nat := 12

/-- What authentication takes from outside the file: the GnuTLS version the file
is compiled against, the `deskey`/`des` pair of `d3des` as one function of key
and block, the certificate search behind the CLIENTNAME credential, the TLS
bring-up, and the SASL, MS-Logon and ARD exchanges as wholes (they run over
libsasl, the Diffie-Hellman helpers and gcrypt). -/
structure Library where
  gnutls_version_number : Nat
  des : List UInt8 → List UInt8 → List UInt8
  set_credential_x509 : Conn → List UInt8 → Bool × Conn
  start_tls : Conn → Int → Bool × Conn
  perform_auth_sasl : Conn → Bool × Conn
  perform_auth_mslogon : Conn → Bool × Conn
  perform_auth_ard : Conn → Bool × Conn

/-! ## The host's calls -/

def vnc_connection_set_auth_type (s : Conn) (type : Nat) : Bool × Conn :=
  if s.auth_type ≠ VNC_CONNECTION_AUTH_INVALID then
    let s := vnc_connection_set_error s (ErrorText.lit "Auth type has already been set")
    (!vnc_connection_has_error s, s)
  else if type ≠ VNC_CONNECTION_AUTH_NONE ∧ type ≠ VNC_CONNECTION_AUTH_VNC ∧
      type ≠ VNC_CONNECTION_AUTH_MSLOGON ∧ type ≠ VNC_CONNECTION_AUTH_ARD ∧
      type ≠ VNC_CONNECTION_AUTH_TLS ∧ type ≠ VNC_CONNECTION_AUTH_VENCRYPT ∧
      type ≠ VNC_CONNECTION_AUTH_SASL then
    let s := vnc_connection_set_error s (ErrorText.fmt "Auth type %u is not supported" [type])
    let s := vnc_connection_emit_main_context s (Signal.auth_unsupported type)
    (!vnc_connection_has_error s, s)
  else
    let s := { s with auth_type := type, auth_subtype := VNC_CONNECTION_AUTH_INVALID }
    (!vnc_connection_has_error s, s)

def vnc_connection_set_auth_subtype (s : Conn) (type : Nat) : Bool × Conn :=
  if s.auth_type ≠ VNC_CONNECTION_AUTH_VENCRYPT ∧ s.auth_type ≠ VNC_CONNECTION_AUTH_TLS then
    let s := vnc_connection_set_error s
      (ErrorText.fmt "Auth type %u does not support subauth" [s.auth_type])
    (!vnc_connection_has_error s, s)
  else if s.auth_subtype ≠ VNC_CONNECTION_AUTH_INVALID then
    let s := vnc_connection_set_error s (ErrorText.lit "Auth subtype has already been set")
    (!vnc_connection_has_error s, s)
  else
    let s := { s with auth_subtype := type }
    (!vnc_connection_has_error s, s)

def vnc_connection_set_credential (lib : Library) (s : Conn) (type : Int) (data : List UInt8) :
    Bool × Conn :=
  if type = VNC_CONNECTION_CREDENTIAL_PASSWORD then
    let s := { s with cred_password := some (c_string data) }
    (!vnc_connection_has_error s, s)
  else if type = VNC_CONNECTION_CREDENTIAL_USERNAME then
    let s := { s with cred_username := some (c_string data) }
    (!vnc_connection_has_error s, s)
  else if type = VNC_CONNECTION_CREDENTIAL_CLIENTNAME then
    lib.set_credential_x509 s data
  else
    let s := vnc_connection_set_error s (ErrorText.fmt "Unknown credential type %d" [type])
    (!vnc_connection_has_error s, s)

def vnc_connection_shutdown (s : Conn) : Conn :=
  { s with coroutine_stop := true }

def host_call (lib : Library) (s : Conn) : HostCall → Conn
  | HostCall.set_auth_type type => (vnc_connection_set_auth_type s type).2
  | HostCall.set_auth_subtype type => (vnc_connection_set_auth_subtype s type).2
  | HostCall.set_credential type data => (vnc_connection_set_credential lib s type data).2
  | HostCall.shutdown => vnc_connection_shutdown s

/-- The wait of `g_condition_wait` over the host's calls `calls` (the value of
`s.host_calls`): each call runs while the condition is false. -/
def g_condition_wait_loop (lib : Library) (func : Conn → Bool) : List HostCall → Conn → Conn
  | [], s => if func s then s else vnc_connection_shutdown s
  | c :: cs, s =>
    if func s then s else g_condition_wait_loop lib func cs (host_call lib { s with host_calls := cs } c)

/-- The function `g_condition_wait`: it returns at once when the condition holds,
otherwise the task yields until the host has made it hold. -/
def g_condition_wait (lib : Library) (func : Conn → Bool) (s : Conn) : Conn :=
  g_condition_wait_loop lib func s.host_calls s

/-! ## Credentials and choices -/

def vnc_connection_has_credentials (lib : Library) (s : Conn) : Bool :=
  if s.coroutine_stop then true
  else if s.want_cred_username && s.cred_username.isNone then false
  else if s.want_cred_password && s.cred_password.isNone then false
  else if decide (lib.gnutls_version_number < 0x030000) && s.want_cred_x509 &&
      s.cred_x509_cacert.isNone then false
  else true

def vnc_connection_gather_credentials (lib : Library) (s : Conn) : Bool × Conn :=
  if s.coroutine_stop then (false, s)
  else if !vnc_connection_has_credentials lib s then
    let authCred :=
      (if s.want_cred_username then [VNC_CONNECTION_CREDENTIAL_USERNAME.toNat] else []) ++
      (if s.want_cred_password then [VNC_CONNECTION_CREDENTIAL_PASSWORD.toNat] else []) ++
      (if s.want_cred_x509 then [VNC_CONNECTION_CREDENTIAL_CLIENTNAME.toNat] else [])
    let s := vnc_connection_emit_main_context s (Signal.auth_credential authCred)
    if s.coroutine_stop then (false, s)
    else
      let s := g_condition_wait lib (vnc_connection_has_credentials lib) s
      (!vnc_connection_has_error s, s)
  else (!vnc_connection_has_error s, s)

def vnc_connection_has_auth_subtype (s : Conn) : Bool :=
  if s.coroutine_stop then true
  else if s.auth_subtype = VNC_CONNECTION_AUTH_INVALID then false
  else true

def vnc_connection_has_auth_type (s : Conn) : Bool :=
  if s.coroutine_stop then true
  else if s.auth_type = VNC_CONNECTION_AUTH_INVALID then false
  else true

def vnc_connection_choose_auth (s : Conn) (signum : Nat) (types : List Nat) : Conn :=
  if signum = VNC_AUTH_CHOOSE_TYPE then
    vnc_connection_emit_main_context s (Signal.auth_choose_type types)
  else
    vnc_connection_emit_main_context s (Signal.auth_choose_subtype s.auth_type types)

/-! ## Version exchange -/

/-- The C `isspace` on a byte. -/
def isspace (b : UInt8) : Bool :=
  b == 32 || (9 ≤ b && b ≤ 13)

/-- The C `isdigit` on a byte. -/
def isdigit (b : UInt8) : Bool :=
  48 ≤ b && b ≤ 57

/-- The value of a string of decimal digits. -/
def digits_value (l : List UInt8) : Nat :=
  l.foldl (fun acc b => acc * 10 + (b.toNat - 48)) 0

/-- The conversion `%03d` of `sscanf` (field width 3): white space is skipped, then
an optional sign and decimal digits are taken, at most three characters in all.
The result is the value and the input left, or nothing when no digit is there. -/
def scan_d3 (input : List UInt8) : Option (Int × List UInt8) :=
  match input.dropWhile isspace with
  | [] => none
  | c :: t =>
    if c = 45 ∨ c = 43 then
      let ds := (t.take 2).takeWhile isdigit
      if ds.length = 0 then none
      else some ((if c = 45 then -1 else 1) * (digits_value ds : Int), t.drop ds.length)
    else
      let ds := ((c :: t).take 3).takeWhile isdigit
      if ds.length = 0 then none
      else some ((digits_value ds : Int), (c :: t).drop ds.length)

/-- The call `sscanf(version, "RFB %03d.%03d\n", &major, &minor)` on a C string: the
result is the return value and the two integers afterwards. The return value is
the number of conversions made, or -1 (`EOF`) when the string ends before the
first conversion. -/
def sscanf_version (version : List UInt8) (major minor : Int) : Int × Int × Int :=
  match version with
  | [] => (-1, major, minor)
  | r :: t0 =>
    if r ≠ 82 then (0, major, minor)
    else match t0 with
    | [] => (-1, major, minor)
    | f :: t1 =>
      if f ≠ 70 then (0, major, minor)
      else match t1 with
      | [] => (-1, major, minor)
      | b :: t2 =>
        if b ≠ 66 then (0, major, minor)
        else if (t2.dropWhile isspace).length = 0 then (-1, major, minor)
        else match scan_d3 t2 with
        | none => (0, major, minor)
        | some (a, t3) =>
          match t3 with
          | [] => (1, a, minor)
          | dot :: t4 =>
            if dot ≠ 46 then (1, a, minor)
            else match scan_d3 t4 with
            | none => (1, a, minor)
            | some (m, _) => (2, a, m)

/-- The decimal digits of `n`, least significant last; `fuel` bounds their number. -/
def decimal_digits : Nat → Nat → List UInt8
  | 0, _ => []
  | fuel + 1, n =>
    if n < 10 then [UInt8.ofNat (48 + n)]
    else decimal_digits fuel (n / 10) ++ [UInt8.ofNat (48 + n % 10)]

/-- The conversion `%03d` of `printf`: at least three characters, padded with zeros
after the sign. -/
def print_d3 (v : Int) : List UInt8 :=
  let ds := decimal_digits (v.natAbs + 1) v.natAbs
  if v < 0 then 45 :: (List.replicate (2 - ds.length) 48 ++ ds)
  else List.replicate (3 - ds.length) 48 ++ ds

/-- The call `snprintf(version, 13, "RFB %03d.%03d\n", major, minor)`: the text, cut
to the twelve characters that fit before the terminating NUL. -/
def snprintf_version (major minor : Int) : List UInt8 :=
  ([82, 70, 66, 32] ++ print_d3 major ++ [46] ++ print_d3 minor ++ [10]).take 12

def vnc_connection_before_version (s : Conn) (major minor : Int) : Bool :=
  decide (s.major < major) || (decide (s.major = major) && decide (s.minor < minor))

def vnc_connection_after_version (s : Conn) (major minor : Int) : Bool :=
  !vnc_connection_before_version s major (minor + 1)

/-- The version exchange at the head of `vnc_connection_initialize`, up to the flush
of the client's banner. The result is false where the function jumps to `fail`. -/
def vnc_connection_initialize_version (s : Conn) : Bool × Conn :=
  let s := { s with absPointer := 1 }
  let (_, version, s) := vnc_connection_read s (List.replicate 13 0) 12
  if vnc_connection_has_error s then (false, s)
  else
    let version := version.set 12 0
    match sscanf_version (c_string version) s.major s.minor with
    | (ret, major, minor) =>
      let s := { s with major := major, minor := minor }
      if ret ≠ 2 then
        (false, vnc_connection_set_error s (ErrorText.lit "Error while parsing server version"))
      else if vnc_connection_before_version s 3 3 then
        (false, vnc_connection_set_error s
          (ErrorText.fmt "Server version is not supported (%d.%d)" [s.major, s.minor]))
      else
        let s := if vnc_connection_before_version s 3 7 then { s with minor := 3 }
          else if vnc_connection_after_version s 3 8 then { s with major := 3, minor := 8 }
          else s
        let s := vnc_connection_write s (snprintf_version s.major s.minor)
        let s := vnc_connection_flush s
        (true, s)

/-- Three decimal digits of `n`, as characters. -/
def digits3 (n : Nat) : List UInt8 :=
  [UInt8.ofNat (48 + n / 100 % 10), UInt8.ofNat (48 + n / 10 % 10), UInt8.ofNat (48 + n % 10)]

/-- The banner `"RFB MMM.mmm\n"` of version `major.minor`. -/
def banner (major minor : Nat) : List UInt8 :=
  [82, 70, 66, 32] ++ digits3 major ++ [46] ++ digits3 minor ++ [10]

/-- Version `a` is older than version `b`, in lexicographic order. -/
def version_older (a b : Nat × Nat) : Prop :=
  a.1 < b.1 ∨ (a.1 = b.1 ∧ a.2 < b.2)

instance (a b : Nat × Nat) : Decidable (version_older a b) := by
  unfold version_older; infer_instance

/-- The smaller of two versions, in lexicographic order. -/
def version_min (a b : Nat × Nat) : Nat × Nat :=
  if version_older a b then a else b

/-- The version the client settles on for a server version that is not older than
3.3: 3.3 below 3.7, and otherwise the smaller of the server version and 3.8. -/
def pinned_version (v : Nat × Nat) : Nat × Nat :=
  if version_older v (3, 7) then (3, 3) else version_min v (3, 8)

/-! ## Authentication -/

/-- The eight bytes that `des` stores at its target. -/
def des_block (lib : Library) (key block : List UInt8) : List UInt8 :=
  (lib.des key block ++ List.replicate 8 0).take 8

def vnc_connection_perform_auth_vnc (lib : Library) (s : Conn) : Bool × Conn :=
  let s := { s with want_cred_password := true, want_cred_username := false,
                    want_cred_x509 := false }
  match vnc_connection_gather_credentials lib s with
  | (false, s) => (false, s)
  | (true, s) =>
    match s.cred_password with
    | none => (false, s)
    | some cred_password =>
      let (_, challenge, s) := vnc_connection_read s (List.replicate 16 0) 16
      let keylen := min (c_string cred_password).length 8
      let key := cred_password.take keylen ++ List.replicate (8 - keylen) 0
      let challenge := des_block lib key (challenge.take 8) ++
        des_block lib key ((challenge.drop 8).take 8)
      let s := vnc_connection_write s challenge
      let s := vnc_connection_flush s
      vnc_connection_check_auth_result s

/-- The loops `auth[i] = vnc_connection_read_u8(conn)`; `n` types are left to read. -/
def read_auth_u8 : Nat → Conn → List Nat → List Nat × Conn
  | 0, s, auth => (auth, s)
  | n + 1, s, auth =>
    let (a, s) := vnc_connection_read_u8 s
    read_auth_u8 n s (auth ++ [a])

/-- The loop `auth[i] = vnc_connection_read_u32(conn)`; `n` types are left to read. -/
def read_auth_u32 : Nat → Conn → List Nat → List Nat × Conn
  | 0, s, auth => (auth, s)
  | n + 1, s, auth =>
    let (a, s) := vnc_connection_read_u32 s
    read_auth_u32 n s (auth ++ [a])

/-- The function `vnc_connection_perform_auth_tls`. Its array `auth` has 20 entries of
4 bytes, and the count is compared with `sizeof(auth)`. -/
def vnc_connection_perform_auth_tls (lib : Library) (s : Conn) : Bool × Conn :=
  match lib.start_tls s 1 with
  | (false, s) => (false, s)
  | (true, s) =>
    let (nauth, s) := vnc_connection_read_u8 s
    if vnc_connection_has_error s then (false, s)
    else if nauth = 0 then vnc_connection_check_auth_result s
    else if nauth > 20 * 4 then
      (false, vnc_connection_set_error s (ErrorText.fmt "Too many (%u) auth types" [nauth]))
    else
      let (auth, s) := read_auth_u8 nauth s []
      if s.coroutine_stop then (false, s)
      else
        let s := vnc_connection_choose_auth s VNC_AUTH_CHOOSE_SUBTYPE auth
        if s.coroutine_stop then (false, s)
        else
          let s := g_condition_wait lib vnc_connection_has_auth_subtype s
          if s.coroutine_stop then (false, s)
          else
            let s := vnc_connection_write_u8 s s.auth_subtype
            let s := vnc_connection_flush s
            if s.auth_subtype = VNC_CONNECTION_AUTH_NONE then
              if s.minor = 8 then vnc_connection_check_auth_result s else (true, s)
            else if s.auth_subtype = VNC_CONNECTION_AUTH_VNC then
              vnc_connection_perform_auth_vnc lib s
            else if s.auth_subtype = VNC_CONNECTION_AUTH_SASL then
              lib.perform_auth_sasl s
            else
              (false, vnc_connection_set_error s
                (ErrorText.fmt "Auth subtype %u is not supported" [s.auth_subtype]))

/-- The function `vnc_connection_perform_auth_vencrypt` (built without `DEBUG`). -/
def vnc_connection_perform_auth_vencrypt (lib : Library) (s : Conn) : Bool × Conn :=
  let (major, s) := vnc_connection_read_u8 s
  let (minor, s) := vnc_connection_read_u8 s
  if major ≠ 0 ∧ minor ≠ 2 then
    (false, vnc_connection_set_error s
      (ErrorText.fmt "Unsupported VeNCrypt version %d %d" [major, minor]))
  else
    let s := vnc_connection_write_u8 s major
    let s := vnc_connection_write_u8 s minor
    let s := vnc_connection_flush s
    let (status, s) := vnc_connection_read_u8 s
    if status ≠ 0 then
      (false, vnc_connection_set_error s
        (ErrorText.fmt "Server refused VeNCrypt version %d %d" [major, minor]))
    else
      let (nauth, s) := vnc_connection_read_u8 s
      if nauth > 20 then
        (false, vnc_connection_set_error s (ErrorText.fmt "Too many (%u) auth types" [nauth]))
      else
        let (auth, s) := read_auth_u32 nauth s []
        if s.coroutine_stop then (false, s)
        else
          let s := vnc_connection_choose_auth s VNC_AUTH_CHOOSE_SUBTYPE auth
          if s.coroutine_stop then (false, s)
          else
            let s := g_condition_wait lib vnc_connection_has_auth_subtype s
            if s.coroutine_stop then (false, s)
            else
              match vnc_connection_gather_credentials lib s with
              | (false, s) => (false, s)
              | (true, s) =>
                if s.auth_subtype = VNC_CONNECTION_AUTH_VENCRYPT_PLAIN then
                  (false, vnc_connection_set_error s
                    (ErrorText.lit "Cowardly refusing to transmit plain text password"))
                else
                  let s := vnc_connection_write_u32 s s.auth_subtype
                  let s := vnc_connection_flush s
                  let (status, s) := vnc_connection_read_u8 s
                  if status ≠ 1 then
                    (false, vnc_connection_set_error s
                      (ErrorText.fmt "Server refused VeNCrypt auth %u %d"
                        [s.auth_subtype, status]))
                  else
                    let anonTLS : Int :=
                      if s.auth_subtype = VNC_CONNECTION_AUTH_VENCRYPT_TLSNONE ∨
                          s.auth_subtype = VNC_CONNECTION_AUTH_VENCRYPT_TLSPLAIN ∨
                          s.auth_subtype = VNC_CONNECTION_AUTH_VENCRYPT_TLSVNC ∨
                          s.auth_subtype = VNC_CONNECTION_AUTH_VENCRYPT_TLSSASL then 1
                      else 0
                    match lib.start_tls s anonTLS with
                    | (false, s) => (false, s)
                    | (true, s) =>
                      if s.auth_subtype = VNC_CONNECTION_AUTH_VENCRYPT_TLSNONE ∨
                          s.auth_subtype = VNC_CONNECTION_AUTH_VENCRYPT_X509NONE then
                        vnc_connection_check_auth_result s
                      else if s.auth_subtype = VNC_CONNECTION_AUTH_VENCRYPT_TLSVNC ∨
                          s.auth_subtype = VNC_CONNECTION_AUTH_VENCRYPT_X509VNC then
                        vnc_connection_perform_auth_vnc lib s
                      else if s.auth_subtype = VNC_CONNECTION_AUTH_VENCRYPT_TLSSASL ∨
                          s.auth_subtype = VNC_CONNECTION_AUTH_VENCRYPT_X509SASL then
                        lib.perform_auth_sasl s
                      else
                        (false, vnc_connection_set_error s
                          (ErrorText.fmt "Unknown auth subtype %u" [s.auth_subtype]))

/-- The part of `vnc_connection_perform_auth` after the offered types `auth` have been
read: the choice is left to the host and the chosen scheme is run. -/
def perform_auth_chosen (lib : Library) (s : Conn) (auth : List Nat) : Bool × Conn :=
  if s.coroutine_stop then (false, s)
  else
    let s := vnc_connection_choose_auth s VNC_AUTH_CHOOSE_TYPE auth
    if s.coroutine_stop then (false, s)
    else
      let s := g_condition_wait lib vnc_connection_has_auth_type s
      if s.coroutine_stop then (false, s)
      else
        match vnc_connection_gather_credentials lib s with
        | (false, s) => (false, s)
        | (true, s) =>
          let s := if s.minor > 6 then
              vnc_connection_flush (vnc_connection_write_u8 s s.auth_type)
            else s
          if s.auth_type = VNC_CONNECTION_AUTH_NONE then
            if s.minor = 8 then vnc_connection_check_auth_result s else (true, s)
          else if s.auth_type = VNC_CONNECTION_AUTH_VNC then
            vnc_connection_perform_auth_vnc lib s
          else if s.auth_type = VNC_CONNECTION_AUTH_TLS then
            if s.minor < 7 then
              (false, vnc_connection_set_error s
                (ErrorText.lit "TLS auth requires protocol 3.8"))
            else vnc_connection_perform_auth_tls lib s
          else if s.auth_type = VNC_CONNECTION_AUTH_VENCRYPT then
            vnc_connection_perform_auth_vencrypt lib s
          else if s.auth_type = VNC_CONNECTION_AUTH_SASL then
            lib.perform_auth_sasl s
          else if s.auth_type = VNC_CONNECTION_AUTH_MSLOGON then
            lib.perform_auth_mslogon s
          else if s.auth_type = VNC_CONNECTION_AUTH_ARD then
            lib.perform_auth_ard s
          else
            let s := vnc_connection_emit_main_context s (Signal.auth_unsupported s.auth_type)
            (false, vnc_connection_set_error s
              (ErrorText.fmt "Unsupported auth type %u" [s.auth_type]))

/-- The function `vnc_connection_perform_auth`. Its array `auth` has 10 entries of 4
bytes, and the count is compared with `sizeof(auth)`. -/
def vnc_connection_perform_auth (lib : Library) (s : Conn) : Bool × Conn :=
  if s.minor ≤ 6 then
    let (a, s) := vnc_connection_read_u32 s
    perform_auth_chosen lib s [a]
  else
    let (nauth, s) := vnc_connection_read_u8 s
    if vnc_connection_has_error s then (false, s)
    else if nauth = 0 then vnc_connection_check_auth_result s
    else if nauth > 10 * 4 then
      (false, vnc_connection_set_error s (ErrorText.fmt "Too many auth types %u" [nauth]))
    else
      let (auth, s) := read_auth_u8 nauth s []
      perform_auth_chosen lib s auth

/-! ## Initialisation and the session task -/

/-- The part of `vnc_connection_initialize` after authentication: the shared flag is
sent and the server's initialisation message is read. -/
def initialize_server_init (s : Conn) : Bool × Conn :=
  let s := vnc_connection_write_u8 s s.sharedFlag
  let s := vnc_connection_flush s
  let (width, s) := vnc_connection_read_u16 s
  let s := { s with width := width }
  let (height, s) := vnc_connection_read_u16 s
  let s := { s with height := height }
  if vnc_connection_has_error s then (false, s)
  else
    let (fmt, s) := vnc_connection_read_pixel_format s
    let s := { s with fmt := fmt }
    let (n_name, s) := vnc_connection_read_u32 s
    if n_name > 4096 then
      let s := vnc_connection_set_error s (ErrorText.fmt "Name length %u too long" [n_name])
      (!vnc_connection_has_error s, s)
    else
      let (_, name, s) := vnc_connection_read s (List.replicate (n_name + 1) 0) n_name
      let s := { s with name := some (name.set n_name 0) }
      if vnc_connection_has_error s then (false, s)
      else
        let s := { s with io := { s.io with compressed := none } }
        (!vnc_connection_has_error s, s)

def vnc_connection_initialize (lib : Library) (s : Conn) : Bool × Conn :=
  match vnc_connection_initialize_version s with
  | (false, s) => (!vnc_connection_has_error s, s)
  | (true, s) =>
    match vnc_connection_perform_auth lib s with
    | (false, s) => (!vnc_connection_has_error s, s)
    | (true, s) => initialize_server_init s

def vnc_connection_close (s : Conn) : Conn :=
  { s with
    name := none
    xmit_buffer := []
    xmit_buffer_capacity := 0
    io := { s.io with read_buffer := [], read_offset := 0, write_buffer := [], compressed := none }
    width := 0
    height := 0
    major := 0
    minor := 0
    cred_username := none
    cred_password := none
    cred_x509_cacert := none
    want_cred_x509 := false
    want_cred_username := false
    want_cred_password := false
    auth_type := VNC_CONNECTION_AUTH_INVALID
    auth_subtype := VNC_CONNECTION_AUTH_INVALID
    sharedFlag := 0
    fmt := ⟨0, 0, 0, 0, 0, 0, 0, 0, 0, 0⟩
    error := none
    coroutine_stop := false }

/-- The loop `while (vnc_connection_server_message(conn));` of the session task. The
result is nothing when `fuel` calls did not end it. -/
def message_loop (ext : External) : Nat → Conn → Option Conn
  | 0, _ => none
  | fuel + 1, s =>
    match vnc_connection_server_message ext s 0 with
    | (false, s) => some s
    | (true, s) => message_loop ext fuel s

/-- The function `vnc_connection_coroutine` from the point where the socket is open. The
message loop gets one call for every pending byte and one more. -/
def vnc_connection_coroutine (ext : External) (lib : Library) (s : Conn) : Option Conn :=
  let s := vnc_connection_emit_main_context s Signal.connected
  let cleanup := fun (s : Conn) =>
    vnc_connection_emit_main_context (vnc_connection_close s) Signal.disconnected
  match vnc_connection_initialize lib s with
  | (false, s) => some (cleanup s)
  | (true, s) =>
    let s := vnc_connection_emit_main_context s Signal.initialized
    (message_loop ext (s.io.pending.length + 1) s).map cleanup

/-- An environment for concrete runs: `des` is a stand-in that xors the key onto the
block, no certificate is found, and TLS, SASL, MS-Logon and ARD are not available
(they set an error). -/
def bare_library : Library :=
  { gnutls_version_number := 0x030000
    des := fun key block => List.zipWith (fun k b => k ^^^ b) key block
    set_credential_x509 := fun s _ => (false, s)
    start_tls := fun s _ => (false, vnc_connection_set_error s (ErrorText.lit "Failed to init TLS"))
    perform_auth_sasl := fun s =>
      (false, vnc_connection_set_error s (ErrorText.lit "failed to initialize SASL library"))
    perform_auth_mslogon := fun s =>
      (false, vnc_connection_set_error s (ErrorText.lit "MS-Logon is not available"))
    perform_auth_ard := fun s =>
      (false, vnc_connection_set_error s (ErrorText.lit "ARD is not available")) }

/-- The sixteen bytes of a pixel format on the wire. -/
def pixel_format_bytes (f : VncPixelFormat) : List UInt8 :=
  be_bytes 1 f.bits_per_pixel ++ be_bytes 1 f.depth ++
  be_bytes 1 (if f.byte_order = G_BIG_ENDIAN then 1 else 0) ++ be_bytes 1 f.true_color_flag ++
  be_bytes 2 f.red_max ++ be_bytes 2 f.green_max ++ be_bytes 2 f.blue_max ++
  be_bytes 1 f.red_shift ++ be_bytes 1 f.green_shift ++ be_bytes 1 f.blue_shift ++ [0, 0, 0]

/-- The DES key the specification gives for a password: its first eight bytes, or
all of them followed by zero bytes up to eight. -/
def vnc_des_key (p : List UInt8) : List UInt8 :=
  p.take (min p.length 8) ++ List.replicate (8 - min p.length 8) 0

/-- The payloads of the send events of a transport log, in order. -/
def sent : List WireEvent → List (List UInt8)
  | [] => []
  | WireEvent.tx b :: evs => b :: sent evs
  | WireEvent.rx _ :: evs => sent evs

/-! ## Sample sessions -/

/-- A fresh session (see `session`) whose host answers the first wait with the calls
`calls`, in that order. -/
def hosted_session (incoming : List UInt8) (calls : List HostCall) : Conn :=
  { session rgb888 0 0 incoming with host_calls := calls }

/-- What a server on protocol 3.3 sends when it asks for no authentication: banner,
auth type None, then width, height, pixel format, name length and name. -/
def server_none_33 (w h : Nat) (f : VncPixelFormat) (name : List UInt8) : List UInt8 :=
  banner 3 3 ++ be_bytes 4 VNC_CONNECTION_AUTH_NONE ++ be_bytes 2 w ++ be_bytes 2 h ++
    pixel_format_bytes f ++ be_bytes 4 name.length ++ name

/-! ## Vocabulary for Hextile tiling -/

/-- A rectangle of the framebuffer. -/
structure Rect where
  x : Nat
  y : Nat
  width : Nat
  height : Nat
deriving DecidableEq, Repr

/-- The pixel (px, py) lies in the rectangle. -/
def Rect.covers (r : Rect) (px py : Nat) : Prop :=
  r.x ≤ px ∧ px < r.x + r.width ∧ r.y ≤ py ∧ py < r.y + r.height

/-- Tile number `k`, in row-major order, of the rectangle (x, y, w, h) cut into cells
of 16 x 16 that are clipped at the right and bottom edge: with i and j the offsets
of the tile inside the rectangle, it lies at (x + i, y + j) and has the size
min(16, w - i) x min(16, h - j). -/
def hextile_tile (x y w h k : Nat) : Rect :=
  { x := x + 16 * (k % ((w + 15) / 16))
    y := y + 16 * (k / ((w + 15) / 16))
    width := min 16 (w - 16 * (k % ((w + 15) / 16)))
    height := min 16 (h - 16 * (k / ((w + 15) / 16))) }

/-- The ceil(h/16) rows of ceil(w/16) tiles each, in row-major order. -/
def hextile_tiles (x y w h : Nat) : List Rect :=
  (List.range (((h + 15) / 16) * ((w + 15) / 16))).map (hextile_tile x y w h)

/-- The wire bytes of tiles that only specify a background: flag byte 0x02, then the
pixel. -/
def solid_tile_bytes : List (List UInt8) → List UInt8
  | [] => []
  | p :: t => 2 :: p ++ solid_tile_bytes t

/-- One fill per tile with the pixel read for it (held in the decoder's 4-byte
buffer). -/
def solid_tile_fills : List Rect → List (List UInt8) → List FbOp
  | r :: rs, p :: ps =>
    FbOp.fill (p ++ ([0, 0, 0, 0] : List UInt8).drop p.length) r.x r.y r.width r.height ::
      solid_tile_fills rs ps
  | _, _ => []

/-! ## ZRLE packed palette tiles -/

/-- The expression `a >> n` with an `int` count as the machine computes it (the count
is taken modulo 32); it is `a / 2 ^ n` wherever C defines the result. -/
def shr_int (a : Nat) (n : Int) : Nat :=
  a >>> (n % 32).toNat

/-- The function `vnc_connection_read_zrle_pi`. -/
def vnc_connection_read_zrle_pi (s : Conn) (palette_size : Int) : Nat × Conn :=
  let s :=
    if s.zrle_pi_bits = 0 then
      let (b, s) := vnc_connection_read_u8 s
      { s with zrle_pi := b, zrle_pi_bits := 8 }
    else s
  if palette_size = 2 then
    (shr_int s.zrle_pi (s.zrle_pi_bits - 1) &&& 1,
      { s with zrle_pi_bits := wrap_int (s.zrle_pi_bits - 1) })
  else if palette_size = 3 ∨ palette_size = 4 then
    (shr_int s.zrle_pi (s.zrle_pi_bits - 2) &&& 3,
      { s with zrle_pi_bits := wrap_int (s.zrle_pi_bits - 2) })
  else if palette_size ≥ 5 ∧ palette_size ≤ 16 then
    (shr_int s.zrle_pi (s.zrle_pi_bits - 4) &&& 15,
      { s with zrle_pi_bits := wrap_int (s.zrle_pi_bits - 4) })
  else (0, s)

/-- The first loop of `vnc_connection_zrle_update_tile_palette`: `n` entries are left
to read, the next one is entry `i`. The array `palette` has 128 entries of 4 bytes;
an entry outside it is read from the wire and not kept. -/
def zrle_palette_read : Nat → Nat → Conn → List (List UInt8) → List (List UInt8) × Conn
  | 0, _, s, palette => (palette, s)
  | n + 1, i, s, palette =>
    let (entry, s) := vnc_connection_read_cpixel s (palette.getD i [0, 0, 0, 0])
    zrle_palette_read n (i + 1) s (palette.set i entry)

/-- The inner loop of `vnc_connection_zrle_update_tile_palette` (over `i`): `n` pixels
of row `j` are left. -/
def zrle_palette_row (palette_size : Nat) (palette : List (List UInt8)) (x y j : Nat) :
    Nat → Nat → Conn → Conn
  | 0, _, s => s
  | n + 1, i, s =>
    let (ind, s) := vnc_connection_read_zrle_pi s palette_size
    let s := { s with fbops := s.fbops ++
      [FbOp.set_pixel_at (palette.getD (ind &&& 0x7F) [0, 0, 0, 0]) (x + i) (y + j)] }
    zrle_palette_row palette_size palette x y j n (i + 1) s

/-- The outer loop of `vnc_connection_zrle_update_tile_palette` (over `j`): `n` rows
are left. -/
def zrle_palette_rows (palette_size : Nat) (palette : List (List UInt8)) (x y width : Nat) :
    Nat → Nat → Conn → Conn
  | 0, _, s => s
  | n + 1, j, s =>
    let s := { s with zrle_pi_bits := 0 }
    let s := zrle_palette_row palette_size palette x y j width 0 s
    zrle_palette_rows palette_size palette x y width n (j + 1) s

def vnc_connection_zrle_update_tile_palette (s : Conn) (palette_size x y width height : Nat) :
    Conn :=
  let (palette, s) := zrle_palette_read palette_size 0 s (List.replicate 128 [0, 0, 0, 0])
  zrle_palette_rows palette_size palette x y width height 0 s

/-- The number of bytes `vnc_connection_read_cpixel` reads in the format `fmt`. -/
def cpixel_size (fmt : VncPixelFormat) : Nat :=
  if fmt.bits_per_pixel / 8 = 4 ∧ fmt.true_color_flag ≠ 0 then
    if (fmt.red_shift > 7 ∧ fmt.green_shift > 7 ∧ fmt.blue_shift > 7) ∨
        (shl_int fmt.red_max fmt.red_shift < 2 ^ 24 ∧
          shl_int fmt.green_max fmt.green_shift < 2 ^ 24 ∧
          shl_int fmt.blue_max fmt.blue_shift < 2 ^ 24) then 3
    else fmt.bits_per_pixel / 8
  else fmt.bits_per_pixel / 8

/-- The buffer that `vnc_connection_read_cpixel` leaves when it is called on the
buffer `pixel` and the bytes `p` arrive. -/
def cpixel_buffer (fmt : VncPixelFormat) (p pixel : List UInt8) : List UInt8 :=
  let zeroed := List.replicate (fmt.bits_per_pixel / 8) 0 ++ pixel.drop (fmt.bits_per_pixel / 8)
  if fmt.bits_per_pixel / 8 = 4 ∧ fmt.true_color_flag ≠ 0 ∧
      ((fmt.red_shift > 7 ∧ fmt.green_shift > 7 ∧ fmt.blue_shift > 7) ∨
        (shl_int fmt.red_max fmt.red_shift < 2 ^ 24 ∧
          shl_int fmt.green_max fmt.green_shift < 2 ^ 24 ∧
          shl_int fmt.blue_max fmt.blue_shift < 2 ^ 24)) ∧
      fmt.depth = 24 ∧ fmt.byte_order = G_BIG_ENDIAN then
    zeroed.take 1 ++ (p ++ (zeroed.drop 1).drop p.length)
  else p ++ zeroed.drop p.length

/-- Index number `k` (0 is the first) of the 2-bit indices packed in the byte `b`,
the most significant bits first. -/
def packed_index2 (b : UInt8) (k : Nat) : Nat :=
  (b.toNat >>> (6 - 2 * k)) &&& 3

/-- Entry `k` of a palette whose entries arrived as the CPIXELs `entries`, as the
pixel buffer the decoder holds for it. -/
def palette_pixel (fmt : VncPixelFormat) (entries : List (List UInt8)) (k : Nat) : List UInt8 :=
  (entries.map fun e => cpixel_buffer fmt e [0, 0, 0, 0]).getD k [0, 0, 0, 0]

/-- The CPIXELs of a sample palette of 4 entries in the format `rgb888`: A = A1 A2 A3,
B = B1 B2 B3, C = C1 C2 C3, D = D1 D2 D3. -/
def palette_abcd : List UInt8 :=
  [0xA1, 0xA2, 0xA3] ++ [0xB1, 0xB2, 0xB3] ++ [0xC1, 0xC2, 0xC3] ++ [0xD1, 0xD2, 0xD3]

/-! ## SASL data on the wire

`sasl_client_start` and `sasl_client_step` belong to the SASL library. What they
hand back is a parameter here: `clientout` is the memory at the pointer they set
(nothing for NULL) and `clientoutlen` the length they set. -/

def SASL_MAX_DATA_LEN : Nat := 1024 * 1024

/-- The statements of `vnc_connection_perform_auth_sasl` that send the client's data
after `sasl_client_start` and, in the same words, after `sasl_client_step`. The
length `clientoutlen + 1` is an `unsigned int`; a buffer shorter than that gives
what it has. -/
def perform_auth_sasl_write_clientout (s : Conn) (clientout : Option (List UInt8))
    (clientoutlen : Nat) : Conn :=
  let s :=
    match clientout with
    | some buf =>
      let s := vnc_connection_write_u32 s ((clientoutlen + 1) % 2 ^ 32)
      vnc_connection_write s (buf.take ((clientoutlen + 1) % 2 ^ 32))
    | none => vnc_connection_write_u32 s 0
  vnc_connection_flush s

/-- The statements of `vnc_connection_perform_auth_sasl` that read the server's data
(they occur twice, in the same words): the result is false where they jump to
`error`, and otherwise gives `serverin` and `serverinlen`. -/
def perform_auth_sasl_read_serverin (s : Conn) (clientoutlen : Nat) :
    Bool × Option (List UInt8) × Nat × Conn :=
  let (serverinlen, s) := vnc_connection_read_u32 s
  if s.coroutine_stop then (false, none, serverinlen, s)
  else if serverinlen > SASL_MAX_DATA_LEN then
    (false, none, serverinlen, vnc_connection_set_error s
      (ErrorText.fmt "SASL negotiation data too long: %u bytes" [(clientoutlen : Int)]))
  else if serverinlen ≠ 0 then
    let (_, serverin, s) := vnc_connection_read s (List.replicate serverinlen 0) serverinlen
    let serverin := serverin.set (serverinlen - 1) 0
    (true, some serverin, serverinlen - 1, s)
  else (true, none, serverinlen, s)

/-- The blob that a pointer and a length stand for: nothing for NULL, and else the
first `len` bytes at the pointer. -/
def sasl_blob (buf : Option (List UInt8)) (len : Nat) : Option (List UInt8) :=
  buf.map (fun m => m.take len)

/-- The wire form of an optional blob as the specification words it: an absent blob
is the 32-bit length 0; a present blob of n bytes is the 32-bit length n + 1, the
n bytes and one NUL byte. -/
def sasl_blob_bytes : Option (List UInt8) → List UInt8
  | none => be_bytes 4 0
  | some blob => be_bytes 4 (blob.length + 1) ++ blob ++ [0]

/-- All the bytes given to the transport so far, in order. -/
def transmitted (io : IOState) : List UInt8 :=
  (sent io.log).flatten

/-! ## Key events -/

/-- The key event message as the specification words it: with the extended-key-event
capability 255, 0, a big-endian u16 that is 1 for down and 0 for up, the big-endian
u32 key and the big-endian u32 scancode; without it 4, one byte that is 1 for down
and 0 for up, two zero pad bytes and the big-endian u32 key. -/
def key_event_message (extended down : Bool) (key scancode : Nat) : List UInt8 :=
  if extended then
    [255, 0] ++ be_bytes 2 (if down then 1 else 0) ++ be_bytes 4 key ++ be_bytes 4 scancode
  else
    [4, if down then 1 else 0, 0, 0] ++ be_bytes 4 key

/-! ## Audio samples -/

/-- The pending audio sample, when there is one, holds no more than its capacity, and
its capacity is 1 MiB. -/
def sample_within (s : Conn) : Prop :=
  ∀ a, s.audio_sample = some a → a.length ≤ a.capacity ∧ a.capacity = 1024 * 1024

/-- A live session with an audio sink and no pending sample; `incoming` is what the
server will send. -/
def audio_session (incoming : List UInt8) : Conn :=
  { session rgb888 640 480 incoming with audio := true }

/-! ## Successive reads -/

/-- Successive calls of `vnc_connection_read` with the requested lengths `lens`, each
into a fresh buffer: the return code and the buffer of every call, and the state
after the last. -/
def read_each (s : Conn) : List Nat → List (Int × List UInt8) × Conn
  | [] => ([], s)
  | n :: ns =>
    match vnc_connection_read s (List.replicate n 0) n with
    | (ret, buf, s1) =>
      match read_each s1 ns with
      | (rs, s2) => ((ret, buf) :: rs, s2)

/-- The bounds of the read buffer: 0 <= read_offset <= read_size <= 4096. -/
def read_buffer_bounds (io : IOState) : Prop :=
  io.read_offset ≤ io.read_buffer.length ∧ io.read_buffer.length ≤ 4096

/-! ## TPIXEL -/

def vnc_connection_tpixel_size (s : Conn) : Nat :=
  if s.fmt.depth = 24 then 3 else s.fmt.bits_per_pixel / 8

/-- The four bytes that a 32-bit word occupies in the memory of a host whose byte
order is `host_order` (`G_BYTE_ORDER`, which GLib defines outside src/). -/
def word_bytes (host_order v : Nat) : List UInt8 :=
  if host_order = G_BIG_ENDIAN then be_bytes 4 v else (be_bytes 4 v).reverse

/-- The function `vnc_connection_read_tpixel`; `pixel` is the buffer before the call.
The shifts and the ors are taken on 32-bit patterns, a shift count modulo 32 as
the machine takes it; `memcpy` stores the word in the byte order of the host. -/
def vnc_connection_read_tpixel (host_order : Nat) (s : Conn) (pixel : List UInt8) :
    List UInt8 × Conn :=
  if s.fmt.depth = 24 then
    match vnc_connection_read s pixel 3 with
    | (_, pixel, s1) =>
      let val := (((pixel.getD 0 0).toNat <<< (s1.fmt.red_shift % 32)) |||
        ((pixel.getD 1 0).toNat <<< (s1.fmt.green_shift % 32)) |||
        ((pixel.getD 2 0).toNat <<< (s1.fmt.blue_shift % 32))) % 2 ^ 32
      let val :=
        if s1.fmt.byte_order ≠ host_order then
          ((((val >>> 0) &&& 0xFF) <<< 24) ||| (((val >>> 8) &&& 0xFF) <<< 16) |||
            (((val >>> 16) &&& 0xFF) <<< 8) ||| (((val >>> 24) &&& 0xFF) <<< 0)) % 2 ^ 32
        else val
      (word_bytes host_order val ++ pixel.drop 4, s1)
  else vnc_connection_read_pixel s pixel

/-- The 32-bit value the specification gives for a TPIXEL of depth 24:
(r << red_shift) | (g << green_shift) | (b << blue_shift). -/
def tpixel_value (fmt : VncPixelFormat) (r g b : UInt8) : Nat :=
  ((r.toNat <<< fmt.red_shift) ||| (g.toNat <<< fmt.green_shift) |||
    (b.toNat <<< fmt.blue_shift)) % 2 ^ 32

/-- A 32-bit value with its four bytes in reverse order. -/
def byte_reversed (v : Nat) : Nat :=
  be_value (be_bytes 4 v).reverse

/-- The pixel buffer the specification gives for a TPIXEL whose bytes `p` arrive: for
depth 24 the value made of the three bytes with the shifts of the format,
byte-reversed when the byte order of the format is not the host's, stored as a
32-bit word; for any other depth the bytes as they arrive. -/
def tpixel_buffer (host_order : Nat) (fmt : VncPixelFormat) (p pixel : List UInt8) :
    List UInt8 :=
  if fmt.depth = 24 then
    word_bytes host_order
      (if fmt.byte_order ≠ host_order then
        byte_reversed (tpixel_value fmt (p.getD 0 0) (p.getD 1 0) (p.getD 2 0))
      else tpixel_value fmt (p.getD 0 0) (p.getD 1 0) (p.getD 2 0)) ++ pixel.drop 4
  else p ++ pixel.drop p.length

/-! ## ZRLE packed palettes in general

The words of the specification for a packed-palette tile: the bits per index, the
index bytes of a row, and the bit field an index is. -/

/-- Bits per index for a palette of `palette_size` entries (2..16), as the
specification gives them: 1 for 2 entries, 2 for 3 or 4 entries, 4 for 5..16. -/
def index_bits (palette_size : Nat) : Nat :=
  if palette_size = 2 then 1 else if palette_size = 3 ∨ palette_size = 4 then 2 else 4

/-- The number of index bytes of a row of `w` pixels at `b` bits per index:
ceil(w*b/8). -/
def packed_row_length (w b : Nat) : Nat :=
  (w * b + 7) / 8

/-- The `b`-bit field of the bytes `row` that starts at bit offset `i * b`, counted
from the most significant bit of the first byte. -/
def packed_index (b : Nat) (row : List UInt8) (i : Nat) : Nat :=
  ((row.getD (i * b / 8) 0).toNat >>> (8 - b - i * b % 8)) &&& (2 ^ b - 1)

/-- The framebuffer calls for row `j` of a packed-palette tile at (x, y) of width `w`:
column `i` gets the palette entry that the index at bit offset `i * b` of the row's
bytes names. -/
def packed_row_fbops (fmt : VncPixelFormat) (entries : List (List UInt8)) (b x y w j : Nat)
    (row : List UInt8) : List FbOp :=
  (List.range w).map fun i =>
    FbOp.set_pixel_at (palette_pixel fmt entries (packed_index b row i)) (x + i) (y + j)

/-- The framebuffer calls for the rows `rows` of a packed-palette tile, the first of
which is row `j`. -/
def packed_tile_fbops (fmt : VncPixelFormat) (entries : List (List UInt8)) (b x y w : Nat) :
    Nat → List (List UInt8) → List FbOp
  | _, [] => []
  | j, row :: rows =>
    packed_row_fbops fmt entries b x y w j row ++
      packed_tile_fbops fmt entries b x y w (j + 1) rows

/-- The CPIXELs of a sample palette of 5 entries in the format `rgb888`. -/
def palette_five : List (List UInt8) :=
  [[0xA1, 0xA2, 0xA3], [0xB1, 0xB2, 0xB3], [0xC1, 0xC2, 0xC3], [0xD1, 0xD2, 0xD3],
    [0xE1, 0xE2, 0xE3]]

/-- The index bytes of two sample rows of 3 pixels at 4 bits per index: the indices
0, 4, 2 and 3, 1, 0; the low half of each second byte is padding. -/
def rows_five : List (List UInt8) :=
  [[0x04, 0x2F], [0x31, 0x0F]]

/-! ## ZRLE tiles

The tile decoders keep their palette in an array on the stack (`palette[128][4]`).
Here the array is a list of 128 entries, each the buffer of one pixel, and a decoder
that would reach outside the array gives `none`. -/

/-- The loop of `vnc_connection_zrle_update_tile_blit`: `n` CPIXELs are left, the next
one goes to `blit_data + i * bpp`. -/
def zrle_blit_read (bpp : Nat) : Nat → Nat → Conn → List UInt8 → List UInt8 × Conn
  | 0, _, s, blit_data => (blit_data, s)
  | n + 1, i, s, blit_data =>
    let (buf, s) := vnc_connection_read_cpixel s (blit_data.drop (i * bpp))
    zrle_blit_read bpp n (i + 1) s (blit_data.take (i * bpp) ++ buf)

def vnc_connection_zrle_update_tile_blit (s : Conn) (x y width height : Nat) : Conn :=
  let blit_data := List.replicate (4 * 64 * 64) 0
  let bpp := vnc_connection_pixel_size s
  let (blit_data, s) := zrle_blit_read bpp (width * height) 0 s blit_data
  { s with fbops := s.fbops ++ [FbOp.blt blit_data (width * bpp) x y width height] }

/-- The inner loop of `vnc_connection_zrle_update_tile_rle` (over `i`): `n` pixels of
row `j` are left; the run length `rl` and the buffer `pixel` go from turn to turn. -/
def zrle_rle_row (x y j : Nat) : Nat → Nat → Conn → Int → List UInt8 → Conn × Int × List UInt8
  | 0, _, s, rl, pixel => (s, rl, pixel)
  | n + 1, i, s, rl, pixel =>
    let (s, rl, pixel) :=
      if rl = 0 then
        let (pixel, s) := vnc_connection_read_cpixel s pixel
        let (rl, s) := vnc_connection_read_zrle_rl s
        (s, rl, pixel)
      else (s, rl, pixel)
    let s := { s with fbops := s.fbops ++ [FbOp.set_pixel_at pixel (x + i) (y + j)] }
    zrle_rle_row x y j n (i + 1) s (wrap_int (rl - 1)) pixel

/-- The outer loop of `vnc_connection_zrle_update_tile_rle` (over `j`). -/
def zrle_rle_rows (x y width : Nat) : Nat → Nat → Conn → Int → List UInt8 → Conn
  | 0, _, s, _, _ => s
  | n + 1, j, s, rl, pixel =>
    let (s, rl, pixel) := zrle_rle_row x y j width 0 s rl pixel
    zrle_rle_rows x y width n (j + 1) s rl pixel

def vnc_connection_zrle_update_tile_rle (s : Conn) (x y width height : Nat) : Conn :=
  zrle_rle_rows x y width height 0 s 0 [0, 0, 0, 0]

/-- The palette loop of `vnc_connection_zrle_update_tile_palette` and of
`vnc_connection_zrle_update_tile_prle` (the same statement in both) with the bound
of the array kept: `n` entries are left to read, the next one is `palette[i]`, and
the result is `none` when there is no such entry. -/
def zrle_palette_read_checked :
    Nat → Nat → Conn → List (List UInt8) → Option (List (List UInt8) × Conn)
  | 0, _, s, palette => some (palette, s)
  | n + 1, i, s, palette =>
    match palette[i]? with
    | none => none
    | some slot =>
      let (entry, s) := vnc_connection_read_cpixel s slot
      zrle_palette_read_checked n (i + 1) s (palette.set i entry)

/-- The inner loop of `vnc_connection_zrle_update_tile_palette` with the bound of the
array kept: `none` when `palette[ind & 0x7F]` is no entry of the array. -/
def zrle_palette_row_checked (palette_size : Nat) (palette : List (List UInt8)) (x y j : Nat) :
    Nat → Nat → Conn → Option Conn
  | 0, _, s => some s
  | n + 1, i, s =>
    let (ind, s) := vnc_connection_read_zrle_pi s palette_size
    match palette[ind &&& 0x7F]? with
    | none => none
    | some pixel =>
      let s := { s with fbops := s.fbops ++ [FbOp.set_pixel_at pixel (x + i) (y + j)] }
      zrle_palette_row_checked palette_size palette x y j n (i + 1) s

/-- The outer loop of `vnc_connection_zrle_update_tile_palette` with the bound of the
array kept. -/
def zrle_palette_rows_checked (palette_size : Nat) (palette : List (List UInt8))
    (x y width : Nat) : Nat → Nat → Conn → Option Conn
  | 0, _, s => some s
  | n + 1, j, s =>
    let s := { s with zrle_pi_bits := 0 }
    match zrle_palette_row_checked palette_size palette x y j width 0 s with
    | none => none
    | some s => zrle_palette_rows_checked palette_size palette x y width n (j + 1) s

/-- The function `vnc_connection_zrle_update_tile_palette` with the bound of the array
`palette[128][4]` kept: `none` stands for an access outside the array. -/
def vnc_connection_zrle_update_tile_palette_checked (s : Conn)
    (palette_size x y width height : Nat) : Option Conn :=
  match zrle_palette_read_checked palette_size 0 s (List.replicate 128 [0, 0, 0, 0]) with
  | none => none
  | some (palette, s) => zrle_palette_rows_checked palette_size palette x y width height 0 s

/-- The inner loop of `vnc_connection_zrle_update_tile_prle` (over `i`): `n` pixels of
row `j` are left; the run length `rl` and the index `pi` (a `guint8`) go from turn to
turn. The result is `none` when `palette[pi]` is no entry of the array. -/
def zrle_prle_row (palette : List (List UInt8)) (x y j : Nat) :
    Nat → Nat → Conn → Int → Nat → Option (Conn × Int × Nat)
  | 0, _, s, rl, pi => some (s, rl, pi)
  | n + 1, i, s, rl, pi =>
    let (s, rl, pi) :=
      if rl = 0 then
        let (pi, s) := vnc_connection_read_u8 s
        if pi &&& 0x80 ≠ 0 then
          let (rl, s) := vnc_connection_read_zrle_rl s
          (s, rl, pi &&& 0x7F)
        else (s, 1, pi)
      else (s, rl, pi)
    match palette[pi]? with
    | none => none
    | some pixel =>
      let s := { s with fbops := s.fbops ++ [FbOp.set_pixel_at pixel (x + i) (y + j)] }
      zrle_prle_row palette x y j n (i + 1) s (wrap_int (rl - 1)) pi

/-- The outer loop of `vnc_connection_zrle_update_tile_prle` (over `j`). -/
def zrle_prle_rows (palette : List (List UInt8)) (x y width : Nat) :
    Nat → Nat → Conn → Int → Nat → Option Conn
  | 0, _, s, _, _ => some s
  | n + 1, j, s, rl, pi =>
    match zrle_prle_row palette x y j width 0 s rl pi with
    | none => none
    | some (s, rl, pi) => zrle_prle_rows palette x y width n (j + 1) s rl pi

/-- The function `vnc_connection_zrle_update_tile_prle`; `palette_size` is a `guint8`.
The result is `none` when the decoder reaches outside `palette[128][4]`. -/
def vnc_connection_zrle_update_tile_prle (s : Conn) (palette_size x y width height : Nat) :
    Option Conn :=
  match zrle_palette_read_checked palette_size 0 s (List.replicate 128 [0, 0, 0, 0]) with
  | none => none
  | some (palette, s) => zrle_prle_rows palette x y width height 0 s 0 0

/-- The function `vnc_connection_zrle_update_tile`; `subencoding` is a `guint8`, and so
is the palette size that the palette decoders take. The result is `none` when a
palette decoder reaches outside its array. -/
def vnc_connection_zrle_update_tile (s : Conn) (x y width height : Nat) : Option Conn :=
  let (subencoding, s) := vnc_connection_read_u8 s
  if subencoding = 0 then
    some (vnc_connection_zrle_update_tile_blit s x y width height)
  else if subencoding = 1 then
    let (pixel, s) := vnc_connection_read_cpixel s [0, 0, 0, 0]
    some { s with fbops := s.fbops ++ [FbOp.fill pixel x y width height] }
  else if subencoding ≥ 2 ∧ subencoding ≤ 16 then
    vnc_connection_zrle_update_tile_palette_checked s subencoding x y width height
  else if subencoding ≥ 17 ∧ subencoding ≤ 127 then some s
  else if subencoding = 128 then
    some (vnc_connection_zrle_update_tile_rle s x y width height)
  else if subencoding = 129 then some s
  else if subencoding ≥ 130 then
    vnc_connection_zrle_update_tile_prle s (subencoding - 128) x y width height
  else some s

/-! ## Tight rectangles

The Tight decoder runs over zlib, over the pixel arithmetic of the gradient filter
(two function pointers that are set from `vncconnectionblt.h`) and over the JPEG
loader of gdk-pixbuf; these are parameters. A compressed region is entered by
handing the compressed bytes to one of the four Tight streams of zlib. -/

/-- What the Tight decoder takes from outside. `inflate s k data` is what stream
`k` of zlib yields for the compressed bytes `data`; the stream's own state comes
from what the connection `s` has received so far. `jpeg_pixbuf` gives the pixels and
the row stride of the decoded image, or nothing when the loader refuses the data. -/
structure TightExternal where
  byte_order : Nat
  inflate : Conn → Nat → List UInt8 → List UInt8
  tight_compute_predicted : Conn → List UInt8 → List UInt8 → List UInt8 → List UInt8
  tight_sum_pixel : Conn → List UInt8 → List UInt8 → List UInt8
  jpeg_pixbuf : List UInt8 → Option (List UInt8 × Int)

/-- The inner loop of `vnc_connection_tight_update_copy` (over `i`). -/
def tight_copy_row (host_order x y j : Nat) : Nat → Nat → Conn → List UInt8 → Conn × List UInt8
  | 0, _, s, pixel => (s, pixel)
  | n + 1, i, s, pixel =>
    let (pixel, s) := vnc_connection_read_tpixel host_order s pixel
    let s := { s with fbops := s.fbops ++ [FbOp.set_pixel_at pixel (x + i) (y + j)] }
    tight_copy_row host_order x y j n (i + 1) s pixel

/-- The outer loop of `vnc_connection_tight_update_copy` (over `j`). -/
def tight_copy_rows (host_order x y width : Nat) : Nat → Nat → Conn → List UInt8 → Conn
  | 0, _, s, _ => s
  | n + 1, j, s, pixel =>
    let (s, pixel) := tight_copy_row host_order x y j width 0 s pixel
    tight_copy_rows host_order x y width n (j + 1) s pixel

def vnc_connection_tight_update_copy (host_order : Nat) (s : Conn) (x y width height : Nat) :
    Conn :=
  tight_copy_rows host_order x y width height 0 s [0, 0, 0, 0]

/-- The function `vnc_connection_tight_get_pi`; `palette_size` is a `guint8`. The
result is the index, the byte `*ra` afterwards and the state. -/
def vnc_connection_tight_get_pi (s : Conn) (ra i palette_size : Nat) : Nat × Nat × Conn :=
  if palette_size = 2 then
    let (ra, s) := if i % 8 = 0 then vnc_connection_read_u8 s else (ra, s)
    ((ra >>> (7 - i % 8)) &&& 1, ra, s)
  else
    let (v, s) := vnc_connection_read_u8 s
    (v, ra, s)

/-- The inner loop of `vnc_connection_tight_update_palette` (over `i`); `ind` is a
`guint8`. The result is `none` when `palette[ind]` is no entry of the array. -/
def tight_palette_row (palette_size : Nat) (palette : List (List UInt8)) (x y j : Nat) :
    Nat → Nat → Conn → Nat → Option Conn
  | 0, _, s, _ => some s
  | n + 1, i, s, ra =>
    let (ind, ra, s) := vnc_connection_tight_get_pi s ra i (palette_size % 256)
    match palette[ind % 256]? with
    | none => none
    | some pixel =>
      let s := { s with fbops := s.fbops ++ [FbOp.set_pixel_at pixel (x + i) (y + j)] }
      tight_palette_row palette_size palette x y j n (i + 1) s ra

/-- The outer loop of `vnc_connection_tight_update_palette` (over `j`). -/
def tight_palette_rows (palette_size : Nat) (palette : List (List UInt8)) (x y width : Nat) :
    Nat → Nat → Conn → Option Conn
  | 0, _, s => some s
  | n + 1, j, s =>
    match tight_palette_row palette_size palette x y j width 0 s 0 with
    | none => none
    | some s => tight_palette_rows palette_size palette x y width n (j + 1) s

/-- The function `vnc_connection_tight_update_palette` over the array `palette[256][4]`
of its caller, as a list of 256 entries. The result is `none` when the decoder
reaches outside the array. -/
def vnc_connection_tight_update_palette (s : Conn) (palette_size : Nat)
    (palette : List (List UInt8)) (x y width height : Nat) : Option Conn :=
  tight_palette_rows palette_size palette x y width height 0 s

/-- The inner loop of `vnc_connection_tight_update_gradient` (over `i`). The pointers
`lp` and `llp` are `zero_pixel` (`none`) or a byte offset into `row` and into
`last_row`. -/
def tight_gradient_row (ext : TightExternal) (bpp : Nat) (last_row : List UInt8) :
    Nat → Nat → Conn → List UInt8 → Option Nat → Option Nat → Conn × List UInt8
  | 0, _, s, row, _, _ => (s, row)
  | n + 1, i, s, row, lp, llp =>
    let lp_pixel := match lp with
      | none => [0, 0, 0, 0]
      | some o => row.drop o
    let llp_pixel := match llp with
      | none => [0, 0, 0, 0]
      | some o => last_row.drop o
    let predicted_pixel :=
      ext.tight_compute_predicted s lp_pixel (last_row.drop (i * bpp)) llp_pixel
    let (buf, s) := vnc_connection_read_tpixel ext.byte_order s (row.drop (i * bpp))
    let buf := ext.tight_sum_pixel s buf predicted_pixel
    tight_gradient_row ext bpp last_row n (i + 1) s (row.take (i * bpp) ++ buf)
      (some (i * bpp)) (some (i * bpp))

/-- The outer loop of `vnc_connection_tight_update_gradient` (over `j`); the two rows
change places after each turn. -/
def tight_gradient_rows (ext : TightExternal) (bpp x y width : Nat) :
    Nat → Nat → Conn → List UInt8 → List UInt8 → Conn
  | 0, _, s, _, _ => s
  | n + 1, j, s, last_row, row =>
    let (s, row) := tight_gradient_row ext bpp last_row width 0 s row none none
    let s := { s with fbops := s.fbops ++ [FbOp.blt row (width * bpp) x (y + j) width 1] }
    tight_gradient_rows ext bpp x y width n (j + 1) s row last_row

def vnc_connection_tight_update_gradient (ext : TightExternal) (s : Conn)
    (x y width height : Nat) : Conn :=
  let bpp := vnc_connection_pixel_size s
  tight_gradient_rows ext bpp x y width height 0 s (List.replicate (width * bpp) 0)
    (List.replicate (width * bpp) 0)

def vnc_connection_tight_update_jpeg (ext : TightExternal) (s : Conn) (x y width height : Nat)
    (data : List UInt8) (length : Nat) : Conn :=
  match ext.jpeg_pixbuf (data.take length) with
  | none => vnc_connection_set_error s (ErrorText.lit "Unable to decode jpeg data")
  | some (pixels, rowstride) =>
    { s with fbops := s.fbops ++ [FbOp.rgb24_blt pixels rowstride x y width height] }

/-- The palette loop of `vnc_connection_tight_update` with the bound of the array
`palette[256][4]` kept: `n` entries are left to read, the next one is `palette[i]`. -/
def tight_palette_read (host_order : Nat) :
    Nat → Nat → Conn → List (List UInt8) → Option (List (List UInt8) × Conn)
  | 0, _, s, palette => some (palette, s)
  | n + 1, i, s, palette =>
    match palette[i]? with
    | none => none
    | some slot =>
      let (entry, s) := vnc_connection_read_tpixel host_order s slot
      tight_palette_read host_order n (i + 1) s (palette.set i entry)

/-- The branch of `vnc_connection_tight_update` for basic compression; `ccontrol` is
the control byte after `ccontrol >>= 4; ccontrol &= 0x0F`. The sizes are 32-bit. -/
def tight_update_basic (ext : TightExternal) (s : Conn) (ccontrol x y width height : Nat) :
    Option Conn :=
  let (filter_id, s) := if ccontrol &&& 0x04 ≠ 0 then vnc_connection_read_u8 s else (0, s)
  let strm := (ccontrol &&& 0x03) + 1
  let filled :=
    if filter_id = 1 then
      let (palette_size, s) := vnc_connection_read_u8 s
      let palette_size := palette_size + 1
      match tight_palette_read ext.byte_order palette_size 0 s
          (List.replicate 256 [0, 0, 0, 0]) with
      | none => none
      | some (palette, s) => some (palette_size, palette, s)
    else some (0, List.replicate 256 [0, 0, 0, 0], s)
  match filled with
  | none => none
  | some (palette_size, palette, s) =>
    let data_size :=
      if filter_id = 1 then
        if palette_size = 2 then ((width + 7) / 8 * height) % 2 ^ 32
        else (width * height) % 2 ^ 32
      else (width * height * vnc_connection_tpixel_size s) % 2 ^ 32
    let s :=
      if data_size ≥ 12 then
        let (zlib_length, s) := vnc_connection_read_cint s
        match vnc_connection_read s (List.replicate zlib_length 0) zlib_length with
        | (_, zlib_data, s) =>
          { s with io := { s.io with compressed := some (ext.inflate s strm zlib_data) } }
      else s
    let decoded :=
      if filter_id = 0 then
        some (vnc_connection_tight_update_copy ext.byte_order s x y width height)
      else if filter_id = 1 then
        vnc_connection_tight_update_palette s palette_size palette x y width height
      else if filter_id = 2 then
        some (vnc_connection_tight_update_gradient ext s x y width height)
      else
        some (vnc_connection_set_error s
          (ErrorText.fmt "Unexpected tight filter id %d" [(filter_id : Int)]))
    match decoded with
    | none => none
    | some s =>
      some (if data_size ≥ 12 then { s with io := { s.io with compressed := none } } else s)

/-- The streams that `vnc_connection_tight_update` resets for the control byte
`ccontrol` (`inflateEnd`, then `inflateInit`, on `streams[i + 1]`), in the order of
the loop. -/
def tight_stream_resets (ccontrol : Nat) : List Nat :=
  ((List.range 4).filter fun i => ccontrol &&& (1 <<< i) ≠ 0).map fun i => i + 1

/-- The branch of `vnc_connection_tight_update` for a solid fill. -/
def tight_update_fill (ext : TightExternal) (s : Conn) (x y width height : Nat) : Conn :=
  let (pixel, s) := vnc_connection_read_tpixel ext.byte_order s [0, 0, 0, 0]
  { s with fbops := s.fbops ++ [FbOp.fill pixel x y width height] }

/-- The branch of `vnc_connection_tight_update` for JPEG data. -/
def tight_update_jpeg_data (ext : TightExternal) (s : Conn) (x y width height : Nat) : Conn :=
  let (length, s) := vnc_connection_read_cint s
  match vnc_connection_read s (List.replicate length 0) length with
  | (_, jpeg_data, s) => vnc_connection_tight_update_jpeg ext s x y width height jpeg_data length

/-- The function `vnc_connection_tight_update`. The result carries the numbers of the
zlib streams that were reset, and the state, or `none` when the palette filter
reaches outside its array. -/
def vnc_connection_tight_update (ext : TightExternal) (s : Conn) (x y width height : Nat) :
    List Nat × Option Conn :=
  let (ccontrol, s) := vnc_connection_read_u8 s
  let resets := tight_stream_resets ccontrol
  let ccontrol := (ccontrol >>> 4) &&& 0x0F
  (resets,
    if ccontrol ≤ 7 then tight_update_basic ext s ccontrol x y width height
    else if ccontrol = 8 then some (tight_update_fill ext s x y width height)
    else if ccontrol = 9 then some (tight_update_jpeg_data ext s x y width height)
    else
      some (vnc_connection_set_error s
        (ErrorText.fmt "Unexpected tight ccontrol %d" [(ccontrol : Int)])))

/-- An environment for concrete runs on a little-endian host: zlib yields the bytes
it is given (as for stored data), the gradient arithmetic keeps the difference
pixel, and no JPEG data is accepted. -/
def idle_tight : TightExternal :=
  { byte_order := G_LITTLE_ENDIAN
    inflate := fun _ _ data => data
    tight_compute_predicted := fun _ _ _ _ => [0, 0, 0, 0]
    tight_sum_pixel := fun _ lhs _ => lhs
    jpeg_pixbuf := fun _ => none }
/-! ## The buffered reader -/

theorem SameOutput.refl (io : IOState) : SameOutput io io := ⟨rfl, rfl, [], by simp⟩

theorem SameOutput.trans {a b c : IOState} (h1 : SameOutput a b) (h2 : SameOutput b c) :
    SameOutput a c := by
  obtain ⟨h1a, h1b, r1, h1c⟩ := h1
  obtain ⟨h2a, h2b, r2, h2c⟩ := h2
  exact ⟨h2a.trans h1a, h2b.trans h1b, r1 ++ r2, by rw [h2c, h1c]; simp⟩

theorem recvSize_pos (sizes : List Nat) (len : Nat) (h : 0 < len) : 0 < recvSize sizes len := by
  unfold recvSize
  cases sizes with
  | nil => exact h
  | cons n t => simp only; omega

theorem read_buf_ok (b : Bool) (s : Conn) (hb : b = false ∨ s.wakeups = [])
    (hstop : s.coroutine_stop = false) (hne : s.io.incoming ≠ []) :
    vnc_connection_read_buf b s =
      ((((s.io.incoming.take (recvSize s.io.recv_sizes 4096)).length : Nat) : Int),
        { s with io := { s.io with
            incoming := s.io.incoming.drop (s.io.incoming.take (recvSize s.io.recv_sizes 4096)).length,
            recv_sizes := s.io.recv_sizes.tail,
            log := s.io.log ++ [WireEvent.rx (s.io.incoming.take (recvSize s.io.recv_sizes 4096))],
            read_buffer := s.io.incoming.take (recvSize s.io.recv_sizes 4096) } }) ∧
    0 < (s.io.incoming.take (recvSize s.io.recv_sizes 4096)).length := by
  have hpos : 0 < (s.io.incoming.take (recvSize s.io.recv_sizes 4096)).length := by
    have h1 := recvSize_pos s.io.recv_sizes 4096 (by decide)
    have h2 : 0 < s.io.incoming.length := List.length_pos.mpr hne
    simp only [List.length_take]
    omega
  refine ⟨?_, hpos⟩
  have hne0 : (s.io.incoming.take (recvSize s.io.recv_sizes 4096)).length ≠ 0 := by omega
  have hnn : ¬ (((s.io.incoming.take (recvSize s.io.recv_sizes 4096)).length : Nat) : Int) < 0 := by
    omega
  unfold vnc_connection_read_buf vnc_connection_read_plain vnc_connection_read_wire
  rcases hb with hb | hb
  · subst hb
    simp only [hstop, Bool.false_eq_true, if_false, hne0, hnn]
  · cases b
    · simp only [hstop, Bool.false_eq_true, if_false, hne0, hnn]
    · simp only [hb, hstop, Bool.false_eq_true, if_false, hne0, hnn]

theorem take_split {α : Type} (l : List α) (t n : Nat) (h : t ≤ n) :
    l.take n = l.take t ++ (l.drop t).take (n - t) := by
  have hn : n = t + (n - t) := by omega
  conv_lhs => rw [hn]
  exact List.take_add l t (n - t)

theorem take_drop_len {α : Type} (l : List α) (k : Nat) :
    l.take k ++ l.drop (l.take k).length = l := by
  rw [List.length_take]
  rcases Nat.le_total k l.length with h | h
  · rw [Nat.min_eq_left h]; exact List.take_append_drop k l
  · rw [Nat.min_eq_right h, List.drop_length, List.take_of_length_le h]; simp

/-- One turn of the read loop, refill included: the state `s2` in which the copy is made. -/
theorem read_refill (b : Bool) (s : Conn) (hb : b = false ∨ s.wakeups = [])
    (hstop : s.coroutine_stop = false) (hc : s.io.compressed = none)
    (hoff : s.io.read_offset ≤ s.io.read_buffer.length) (hp : 0 < s.io.pending.length) :
    ∃ io2, (if s.io.read_offset = s.io.read_buffer.length then
          match vnc_connection_read_buf b s with
          | (ret, s1) =>
            if ret < 0 then (ret, s1)
            else (0, { s1 with io := { s1.io with read_offset := 0 } })
        else (0, s)) = ((0 : Int), { s with io := io2 }) ∧
      io2.read_offset < io2.read_buffer.length ∧ io2.compressed = none ∧
      io2.pending = s.io.pending ∧ SameOutput s.io io2 := by
  have hpend : s.io.pending = s.io.read_buffer.drop s.io.read_offset ++ s.io.incoming := by
    simp [IOState.pending, hc]
  by_cases hfull : s.io.read_offset = s.io.read_buffer.length
  · have hpend2 : s.io.pending = s.io.incoming := by
      rw [hpend, hfull, List.drop_length, List.nil_append]
    have hne : s.io.incoming ≠ [] := by
      intro h
      rw [hpend2, h] at hp
      simp at hp
    obtain ⟨hbuf, hpos⟩ := read_buf_ok b s hb hstop hne
    have hnn : ¬ (((s.io.incoming.take (recvSize s.io.recv_sizes 4096)).length : Nat) : Int) < 0 := by
      omega
    refine ⟨{ s.io with
        read_buffer := s.io.incoming.take (recvSize s.io.recv_sizes 4096),
        read_offset := 0,
        incoming := s.io.incoming.drop (s.io.incoming.take (recvSize s.io.recv_sizes 4096)).length,
        recv_sizes := s.io.recv_sizes.tail,
        log := s.io.log ++ [WireEvent.rx (s.io.incoming.take (recvSize s.io.recv_sizes 4096))] },
      ?_, ?_, ?_, ?_, ?_⟩
    · rw [if_pos hfull, hbuf]
      simp only [hnn, if_false]
    · simpa using hpos
    · simpa using hc
    · simp only [IOState.pending, hc, List.drop_zero]
      rw [hfull, List.drop_length, List.nil_append]
      exact take_drop_len _ _
    · exact ⟨by simp [hc], rfl, [s.io.incoming.take (recvSize s.io.recv_sizes 4096)], by simp⟩
  · refine ⟨s.io, ?_, ?_, hc, rfl, SameOutput.refl _⟩
    · rw [if_neg hfull]
    · omega

theorem read_loop_plain (b : Bool) (len : Nat) : ∀ (fuel : Nat) (s : Conn) (acc : List UInt8),
    (b = false ∨ s.wakeups = []) → s.coroutine_stop = false → s.io.compressed = none →
    s.io.read_offset ≤ s.io.read_buffer.length →
    len - acc.length ≤ fuel → len - acc.length ≤ s.io.pending.length →
    ∃ io', vnc_connection_read_loop b len fuel s acc =
        (0, acc ++ s.io.pending.take (len - acc.length), { s with io := io' }) ∧
      io'.pending = s.io.pending.drop (len - acc.length) ∧
      io'.read_offset ≤ io'.read_buffer.length ∧ io'.compressed = none ∧ SameOutput s.io io' := by
  intro fuel
  induction fuel with
  | zero =>
    intro s acc _ _ _ _ hf _
    have h0 : len - acc.length = 0 := by omega
    exact ⟨s.io, by simp [vnc_connection_read_loop, h0], by simp [h0], by assumption, by assumption,
      SameOutput.refl _⟩
  | succ fuel ih =>
    intro s acc hb hstop hc hoff hf hp
    by_cases hlt : acc.length < len
    · have hcomp : vnc_connection_use_compression s = false := by
        simp [vnc_connection_use_compression, hc]
      obtain ⟨io2, hr, hlt2, hc2, hp2, hso2⟩ := read_refill b s hb hstop hc hoff (by omega)
      have hpend2 : io2.pending = io2.read_buffer.drop io2.read_offset ++ io2.incoming := by
        simp [IOState.pending, hc2]
      -- the copy of this turn
      let tmp := min (io2.read_buffer.length - io2.read_offset) (len - acc.length)
      have htmp : 1 ≤ tmp ∧ tmp ≤ io2.read_buffer.length - io2.read_offset ∧
          tmp ≤ len - acc.length := by
        simp only [tmp]; omega
      have hcopy : (io2.read_buffer.drop io2.read_offset).take tmp = s.io.pending.take tmp := by
        rw [← hp2, hpend2, List.take_append_of_le_length]
        simp only [List.length_drop]; omega
      have hrest : ({ io2 with read_offset := io2.read_offset + tmp } : IOState).pending =
          s.io.pending.drop tmp := by
        rw [← hp2, hpend2]
        simp only [IOState.pending, hc2]
        rw [List.drop_append_of_le_length (by simp only [List.length_drop]; omega),
          List.drop_drop]
      have hlen : (acc ++ (io2.read_buffer.drop io2.read_offset).take tmp).length =
          acc.length + tmp := by
        rw [List.length_append, List.length_take, List.length_drop]; omega
      obtain ⟨io', heq, hp', hoff', hc', hso'⟩ :=
        ih { s with io := { io2 with read_offset := io2.read_offset + tmp } }
          (acc ++ (io2.read_buffer.drop io2.read_offset).take tmp) hb hstop hc2
          (by show io2.read_offset + tmp ≤ io2.read_buffer.length; omega)
          (by rw [hlen]; omega)
          (by
            show _ ≤ ({ io2 with read_offset := io2.read_offset + tmp } : IOState).pending.length
            rw [hlen, hrest, List.length_drop]; omega)
      refine ⟨io', ?_, ?_, hoff', hc', SameOutput.trans hso2 ?_⟩
      · rw [vnc_connection_read_loop]
        simp only [hlt, if_true, hcomp, Bool.false_eq_true, if_false]
        rw [hr]
        simp only [lt_self_iff_false, if_false]
        rw [heq]
        show (0, _, _) = (0, _, _)
        congr 2
        rw [hlen, hrest, hcopy, List.append_assoc]
        congr 1
        rw [show len - (acc.length + tmp) = len - acc.length - tmp by omega]
        exact (take_split _ _ _ htmp.2.2).symm
      · rw [hp']
        show ({ io2 with read_offset := io2.read_offset + tmp } : IOState).pending.drop _ = _
        rw [hlen, hrest, List.drop_drop]
        congr 1; omega
      · exact hso'
    · have h0 : len - acc.length = 0 := by omega
      exact ⟨s.io, by simp [vnc_connection_read_loop, hlt, h0], by simp [h0], hoff, hc,
        SameOutput.refl _⟩

theorem read_loop_compressed (len : Nat) (fuel : Nat) (s : Conn) (d : List UInt8)
    (hc : s.io.compressed = some d) (hf : len ≤ fuel) (hp : len ≤ d.length) :
    vnc_connection_read_loop false len fuel s [] =
      (0, d.take len, { s with io := { s.io with compressed := some (d.drop len) } }) := by
  have hcomp : vnc_connection_use_compression s = true := by
    simp [vnc_connection_use_compression, hc]
  cases fuel with
  | zero =>
    have h0 : len = 0 := by omega
    subst h0
    simp only [vnc_connection_read_loop, List.take_zero, List.drop_zero, ← hc]
  | succ fuel =>
    by_cases hlen : len = 0
    · subst hlen
      simp [vnc_connection_read_loop, ← hc]
    · have hlt : ([] : List UInt8).length < len := by simp; omega
      rw [vnc_connection_read_loop]
      simp only [hlt, if_true, hcomp, vnc_connection_zread, hc, Option.getD_some, hp]
      have hne : ¬ ((len : Int) = -1) := by omega
      simp only [hne, if_false, List.nil_append]
      cases fuel with
      | zero => simp [vnc_connection_read_loop]
      | succ fuel =>
        rw [vnc_connection_read_loop]
        simp [List.length_take, hp]

/-- A read of as many bytes as are pending at the front succeeds, returns them and
leaves the rest pending; nothing but the I/O layer changes. -/
theorem read_ok (s : Conn) (bs rest init : List UInt8) (h : Ready s (bs ++ rest)) :
    ∃ io', vnc_connection_read s init bs.length =
        (0, bs ++ init.drop bs.length, { s with io := io' }) ∧
      Ready { s with io := io' } rest ∧ SameOutput s.io io' := by
  obtain ⟨hstop, hoff, hp⟩ := h
  cases hc : s.io.compressed with
  | none =>
    obtain ⟨io', heq, hp', hoff', _, hso⟩ := read_loop_plain false bs.length bs.length s []
      (Or.inl rfl) hstop hc hoff
      (by simp) (by simp [hp])
    refine ⟨io', ?_, ⟨hstop, hoff', ?_⟩, hso⟩
    · simp only [vnc_connection_read, vnc_connection_read_gen, hstop, Bool.false_eq_true, if_false,
        heq]
      simp [hp]
    · show io'.pending = rest
      rw [hp', hp]; simp
  | some d =>
    have hd : d = bs ++ rest := by
      rw [← hp]; simp [IOState.pending, hc]
    have heq := read_loop_compressed bs.length bs.length s d hc (le_refl _) (by simp [hd])
    refine ⟨{ s.io with compressed := some (d.drop bs.length) }, ?_, ⟨hstop, hoff, ?_⟩, ?_⟩
    · simp only [vnc_connection_read, vnc_connection_read_gen, hstop, Bool.false_eq_true, if_false,
        heq]
      simp [hd]
    · show ({ s.io with compressed := some (d.drop bs.length) } : IOState).pending = rest
      simp [IOState.pending, hd]
    · exact ⟨by simp [hc], rfl, [], by simp⟩

theorem ofNat_toNat (n : Nat) : (UInt8.ofNat n).toNat = n % 256 := rfl

theorem read_u8_ok (s : Conn) (b : UInt8) (rest : List UInt8) (h : Ready s (b :: rest)) :
    ∃ io', vnc_connection_read_u8 s = (b.toNat, { s with io := io' }) ∧
      Ready { s with io := io' } rest ∧ SameOutput s.io io' := by
  obtain ⟨io', heq, hr, hso⟩ := read_ok s [b] rest [0] h
  refine ⟨io', ?_, hr, hso⟩
  simp only [List.length_singleton] at heq
  simp only [vnc_connection_read_u8, heq]
  simp [be_value]

theorem read_u16_ok (s : Conn) (a b : UInt8) (rest : List UInt8) (h : Ready s (a :: b :: rest)) :
    ∃ io', vnc_connection_read_u16 s = (a.toNat * 256 + b.toNat, { s with io := io' }) ∧
      Ready { s with io := io' } rest ∧ SameOutput s.io io' := by
  obtain ⟨io', heq, hr, hso⟩ := read_ok s [a, b] rest [0, 0] h
  refine ⟨io', ?_, hr, hso⟩
  simp only [List.length_cons, List.length_nil] at heq
  simp only [vnc_connection_read_u16, heq]
  simp [be_value]

theorem read_u32_ok (s : Conn) (a b c d : UInt8) (rest : List UInt8)
    (h : Ready s (a :: b :: c :: d :: rest)) :
    ∃ io', vnc_connection_read_u32 s =
        (((a.toNat * 256 + b.toNat) * 256 + c.toNat) * 256 + d.toNat, { s with io := io' }) ∧
      Ready { s with io := io' } rest ∧ SameOutput s.io io' := by
  obtain ⟨io', heq, hr, hso⟩ := read_ok s [a, b, c, d] rest [0, 0, 0, 0] h
  refine ⟨io', ?_, hr, hso⟩
  simp only [List.length_cons, List.length_nil] at heq
  simp only [vnc_connection_read_u32, heq]
  simp [be_value]

set_option maxRecDepth 1000000 in
theorem byte_bits : ∀ x : Fin 256,
    (x.val &&& 128 = if x.val < 128 then 0 else 128) ∧ (x.val &&& 127 = x.val % 128) ∧
    ((x.val >>> 4) &&& 15 = x.val / 16) ∧ (x.val &&& 15 = x.val % 16) := by
  decide

theorem or_shl (a b k : Nat) (h : a < 2 ^ k) : a ||| (b <<< k) = a + b * 2 ^ k := by
  rw [Nat.shiftLeft_eq, Nat.lor_comm, Nat.add_comm, Nat.mul_comm]
  exact (Nat.mul_add_lt_is_or h b).symm

theorem or_128 (a : Nat) (h : a < 128) : 128 ||| a = 128 + a := by
  have := or_shl a 1 7 (by simpa using h)
  rw [Nat.lor_comm]
  simpa [Nat.add_comm] using this

theorem and_127 (x : Nat) : x &&& 0x7F = x % 128 :=
  Nat.and_pow_two_sub_one_eq_mod x 7

theorem and_128_small (x : Nat) (h : x < 128) : x &&& 0x80 = 0 := by
  have := (byte_bits ⟨x, by omega⟩).1
  simpa [h] using this

theorem and_128_big (x : Nat) (h1 : 128 ≤ x) (h2 : x < 256) : x &&& 0x80 = 128 := by
  have := (byte_bits ⟨x, h2⟩).1
  simp only at this
  rw [this, if_neg (by omega)]

/-- C4: for every n below 2^22, `vnc_connection_read_cint` applied to the Tight compact
encoding of n (one, two or three bytes) returns n and consumes exactly the bytes
of that encoding: what was pending after them is what is pending afterwards. -/
theorem read_cint_roundtrip (s : Conn) (n : Nat) (rest : List UInt8) (hn : n < 2 ^ 22)
    (hstop : s.coroutine_stop = false) (hoff : s.io.read_offset ≤ s.io.read_buffer.length)
    (hp : s.io.pending = cint_encode n ++ rest) :
    ∃ io', vnc_connection_read_cint s = (n, { s with io := io' }) ∧ io'.pending = rest := by
  have hr : Ready s (cint_encode n ++ rest) := ⟨hstop, hoff, hp⟩
  by_cases h1 : n < 2 ^ 7
  · simp only [cint_encode, h1, if_true, List.singleton_append] at hr
    obtain ⟨io1, e1, r1, _⟩ := read_u8_ok s _ rest hr
    refine ⟨io1, ?_, r1.2.2⟩
    have hb : (UInt8.ofNat n).toNat = n := by rw [ofNat_toNat]; omega
    rw [hb] at e1
    simp only [vnc_connection_read_cint, e1, and_128_small n (by omega), if_true, and_127]
    congr 1
    omega
  · by_cases h2 : n < 2 ^ 14
    · simp only [cint_encode, h1, h2, if_true, if_false, List.cons_append, List.nil_append] at hr
      obtain ⟨io1, e1, r1, _⟩ := read_u8_ok s _ _ hr
      obtain ⟨io2, e2, r2, _⟩ := read_u8_ok _ _ _ r1
      refine ⟨io2, ?_, r2.2.2⟩
      have hb0 : (UInt8.ofNat (0x80 ||| (n &&& 0x7F))).toNat = 128 + n % 128 := by
        rw [ofNat_toNat, and_127, or_128 _ (Nat.mod_lt _ (by decide))]; omega
      have hb1 : (UInt8.ofNat (n >>> 7)).toNat = n / 128 := by
        rw [ofNat_toNat, Nat.shiftRight_eq_div_pow]; omega
      rw [hb0] at e1
      rw [hb1] at e2
      have k0 : (128 + n % 128) &&& 0x80 ≠ 0 := by
        rw [and_128_big _ (by omega) (by omega)]; decide
      have k1 : (n / 128) &&& 0x80 = 0 := and_128_small _ (by omega)
      simp only [vnc_connection_read_cint, e1, e2, k0, k1, if_true, if_false, and_127]
      congr 1
      rw [or_shl _ _ 7 (by omega)]
      omega
    · simp only [cint_encode, h1, h2, if_true, if_false, List.cons_append, List.nil_append] at hr
      obtain ⟨io1, e1, r1, _⟩ := read_u8_ok s _ _ hr
      obtain ⟨io2, e2, r2, _⟩ := read_u8_ok _ _ _ r1
      obtain ⟨io3, e3, r3, _⟩ := read_u8_ok _ _ _ r2
      refine ⟨io3, ?_, r3.2.2⟩
      have hb0 : (UInt8.ofNat (0x80 ||| (n &&& 0x7F))).toNat = 128 + n % 128 := by
        rw [ofNat_toNat, and_127, or_128 _ (Nat.mod_lt _ (by decide))]; omega
      have hb1 : (UInt8.ofNat (0x80 ||| ((n >>> 7) &&& 0x7F))).toNat = 128 + n / 128 % 128 := by
        rw [ofNat_toNat, and_127, or_128 _ (Nat.mod_lt _ (by decide)),
          Nat.shiftRight_eq_div_pow]; omega
      have hb2 : (UInt8.ofNat (n >>> 14)).toNat = n / 16384 := by
        rw [ofNat_toNat, Nat.shiftRight_eq_div_pow]; omega
      rw [hb0] at e1
      rw [hb1] at e2
      rw [hb2] at e3
      have k0 : (128 + n % 128) &&& 0x80 ≠ 0 := by
        rw [and_128_big _ (by omega) (by omega)]; decide
      have k1 : (128 + n / 128 % 128) &&& 0x80 ≠ 0 := by
        rw [and_128_big _ (by omega) (by omega)]; decide
      simp only [vnc_connection_read_cint, e1, e2, e3, k0, k1, if_false, and_127]
      congr 1
      rw [or_shl _ _ 7 (by omega), or_shl _ _ 14 (by omega)]
      omega

theorem read_cint_roundtrip_witness :
    (300 < 2 ^ 22 ∧ cint_encode 300 = [0xAC, 0x02]) ∧
    ∃ io', vnc_connection_read_cint (session rgb888 640 480 [0xAC, 0x02, 7]) =
        (300, { session rgb888 640 480 [0xAC, 0x02, 7] with io := io' }) ∧ io'.pending = [7] :=
  ⟨by decide, read_cint_roundtrip (session rgb888 640 480 [0xAC, 0x02, 7]) 300 [7] (by decide) rfl
    (by decide) (by decide)⟩

/-! ## SetEncodings -/

theorem buffered_write_xmit (s : Conn) (data : List UInt8) :
    (vnc_connection_buffered_write s data).xmit_buffer = s.xmit_buffer ++ data := rfl

theorem write_encodings_keep : ∀ (encs : List Int) (s : Conn),
    (write_encodings 0 s encs).xmit_buffer =
      s.xmit_buffer ++ encs.flatMap (fun e => be_bytes 4 (ofInt32 e)) := by
  intro encs
  induction encs with
  | nil => intro s; simp [write_encodings]
  | cons e es ih =>
    intro s
    have h : ¬ ((0 : Nat) ≠ 0 ∧ e = VNC_CONNECTION_ENCODING_ZRLE) := by simp
    rw [write_encodings, if_neg h, ih]
    simp [vnc_connection_buffered_write_s32, buffered_write_xmit]

theorem write_encodings_drop (k : Nat) (hk : k ≠ 0) : ∀ (encs : List Int) (s : Conn),
    (write_encodings k s encs).xmit_buffer = s.xmit_buffer ++
      (encs.filter (fun e => e ≠ VNC_CONNECTION_ENCODING_ZRLE)).flatMap
        (fun e => be_bytes 4 (ofInt32 e)) := by
  intro encs
  induction encs with
  | nil => intro s; simp [write_encodings]
  | cons e es ih =>
    intro s
    by_cases he : e = VNC_CONNECTION_ENCODING_ZRLE
    · rw [write_encodings, if_pos ⟨hk, he⟩, ih, List.filter_cons_of_neg (by simp [he])]
    · rw [write_encodings, if_neg (fun h => he h.2), ih, List.filter_cons_of_pos (by simp [he])]
      simp [vnc_connection_buffered_write_s32, buffered_write_xmit]

theorem count_skip_zrle_broken (fmt : VncPixelFormat) (hb : zrle_broken fmt) : ∀ encs : List Int,
    count_skip_zrle fmt encs +
      (encs.filter (fun e => e ≠ VNC_CONNECTION_ENCODING_ZRLE)).length = encs.length := by
  obtain ⟨h1, h2⟩ := hb
  have h2' : fmt.red_max > 255 ∨ fmt.blue_max > 255 ∨ fmt.green_max > 255 := by tauto
  intro encs
  induction encs with
  | nil => simp [count_skip_zrle]
  | cons e es ih =>
    by_cases he : e = VNC_CONNECTION_ENCODING_ZRLE
    · rw [count_skip_zrle, if_pos ⟨h1, h2', he⟩, List.filter_cons_of_neg (by simp [he]),
        List.length_cons]
      omega
    · rw [count_skip_zrle, if_neg (fun h => he h.2.2), List.filter_cons_of_pos (by simp [he]),
        List.length_cons, List.length_cons]
      omega

theorem count_skip_zrle_sound (fmt : VncPixelFormat) (hb : ¬ zrle_broken fmt) :
    ∀ encs : List Int, count_skip_zrle fmt encs = 0 := by
  intro encs
  induction encs with
  | nil => simp [count_skip_zrle]
  | cons e es ih =>
    have hn : ¬ (fmt.depth = 32 ∧ (fmt.red_max > 255 ∨ fmt.blue_max > 255 ∨ fmt.green_max > 255) ∧
        e = VNC_CONNECTION_ENCODING_ZRLE) := by
      intro h
      exact hb ⟨h.1, by tauto⟩
    rw [count_skip_zrle, if_neg hn, ih]

/-- The message `vnc_connection_set_encodings` appends to the xmit queue, for every list. -/
theorem set_encodings_xmit (s : Conn) (encoding : List Int) :
    (vnc_connection_set_encodings s encoding).2.xmit_buffer =
      s.xmit_buffer ++ set_encodings_message (advertised s.fmt encoding) := by
  have hhead : ∀ (k : Nat) (t : Conn), t.xmit_buffer = s.xmit_buffer → 
      (vnc_connection_buffered_write_u16
        (vnc_connection_buffered_write
          (vnc_connection_buffered_write_u8 t VNC_CONNECTION_CLIENT_MESSAGE_SET_ENCODINGS) [0])
        k).xmit_buffer = s.xmit_buffer ++ ([2, 0] ++ be_bytes 2 k) := by
    intro k t ht
    simp only [vnc_connection_buffered_write_u16, vnc_connection_buffered_write_u8,
      buffered_write_xmit, ht, VNC_CONNECTION_CLIENT_MESSAGE_SET_ENCODINGS, be_bytes]
    simp
  have hstep : ∀ (k : Nat) (l : List Int),
      (∀ t : Conn, (write_encodings k t encoding).xmit_buffer =
        t.xmit_buffer ++ l.flatMap (fun e => be_bytes 4 (ofInt32 e))) →
      encoding.length - k = l.length → count_skip_zrle s.fmt encoding = k →
      (vnc_connection_set_encodings s encoding).2.xmit_buffer =
        s.xmit_buffer ++ set_encodings_message l := by
    intro k l hw hlen hk
    simp only [vnc_connection_set_encodings, vnc_connection_buffered_flush, hk, hw]
    rw [hhead (encoding.length - k) { s with has_ext_key_event := false, has_audio := false } rfl,
      hlen]
    simp [set_encodings_message]
  by_cases hb : zrle_broken s.fmt
  · have hc := count_skip_zrle_broken s.fmt hb encoding
    simp only [advertised, hb, if_true]
    by_cases hk : count_skip_zrle s.fmt encoding = 0
    · have hall : encoding.filter (fun e => e ≠ VNC_CONNECTION_ENCODING_ZRLE) = encoding := by
        rw [List.filter_eq_self]
        apply List.filter_length_eq_length.mp
        omega
      rw [hall]
      exact hstep 0 encoding (write_encodings_keep encoding) (by omega) hk
    · exact hstep _ _ (write_encodings_drop _ hk encoding) (by omega) rfl
  · simp only [advertised, hb, if_false]
    exact hstep 0 encoding (write_encodings_keep encoding) (by omega)
      (count_skip_zrle_sound s.fmt hb encoding)

theorem be_value_append (l : List UInt8) (b : UInt8) :
    be_value (l ++ [b]) = be_value l * 256 + b.toNat := by
  simp [be_value, List.foldl_append]

theorem be_value_be_bytes : ∀ (n v : Nat), be_value (be_bytes n v) = v % 256 ^ n := by
  intro n
  induction n with
  | zero => intro v; simp [be_bytes, be_value, Nat.mod_one]
  | succ n ih =>
    intro v
    rw [be_bytes, be_value_append, ih, ofNat_toNat, pow_succ]
    have h := Nat.mod_mul_right_div_self v 256 (256 ^ n)
    have h2 := Nat.div_add_mod (v % (256 * 256 ^ n)) 256
    have h3 : v % (256 * 256 ^ n) % 256 = v % 256 := Nat.mod_mul_right_mod v 256 (256 ^ n)
    rw [Nat.mul_comm (256 ^ n) 256]
    omega

theorem toInt32_ofInt32 (e : Int) (h1 : -2 ^ 31 ≤ e) (h2 : e < 2 ^ 31) :
    toInt32 (be_value (be_bytes 4 (ofInt32 e))) = e := by
  rw [be_value_be_bytes]
  unfold toInt32 ofInt32
  have h256 : (256 : Nat) ^ 4 = 2 ^ 32 := by norm_num
  rw [h256]
  simp only [Nat.mod_mod]
  split <;> omega

/-- C2, as amended: when the list that is advertised (the input list, without its
ZRLE entries if the format has depth 32 and a channel maximum above 255) has
fewer than 2^16 entries, `vnc_connection_set_encodings` appends to the xmit queue the
byte 2, a zero pad byte, the entry count as a big-endian u16 and then exactly
the advertised entries in order, each as a big-endian i32. -/
theorem set_encodings_message_ok (s : Conn) (encoding : List Int)
    (hlen : (advertised s.fmt encoding).length < 2 ^ 16) :
    ∃ hi lo : UInt8,
      (vnc_connection_set_encodings s encoding).2.xmit_buffer =
        s.xmit_buffer ++ ([2, 0, hi, lo] ++
          (advertised s.fmt encoding).flatMap (fun e => be_bytes 4 (ofInt32 e))) ∧
      hi.toNat * 256 + lo.toNat = (advertised s.fmt encoding).length ∧
      ∀ e : Int, -2 ^ 31 ≤ e → e < 2 ^ 31 → toInt32 (be_value (be_bytes 4 (ofInt32 e))) = e := by
  refine ⟨UInt8.ofNat ((advertised s.fmt encoding).length / 256 % 256),
    UInt8.ofNat ((advertised s.fmt encoding).length % 256), ?_, ?_, toInt32_ofInt32⟩
  · rw [set_encodings_xmit]
    simp [set_encodings_message, be_bytes]
  · rw [ofNat_toNat, ofNat_toNat]
    omega

theorem set_encodings_message_ok_witness :
    (advertised { rgb888 with depth := 32, red_max := 1023 } [7, 16, 0]).length < 2 ^ 16 ∧
    ∃ hi lo : UInt8,
      (vnc_connection_set_encodings
          (session { rgb888 with depth := 32, red_max := 1023 } 640 480 []) [7, 16, 0]).2.xmit_buffer =
        [] ++ ([2, 0, hi, lo] ++ (advertised { rgb888 with depth := 32, red_max := 1023 }
          [7, 16, 0]).flatMap (fun e => be_bytes 4 (ofInt32 e))) ∧
      hi.toNat * 256 + lo.toNat =
        (advertised { rgb888 with depth := 32, red_max := 1023 } [7, 16, 0]).length ∧
      ∀ e : Int, -2 ^ 31 ≤ e → e < 2 ^ 31 → toInt32 (be_value (be_bytes 4 (ofInt32 e))) = e :=
  ⟨by decide, set_encodings_message_ok
    (session { rgb888 with depth := 32, red_max := 1023 } 640 480 []) [7, 16, 0] (by decide)⟩

theorem set_encodings_count_wraps_of (s : Conn) (l : List Int) (hnb : ¬ zrle_broken s.fmt)
    (hl : l.length = 65536) :
    ¬ ∃ hi lo : UInt8,
      (vnc_connection_set_encodings s l).2.xmit_buffer =
        s.xmit_buffer ++ ([2, 0, hi, lo] ++
          (advertised s.fmt l).flatMap (fun e => be_bytes 4 (ofInt32 e))) ∧
      hi.toNat * 256 + lo.toNat = (advertised s.fmt l).length := by
  rintro ⟨hi, lo, hmsg, hcount⟩
  rw [set_encodings_xmit] at hmsg
  have hadv : advertised s.fmt l = l := by
    simp [advertised, hnb]
  rw [hadv] at hmsg hcount
  rw [hl] at hcount
  have hb : be_bytes 2 65536 = [0, 0] := by decide
  simp only [set_encodings_message, hl, hb, List.cons_append, List.nil_append,
    List.append_cancel_left_eq, List.cons.injEq, true_and] at hmsg
  obtain ⟨h1, h2, _⟩ := hmsg
  rw [← h1, ← h2] at hcount
  simp at hcount

/-- C2, the claim as stated fails: for a list of 65536 entries the 16-bit count
field of the message is 0, so no message of the claimed shape (count equal to the
number of entries that follow) is what `vnc_connection_set_encodings` enqueues. -/
theorem set_encodings_count_wraps :
    ¬ ∃ hi lo : UInt8,
      (vnc_connection_set_encodings (session rgb888 640 480 [])
          (List.replicate 65536 0)).2.xmit_buffer =
        (session rgb888 640 480 []).xmit_buffer ++ ([2, 0, hi, lo] ++
          (advertised (session rgb888 640 480 []).fmt (List.replicate 65536 0)).flatMap
            (fun e => be_bytes 4 (ofInt32 e))) ∧
      hi.toNat * 256 + lo.toNat =
        (advertised (session rgb888 640 480 []).fmt (List.replicate 65536 0)).length :=
  set_encodings_count_wraps_of (session rgb888 640 480 []) (List.replicate 65536 0) (by decide)
    (List.length_replicate _ _)

/-! ## SetPixelFormat -/

/-- The sixteen bytes of a pixel format on the wire. -/
theorem set_pixel_format_xmit (s : Conn) (fmt : VncPixelFormat) :
    (vnc_connection_set_pixel_format s fmt).2.xmit_buffer = s.xmit_buffer ++ ([0, 0, 0, 0] ++
      (be_bytes 1 fmt.bits_per_pixel ++ be_bytes 1 fmt.depth ++
        be_bytes 1 (if fmt.byte_order = G_BIG_ENDIAN then 1 else 0) ++
        be_bytes 1 fmt.true_color_flag ++ be_bytes 2 fmt.red_max ++ be_bytes 2 fmt.green_max ++
        be_bytes 2 fmt.blue_max ++ be_bytes 1 fmt.red_shift ++ be_bytes 1 fmt.green_shift ++
        be_bytes 1 fmt.blue_shift ++ [0, 0, 0])) := by
  simp only [vnc_connection_set_pixel_format, vnc_connection_buffered_flush,
    vnc_connection_buffered_write_u8, vnc_connection_buffered_write_u16, buffered_write_xmit,
    VNC_CONNECTION_CLIENT_MESSAGE_SET_PIXEL_FORMAT]
  simp [be_bytes]

/-- C3: for every pixel format F with big or little endian byte order (and fields
within their wire widths), `vnc_connection_set_pixel_format` enqueues exactly 20 bytes:
message type 0, three zero pad bytes and 16 format bytes that end in three zero
pad bytes; and `vnc_connection_read_pixel_format` run over those 16 bytes yields F. -/
theorem set_pixel_format_roundtrip (s : Conn) (F : VncPixelFormat) (hfit : F.fits)
    (hbo : F.byte_order = G_BIG_ENDIAN ∨ F.byte_order = G_LITTLE_ENDIAN) :
    ∃ body : List UInt8,
      (vnc_connection_set_pixel_format s F).2.xmit_buffer =
        s.xmit_buffer ++ ([0, 0, 0, 0] ++ body) ∧
      body.length = 16 ∧ body.drop 13 = [0, 0, 0] ∧
      ∀ (t : Conn) (rest : List UInt8), t.coroutine_stop = false →
        t.io.read_offset ≤ t.io.read_buffer.length → t.io.pending = body ++ rest →
        ∃ io', vnc_connection_read_pixel_format t = (F, { t with io := io' }) ∧
          io'.pending = rest := by
  obtain ⟨h1, h2, h3, h4, h5, h6, h7, h8, h9⟩ := hfit
  refine ⟨_, set_pixel_format_xmit s F, by simp [be_bytes], by simp [be_bytes], ?_⟩
  intro t rest hstop hoff hp
  have hr : Ready t _ := ⟨hstop, hoff, hp⟩
  simp only [be_bytes, List.nil_append, List.append_assoc, List.cons_append] at hr
  obtain ⟨io1, e1, r1, _⟩ := read_u8_ok _ _ _ hr
  obtain ⟨io2, e2, r2, _⟩ := read_u8_ok _ _ _ r1
  obtain ⟨io3, e3, r3, _⟩ := read_u8_ok _ _ _ r2
  obtain ⟨io4, e4, r4, _⟩ := read_u8_ok _ _ _ r3
  obtain ⟨io5, e5, r5, _⟩ := read_u16_ok _ _ _ _ r4
  obtain ⟨io6, e6, r6, _⟩ := read_u16_ok _ _ _ _ r5
  obtain ⟨io7, e7, r7, _⟩ := read_u16_ok _ _ _ _ r6
  obtain ⟨io8, e8, r8, _⟩ := read_u8_ok _ _ _ r7
  obtain ⟨io9, e9, r9, _⟩ := read_u8_ok _ _ _ r8
  obtain ⟨io10, e10, r10, _⟩ := read_u8_ok _ _ _ r9
  obtain ⟨io11, e11, r11, _⟩ := read_ok _ [0, 0, 0] rest [0, 0, 0] r10
  refine ⟨io11, ?_, r11.2.2⟩
  simp only [List.length_cons, List.length_nil] at e11
  simp only [vnc_connection_read_pixel_format, e1, e2, e3, e4, e5, e6, e7, e8, e9, e10, e11,
    ofNat_toNat]
  refine Prod.ext ?_ rfl
  have horder : (if (if F.byte_order = G_BIG_ENDIAN then 1 else 0) % 256 % 256 ≠ 0
      then G_BIG_ENDIAN else G_LITTLE_ENDIAN) = F.byte_order := by
    rcases hbo with h | h
    · rw [h]; decide
    · rw [h]; decide
  cases F
  dsimp only at h1 h2 h3 h4 h5 h6 h7 h8 h9 horder ⊢
  simp only [VncPixelFormat.mk.injEq]
  refine ⟨by omega, by omega, horder, by omega, by omega, by omega, by omega, by omega, by omega,
    by omega⟩

theorem set_pixel_format_roundtrip_witness :
    (rgb888.fits ∧ (rgb888.byte_order = G_BIG_ENDIAN ∨ rgb888.byte_order = G_LITTLE_ENDIAN)) ∧
    ∃ body : List UInt8,
      (vnc_connection_set_pixel_format (session rgb888 640 480 []) rgb888).2.xmit_buffer =
        (session rgb888 640 480 []).xmit_buffer ++ ([0, 0, 0, 0] ++ body) ∧
      body.length = 16 ∧ body.drop 13 = [0, 0, 0] ∧
      ∀ (t : Conn) (rest : List UInt8), t.coroutine_stop = false →
        t.io.read_offset ≤ t.io.read_buffer.length → t.io.pending = body ++ rest →
        ∃ io', vnc_connection_read_pixel_format t = (rgb888, { t with io := io' }) ∧
          io'.pending = rest :=
  ⟨by decide, set_pixel_format_roundtrip (session rgb888 640 480 []) rgb888 (by decide)
    (by decide)⟩

/-! ## The boundary check -/

theorem validate_boundary_outside (s : Conn) (x y width height : Nat)
    (hout : (x : Int) + width > s.width ∨ (y : Int) + height > s.height) :
    vnc_connection_validate_boundary s x y width height =
      (false, vnc_connection_set_error s
        (ErrorText.fmt "Framebuffer update %dx%d at %d,%d outside boundary %dx%d"
          [width, height, x, y, s.width, s.height])) := by
  simp [vnc_connection_validate_boundary, hout, vnc_connection_set_error,
    vnc_connection_emit_main_context, vnc_connection_has_error]

/-- C1: for a rectangle whose encoding is Raw, CopyRect, RRE, Hextile, ZRLE or Tight
and that does not lie inside the session size (x+w > W or y+h > H, the sums taken
in unbounded integers), `vnc_connection_framebuffer_update` returns FALSE with the error
flag set, issues no framebuffer operation and reads nothing: the I/O layer is
left as it was. -/
theorem framebuffer_update_outside_boundary (ext : External) (s : Conn) (etype : Int)
    (x y width height : Nat)
    (hetype : etype = VNC_CONNECTION_ENCODING_RAW ∨ etype = VNC_CONNECTION_ENCODING_COPY_RECT ∨
      etype = VNC_CONNECTION_ENCODING_RRE ∨ etype = VNC_CONNECTION_ENCODING_HEXTILE ∨
      etype = VNC_CONNECTION_ENCODING_ZRLE ∨ etype = VNC_CONNECTION_ENCODING_TIGHT)
    (hout : (x : Int) + width > s.width ∨ (y : Int) + height > s.height) :
    (vnc_connection_framebuffer_update ext s etype x y width height).1 = false ∧
    vnc_connection_has_error
      (vnc_connection_framebuffer_update ext s etype x y width height).2 = true ∧
    (vnc_connection_framebuffer_update ext s etype x y width height).2.fbops = s.fbops ∧
    (vnc_connection_framebuffer_update ext s etype x y width height).2.io = s.io := by
  by_cases hstop : s.coroutine_stop = true
  · simp [vnc_connection_framebuffer_update, vnc_connection_has_error, hstop]
  · have hv := validate_boundary_outside s x y width height hout
    rcases hetype with h | h | h | h | h | h <;>
      subst h <;>
      simp [vnc_connection_framebuffer_update, vnc_connection_has_error, hstop, hv,
        vnc_connection_set_error, vnc_connection_emit_main_context,
        VNC_CONNECTION_ENCODING_RAW, VNC_CONNECTION_ENCODING_COPY_RECT,
        VNC_CONNECTION_ENCODING_RRE, VNC_CONNECTION_ENCODING_HEXTILE,
        VNC_CONNECTION_ENCODING_ZRLE, VNC_CONNECTION_ENCODING_TIGHT]

theorem framebuffer_update_outside_boundary_witness :
    ((5 : Int) = VNC_CONNECTION_ENCODING_HEXTILE ∧
      (((600 : Nat) : Int) + (100 : Nat) > (session rgb888 640 480 []).width)) ∧
    (vnc_connection_framebuffer_update idle_external (session rgb888 640 480 []) 5 600 0 100 10).1 = false ∧
    vnc_connection_has_error
      (vnc_connection_framebuffer_update idle_external (session rgb888 640 480 []) 5 600 0 100 10).2 = true ∧
    (vnc_connection_framebuffer_update idle_external (session rgb888 640 480 []) 5 600 0 100 10).2.fbops =
      (session rgb888 640 480 []).fbops ∧
    (vnc_connection_framebuffer_update idle_external (session rgb888 640 480 []) 5 600 0 100 10).2.io =
      (session rgb888 640 480 []).io :=
  ⟨by decide, framebuffer_update_outside_boundary idle_external (session rgb888 640 480 []) 5 600 0 100 10
    (by decide) (by decide)⟩

/-! ## ZRLE run lengths -/

theorem ready_session (fmt : VncPixelFormat) (width height : Int) (l : List UInt8) :
    Ready (session fmt width height l) l :=
  ⟨rfl, Nat.le_refl _, by simp [IOState.pending, session]⟩

theorem wrap_int_add (x y : Int) : wrap_int (wrap_int x + y) = wrap_int (x + y) := by
  unfold wrap_int toInt32
  have h32 : ((2 : Int) ^ 32) = 4294967296 := by norm_num
  have h32n : ((2 : Nat) ^ 32) = 4294967296 := by norm_num
  have h31n : ((2 : Nat) ^ 31) = 2147483648 := by norm_num
  simp only [h32, h32n, h31n]
  split <;> split <;> split <;> omega

theorem wrap_int_small (x : Int) (h0 : 0 ≤ x) (h1 : x < 2 ^ 31) : wrap_int x = x := by
  unfold wrap_int toInt32
  have h32 : ((2 : Int) ^ 32) = 4294967296 := by norm_num
  have h32n : ((2 : Nat) ^ 32) = 4294967296 := by norm_num
  have h31n : ((2 : Nat) ^ 31) = 2147483648 := by norm_num
  have h31 : ((2 : Int) ^ 31) = 2147483648 := by norm_num
  simp only [h32, h32n, h31n]
  rw [h31] at h1
  split <;> omega

theorem read_zrle_rl_loop_run : ∀ (k fuel : Nat) (s : Conn) (rl : Int) (b : UInt8)
    (rest : List UInt8), b.toNat ≠ 255 → k + 1 ≤ fuel →
    Ready s (List.replicate k 0xFF ++ b :: rest) →
    ∃ io', read_zrle_rl_loop fuel s rl =
        (wrap_int (rl + 255 * k + b.toNat), { s with io := io' }) ∧
      Ready { s with io := io' } rest := by
  intro k
  induction k with
  | zero =>
    intro fuel s rl b rest hb hf hr
    obtain ⟨fuel, rfl⟩ : ∃ f, fuel = f + 1 := ⟨fuel - 1, by omega⟩
    simp only [List.replicate_zero, List.nil_append] at hr
    obtain ⟨io1, e1, r1, _⟩ := read_u8_ok _ _ _ hr
    refine ⟨io1, ?_, r1⟩
    simp only [read_zrle_rl_loop, e1]
    simp [hb]
  | succ k ih =>
    intro fuel s rl b rest hb hf hr
    obtain ⟨fuel, rfl⟩ : ∃ f, fuel = f + 1 := ⟨fuel - 1, by omega⟩
    simp only [List.replicate_succ, List.cons_append] at hr
    obtain ⟨io1, e1, r1, _⟩ := read_u8_ok _ _ _ hr
    obtain ⟨io2, e2, r2⟩ := ih fuel _ (wrap_int (rl + 255)) b rest hb (by omega) r1
    refine ⟨io2, ?_, r2⟩
    have h255 : (0xFF : UInt8).toNat = 255 := rfl
    rw [h255] at e1
    have hlive : vnc_connection_has_error { s with io := io1 } = false := r1.1
    simp only [read_zrle_rl_loop, e1, hlive]
    simp only [Bool.not_false, Bool.true_and, beq_self_eq_true, if_true, Nat.cast_ofNat]
    rw [e2, add_assoc, wrap_int_add]
    congr 2
    push_cast
    ring

/-- What `vnc_connection_read_zrle_rl` returns on the encoding of any run length. -/
theorem read_zrle_rl_encoded (s : Conn) (r : Nat) (rest : List UInt8) (hr1 : 1 ≤ r)
    (h : Ready s (zrle_rl_encode r ++ rest)) :
    ∃ io', vnc_connection_read_zrle_rl s = (wrap_int r, { s with io := io' }) ∧
      Ready { s with io := io' } rest := by
  have hb : (UInt8.ofNat ((r - 1) % 255)).toNat ≠ 255 := by
    rw [ofNat_toNat]; omega
  have hlen : (r - 1) / 255 + 1 ≤ s.io.pending.length + 1 := by
    rw [h.2.2]
    simp [zrle_rl_encode]
  have h' : Ready s (List.replicate ((r - 1) / 255) 0xFF ++
      UInt8.ofNat ((r - 1) % 255) :: rest) := by
    simpa [zrle_rl_encode] using h
  obtain ⟨io', e, hr'⟩ := read_zrle_rl_loop_run _ _ s 1 _ rest hb hlen h'
  refine ⟨io', ?_, hr'⟩
  rw [vnc_connection_read_zrle_rl, e]
  congr 2
  rw [ofNat_toNat]
  have : (r - 1) % 255 % 256 = (r - 1) % 255 := by omega
  rw [this]
  have := Nat.div_add_mod (r - 1) 255
  push_cast
  omega

/-- C5, as amended: for every run length r with 1 <= r < 2^31,
`vnc_connection_read_zrle_rl` applied to (r-1) div 255 bytes of 0xFF followed by the
byte (r-1) mod 255 returns r and consumes exactly those bytes. -/
theorem read_zrle_rl_roundtrip (s : Conn) (r : Nat) (rest : List UInt8) (hr1 : 1 ≤ r)
    (hr2 : r < 2 ^ 31) (hstop : s.coroutine_stop = false)
    (hoff : s.io.read_offset ≤ s.io.read_buffer.length)
    (hp : s.io.pending = zrle_rl_encode r ++ rest) :
    (zrle_rl_encode r).length = (r - 1) / 255 + 1 ∧
    ∃ io', vnc_connection_read_zrle_rl s = ((r : Int), { s with io := io' }) ∧
      io'.pending = rest := by
  refine ⟨by simp [zrle_rl_encode], ?_⟩
  obtain ⟨io', e, hr'⟩ := read_zrle_rl_encoded s r rest hr1 ⟨hstop, hoff, hp⟩
  refine ⟨io', ?_, hr'.2.2⟩
  rw [e, wrap_int_small _ (by omega) (by exact_mod_cast hr2)]

theorem read_zrle_rl_roundtrip_witness :
    (1 ≤ 300 ∧ 300 < 2 ^ 31 ∧ zrle_rl_encode 300 = [0xFF, 44]) ∧
    (zrle_rl_encode 300).length = (300 - 1) / 255 + 1 ∧
    ∃ io', vnc_connection_read_zrle_rl (session rgb888 640 480 [0xFF, 44, 9]) =
        (((300 : Nat) : Int), { session rgb888 640 480 [0xFF, 44, 9] with io := io' }) ∧
      io'.pending = [9] :=
  ⟨by decide, read_zrle_rl_roundtrip (session rgb888 640 480 [0xFF, 44, 9]) 300 [9] (by decide)
    (by decide) rfl (by decide) (by decide)⟩

/-- C5, the claim as stated fails: the run length is accumulated in an `int`, so
on the encoding of r = 2^31 the function returns -2^31 and not r. -/
theorem read_zrle_rl_overflow :
    (vnc_connection_read_zrle_rl (session rgb888 640 480 (zrle_rl_encode (2 ^ 31)))).1 =
      -(2 ^ 31) ∧
    (vnc_connection_read_zrle_rl (session rgb888 640 480 (zrle_rl_encode (2 ^ 31)))).1 ≠
      ((2 ^ 31 : Nat) : Int) := by
  obtain ⟨io', e, _⟩ := read_zrle_rl_encoded (session rgb888 640 480 (zrle_rl_encode (2 ^ 31)))
    (2 ^ 31) [] (by norm_num)
    (by rw [List.append_nil]; exact ready_session _ _ _ _)
  rw [e]
  have hw : wrap_int ((2 ^ 31 : Nat) : Int) = -(2 ^ 31) := by decide
  dsimp only
  rw [hw]
  exact ⟨rfl, by decide⟩

/-! ## Hextile -/

theorem read_pixel_ok (s : Conn) (p rest pixel : List UInt8)
    (hlen : p.length = vnc_connection_pixel_size s) (h : Ready s (p ++ rest)) :
    ∃ io', vnc_connection_read_pixel s pixel = (p ++ pixel.drop p.length, { s with io := io' }) ∧
      Ready { s with io := io' } rest ∧ SameOutput s.io io' := by
  obtain ⟨io', heq, hr, hso⟩ := read_ok s p rest pixel h
  refine ⟨io', ?_, hr, hso⟩
  rw [vnc_connection_read_pixel, ← hlen, heq]

/-- Reading a pixel only when a flag bit asks for it. -/
theorem read_pixel_if (s : Conn) (c : Prop) [Decidable c] (p rest pixel : List UInt8)
    (hlen : p.length = if c then vnc_connection_pixel_size s else 0) (h : Ready s (p ++ rest)) :
    ∃ io', (if c then vnc_connection_read_pixel s pixel else (pixel, s)) =
        (p ++ pixel.drop p.length, { s with io := io' }) ∧
      Ready { s with io := io' } rest := by
  by_cases hc : c
  · rw [if_pos hc] at hlen ⊢
    obtain ⟨io', e, r, _⟩ := read_pixel_ok s p rest pixel hlen h
    exact ⟨io', e, r⟩
  · rw [if_neg hc] at hlen ⊢
    have hp : p = [] := List.length_eq_zero.mp hlen
    subst hp
    exact ⟨s.io, by simp, by simpa using h⟩

theorem nibhi_byte (b : UInt8) : nibhi b.toNat = b.toNat >>> 4 := by
  have h := (byte_bits ⟨b.toNat, UInt8.toNat_lt b⟩).2.2.1
  simp only at h
  rw [nibhi, h, Nat.shiftRight_eq_div_pow]

theorem niblo_byte (b : UInt8) : niblo b.toNat = b.toNat &&& 15 := rfl

theorem hextile_subrects_run (flags x y : Nat) :
    ∀ (subs : List (List UInt8 × UInt8 × UInt8)) (s : Conn) (fg rest : List UInt8),
    (∀ sub ∈ subs, sub.1.length =
      if flags &&& 0x10 ≠ 0 then vnc_connection_pixel_size s else 0) →
    Ready s (subrect_bytes subs ++ rest) →
    ∃ io', hextile_subrects flags x y subs.length s fg =
        (subrect_fg fg subs,
          { s with io := io', fbops := s.fbops ++ subrect_fills x y fg subs }) ∧
      Ready { s with io := io' } rest := by
  intro subs
  induction subs with
  | nil =>
    intro s fg rest _ hr
    exact ⟨s.io, by simp [hextile_subrects, subrect_fg, subrect_fills], by simpa [subrect_bytes] using hr⟩
  | cons sub subs ih =>
    intro s fg rest hlen hr
    obtain ⟨p, xy, wh⟩ := sub
    simp only [subrect_bytes, List.append_assoc, List.cons_append] at hr
    obtain ⟨io1, e1, r1⟩ := read_pixel_if s (flags &&& 0x10 ≠ 0) p _ fg
      (hlen (p, xy, wh) (List.mem_cons_self _ _)) hr
    obtain ⟨io2, e2, r2, _⟩ := read_u8_ok _ _ _ r1
    obtain ⟨io3, e3, r3, _⟩ := read_u8_ok _ _ _ r2
    obtain ⟨io4, e4, r4⟩ := ih
      { s with io := io3, fbops := s.fbops ++
        [FbOp.fill (p ++ fg.drop p.length) (x + nibhi xy.toNat) (y + niblo xy.toNat)
          (nibhi wh.toNat + 1) (niblo wh.toNat + 1)] }
      (p ++ fg.drop p.length) rest
      (fun sub hsub => hlen sub (List.mem_cons_of_mem _ hsub)) r3
    refine ⟨io4, ?_, r4⟩
    simp only [List.length_cons, hextile_subrects, e1, e2, e3]
    rw [e4]
    simp only [subrect_fg, subrect_fills, nibhi_byte, niblo_byte, List.append_assoc,
      List.singleton_append, Nat.cast_add, Nat.cast_one]

/-- C6: in a Hextile tile at (x, y) that is not raw and has sub-rectangles, for
every pair of bytes xy, wh read for a sub-rectangle the decoder issues one fill
with the current foreground pixel at (x + (xy >> 4), y + (xy & 15)) with size
((wh >> 4) + 1, (wh & 15) + 1), after the fill of the tile with the background;
it issues nothing else and consumes exactly the tile's bytes. -/
theorem hextile_rect_subrects (s : Conn) (flags x y width height : Nat)
    (fg bg bgpix fgpix rest : List UInt8) (subs : List (List UInt8 × UInt8 × UInt8))
    (hraw : flags &&& 0x01 = 0) (hany : flags &&& 0x08 ≠ 0)
    (hbg : bgpix.length = if flags &&& 0x02 ≠ 0 then vnc_connection_pixel_size s else 0)
    (hfg : fgpix.length = if flags &&& 0x04 ≠ 0 then vnc_connection_pixel_size s else 0)
    (hsub : ∀ sub ∈ subs, sub.1.length =
      if flags &&& 0x10 ≠ 0 then vnc_connection_pixel_size s else 0)
    (hn : subs.length < 256) (hstop : s.coroutine_stop = false)
    (hoff : s.io.read_offset ≤ s.io.read_buffer.length)
    (hp : s.io.pending =
      bgpix ++ fgpix ++ UInt8.ofNat subs.length :: subrect_bytes subs ++ rest) :
    ∃ io', vnc_connection_hextile_rect s flags x y width height fg bg =
        (subrect_fg (fgpix ++ fg.drop fgpix.length) subs, bgpix ++ bg.drop bgpix.length,
          { s with io := io', fbops := s.fbops ++
              FbOp.fill (bgpix ++ bg.drop bgpix.length) x y width height ::
                subrect_fills x y (fgpix ++ fg.drop fgpix.length) subs }) ∧
      io'.pending = rest := by
  have hr : Ready s (bgpix ++ (fgpix ++ (UInt8.ofNat subs.length ::
      (subrect_bytes subs ++ rest)))) := by
    refine ⟨hstop, hoff, ?_⟩
    rw [hp]; simp
  obtain ⟨io1, e1, r1⟩ := read_pixel_if s (flags &&& 0x02 ≠ 0) bgpix _ bg hbg hr
  obtain ⟨io2, e2, r2⟩ := read_pixel_if { s with io := io1 } (flags &&& 0x04 ≠ 0) fgpix _ fg
    hfg r1
  obtain ⟨io3, e3, r3, _⟩ := read_u8_ok
    { s with io := io2, fbops := s.fbops ++
      [FbOp.fill (bgpix ++ bg.drop bgpix.length) x y width height] } _ _ r2
  obtain ⟨io4, e4, r4⟩ := hextile_subrects_run flags x y subs
    { s with io := io3, fbops := s.fbops ++
      [FbOp.fill (bgpix ++ bg.drop bgpix.length) x y width height] }
    (fgpix ++ fg.drop fgpix.length) rest hsub r3
  refine ⟨io4, ?_, r4.2.2⟩
  have hcount : (UInt8.ofNat subs.length).toNat = subs.length := by
    rw [ofNat_toNat]; omega
  rw [hcount] at e3
  have hraw' : ¬ (flags &&& 0x01 ≠ 0) := by simp [hraw]
  simp only [vnc_connection_hextile_rect, hraw', if_false, e1, e2]
  rw [if_pos hany]
  simp only [e3]
  rw [e4]
  simp

theorem hextile_rect_subrects_witness :
    ((0x0E &&& 0x01 = 0 ∧ 0x0E &&& 0x08 ≠ 0) ∧
      (session rgb888 640 480 [1, 2, 3, 4, 5, 6, 7, 8, 1, 0x12, 0x34, 9]).io.pending =
        [1, 2, 3, 4] ++ [5, 6, 7, 8] ++
          UInt8.ofNat [(([] : List UInt8), (0x12 : UInt8), (0x34 : UInt8))].length ::
            subrect_bytes [([], 0x12, 0x34)] ++ [9]) ∧
    ∃ io', vnc_connection_hextile_rect
        (session rgb888 640 480 [1, 2, 3, 4, 5, 6, 7, 8, 1, 0x12, 0x34, 9])
        0x0E 32 48 16 16 [0, 0, 0, 0] [0, 0, 0, 0] =
        ([5, 6, 7, 8], [1, 2, 3, 4],
          { session rgb888 640 480 [1, 2, 3, 4, 5, 6, 7, 8, 1, 0x12, 0x34, 9] with
            io := io',
            fbops := [FbOp.fill [1, 2, 3, 4] 32 48 16 16, FbOp.fill [5, 6, 7, 8] 33 50 4 5] }) ∧
      io'.pending = [9] :=
  ⟨by decide, hextile_rect_subrects
    (session rgb888 640 480 [1, 2, 3, 4, 5, 6, 7, 8, 1, 0x12, 0x34, 9]) 0x0E 32 48 16 16
    [0, 0, 0, 0] [0, 0, 0, 0] [1, 2, 3, 4] [5, 6, 7, 8] [9] [([], 0x12, 0x34)]
    (by decide) (by decide) (by decide) (by decide) (by decide) (by decide) rfl (by decide)
    (by decide)⟩

/-! ## CPIXEL -/

/-- C7, the code at failing inputs: in the big-endian format with shifts 24, 16, 8
the pixel 0x11223300 has the bytes 11 22 33 00 and the CPIXEL 11 22 33, and
`vnc_connection_read_cpixel` returns 00 11 22 33: the three bytes are stored one
position too far, so the pad byte is restored in the wrong place. In the same
format little endian the CPIXEL 33 22 11 comes back as 33 22 11 00 where the pixel
is 00 33 22 11. In the big-endian format with shifts 16, 8, 0 and depth 32 the
pixel 0x00112233 has the CPIXEL 11 22 33 and comes back as 11 22 33 00. -/
theorem read_cpixel_misplaced :
    pixel_bytes rgbx_be 0x11223300 = [0x11, 0x22, 0x33, 0x00] ∧
    cpixel_encode rgbx_be 0x11223300 = [0x11, 0x22, 0x33] ∧
    (vnc_connection_read_cpixel
      (session rgbx_be 640 480 (cpixel_encode rgbx_be 0x11223300)) [0, 0, 0, 0]).1 =
        [0x00, 0x11, 0x22, 0x33] ∧
    (vnc_connection_read_cpixel
      (session { rgbx_be with byte_order := G_LITTLE_ENDIAN } 640 480
        (cpixel_encode { rgbx_be with byte_order := G_LITTLE_ENDIAN } 0x11223300))
      [0, 0, 0, 0]).1 = [0x33, 0x22, 0x11, 0x00] ∧
    pixel_bytes { rgbx_be with byte_order := G_LITTLE_ENDIAN } 0x11223300 =
      [0x00, 0x33, 0x22, 0x11] ∧
    pixel_bytes { rgb888 with depth := 32, byte_order := G_BIG_ENDIAN } 0x00112233 =
      [0x00, 0x11, 0x22, 0x33] ∧
    cpixel_encode { rgb888 with depth := 32, byte_order := G_BIG_ENDIAN } 0x00112233 =
      [0x11, 0x22, 0x33] ∧
    (vnc_connection_read_cpixel
      (session { rgb888 with depth := 32, byte_order := G_BIG_ENDIAN } 640 480
        (cpixel_encode { rgb888 with depth := 32, byte_order := G_BIG_ENDIAN } 0x00112233))
      [0, 0, 0, 0]).1 = [0x11, 0x22, 0x33, 0x00] := by
  decide

/-! ## Signals after an error -/

/-- C9, the code at failing inputs. A FramebufferUpdate with one LedState
rectangle, after which the server closes the connection: the `error` signal is
emitted and then `led_state`. A QEMU audio message cut short after its type
byte: two `error` signals are emitted. -/
theorem signals_after_error :
    (vnc_connection_server_message idle_external
      (session rgb888 640 480
        [0, 0, 0, 1, 0, 0, 0, 0, 0, 0, 0, 0, 0xFF, 0xFF, 0xFE, 0xFB]) 0).2.signals =
      [Signal.error (ErrorText.lit "Server closed the connection"), Signal.led_state 0] ∧
    (vnc_connection_server_message idle_external
      (session rgb888 640 480 [255, 1]) 0).2.signals =
      [Signal.error (ErrorText.lit "Server closed the connection"),
       Signal.error (ErrorText.lit "No audio sink configured")] := by
  decide

/-! ## Authentication failure -/

/-- C10, the code at failing inputs: on a non-zero auth result the `error` signal is
emitted first and `auth_failure` after it, on protocol 3.3 (no reason string) and
on protocol 3.8 (reason "no"). -/
theorem auth_failure_after_error :
    (vnc_connection_check_auth_result
      { session rgb888 0 0 [0, 0, 0, 1] with minor := 3 }).2.signals =
      [Signal.error (ErrorText.lit "Unknown authentication failure"),
       Signal.auth_failure (ErrorText.lit "Unknown authentication failure")] ∧
    (vnc_connection_check_auth_result
      (session rgb888 0 0 [0, 0, 0, 1, 0, 0, 0, 2, 0x6E, 0x6F])).2.signals =
      [Signal.error (ErrorText.cstr [0x6E, 0x6F]),
       Signal.auth_failure (ErrorText.cstr [0x6E, 0x6F])] := by
  decide

/-! ## The xmit queue and the message loop -/

theorem flush_live (s : Conn) (hstop : s.coroutine_stop = false) :
    vnc_connection_flush s =
      { s with io := { s.io with
          write_buffer := [],
          log := s.io.log ++ (if s.io.write_buffer.length = 0 then []
            else [WireEvent.tx s.io.write_buffer]) } } := by
  unfold vnc_connection_flush vnc_connection_flush_plain vnc_connection_flush_wire
  by_cases h : s.io.write_buffer.length = 0
  · simp [h]
  · simp [h, hstop]

theorem write_loop_live : ∀ (fuel : Nat) (s : Conn) (data : List UInt8),
    s.coroutine_stop = false → s.io.write_buffer.length ≤ 4096 → data.length ≤ fuel →
    ∃ (txs : List (List UInt8)) (wb : List UInt8),
      vnc_connection_write_loop fuel s data =
        { s with io := { s.io with
            write_buffer := wb,
            log := s.io.log ++ txs.map WireEvent.tx } } ∧
      txs.flatten ++ wb = s.io.write_buffer ++ data ∧ wb.length ≤ 4096 := by
  intro fuel
  induction fuel with
  | zero =>
    intro s data _ hwb hf
    have hd : data = [] := List.length_eq_zero.mp (by omega)
    subst hd
    exact ⟨[], s.io.write_buffer, by simp [vnc_connection_write_loop], by simp, hwb⟩
  | succ fuel ih =>
    intro s data hstop hwb hf
    by_cases hd : data.length = 0
    · have hd' : data = [] := List.length_eq_zero.mp hd
      subst hd'
      exact ⟨[], s.io.write_buffer, by simp [vnc_connection_write_loop], by simp, hwb⟩
    · by_cases hfull : s.io.write_buffer.length = 4096
      · -- the staging buffer is full: it is flushed first
        have hne : ¬ s.io.write_buffer.length = 0 := by omega
        obtain ⟨txs, wb, e, hcat, hlen⟩ := ih
          { s with io := { s.io with
              write_buffer := [] ++ data.take (min (4096 - 0) data.length),
              log := s.io.log ++ [WireEvent.tx s.io.write_buffer] } }
          (data.drop (min (4096 - 0) data.length)) hstop
          (by simp only [List.nil_append, List.length_take]; omega)
          (by simp only [List.length_drop]; omega)
        have hstep : vnc_connection_write_loop (fuel + 1) s data =
            vnc_connection_write_loop fuel
              { s with io := { s.io with
                  write_buffer := [] ++ data.take (min (4096 - 0) data.length),
                  log := s.io.log ++ [WireEvent.tx s.io.write_buffer] } }
              (data.drop (min (4096 - 0) data.length)) := by
          rw [vnc_connection_write_loop]
          simp [hd, hfull, flush_live s hstop]
        refine ⟨s.io.write_buffer :: txs, wb, ?_, ?_, hlen⟩
        · rw [hstep, e]
          simp
        · simp only [List.flatten_cons, List.append_assoc]
          rw [hcat]
          simp
      · obtain ⟨txs, wb, e, hcat, hlen⟩ := ih
          { s with io := { s.io with
              write_buffer := s.io.write_buffer ++
                data.take (min (4096 - s.io.write_buffer.length) data.length) } }
          (data.drop (min (4096 - s.io.write_buffer.length) data.length)) hstop
          (by simp only [List.length_append, List.length_take]; omega)
          (by simp only [List.length_drop]; omega)
        have hstep : vnc_connection_write_loop (fuel + 1) s data =
            vnc_connection_write_loop fuel
              { s with io := { s.io with
                  write_buffer := s.io.write_buffer ++
                    data.take (min (4096 - s.io.write_buffer.length) data.length) } }
              (data.drop (min (4096 - s.io.write_buffer.length) data.length)) := by
          rw [vnc_connection_write_loop]
          simp [hd, hfull]
        refine ⟨txs, wb, ?_, ?_, hlen⟩
        · rw [hstep, e]
        · rw [hcat]
          simp

/-- The drain at the head of the message loop: the whole queue goes out, in order. -/
theorem drain_live (s : Conn) (hstop : s.coroutine_stop = false)
    (hwb : s.io.write_buffer = []) :
    ∃ txs : List (List UInt8),
      (if s.xmit_buffer.length ≠ 0 then
          { vnc_connection_flush (vnc_connection_write s s.xmit_buffer) with xmit_buffer := [] }
        else s) =
        { s with
          xmit_buffer := [],
          io := { s.io with
            write_buffer := [],
            log := s.io.log ++ txs.map WireEvent.tx } } ∧
      txs.flatten = s.xmit_buffer := by
  by_cases hx : s.xmit_buffer.length ≠ 0
  · obtain ⟨txs, wb, e, hcat, _⟩ := write_loop_live s.xmit_buffer.length s s.xmit_buffer hstop
      (by rw [hwb]; simp) (Nat.le_refl _)
    rw [hwb, List.nil_append] at hcat
    refine ⟨txs ++ (if wb.length = 0 then [] else [wb]), ?_, ?_⟩
    · have hfl := flush_live
        { s with io := { s.io with
            write_buffer := wb,
            log := s.io.log ++ txs.map WireEvent.tx } } hstop
      rw [if_pos hx, vnc_connection_write, e, hfl]
      by_cases hw : wb.length = 0 <;> simp [hw]
    · by_cases hw : wb.length = 0
      · have hw' : wb = [] := List.length_eq_zero.mp hw
        subst hw'
        simpa using hcat
      · simpa [hw] using hcat
  · have hx' : s.xmit_buffer = [] := List.length_eq_zero.mp (by omega)
    refine ⟨[], ?_, by simp [hx']⟩
    rw [if_neg hx]
    obtain ⟨fmt, error, stop, w, h, ma, mi, io, a1, a2, a3, a4, a5, xb⟩ := s
    obtain ⟨rb, ro, wbuf, cmp, inc, rs, lg⟩ := io
    simp only at hx' hwb
    subst hx' hwb
    simp

theorem read_u8_interruptable_buffered (s : Conn) (v b : UInt8) (rest : List UInt8)
    (hstop : s.coroutine_stop = false) (hc : s.io.compressed = none)
    (hoff : s.io.read_offset < s.io.read_buffer.length) (hp : s.io.pending = b :: rest) :
    vnc_connection_read_u8_interruptable s v =
      (0, b, { s with io := { s.io with read_offset := s.io.read_offset + 1 } }) ∧
    ({ s.io with read_offset := s.io.read_offset + 1 } : IOState).pending = rest := by
  have hcomp : vnc_connection_use_compression s = false := by
    simp [vnc_connection_use_compression, hc]
  have hpend : s.io.read_buffer.drop s.io.read_offset ++ s.io.incoming = b :: rest := by
    rw [← hp]; simp [IOState.pending, hc]
  obtain ⟨tl, htl⟩ : ∃ tl, s.io.read_buffer.drop s.io.read_offset = b :: tl := by
    cases hd : s.io.read_buffer.drop s.io.read_offset with
    | nil =>
      have := congrArg List.length hd
      simp only [List.length_drop, List.length_nil] at this
      omega
    | cons x tl =>
      rw [hd] at hpend
      simp only [List.cons_append, List.cons.injEq] at hpend
      exact ⟨tl, by rw [hpend.1]⟩
  have hne : ¬ s.io.read_offset = s.io.read_buffer.length := by omega
  have hmin : min (s.io.read_buffer.length - s.io.read_offset) 1 = 1 := by omega
  constructor
  · unfold vnc_connection_read_u8_interruptable vnc_connection_read_gen
    simp [hstop, vnc_connection_read_loop, hcomp, hne, hmin, htl]
  · simp only [IOState.pending, hc]
    have h1 : s.io.read_buffer.drop (s.io.read_offset + 1) = tl := by
      rw [← List.drop_drop, htl]
      rfl
    rw [h1]
    rw [htl] at hpend
    simpa using hpend

theorem read_u8_interruptable_wake (s : Conn) (v : UInt8) (w : List UInt8)
    (ws : List (List UInt8)) (hstop : s.coroutine_stop = false) (hc : s.io.compressed = none)
    (hoff : s.io.read_offset = s.io.read_buffer.length) (hw : s.wakeups = w :: ws) :
    vnc_connection_read_u8_interruptable s v =
      (-EAGAIN, v, vnc_connection_buffered_write { s with wakeups := ws } w) := by
  have hcomp : vnc_connection_use_compression s = false := by
    simp [vnc_connection_use_compression, hc]
  have hneg : -EAGAIN < 0 := by decide
  unfold vnc_connection_read_u8_interruptable vnc_connection_read_gen
  simp [hstop, vnc_connection_read_loop, hcomp, hoff, vnc_connection_read_buf,
    vnc_connection_read_plain, vnc_connection_read_wire, hw, hneg]

theorem read_u8_interruptable_wire (s : Conn) (v b : UInt8) (rest : List UInt8)
    (hstop : s.coroutine_stop = false) (hc : s.io.compressed = none)
    (hoff : s.io.read_offset ≤ s.io.read_buffer.length) (hw : s.wakeups = [])
    (hp : s.io.pending = b :: rest) :
    ∃ io', vnc_connection_read_u8_interruptable s v = (0, b, { s with io := io' }) ∧
      io'.pending = rest ∧ io'.read_offset ≤ io'.read_buffer.length ∧
      io'.compressed = none ∧ SameOutput s.io io' := by
  obtain ⟨io', e, hp', hoff', hc', hso⟩ := read_loop_plain true 1 1 s [] (Or.inr hw) hstop hc hoff
    (by simp) (by simp [hp])
  refine ⟨io', ?_, by simpa [hp] using hp', hoff', hc', hso⟩
  unfold vnc_connection_read_u8_interruptable vnc_connection_read_gen
  simp [hstop, e, hp]

theorem fold_buffered_write : ∀ (ks : List (List UInt8)) (s : Conn),
    ∃ cap, ks.foldl vnc_connection_buffered_write s =
      { s with xmit_buffer := s.xmit_buffer ++ ks.flatten, xmit_buffer_capacity := cap } := by
  intro ks
  induction ks with
  | nil => intro s; exact ⟨s.xmit_buffer_capacity, by simp⟩
  | cons k ks ih =>
    intro s
    obtain ⟨cap, e⟩ := ih (vnc_connection_buffered_write s k)
    refine ⟨cap, ?_⟩
    rw [List.foldl_cons, e]
    simp [vnc_connection_buffered_write]

/-- One turn of the wait loop that is not interrupted: the queue is drained and the
message byte is read. -/
theorem wait_once (fuel : Nat) (s : Conn) (msg b : UInt8) (rest : List UInt8)
    (hstop : s.coroutine_stop = false) (hc : s.io.compressed = none)
    (hwb : s.io.write_buffer = []) (hoff : s.io.read_offset ≤ s.io.read_buffer.length)
    (hp : s.io.pending = b :: rest)
    (hw : s.wakeups = [] ∨ s.io.read_offset < s.io.read_buffer.length) :
    ∃ (txs rxs : List (List UInt8)) (io' : IOState),
      server_message_wait (fuel + 1) s msg = (0, b, { s with xmit_buffer := [], io := io' }) ∧
      io'.log = s.io.log ++ txs.map WireEvent.tx ++ rxs.map WireEvent.rx ∧
      txs.flatten = s.xmit_buffer ∧ io'.pending = rest ∧ io'.write_buffer = [] := by
  obtain ⟨txs, hd, hcat⟩ := drain_live s hstop hwb
  have hne : ¬ ((0 : Int) = -EAGAIN) := by decide
  rw [server_message_wait]
  simp only [hd]
  by_cases hlt : s.io.read_offset < s.io.read_buffer.length
  · obtain ⟨e, hp'⟩ := read_u8_interruptable_buffered
      { s with
        xmit_buffer := [],
        io := { s.io with
          write_buffer := [],
          log := s.io.log ++ txs.map WireEvent.tx } } msg b rest hstop hc hlt
      (by simpa [IOState.pending] using hp)
    refine ⟨txs, [], _, ?_, ?_, hcat, hp', rfl⟩
    · rw [e]
      simp only [hne, if_false]
    · simp
  · obtain ⟨io', e, hp', _, _, hso⟩ := read_u8_interruptable_wire
      { s with
        xmit_buffer := [],
        io := { s.io with
          write_buffer := [],
          log := s.io.log ++ txs.map WireEvent.tx } } msg b rest hstop hc hoff
      (by rcases hw with h | h
          · exact h
          · exact absurd h hlt)
      (by simpa [IOState.pending] using hp)
    obtain ⟨_, hwb', rxs, hlog⟩ := hso
    refine ⟨txs, rxs, io', ?_, hlog, hcat, hp', hwb'⟩
    rw [e]
    simp only [hne, if_false]

/-- The wait loop when the read buffer is drained: every queued wake-up interrupts
the wait once, and what the host enqueued with it is sent in the next turn. -/
theorem wait_all (b : UInt8) (rest : List UInt8) :
    ∀ (ws : List (List UInt8)) (fuel : Nat) (s : Conn) (msg : UInt8),
    s.coroutine_stop = false → s.io.compressed = none → s.io.write_buffer = [] →
    s.io.read_offset = s.io.read_buffer.length → s.io.pending = b :: rest →
    s.wakeups = ws → ws.length + 1 ≤ fuel →
    ∃ (txs rxs : List (List UInt8)) (cap : Nat) (io' : IOState),
      server_message_wait fuel s msg =
        (0, b, { s with xmit_buffer := [], xmit_buffer_capacity := cap, wakeups := [],
                        io := io' }) ∧
      io'.log = s.io.log ++ txs.map WireEvent.tx ++ rxs.map WireEvent.rx ∧
      txs.flatten = s.xmit_buffer ++ ws.flatten ∧ io'.pending = rest ∧
      io'.write_buffer = [] := by
  intro ws
  induction ws with
  | nil =>
    intro fuel s msg hstop hc hwb hoff hp hw hf
    obtain ⟨fuel, rfl⟩ : ∃ f, fuel = f + 1 := ⟨fuel - 1, by omega⟩
    obtain ⟨txs, rxs, io', e, hlog, hcat, hp', hwb'⟩ := wait_once fuel s msg b rest hstop hc hwb
      (by omega) hp (Or.inl hw)
    refine ⟨txs, rxs, s.xmit_buffer_capacity, io', ?_, hlog, by simpa using hcat, hp', hwb'⟩
    rw [e, ← hw]
  | cons w ws ih =>
    intro fuel s msg hstop hc hwb hoff hp hw hf
    obtain ⟨fuel, rfl⟩ : ∃ f, fuel = f + 1 := ⟨fuel - 1, by omega⟩
    obtain ⟨txs0, hd, hcat0⟩ := drain_live s hstop hwb
    have hwake := read_u8_interruptable_wake
      { s with
        xmit_buffer := [],
        io := { s.io with
          write_buffer := [],
          log := s.io.log ++ txs0.map WireEvent.tx } } msg w ws hstop hc hoff hw
    obtain ⟨txs, rxs, cap, io', e, hlog, hcat, hp', hwb'⟩ := ih fuel
      (vnc_connection_buffered_write
        { s with
          xmit_buffer := [],
          wakeups := ws,
          io := { s.io with
            write_buffer := [],
            log := s.io.log ++ txs0.map WireEvent.tx } } w) msg
      hstop hc rfl hoff (by simpa [IOState.pending] using hp) rfl
      (by simp only [List.length_cons] at hf; omega)
    refine ⟨txs0 ++ txs, rxs, cap, io', ?_, ?_, ?_, hp', hwb'⟩
    · rw [server_message_wait]
      simp only [hd, hwake, if_true]
      rw [e]
      simp [vnc_connection_buffered_write]
    · rw [hlog]
      simp [vnc_connection_buffered_write]
    · rw [List.flatten_append, hcat, hcat0]
      simp [vnc_connection_buffered_write]

/-- C8, as amended: messages k1, ..., kn enqueued with `vnc_connection_buffered_write`
since the last drain leave the xmit queue holding exactly k1 ++ ... ++ kn; and
the next call of `vnc_connection_server_message` made while no error is set writes
that concatenation to the transport in that order (followed by what the host
enqueues with wake-ups while the call waits), flushes it and empties the queue
before it receives anything: in the state `t` in which the message byte `b` is
dispatched, the transport log is the old log, then sends only, then receives only. -/
theorem xmit_queue_fifo (ext : External) (s : Conn) (ks : List (List UInt8)) (msg0 b : UInt8)
    (rest : List UInt8) (hx : s.xmit_buffer = []) (hstop : s.coroutine_stop = false)
    (hwb : s.io.write_buffer = []) (hc : s.io.compressed = none)
    (hoff : s.io.read_offset ≤ s.io.read_buffer.length) (hp : s.io.pending = b :: rest) :
    (ks.foldl vnc_connection_buffered_write s).xmit_buffer = ks.flatten ∧
    ∃ (txs rxs : List (List UInt8)) (t : Conn),
      vnc_connection_server_message ext (ks.foldl vnc_connection_buffered_write s) msg0 =
        (!vnc_connection_has_error (server_message_dispatch ext t b.toNat),
          server_message_dispatch ext t b.toNat) ∧
      t.xmit_buffer = [] ∧ t.io.write_buffer = [] ∧
      t.io.log = s.io.log ++ txs.map WireEvent.tx ++ rxs.map WireEvent.rx ∧
      txs.flatten = ks.flatten ++
        (if s.io.read_offset = s.io.read_buffer.length then s.wakeups.flatten else []) ∧
      t.io.pending = rest := by
  obtain ⟨cap0, e0⟩ := fold_buffered_write ks s
  rw [e0, hx, List.nil_append]
  refine ⟨rfl, ?_⟩
  have hlive : vnc_connection_has_error
      { s with xmit_buffer := ks.flatten, xmit_buffer_capacity := cap0 } = false := hstop
  have hnn : ¬ ((0 : Int) < 0) := by decide
  by_cases hfull : s.io.read_offset = s.io.read_buffer.length
  · obtain ⟨txs, rxs, cap, io', e, hlog, hcat, hp', hwb'⟩ := wait_all b rest s.wakeups
      (s.wakeups.length + 1)
      { s with xmit_buffer := ks.flatten, xmit_buffer_capacity := cap0 } msg0
      hstop hc hwb hfull hp rfl (Nat.le_refl _)
    refine ⟨txs, rxs,
      { s with
        xmit_buffer := [],
        xmit_buffer_capacity := cap,
        wakeups := [],
        io := io' }, ?_, ?_, hwb', hlog, ?_, hp'⟩
    · unfold vnc_connection_server_message
      simp only [hlive, Bool.false_eq_true, if_false, e, hnn]
    · rfl
    · rw [hcat, if_pos hfull]
  · obtain ⟨txs, rxs, io', e, hlog, hcat, hp', hwb'⟩ := wait_once s.wakeups.length
      { s with xmit_buffer := ks.flatten, xmit_buffer_capacity := cap0 } msg0 b rest
      hstop hc hwb hoff hp
      (Or.inr (by show s.io.read_offset < s.io.read_buffer.length; omega))
    refine ⟨txs, rxs,
      { s with
        xmit_buffer := [],
        xmit_buffer_capacity := cap0,
        io := io' }, ?_, ?_, hwb', hlog, ?_, hp'⟩
    · unfold vnc_connection_server_message
      simp only [hlive, Bool.false_eq_true, if_false, e, hnn]
    · rfl
    · rw [hcat, if_neg hfull]
      simp

theorem xmit_queue_fifo_witness :
    ((session rgb888 640 480 [2]).xmit_buffer = [] ∧
      (session rgb888 640 480 [2]).coroutine_stop = false ∧
      (session rgb888 640 480 [2]).io.pending = [2]) ∧
    ((([[5, 0, 0, 1, 0, 2], [4, 1, 0, 0, 0, 0, 0, 65]] : List (List UInt8)).foldl
        vnc_connection_buffered_write (session rgb888 640 480 [2])).xmit_buffer =
      ([[5, 0, 0, 1, 0, 2], [4, 1, 0, 0, 0, 0, 0, 65]] : List (List UInt8)).flatten ∧
    ∃ (txs rxs : List (List UInt8)) (t : Conn),
      vnc_connection_server_message idle_external
        (([[5, 0, 0, 1, 0, 2], [4, 1, 0, 0, 0, 0, 0, 65]] : List (List UInt8)).foldl
          vnc_connection_buffered_write (session rgb888 640 480 [2])) 0 =
        (!vnc_connection_has_error (server_message_dispatch idle_external t (2 : UInt8).toNat),
          server_message_dispatch idle_external t (2 : UInt8).toNat) ∧
      t.xmit_buffer = [] ∧ t.io.write_buffer = [] ∧
      t.io.log = (session rgb888 640 480 [2]).io.log ++ txs.map WireEvent.tx ++
        rxs.map WireEvent.rx ∧
      txs.flatten = ([[5, 0, 0, 1, 0, 2], [4, 1, 0, 0, 0, 0, 0, 65]] : List (List UInt8)).flatten ++
        (if (session rgb888 640 480 [2]).io.read_offset =
            (session rgb888 640 480 [2]).io.read_buffer.length
          then (session rgb888 640 480 [2]).wakeups.flatten else []) ∧
      t.io.pending = []) :=
  ⟨by decide, xmit_queue_fifo idle_external (session rgb888 640 480 [2])
    [[5, 0, 0, 1, 0, 2], [4, 1, 0, 0, 0, 0, 0, 65]] 0 2 [] rfl rfl rfl rfl (by decide)
    (by decide)⟩

/-- C8, the claim as stated fails: when the error flag is set,
`vnc_connection_server_message` returns at once; the queued message is not written to
the transport and the queue is not emptied. -/
theorem xmit_queue_kept_on_error :
    (vnc_connection_server_message idle_external
      (vnc_connection_buffered_write
        { session rgb888 640 480 [2] with coroutine_stop := true } [5, 0, 0, 1, 0, 2]) 0).2.io.log
      = [] ∧
    (vnc_connection_server_message idle_external
      (vnc_connection_buffered_write
        { session rgb888 640 480 [2] with coroutine_stop := true } [5, 0, 0, 1, 0, 2])
      0).2.xmit_buffer = [5, 0, 0, 1, 0, 2] := by
  decide

/-! ## Version exchange -/

theorem write_fits (s : Conn) (data : List UInt8)
    (h : s.io.write_buffer.length + data.length ≤ 4096) :
    vnc_connection_write s data =
      { s with io := { s.io with write_buffer := s.io.write_buffer ++ data } } := by
  unfold vnc_connection_write
  cases hd : data with
  | nil => simp [vnc_connection_write_loop]
  | cons a t =>
    subst hd
    have hlen : (a :: t).length = t.length + 1 := rfl
    have hne : ¬ s.io.write_buffer.length = 4096 := by
      simp only [List.length_cons] at h; omega
    have hmin : min (4096 - s.io.write_buffer.length) (t.length + 1) = t.length + 1 := by
      simp only [List.length_cons] at h; omega
    rw [hlen, vnc_connection_write_loop]
    simp only [List.length_cons, Nat.add_one_ne_zero, if_false, hne, hmin]
    have hdrop : (a :: t).drop (t.length + 1) = [] := by simp
    have htake : (a :: t).take (t.length + 1) = a :: t := by simp
    rw [hdrop, htake]
    cases t.length <;> simp [vnc_connection_write_loop]

theorem digit_char : ∀ k : Fin 10,
    isdigit (UInt8.ofNat (48 + k.val)) = true ∧ isspace (UInt8.ofNat (48 + k.val)) = false ∧
    UInt8.ofNat (48 + k.val) ≠ 45 ∧ UInt8.ofNat (48 + k.val) ≠ 43 ∧
    UInt8.ofNat (48 + k.val) ≠ 0 ∧ (UInt8.ofNat (48 + k.val)).toNat - 48 = k.val := by
  decide

theorem scan_d3_digits (n : Nat) (hn : n < 1000) (rest : List UInt8) :
    scan_d3 (digits3 n ++ rest) = some ((n : Int), rest) := by
  obtain ⟨ha1, ha2, ha3, ha4, _, ha6⟩ := digit_char ⟨n / 100 % 10, Nat.mod_lt _ (by decide)⟩
  obtain ⟨hb1, _, _, _, _, hb6⟩ := digit_char ⟨n / 10 % 10, Nat.mod_lt _ (by decide)⟩
  obtain ⟨hc1, _, _, _, _, hc6⟩ := digit_char ⟨n % 10, Nat.mod_lt _ (by decide)⟩
  simp only at ha1 ha2 ha3 ha4 ha6 hb1 hb6 hc1 hc6
  simp only [scan_d3, digits3, List.cons_append, List.nil_append, List.dropWhile_cons, ha2,
    Bool.false_eq_true, if_false, ha3, ha4, or_self, List.take_succ_cons, List.take_zero,
    List.takeWhile_cons, ha1, hb1, hc1, if_true, List.takeWhile_nil, List.length_cons,
    List.length_nil, List.drop_succ_cons, List.drop_zero, digits_value, List.foldl_cons,
    List.foldl_nil, ha6, hb6, hc6]
  simp only [Nat.reduceAdd, Nat.add_one_ne_zero, if_false, Option.some.injEq, Prod.mk.injEq,
    and_true]
  have : (0 * 10 + n / 100 % 10) * 10 + n / 10 % 10 = n / 10 := by omega
  rw [this]
  have : n / 10 * 10 + n % 10 = n := by omega
  rw [this]

theorem scan_d3_space (l : List UInt8) : scan_d3 (32 :: l) = scan_d3 l := by
  simp [scan_d3, List.dropWhile_cons, isspace]

theorem sscanf_banner (M m : Nat) (hM : M < 1000) (hm : m < 1000) (major minor : Int) :
    sscanf_version (banner M m) major minor = (2, (M : Int), (m : Int)) := by
  obtain ⟨_, ha2, _, _, _, _⟩ := digit_char ⟨M / 100 % 10, Nat.mod_lt _ (by decide)⟩
  simp only at ha2
  have h1 : scan_d3 (32 :: (digits3 M ++ 46 :: (digits3 m ++ [10]))) =
      some ((M : Int), 46 :: (digits3 m ++ [10])) := by
    rw [scan_d3_space, scan_d3_digits M hM]
  have h2 : scan_d3 (digits3 m ++ [10]) = some ((m : Int), [10]) := scan_d3_digits m hm [10]
  have h0 : ((32 :: (digits3 M ++ 46 :: (digits3 m ++ [10]))).dropWhile isspace).length ≠ 0 := by
    have hsp : isspace 32 = true := by decide
    simp only [digits3, List.cons_append, List.nil_append, List.dropWhile_cons, hsp, if_true, ha2,
      Bool.false_eq_true, if_false]
    simp
  simp only [banner, List.cons_append, List.nil_append, List.append_assoc, sscanf_version]
  simp only [List.cons_append, List.nil_append] at h0 h1
  simp [h0, h1, h2]

theorem c_string_banner (M m : Nat) (tail : List UInt8) :
    c_string (banner M m ++ 0 :: tail) = banner M m := by
  obtain ⟨_, _, _, _, ha, _⟩ := digit_char ⟨M / 100 % 10, Nat.mod_lt _ (by decide)⟩
  obtain ⟨_, _, _, _, hb, _⟩ := digit_char ⟨M / 10 % 10, Nat.mod_lt _ (by decide)⟩
  obtain ⟨_, _, _, _, hc, _⟩ := digit_char ⟨M % 10, Nat.mod_lt _ (by decide)⟩
  obtain ⟨_, _, _, _, hd, _⟩ := digit_char ⟨m / 100 % 10, Nat.mod_lt _ (by decide)⟩
  obtain ⟨_, _, _, _, he, _⟩ := digit_char ⟨m / 10 % 10, Nat.mod_lt _ (by decide)⟩
  obtain ⟨_, _, _, _, hf, _⟩ := digit_char ⟨m % 10, Nat.mod_lt _ (by decide)⟩
  simp only at ha hb hc hd he hf
  simp [c_string, banner, digits3, List.takeWhile_cons, ha, hb, hc, hd, he, hf]

theorem banner_length (M m : Nat) : (banner M m).length = 12 := rfl

theorem snprintf_pinned :
    snprintf_version 3 3 = banner 3 3 ∧ snprintf_version 3 7 = banner 3 7 ∧
    snprintf_version 3 8 = banner 3 8 := by
  decide

theorem set_banner (M m : Nat) : (banner M m ++ [0]).set 12 0 = banner M m ++ [0] := by
  simp [banner, digits3]

/-- The banner is written and flushed as one send. -/
theorem write_banner (s : Conn) (b : List UInt8) (hb : b.length = 12)
    (hstop : s.coroutine_stop = false) (hw : s.io.write_buffer = []) :
    vnc_connection_flush (vnc_connection_write s b) =
      { s with io := { s.io with write_buffer := [], log := s.io.log ++ [WireEvent.tx b] } } := by
  have hfl := flush_live { s with io := { s.io with write_buffer := s.io.write_buffer ++ b } } hstop
  rw [write_fits s b (by rw [hw, hb]; decide), hfl]
  have hne : ¬ b.length = 0 := by omega
  simp [hw, hne]

/-- The state of the version exchange once the server's banner is read and scanned. -/
theorem initialize_version_scan (s : Conn) (M m : Nat) (rest : List UInt8)
    (hM : M < 1000) (hm : m < 1000) (h : Ready s (banner M m ++ rest)) :
    ∃ io1, SameOutput s.io io1 ∧ io1.pending = rest ∧
      io1.read_offset ≤ io1.read_buffer.length ∧
      vnc_connection_read { s with absPointer := 1 } (List.replicate 13 0) 12 =
        (0, banner M m ++ [0], { s with absPointer := 1, io := io1 }) ∧
      sscanf_version (c_string ((banner M m ++ [0]).set 12 0)) s.major s.minor =
        (2, (M : Int), (m : Int)) := by
  have h' : Ready { s with absPointer := 1 } (banner M m ++ rest) := h
  obtain ⟨io1, hread, hready1, hso1⟩ := read_ok { s with absPointer := 1 } (banner M m) rest
    (List.replicate 13 0) h'
  rw [banner_length] at hread
  refine ⟨io1, hso1, hready1.2.2, hready1.2.1, ?_, ?_⟩
  · rw [hread]; rfl
  · rw [set_banner, c_string_banner, sscanf_banner M m hM hm]

/-- C11, as amended. For a server banner "RFB MMM.mmm\n": when the version is older
than 3.3, `vnc_connection_initialize` sets the error "Server version is not
supported" and sends nothing; otherwise the version it adopts is 3.3 for a server
version below 3.7, and else the smaller of the server version and 3.8 (so one of
3.3, 3.7, 3.8), and it sends that version back as one 12-byte banner. -/
theorem initialize_version_pinned (s : Conn) (M m : Nat) (rest : List UInt8)
    (hM : M < 1000) (hm : m < 1000) (h : Ready s (banner M m ++ rest))
    (hw : s.io.write_buffer = []) :
    (version_older (M, m) (3, 3) →
      ∃ io', vnc_connection_initialize_version s =
          (false, { s with
            absPointer := 1
            major := (M : Int)
            minor := (m : Int)
            error := some (ErrorText.fmt "Server version is not supported (%d.%d)" [(M : Int), (m : Int)])
            coroutine_stop := true
            signals := s.signals ++ [Signal.error
              (ErrorText.fmt "Server version is not supported (%d.%d)" [(M : Int), (m : Int)])]
            io := io' }) ∧
        SameOutput s.io io' ∧ io'.pending = rest) ∧
    (¬ version_older (M, m) (3, 3) →
      ∃ (io' : IOState) (rxs : List (List UInt8)),
        vnc_connection_initialize_version s =
          (true, { s with
            absPointer := 1
            major := ((pinned_version (M, m)).1 : Int)
            minor := ((pinned_version (M, m)).2 : Int)
            io := io' }) ∧
        io'.log = s.io.log ++ rxs.map WireEvent.rx ++
          [WireEvent.tx (banner (pinned_version (M, m)).1 (pinned_version (M, m)).2)] ∧
        io'.write_buffer = [] ∧ io'.pending = rest ∧
        io'.read_offset ≤ io'.read_buffer.length ∧
        io'.compressed.isSome = s.io.compressed.isSome ∧
        (pinned_version (M, m) = (3, 3) ∨ pinned_version (M, m) = (3, 7) ∨
          pinned_version (M, m) = (3, 8))) := by
  obtain ⟨io1, ⟨hcmp, hwb1, rxs, hlog1⟩, hpend1, hoff1, hread, hscan⟩ :=
    initialize_version_scan s M m rest hM hm h
  have hstop : s.coroutine_stop = false := h.1
  obtain ⟨fmt, err, stop, w0, h0, ma, mi, io⟩ := s
  dsimp only at hstop hw hcmp hwb1 hlog1 hread hscan
  subst hstop
  unfold vnc_connection_initialize_version
  dsimp only
  rw [hread]
  dsimp only [vnc_connection_has_error]
  rw [hscan]
  dsimp only [vnc_connection_before_version, vnc_connection_after_version]
  simp only [ne_eq, not_true_eq_false, if_false]
  constructor
  · intro hold
    have hb33 : (decide ((M : Int) < 3) || (decide ((M : Int) = 3) && decide ((m : Int) < 3))) =
        true := by
      unfold version_older at hold
      simp only [Bool.or_eq_true, Bool.and_eq_true, decide_eq_true_eq]
      omega
    rw [hb33]
    refine ⟨io1, ?_, ⟨hcmp, hwb1, rxs, hlog1⟩, hpend1⟩
    simp [vnc_connection_set_error, vnc_connection_emit_main_context]
  · intro hnew
    have hb33 : (decide ((M : Int) < 3) || (decide ((M : Int) = 3) && decide ((m : Int) < 3))) =
        false := by
      unfold version_older at hnew
      simp only [Bool.or_eq_false_iff, Bool.and_eq_false_iff, decide_eq_false_iff_not]
      omega
    rw [hb33]
    have hpend : ∀ b : List UInt8,
        ({ io1 with write_buffer := [], log := io1.log ++ [WireEvent.tx b] } : IOState).pending =
          rest := by
      intro b
      rw [← hpend1]; rfl
    by_cases hA : version_older (M, m) (3, 7)
    · -- server versions 3.3 to 3.6
      have hM3 : M = 3 := by
        unfold version_older at hA hnew; dsimp only at hA hnew; omega
      subst hM3
      have hb37 : (decide (((3 : Nat) : Int) < 3) ||
          (decide (((3 : Nat) : Int) = 3) && decide ((m : Int) < 7))) = true := by
        unfold version_older at hA
        simp only [Bool.or_eq_true, Bool.and_eq_true, decide_eq_true_eq]
        dsimp only at hA
        omega
      have hp : pinned_version (3, m) = (3, 3) := by simp [pinned_version, hA]
      rw [hb37, hp]
      refine ⟨{ io1 with write_buffer := [], log := io1.log ++ [WireEvent.tx (banner 3 3)] }, rxs,
        ?_, ?_, rfl, hpend _, hoff1, hcmp, Or.inl rfl⟩
      · simp only [Bool.false_eq_true, if_false, if_true, Nat.cast_ofNat]
        rw [snprintf_pinned.1, write_banner _ _ (banner_length 3 3) rfl (hwb1.trans hw)]
      · simp [hlog1]
    · have hb37 : (decide ((M : Int) < 3) ||
          (decide ((M : Int) = 3) && decide ((m : Int) < 7))) = false := by
        unfold version_older at hA
        simp only [Bool.or_eq_false_iff, Bool.and_eq_false_iff, decide_eq_false_iff_not]
        dsimp only at hA
        omega
      rw [hb37]
      by_cases hB : version_older (M, m) (3, 8)
      · -- server version 3.7
        have hM3 : M = 3 := by
          unfold version_older at hA hB; dsimp only at hA hB; omega
        have hm7 : m = 7 := by
          unfold version_older at hA hB; dsimp only at hA hB; omega
        subst hM3 hm7
        have hp : pinned_version (3, 7) = (3, 7) := by decide
        rw [hp]
        refine ⟨{ io1 with write_buffer := [], log := io1.log ++ [WireEvent.tx (banner 3 7)] },
          rxs, ?_, ?_, rfl, hpend _, hoff1, hcmp, Or.inr (Or.inl rfl)⟩
        · simp only [Nat.cast_ofNat, Int.reduceAdd, Int.reduceLT, decide_True, decide_False,
            Bool.or_true, Bool.true_or, Bool.and_true, Bool.not_true, Bool.false_eq_true, if_false,
            Bool.or_self, Bool.and_self, Bool.false_or]
          rw [snprintf_pinned.2.1, write_banner _ _ (banner_length 3 7) rfl (hwb1.trans hw)]
        · simp [hlog1]
      · -- server version 3.8 or newer
        have hp : pinned_version (M, m) = (3, 8) := by
          simp [pinned_version, version_min, hA, hB]
        rw [hp]
        refine ⟨{ io1 with write_buffer := [], log := io1.log ++ [WireEvent.tx (banner 3 8)] },
          rxs, ?_, ?_, rfl, hpend _, hoff1, hcmp, Or.inr (Or.inr rfl)⟩
        · by_cases h9 : (decide ((M : Int) < 3) ||
              (decide ((M : Int) = 3) && decide ((m : Int) < 8 + 1))) = true
          · have hM3 : M = 3 := by
              simp only [Bool.or_eq_true, Bool.and_eq_true, decide_eq_true_eq] at h9
              unfold version_older at hA hB; dsimp only at hA hB; omega
            have hm8 : m = 8 := by
              simp only [Bool.or_eq_true, Bool.and_eq_true, decide_eq_true_eq] at h9
              unfold version_older at hA hB; dsimp only at hA hB; omega
            subst hM3 hm8
            simp only [Nat.cast_ofNat, Int.reduceAdd, Int.reduceLT, decide_True, decide_False,
              Bool.or_true, Bool.true_or, Bool.and_true, Bool.not_true, Bool.false_eq_true,
              if_false, Bool.or_self, Bool.and_self, Bool.false_or]
            rw [snprintf_pinned.2.2, write_banner _ _ (banner_length 3 8) rfl (hwb1.trans hw)]
          · simp only [Bool.not_eq_true] at h9
            rw [h9]
            simp only [Bool.not_false, Bool.false_eq_true, if_true, if_false]
            rw [snprintf_pinned.2.2, write_banner _ _ (banner_length 3 8) rfl (hwb1.trans hw)]
            rfl
        · simp [hlog1]

theorem initialize_version_pinned_witness :
    (Ready (session rgb888 0 0 (banner 3 2 ++ [1])) (banner 3 2 ++ [1]) ∧
      version_older (3, 2) (3, 3) ∧
      Ready (session rgb888 0 0 (banner 3 8 ++ [1])) (banner 3 8 ++ [1]) ∧
      ¬ version_older (3, 8) (3, 3)) ∧
    (∃ io', vnc_connection_initialize_version (session rgb888 0 0 (banner 3 2 ++ [1])) =
        (false, { session rgb888 0 0 (banner 3 2 ++ [1]) with
          absPointer := 1
          major := ((3 : Nat) : Int)
          minor := ((2 : Nat) : Int)
          error := some (ErrorText.fmt "Server version is not supported (%d.%d)"
            [((3 : Nat) : Int), ((2 : Nat) : Int)])
          coroutine_stop := true
          signals := (session rgb888 0 0 (banner 3 2 ++ [1])).signals ++ [Signal.error
            (ErrorText.fmt "Server version is not supported (%d.%d)"
              [((3 : Nat) : Int), ((2 : Nat) : Int)])]
          io := io' }) ∧
      SameOutput (session rgb888 0 0 (banner 3 2 ++ [1])).io io' ∧ io'.pending = [1]) ∧
    (∃ (io' : IOState) (rxs : List (List UInt8)),
      vnc_connection_initialize_version (session rgb888 0 0 (banner 3 8 ++ [1])) =
        (true, { session rgb888 0 0 (banner 3 8 ++ [1]) with
          absPointer := 1
          major := ((pinned_version (3, 8)).1 : Int)
          minor := ((pinned_version (3, 8)).2 : Int)
          io := io' }) ∧
      io'.log = (session rgb888 0 0 (banner 3 8 ++ [1])).io.log ++ rxs.map WireEvent.rx ++
        [WireEvent.tx (banner (pinned_version (3, 8)).1 (pinned_version (3, 8)).2)] ∧
      io'.write_buffer = [] ∧ io'.pending = [1] ∧
      io'.read_offset ≤ io'.read_buffer.length ∧
      io'.compressed.isSome = (session rgb888 0 0 (banner 3 8 ++ [1])).io.compressed.isSome ∧
      (pinned_version (3, 8) = (3, 3) ∨ pinned_version (3, 8) = (3, 7) ∨
        pinned_version (3, 8) = (3, 8))) :=
  ⟨⟨ready_session _ _ _ _, by decide, ready_session _ _ _ _, by decide⟩,
    (initialize_version_pinned (session rgb888 0 0 (banner 3 2 ++ [1])) 3 2 [1] (by decide)
      (by decide) (ready_session _ _ _ _) rfl).1 (by decide),
    (initialize_version_pinned (session rgb888 0 0 (banner 3 8 ++ [1])) 3 8 [1] (by decide)
      (by decide) (ready_session _ _ _ _) rfl).2 (by decide)⟩

/-- C11, the claim as stated fails: for the server banner "RFB 003.005\n" the smaller
of the server version and 3.8 is 3.5, but the version adopted and sent back is 3.3. -/
theorem initialize_version_not_min :
    ¬ version_older (3, 5) (3, 3) ∧ version_min (3, 5) (3, 8) = (3, 5) ∧
    (vnc_connection_initialize_version (session rgb888 0 0 (banner 3 5))).1 = true ∧
    (vnc_connection_initialize_version (session rgb888 0 0 (banner 3 5))).2.major = 3 ∧
    (vnc_connection_initialize_version (session rgb888 0 0 (banner 3 5))).2.minor = 3 ∧
    (vnc_connection_initialize_version (session rgb888 0 0 (banner 3 5))).2.io.log =
      [WireEvent.rx (banner 3 5), WireEvent.tx (banner 3 3)] := by
  decide

/-! ## The error flag and the I/O layer -/

/-- C12: once `coroutine_stop` is set, `vnc_connection_read` returns the negative code
`-EINVAL` for every requested length and leaves the destination buffer and the
whole state (read offset, read buffer, transport, log) as they are;
`vnc_connection_read_wire` does the same, `vnc_connection_flush_wire` sends nothing
for any data, and `coroutine_stop` stays set. -/
theorem coroutine_stop_sticky (s : Conn) (hstop : s.coroutine_stop = true)
    (init data : List UInt8) (len : Nat) (interruptable : Bool) :
    vnc_connection_read s init len = (-EINVAL, init, s) ∧ -EINVAL < 0 ∧
    vnc_connection_read_wire interruptable s len = (-EINVAL, [], s) ∧
    vnc_connection_flush_wire s data = s ∧
    (vnc_connection_read s init len).2.2.coroutine_stop = true ∧
    (vnc_connection_flush_wire s data).coroutine_stop = true ∧
    (vnc_connection_flush s).io.log = s.io.log ∧
    (vnc_connection_flush s).coroutine_stop = true := by
  have h1 : vnc_connection_read s init len = (-EINVAL, init, s) := by
    simp [vnc_connection_read, vnc_connection_read_gen, hstop]
  have h2 : vnc_connection_flush_wire s data = s := by
    unfold vnc_connection_flush_wire
    by_cases hd : data.length = 0 <;> simp [hd, hstop]
  have h3 : vnc_connection_flush_wire s s.io.write_buffer = s := by
    unfold vnc_connection_flush_wire
    by_cases hd : s.io.write_buffer.length = 0 <;> simp [hd, hstop]
  refine ⟨h1, by decide, ?_, h2, ?_, ?_, ?_, ?_⟩
  · simp [vnc_connection_read_wire, hstop]
  · rw [h1]; exact hstop
  · rw [h2]; exact hstop
  · simp [vnc_connection_flush, vnc_connection_flush_plain, h3]
  · simp [vnc_connection_flush, vnc_connection_flush_plain, h3, hstop]

theorem coroutine_stop_sticky_witness :
    ({ session rgb888 640 480 [1, 2, 3] with coroutine_stop := true }).coroutine_stop = true ∧
    vnc_connection_read { session rgb888 640 480 [1, 2, 3] with coroutine_stop := true }
      [9, 9] 2 =
      (-EINVAL, [9, 9], { session rgb888 640 480 [1, 2, 3] with coroutine_stop := true }) ∧
    vnc_connection_flush_wire { session rgb888 640 480 [1, 2, 3] with coroutine_stop := true }
      [7] = { session rgb888 640 480 [1, 2, 3] with coroutine_stop := true } :=
  ⟨rfl,
    (coroutine_stop_sticky { session rgb888 640 480 [1, 2, 3] with coroutine_stop := true } rfl
      [9, 9] [7] 2 false).1,
    (coroutine_stop_sticky { session rgb888 640 480 [1, 2, 3] with coroutine_stop := true } rfl
      [9, 9] [7] 2 false).2.2.2.1⟩

/-! ## VNC authentication -/

/-- Data that fits the write buffer is written and flushed as one send. -/
theorem write_flush_one (s : Conn) (b : List UInt8) (hb0 : b.length ≠ 0) (hb : b.length ≤ 4096)
    (hstop : s.coroutine_stop = false) (hw : s.io.write_buffer = []) :
    vnc_connection_flush (vnc_connection_write s b) =
      { s with io := { s.io with write_buffer := [], log := s.io.log ++ [WireEvent.tx b] } } := by
  have hfl := flush_live { s with io := { s.io with write_buffer := s.io.write_buffer ++ b } } hstop
  rw [write_fits s b (by rw [hw]; simpa using hb), hfl]
  simp [hw, hb0]

theorem c_string_nonzero (p : List UInt8) (hp : ∀ b ∈ p, b ≠ 0) : c_string p = p := by
  unfold c_string
  rw [List.takeWhile_eq_self_iff]
  intro b hb
  simpa using hp b hb

theorem des_block_length (lib : Library) (key block : List UInt8) :
    (des_block lib key block).length = 8 := by
  simp [des_block]

theorem vnc_des_key_length (p : List UInt8) : (vnc_des_key p).length = 8 := by
  simp only [vnc_des_key, List.length_append, List.length_take, List.length_replicate]
  omega

/-- The password is there, or the host hands it over when asked. -/
theorem gather_password (lib : Library) (s : Conn) (p : List UInt8) (hp : ∀ b ∈ p, b ≠ 0)
    (hstop : s.coroutine_stop = false) (hwu : s.want_cred_username = false)
    (hwp : s.want_cred_password = true) (hwx : s.want_cred_x509 = false)
    (hcred : s.cred_password = some p ∨ (s.cred_password = none ∧ ∃ hs, s.host_calls =
      HostCall.set_credential VNC_CONNECTION_CREDENTIAL_PASSWORD p :: hs)) :
    ∃ (sig : List Signal) (hc : List HostCall),
      vnc_connection_gather_credentials lib s =
        (true, { s with cred_password := some p, signals := s.signals ++ sig, host_calls := hc }) := by
  rcases hcred with hpw | ⟨hpw, hs, hh⟩
  · refine ⟨[], s.host_calls, ?_⟩
    have hhas : vnc_connection_has_credentials lib s = true := by
      simp [vnc_connection_has_credentials, hstop, hwu, hwp, hwx, hpw]
    unfold vnc_connection_gather_credentials
    simp only [hstop, Bool.false_eq_true, if_false, hhas, Bool.not_true, vnc_connection_has_error,
      Bool.not_false, List.append_nil]
    rw [← hpw]
    cases s
    simp only at hstop
    subst hstop
    rfl
  · refine ⟨[Signal.auth_credential [VNC_CONNECTION_CREDENTIAL_PASSWORD.toNat]], hs, ?_⟩
    have hhas : vnc_connection_has_credentials lib s = false := by
      simp [vnc_connection_has_credentials, hstop, hwu, hwp, hwx, hpw]
    unfold vnc_connection_gather_credentials
    simp only [hstop, Bool.false_eq_true, if_false, hhas, Bool.not_false, if_true, hwu, hwp, hwx,
      vnc_connection_emit_main_context, g_condition_wait, hh, List.nil_append, List.append_nil]
    simp only [g_condition_wait_loop, vnc_connection_has_credentials, hstop, hwu, hwp, hwx, hpw,
      Bool.false_eq_true, if_false, Bool.true_and, Option.isNone_none, if_true, host_call,
      vnc_connection_set_credential, c_string_nonzero p hp, vnc_connection_has_error,
      Bool.not_false, Bool.and_self, Bool.false_and, Option.isNone_some, Bool.and_false]
    cases hs <;> simp [g_condition_wait_loop, vnc_connection_has_credentials, hstop, hwu, hwp, hwx]

/-- C13: VNC authentication with the password `p` (already set, or handed over by the
host when the credential is requested) and the 16-byte challenge `c`. The key given
to DES is `vnc_des_key p`: the first min(len p, 8) bytes of `p` unchanged, then zero
bytes up to eight. Exactly 16 bytes are sent, in one piece: the DES output for the
first half of `c` followed by the DES output for the second half; then the
authentication result is checked. -/
theorem perform_auth_vnc_response (lib : Library) (s : Conn) (p c rest : List UInt8)
    (hp : ∀ b ∈ p, b ≠ 0) (hc : c.length = 16) (h : Ready s (c ++ rest))
    (hw : s.io.write_buffer = [])
    (hcred : s.cred_password = some p ∨ (s.cred_password = none ∧ ∃ hs, s.host_calls =
      HostCall.set_credential VNC_CONNECTION_CREDENTIAL_PASSWORD p :: hs)) :
    ∃ (t : Conn) (rxs : List (List UInt8)),
      vnc_connection_perform_auth_vnc lib s = vnc_connection_check_auth_result t ∧
      t.io.log = s.io.log ++ rxs.map WireEvent.rx ++
        [WireEvent.tx (des_block lib (vnc_des_key p) (c.take 8) ++
          des_block lib (vnc_des_key p) (c.drop 8))] ∧
      (des_block lib (vnc_des_key p) (c.take 8) ++
        des_block lib (vnc_des_key p) (c.drop 8)).length = 16 ∧
      vnc_des_key p = p.take (min p.length 8) ++ List.replicate (8 - min p.length 8) 0 ∧
      (vnc_des_key p).length = 8 ∧
      t.io.write_buffer = [] ∧ t.io.pending = rest ∧ t.coroutine_stop = false := by
  obtain ⟨sig, hcalls, hg⟩ := gather_password lib
    { s with want_cred_password := true, want_cred_username := false, want_cred_x509 := false }
    p hp h.1 rfl rfl rfl hcred
  obtain ⟨io1, hread, hready, ⟨hcmp, hwb1, rxs, hlog1⟩⟩ := read_ok
    { s with want_cred_password := true, want_cred_username := false, want_cred_x509 := false,
             cred_password := some p, signals := s.signals ++ sig, host_calls := hcalls }
    c rest (List.replicate 16 0) h
  have hlen : (des_block lib (vnc_des_key p) (c.take 8) ++
      des_block lib (vnc_des_key p) (c.drop 8)).length = 16 := by
    simp [des_block_length]
  have hkey : p.take (min (c_string p).length 8) ++
      List.replicate (8 - min (c_string p).length 8) 0 = vnc_des_key p := by
    rw [c_string_nonzero p hp]; rfl
  have hdrop : (c.drop 8).take 8 = c.drop 8 := by
    apply List.take_of_length_le
    simp [hc]
  rw [hc] at hread
  dsimp only at hg hread hlog1 hwb1
  refine ⟨{ s with
      want_cred_password := true
      want_cred_username := false
      want_cred_x509 := false
      cred_password := some p
      signals := s.signals ++ sig
      host_calls := hcalls
      io := { io1 with write_buffer := [], log := io1.log ++ [WireEvent.tx
        (des_block lib (vnc_des_key p) (c.take 8) ++ des_block lib (vnc_des_key p) (c.drop 8))] } },
    rxs, ?_, ?_, hlen, rfl, vnc_des_key_length p, rfl, ?_, h.1⟩
  · unfold vnc_connection_perform_auth_vnc
    dsimp only
    rw [hg]
    dsimp only
    rw [hread]
    dsimp only
    have hc16 : c ++ (List.replicate 16 (0 : UInt8)).drop 16 = c := by simp
    have hwf := write_flush_one
      { s with
        want_cred_password := true
        want_cred_username := false
        want_cred_x509 := false
        cred_password := some p
        signals := s.signals ++ sig
        host_calls := hcalls
        io := io1 }
      (des_block lib (vnc_des_key p) (c.take 8) ++ des_block lib (vnc_des_key p) (c.drop 8))
      (by rw [hlen]; decide) (by rw [hlen]; decide) h.1 (hwb1.trans hw)
    dsimp only at hwf
    rw [hc16, hkey, hdrop, hwf]
  · simp [hlog1]
  · show ({ io1 with write_buffer := [], log := _ } : IOState).pending = rest
    rw [← hready.2.2]; rfl

theorem perform_auth_vnc_response_witness :
    vnc_des_key [112, 97, 115, 115] = [112, 97, 115, 115, 0, 0, 0, 0] ∧
    ∃ (t : Conn) (rxs : List (List UInt8)),
      vnc_connection_perform_auth_vnc bare_library
        { session rgb888 0 0 (List.replicate 16 0 ++ [0, 0, 0, 0]) with
          cred_password := some [112, 97, 115, 115] } = vnc_connection_check_auth_result t ∧
      t.io.log = ({ session rgb888 0 0 (List.replicate 16 0 ++ [0, 0, 0, 0]) with
          cred_password := some [112, 97, 115, 115] } : Conn).io.log ++ rxs.map WireEvent.rx ++
        [WireEvent.tx (des_block bare_library (vnc_des_key [112, 97, 115, 115])
            ((List.replicate 16 0).take 8) ++
          des_block bare_library (vnc_des_key [112, 97, 115, 115])
            ((List.replicate 16 0).drop 8))] ∧
      (des_block bare_library (vnc_des_key [112, 97, 115, 115]) ((List.replicate 16 0).take 8) ++
        des_block bare_library (vnc_des_key [112, 97, 115, 115])
          ((List.replicate 16 0).drop 8)).length = 16 ∧
      vnc_des_key [112, 97, 115, 115] =
        ([112, 97, 115, 115] : List UInt8).take (min ([112, 97, 115, 115] : List UInt8).length 8) ++
          List.replicate (8 - min ([112, 97, 115, 115] : List UInt8).length 8) 0 ∧
      (vnc_des_key [112, 97, 115, 115]).length = 8 ∧
      t.io.write_buffer = [] ∧ t.io.pending = [0, 0, 0, 0] ∧ t.coroutine_stop = false :=
  ⟨by decide,
    perform_auth_vnc_response bare_library
      { session rgb888 0 0 (List.replicate 16 0 ++ [0, 0, 0, 0]) with
        cred_password := some [112, 97, 115, 115] }
      [112, 97, 115, 115] (List.replicate 16 0) [0, 0, 0, 0] (by decide) rfl
      ⟨rfl, by decide, rfl⟩ rfl (Or.inl rfl)⟩

/-! ## VeNCrypt -/

/-- C14, the code at failing inputs. The server announces VeNCrypt version 1.2, or
0.3: `vnc_connection_perform_auth_vencrypt` sets no "Unsupported VeNCrypt version"
error, echoes the two bytes and reads the server's status; with status 0 it goes
on to the sub-authentication choice. Only a version that differs in both bytes
(1.3) is refused without an echo. -/
theorem vencrypt_version_accepted :
    (vnc_connection_perform_auth_vencrypt bare_library (session rgb888 0 0 [1, 2, 1])).2.io.log =
      [WireEvent.rx [1, 2, 1], WireEvent.tx [1, 2]] ∧
    (vnc_connection_perform_auth_vencrypt bare_library (session rgb888 0 0 [1, 2, 1])).2.signals =
      [Signal.error (ErrorText.fmt "Server refused VeNCrypt version %d %d" [1, 2])] ∧
    (vnc_connection_perform_auth_vencrypt bare_library (session rgb888 0 0 [0, 3, 1])).2.io.log =
      [WireEvent.rx [0, 3, 1], WireEvent.tx [0, 3]] ∧
    (vnc_connection_perform_auth_vencrypt bare_library (session rgb888 0 0 [0, 3, 1])).2.signals =
      [Signal.error (ErrorText.fmt "Server refused VeNCrypt version %d %d" [0, 3])] ∧
    (vnc_connection_perform_auth_vencrypt bare_library
      { session rgb888 0 0 [1, 2, 0, 1, 0, 0, 1, 4, 1] with
        auth_type := 19, host_calls := [HostCall.set_auth_subtype 260] }).2.io.log =
      [WireEvent.rx [1, 2, 0, 1, 0, 0, 1, 4, 1], WireEvent.tx [1, 2],
        WireEvent.tx [0, 0, 1, 4]] ∧
    (vnc_connection_perform_auth_vencrypt bare_library
      { session rgb888 0 0 [1, 2, 0, 1, 0, 0, 1, 4, 1] with
        auth_type := 19, host_calls := [HostCall.set_auth_subtype 260] }).2.signals =
      [Signal.auth_choose_subtype 19 [260], Signal.error (ErrorText.lit "Failed to init TLS")] ∧
    (vnc_connection_perform_auth_vencrypt bare_library (session rgb888 0 0 [1, 3, 1])).2.io.log =
      [WireEvent.rx [1, 3, 1]] ∧
    (vnc_connection_perform_auth_vencrypt bare_library (session rgb888 0 0 [1, 3, 1])).2.signals =
      [Signal.error (ErrorText.fmt "Unsupported VeNCrypt version %d %d" [1, 3])] := by
  decide

/-! ## DesktopResize -/

/-- C15: a DesktopResize rectangle (encoding -223) with size `width` x `height`, received
while no error is set, makes the session `width` x `height` and emits one
`desktop_resize(width, height)`; nothing else in the state changes, so no
framebuffer call is made and no byte is read. -/
theorem framebuffer_update_desktop_resize (ext : External) (s : Conn) (x y width height : Nat)
    (hstop : s.coroutine_stop = false) :
    vnc_connection_framebuffer_update ext s VNC_CONNECTION_ENCODING_DESKTOP_RESIZE x y width height =
      (true, { s with
        width := (width : Int)
        height := (height : Int)
        signals := s.signals ++ [Signal.desktop_resize (width : Int) (height : Int)] }) := by
  unfold vnc_connection_framebuffer_update
  have h1 : ¬ (VNC_CONNECTION_ENCODING_DESKTOP_RESIZE = VNC_CONNECTION_ENCODING_RAW) := by decide
  have h2 : ¬ (VNC_CONNECTION_ENCODING_DESKTOP_RESIZE = VNC_CONNECTION_ENCODING_COPY_RECT) := by
    decide
  have h3 : ¬ (VNC_CONNECTION_ENCODING_DESKTOP_RESIZE = VNC_CONNECTION_ENCODING_RRE) := by decide
  have h4 : ¬ (VNC_CONNECTION_ENCODING_DESKTOP_RESIZE = VNC_CONNECTION_ENCODING_HEXTILE) := by
    decide
  have h5 : ¬ (VNC_CONNECTION_ENCODING_DESKTOP_RESIZE = VNC_CONNECTION_ENCODING_ZRLE) := by decide
  have h6 : ¬ (VNC_CONNECTION_ENCODING_DESKTOP_RESIZE = VNC_CONNECTION_ENCODING_TIGHT) := by decide
  simp only [vnc_connection_has_error, hstop, Bool.false_eq_true, if_false, h1, h2, h3, h4, h5, h6,
    if_true, vnc_connection_resize, vnc_connection_emit_main_context, Bool.not_false]

theorem framebuffer_update_desktop_resize_witness :
    (session rgb888 640 480 [1, 2, 3]).coroutine_stop = false ∧
    vnc_connection_framebuffer_update idle_external (session rgb888 640 480 [1, 2, 3])
        VNC_CONNECTION_ENCODING_DESKTOP_RESIZE 0 0 800 600 =
      (true, { session rgb888 640 480 [1, 2, 3] with
        width := ((800 : Nat) : Int)
        height := ((600 : Nat) : Int)
        signals := (session rgb888 640 480 [1, 2, 3]).signals ++
          [Signal.desktop_resize ((800 : Nat) : Int) ((600 : Nat) : Int)] }) :=
  ⟨rfl, framebuffer_update_desktop_resize idle_external (session rgb888 640 480 [1, 2, 3])
    0 0 800 600 rfl⟩

/-! ## The handshake without authentication -/

theorem sent_append (a b : List WireEvent) : sent (a ++ b) = sent a ++ sent b := by
  induction a with
  | nil => rfl
  | cons e es ih => cases e <;> simp [sent, ih]

theorem sent_rx (rxs : List (List UInt8)) : sent (rxs.map WireEvent.rx) = [] := by
  induction rxs with
  | nil => rfl
  | cons e es ih => simp [sent, ih]

theorem sent_same (io io' : IOState) (h : SameOutput io io') : sent io'.log = sent io.log := by
  obtain ⟨_, _, rxs, hl⟩ := h
  rw [hl, sent_append, sent_rx, List.append_nil]

/-- On protocol 3.3 the server names one scheme; here it names None and the host
chooses it: nothing is sent and no result is read. -/
theorem perform_auth_none_33 (lib : Library) (s : Conn) (rest : List UInt8)
    (hs : List HostCall) (hminor : s.minor = 3) (h : Ready s (0 :: 0 :: 0 :: 1 :: rest))
    (hauth : s.auth_type = VNC_CONNECTION_AUTH_INVALID)
    (hhost : s.host_calls = HostCall.set_auth_type VNC_CONNECTION_AUTH_NONE :: hs)
    (hwu : s.want_cred_username = false) (hwp : s.want_cred_password = false)
    (hwx : s.want_cred_x509 = false) :
    ∃ io', vnc_connection_perform_auth lib s =
        (true, { s with
          auth_type := VNC_CONNECTION_AUTH_NONE
          auth_subtype := VNC_CONNECTION_AUTH_INVALID
          host_calls := hs
          signals := s.signals ++ [Signal.auth_choose_type [1]]
          io := io' }) ∧
      Ready { s with io := io' } rest ∧ SameOutput s.io io' := by
  obtain ⟨io1, hread, hready, hso⟩ := read_u32_ok s 0 0 0 1 rest h
  have hstop : s.coroutine_stop = false := h.1
  refine ⟨io1, ?_, hready, hso⟩
  cases s
  simp only at hstop hminor hauth hhost hwu hwp hwx hread
  subst hstop hminor hauth hhost hwu hwp hwx
  unfold vnc_connection_perform_auth
  simp only [Int.reduceLE, if_true, hread]
  simp [perform_auth_chosen, vnc_connection_choose_auth, vnc_connection_emit_main_context,
    g_condition_wait, g_condition_wait_loop, vnc_connection_has_auth_type, host_call,
    vnc_connection_set_auth_type, vnc_connection_has_error, vnc_connection_gather_credentials,
    vnc_connection_has_credentials, VNC_CONNECTION_AUTH_INVALID, VNC_CONNECTION_AUTH_NONE,
    VNC_AUTH_CHOOSE_TYPE, UInt8.toNat]
  cases hs <;> simp [g_condition_wait_loop, vnc_connection_has_auth_type,
    VNC_CONNECTION_AUTH_INVALID]

theorem read_pixel_format_ok (t : Conn) (F : VncPixelFormat) (rest : List UInt8) (hfit : F.fits)
    (hbo : F.byte_order = G_BIG_ENDIAN ∨ F.byte_order = G_LITTLE_ENDIAN)
    (hr : Ready t (pixel_format_bytes F ++ rest)) :
    ∃ io', vnc_connection_read_pixel_format t = (F, { t with io := io' }) ∧
      Ready { t with io := io' } rest ∧ SameOutput t.io io' := by
  obtain ⟨h1, h2, h3, h4, h5, h6, h7, h8, h9⟩ := hfit
  simp only [pixel_format_bytes, be_bytes, List.nil_append, List.append_assoc,
    List.cons_append] at hr
  obtain ⟨io1, e1, r1, o1⟩ := read_u8_ok _ _ _ hr
  obtain ⟨io2, e2, r2, o2⟩ := read_u8_ok _ _ _ r1
  obtain ⟨io3, e3, r3, o3⟩ := read_u8_ok _ _ _ r2
  obtain ⟨io4, e4, r4, o4⟩ := read_u8_ok _ _ _ r3
  obtain ⟨io5, e5, r5, o5⟩ := read_u16_ok _ _ _ _ r4
  obtain ⟨io6, e6, r6, o6⟩ := read_u16_ok _ _ _ _ r5
  obtain ⟨io7, e7, r7, o7⟩ := read_u16_ok _ _ _ _ r6
  obtain ⟨io8, e8, r8, o8⟩ := read_u8_ok _ _ _ r7
  obtain ⟨io9, e9, r9, o9⟩ := read_u8_ok _ _ _ r8
  obtain ⟨io10, e10, r10, o10⟩ := read_u8_ok _ _ _ r9
  obtain ⟨io11, e11, r11, o11⟩ := read_ok _ [0, 0, 0] rest [0, 0, 0] r10
  refine ⟨io11, ?_, r11, ?_⟩
  · simp only [List.length_cons, List.length_nil] at e11
    simp only [vnc_connection_read_pixel_format, e1, e2, e3, e4, e5, e6, e7, e8, e9, e10, e11,
      ofNat_toNat]
    refine Prod.ext ?_ rfl
    have horder : (if (if F.byte_order = G_BIG_ENDIAN then 1 else 0) % 256 % 256 ≠ 0
        then G_BIG_ENDIAN else G_LITTLE_ENDIAN) = F.byte_order := by
      rcases hbo with h | h
      · rw [h]; decide
      · rw [h]; decide
    cases F
    dsimp only at h1 h2 h3 h4 h5 h6 h7 h8 h9 horder ⊢
    simp only [VncPixelFormat.mk.injEq]
    refine ⟨by omega, by omega, horder, by omega, by omega, by omega, by omega, by omega,
      by omega, by omega⟩
  · exact (((((((((o1.trans o2).trans o3).trans o4).trans o5).trans o6).trans o7).trans
      o8).trans o9).trans o10).trans o11

theorem set_terminator (name : List UInt8) :
    (name ++ [0]).set name.length 0 = name ++ [0] := by
  induction name with
  | nil => rfl
  | cons a t ih => simp [List.set, ih]

theorem u16_value (w : Nat) (hw : w < 65536) :
    (UInt8.ofNat (w / 256 % 256)).toNat * 256 + (UInt8.ofNat (w % 256)).toNat = w := by
  simp only [ofNat_toNat]; omega

theorem u32_value (n : Nat) (hn : n < 2 ^ 32) :
    (((UInt8.ofNat (n / 256 / 256 / 256 % 256)).toNat * 256 +
      (UInt8.ofNat (n / 256 / 256 % 256)).toNat) * 256 +
      (UInt8.ofNat (n / 256 % 256)).toNat) * 256 + (UInt8.ofNat (n % 256)).toNat = n := by
  simp only [ofNat_toNat]; omega

set_option maxHeartbeats 2000000 in
/-- The initialisation message: the shared flag goes out, then width, height, pixel
format and name are read. -/
theorem server_init_ok (s : Conn) (w h n : Nat) (F : VncPixelFormat) (name rest : List UInt8)
    (hw : w < 65536) (hh : h < 65536) (hn : n ≤ 4096) (hname : name.length = n)
    (hfit : F.fits) (hbo : F.byte_order = G_BIG_ENDIAN ∨ F.byte_order = G_LITTLE_ENDIAN)
    (hr : Ready s (be_bytes 2 w ++ be_bytes 2 h ++ pixel_format_bytes F ++ be_bytes 4 n ++
      name ++ rest))
    (hwb : s.io.write_buffer = []) (hcmp : s.io.compressed = none) :
    ∃ io', initialize_server_init s =
        (true, { s with
          width := (w : Int)
          height := (h : Int)
          fmt := F
          name := some (name ++ [0])
          io := io' }) ∧
      sent io'.log = sent s.io.log ++ [be_bytes 1 s.sharedFlag] ∧
      io'.write_buffer = [] ∧ io'.pending = rest := by
  have hstop : s.coroutine_stop = false := hr.1
  have hwf := write_flush_one s (be_bytes 1 s.sharedFlag) (by simp [be_bytes])
    (by simp [be_bytes]) hstop hwb
  have hr' := hr
  simp only [be_bytes, List.nil_append, List.append_assoc, List.cons_append] at hr'
  have r0 : Ready { s with io := { s.io with write_buffer := [], log := s.io.log ++
      [WireEvent.tx (be_bytes 1 s.sharedFlag)] } } _ :=
    ⟨hstop, hr'.2.1, hr'.2.2⟩
  simp only [hstop] at r0 hwf
  obtain ⟨io1, e1, r1, o1⟩ := read_u16_ok _ _ _ _ r0
  dsimp only at e1 r1 o1
  rw [u16_value w hw] at e1
  have r1' : Ready { s with coroutine_stop := false, io := io1, width := (w : Int) } _ := r1
  obtain ⟨io2, e2, r2, o2⟩ := read_u16_ok _ _ _ _ r1'
  dsimp only at e2 r2 o2
  rw [u16_value h hh] at e2
  have r2' : Ready { s with
    coroutine_stop := false
    io := io2
    width := (w : Int)
    height := (h : Int) } _ := r2
  obtain ⟨io3, e3, r3, o3⟩ := read_pixel_format_ok _ F _ hfit hbo r2'
  dsimp only at e3 r3 o3
  have r3' : Ready { s with
    coroutine_stop := false
    io := io3
    width := (w : Int)
    height := (h : Int)
    fmt := F } _ := r3
  obtain ⟨io4, e4, r4, o4⟩ := read_u32_ok _ _ _ _ _ _ r3'
  dsimp only at e4 r4 o4
  rw [u32_value n (by omega)] at e4
  obtain ⟨io5, e5, r5, o5⟩ := read_ok _ name rest (List.replicate (n + 1) 0) r4
  dsimp only at e5 r5 o5
  rw [hname] at e5
  have hbuf : name ++ (List.replicate (n + 1) (0 : UInt8)).drop n = name ++ [0] := by
    simp [List.drop_replicate]
  rw [hbuf] at e5
  have hset : (name ++ [0]).set n 0 = name ++ [0] := by rw [← hname]; exact set_terminator name
  have hsame : SameOutput ({ s.io with write_buffer := [], log := s.io.log ++
      [WireEvent.tx (be_bytes 1 s.sharedFlag)] } : IOState) io5 :=
    (((o1.trans o2).trans o3).trans o4).trans o5
  have hc5 : io5.compressed = none := by
    have := hsame.1
    simp only [hcmp, Option.isSome_none] at this
    cases hio : io5.compressed with
    | none => rfl
    | some d => rw [hio] at this; simp at this
  have hio5 : ({ io5 with compressed := none } : IOState) = io5 := by
    cases io5; simp only at hc5; subst hc5; rfl
  have hn' : ¬ 4096 < n := by omega
  refine ⟨io5, ?_, ?_, ?_, r5.2.2⟩
  · unfold initialize_server_init vnc_connection_write_u8
    simp -iota only [hwf]
    rw [e1]
    split
    rename_i x1 t1 q1
    cases q1
    try dsimp -iota only
    rw [e2]
    split
    rename_i x2 t2 q2
    cases q2
    dsimp -iota only [vnc_connection_has_error]
    rw [if_neg (by decide), e3]
    split
    rename_i x3 t3 q3
    cases q3
    try dsimp -iota only
    rw [e4]
    split
    rename_i x4 t4 q4
    cases q4
    try dsimp -iota only
    rw [if_neg hn', e5]
    split
    rename_i x5 y5 t5 q5
    cases q5
    dsimp -iota only [vnc_connection_has_error]
    rw [if_neg (by decide), hset, hio5]
    simp [hstop]
  · rw [sent_same _ _ hsame]
    simp [sent_append, sent]
  · simpa using hsame.2.1

/-! ## Initialisation without authentication -/

/-- The version exchange with a 3.3 server: the banner is read and sent back. -/
theorem initialize_version_33 (s : Conn) (rest : List UInt8)
    (h : Ready s (banner 3 3 ++ rest)) (hw : s.io.write_buffer = []) :
    ∃ io', vnc_connection_initialize_version s =
        (true, { s with
          absPointer := 1
          major := 3
          minor := 3
          io := io' }) ∧
      sent io'.log = sent s.io.log ++ [banner 3 3] ∧ io'.write_buffer = [] ∧
      io'.compressed.isSome = s.io.compressed.isSome ∧
      Ready { s with io := io' } rest := by
  obtain ⟨io1, ⟨hcmp, hwb1, rxs, hlog1⟩, hpend1, hoff1, hread, hscan⟩ :=
    initialize_version_scan s 3 3 rest (by decide) (by decide) h
  have hstop : s.coroutine_stop = false := h.1
  refine ⟨{ io1 with write_buffer := [], log := io1.log ++ [WireEvent.tx (banner 3 3)] },
    ?_, ?_, rfl, hcmp, ⟨hstop, hoff1, ?_⟩⟩
  · obtain ⟨fmt, err, stop, w0, h0, ma, mi, io⟩ := s
    dsimp only at hstop hw hcmp hwb1 hlog1 hread hscan
    subst hstop
    unfold vnc_connection_initialize_version
    dsimp only
    rw [hread]
    dsimp only [vnc_connection_has_error]
    rw [hscan]
    dsimp only [vnc_connection_before_version, vnc_connection_after_version]
    simp only [ne_eq, not_true_eq_false, if_false, Nat.cast_ofNat, Int.reduceLT, decide_True,
      decide_False, Bool.or_true, Bool.true_or, Bool.and_true, Bool.false_eq_true, if_true,
      Bool.or_self, Bool.and_self, Bool.false_or, Bool.and_false, Bool.or_false, lt_self_iff_false]
    rw [snprintf_pinned.1, write_banner _ _ (banner_length 3 3) rfl (hwb1.trans hw)]
  · simp [hlog1, sent_append, sent_rx, sent]
  · rw [← hpend1]; rfl

set_option maxHeartbeats 2000000 in
/-- The initialisation message with a name length above 4096: the error is set
before any name byte is read. -/
theorem server_init_long (s : Conn) (w h n : Nat) (F : VncPixelFormat) (rest : List UInt8)
    (hw : w < 65536) (hh : h < 65536) (hn : 4096 < n) (hn32 : n < 2 ^ 32)
    (hfit : F.fits) (hbo : F.byte_order = G_BIG_ENDIAN ∨ F.byte_order = G_LITTLE_ENDIAN)
    (hr : Ready s (be_bytes 2 w ++ be_bytes 2 h ++ pixel_format_bytes F ++ be_bytes 4 n ++ rest))
    (hwb : s.io.write_buffer = []) :
    ∃ io', initialize_server_init s =
        (false, { s with
          width := (w : Int)
          height := (h : Int)
          fmt := F
          error := some (ErrorText.fmt "Name length %u too long" [(n : Int)])
          coroutine_stop := true
          signals := s.signals ++ [Signal.error (ErrorText.fmt "Name length %u too long" [(n : Int)])]
          io := io' }) ∧
      sent io'.log = sent s.io.log ++ [be_bytes 1 s.sharedFlag] ∧
      io'.write_buffer = [] ∧ io'.pending = rest := by
  have hstop : s.coroutine_stop = false := hr.1
  have hwf := write_flush_one s (be_bytes 1 s.sharedFlag) (by simp [be_bytes])
    (by simp [be_bytes]) hstop hwb
  have hr' := hr
  simp only [be_bytes, List.nil_append, List.append_assoc, List.cons_append] at hr'
  have r0 : Ready { s with io := { s.io with write_buffer := [], log := s.io.log ++
      [WireEvent.tx (be_bytes 1 s.sharedFlag)] } } _ :=
    ⟨hstop, hr'.2.1, hr'.2.2⟩
  simp only [hstop] at r0 hwf
  obtain ⟨io1, e1, r1, o1⟩ := read_u16_ok _ _ _ _ r0
  dsimp only at e1 r1 o1
  rw [u16_value w hw] at e1
  have r1' : Ready { s with coroutine_stop := false, io := io1, width := (w : Int) } _ := r1
  obtain ⟨io2, e2, r2, o2⟩ := read_u16_ok _ _ _ _ r1'
  dsimp only at e2 r2 o2
  rw [u16_value h hh] at e2
  have r2' : Ready { s with
    coroutine_stop := false
    io := io2
    width := (w : Int)
    height := (h : Int) } _ := r2
  obtain ⟨io3, e3, r3, o3⟩ := read_pixel_format_ok _ F _ hfit hbo r2'
  dsimp only at e3 r3 o3
  have r3' : Ready { s with
    coroutine_stop := false
    io := io3
    width := (w : Int)
    height := (h : Int)
    fmt := F } _ := r3
  obtain ⟨io4, e4, r4, o4⟩ := read_u32_ok _ _ _ _ _ _ r3'
  dsimp only at e4 r4 o4
  rw [u32_value n hn32] at e4
  have hsame : SameOutput ({ s.io with write_buffer := [], log := s.io.log ++
      [WireEvent.tx (be_bytes 1 s.sharedFlag)] } : IOState) io4 :=
    ((o1.trans o2).trans o3).trans o4
  refine ⟨io4, ?_, ?_, ?_, r4.2.2⟩
  · unfold initialize_server_init vnc_connection_write_u8
    simp -iota only [hwf]
    rw [e1]
    split
    rename_i x1 t1 q1
    cases q1
    try dsimp -iota only
    rw [e2]
    split
    rename_i x2 t2 q2
    cases q2
    dsimp -iota only [vnc_connection_has_error]
    rw [if_neg (by decide), e3]
    split
    rename_i x3 t3 q3
    cases q3
    try dsimp -iota only
    rw [e4]
    split
    rename_i x4 t4 q4
    cases q4
    try dsimp -iota only
    rw [if_pos hn]
    simp [vnc_connection_set_error, vnc_connection_emit_main_context]
  · rw [sent_same _ _ hsame]
    simp [sent_append, sent]
  · simpa using hsame.2.1

/-- C17. A server that sends the banner 3.3, the 32-bit auth type None and then its
initialisation message (width `w`, height `h`, the 16 bytes of pixel format `F`,
the name length `n` and the name), to a host that picks None: with `n ≤ 4096`,
`vnc_connection_initialize` returns TRUE, the client has sent exactly the banner
"RFB 003.003\n" and then the one byte of the shared flag, the session has width
`w`, height `h`, format `F` and as name the `n` name bytes with their terminator,
and the input is consumed up to the end of the name (no auth result is read);
with `n > 4096` it returns FALSE with the error "Name length %u too long" set. -/
theorem initialize_none_33 (lib : Library) (s : Conn) (w h n : Nat) (F : VncPixelFormat)
    (name rest : List UInt8) (hs : List HostCall)
    (hw : w < 65536) (hh : h < 65536) (hn32 : n < 2 ^ 32)
    (hfit : F.fits) (hbo : F.byte_order = G_BIG_ENDIAN ∨ F.byte_order = G_LITTLE_ENDIAN)
    (hr : Ready s (banner 3 3 ++ be_bytes 4 VNC_CONNECTION_AUTH_NONE ++ be_bytes 2 w ++
      be_bytes 2 h ++ pixel_format_bytes F ++ be_bytes 4 n ++ name ++ rest))
    (hwb : s.io.write_buffer = []) (hcmp : s.io.compressed = none)
    (hauth : s.auth_type = VNC_CONNECTION_AUTH_INVALID)
    (hhost : s.host_calls = HostCall.set_auth_type VNC_CONNECTION_AUTH_NONE :: hs)
    (hwu : s.want_cred_username = false) (hwp : s.want_cred_password = false)
    (hwx : s.want_cred_x509 = false) :
    (n ≤ 4096 → name.length = n →
      ∃ io', vnc_connection_initialize lib s =
          (true, { s with
            absPointer := 1
            major := 3
            minor := 3
            auth_type := VNC_CONNECTION_AUTH_NONE
            auth_subtype := VNC_CONNECTION_AUTH_INVALID
            host_calls := hs
            signals := s.signals ++ [Signal.auth_choose_type [1]]
            width := (w : Int)
            height := (h : Int)
            fmt := F
            name := some (name ++ [0])
            io := io' }) ∧
        sent io'.log = sent s.io.log ++ [banner 3 3, be_bytes 1 s.sharedFlag] ∧
        io'.write_buffer = [] ∧ io'.pending = rest) ∧
    (4096 < n →
      ∃ io', vnc_connection_initialize lib s =
          (false, { s with
            absPointer := 1
            major := 3
            minor := 3
            auth_type := VNC_CONNECTION_AUTH_NONE
            auth_subtype := VNC_CONNECTION_AUTH_INVALID
            host_calls := hs
            width := (w : Int)
            height := (h : Int)
            fmt := F
            error := some (ErrorText.fmt "Name length %u too long" [(n : Int)])
            coroutine_stop := true
            signals := s.signals ++ [Signal.auth_choose_type [1],
              Signal.error (ErrorText.fmt "Name length %u too long" [(n : Int)])]
            io := io' }) ∧
        sent io'.log = sent s.io.log ++ [banner 3 3, be_bytes 1 s.sharedFlag] ∧
        io'.write_buffer = [] ∧ io'.pending = name ++ rest) := by
  have hr0 : Ready s (banner 3 3 ++ (0 :: 0 :: 0 :: 1 :: (be_bytes 2 w ++
      be_bytes 2 h ++ pixel_format_bytes F ++ be_bytes 4 n ++ (name ++ rest)))) := by
    have e : be_bytes 4 VNC_CONNECTION_AUTH_NONE = [0, 0, 0, 1] := by decide
    rw [e] at hr
    simpa only [List.append_assoc, List.cons_append, List.nil_append] using hr
  obtain ⟨io1, hv, hsent1, hwb1, hcmp1, r1⟩ := initialize_version_33 s _ hr0 hwb
  have r1' : Ready { s with
    absPointer := 1
    major := 3
    minor := 3
    io := io1 } _ := r1
  obtain ⟨io2, ha, r2, o2⟩ := perform_auth_none_33 lib _ _ hs rfl r1' hauth hhost hwu hwp hwx
  dsimp only at ha r2 o2
  have r2' : Ready { s with
    absPointer := 1
    major := 3
    minor := 3
    auth_type := VNC_CONNECTION_AUTH_NONE
    auth_subtype := VNC_CONNECTION_AUTH_INVALID
    host_calls := hs
    signals := s.signals ++ [Signal.auth_choose_type [1]]
    io := io2 } _ := r2
  have hwb2 : io2.write_buffer = [] := o2.2.1.trans hwb1
  have hcmp2 : io2.compressed = none := by
    have := o2.1
    rw [hcmp1, hcmp] at this
    cases hio : io2.compressed with
    | none => rfl
    | some d => rw [hio] at this; simp at this
  have hsent2 : sent io2.log = sent s.io.log ++ [banner 3 3] := by
    rw [sent_same _ _ o2, hsent1]
  have hinit : ∀ r, initialize_server_init { s with
        absPointer := 1
        major := 3
        minor := 3
        auth_type := VNC_CONNECTION_AUTH_NONE
        auth_subtype := VNC_CONNECTION_AUTH_INVALID
        host_calls := hs
        signals := s.signals ++ [Signal.auth_choose_type [1]]
        io := io2 } = r → vnc_connection_initialize lib s = r := by
    intro r hrr
    unfold vnc_connection_initialize
    rw [hv]
    dsimp only
    rw [ha]
    exact hrr
  constructor
  · intro hn hname
    obtain ⟨io3, e3, hsent3, hwb3, hp3⟩ := server_init_ok _ w h n F name rest hw hh hn hname
      hfit hbo (by simpa only [List.append_assoc] using r2') hwb2 hcmp2
    dsimp only at e3 hsent3
    refine ⟨io3, hinit _ e3, ?_, hwb3, hp3⟩
    rw [hsent3, hsent2]; simp
  · intro hn
    obtain ⟨io3, e3, hsent3, hwb3, hp3⟩ := server_init_long _ w h n F (name ++ rest) hw hh hn
      hn32 hfit hbo (by simpa only [List.append_assoc] using r2') hwb2
    dsimp only at e3 hsent3
    refine ⟨io3, hinit _ ?_, ?_, hwb3, hp3⟩
    · rw [e3]; simp
    · rw [hsent3, hsent2]; simp

theorem ready_hosted_session (l : List UInt8) (calls : List HostCall) :
    Ready (hosted_session l calls) l :=
  ⟨rfl, Nat.le_refl _, by simp [IOState.pending, session, hosted_session]⟩

theorem initialize_none_33_witness :
    ((640 < 65536 ∧ 480 < 65536 ∧ 0 < 2 ^ 32 ∧ rgb888.fits ∧
      (rgb888.byte_order = G_BIG_ENDIAN ∨ rgb888.byte_order = G_LITTLE_ENDIAN)) ∧
     Ready (hosted_session (server_none_33 640 480 rgb888 [])
        [HostCall.set_auth_type VNC_CONNECTION_AUTH_NONE])
      (banner 3 3 ++ be_bytes 4 VNC_CONNECTION_AUTH_NONE ++ be_bytes 2 640 ++
        be_bytes 2 480 ++ pixel_format_bytes rgb888 ++ be_bytes 4 0 ++ [] ++ []) ∧
     0 ≤ 4096 ∧ ([] : List UInt8).length = 0) ∧
    ∃ io', vnc_connection_initialize bare_library
        (hosted_session (server_none_33 640 480 rgb888 [])
          [HostCall.set_auth_type VNC_CONNECTION_AUTH_NONE]) =
        (true, { hosted_session (server_none_33 640 480 rgb888 [])
            [HostCall.set_auth_type VNC_CONNECTION_AUTH_NONE] with
          absPointer := 1
          major := 3
          minor := 3
          auth_type := VNC_CONNECTION_AUTH_NONE
          auth_subtype := VNC_CONNECTION_AUTH_INVALID
          host_calls := []
          signals := [Signal.auth_choose_type [1]]
          width := 640
          height := 480
          fmt := rgb888
          name := some [0]
          io := io' }) ∧
      sent io'.log = [banner 3 3, [0]] ∧
      io'.write_buffer = [] ∧ io'.pending = [] :=
  ⟨⟨⟨by decide, by decide, by decide, by decide, by decide⟩,
      by simpa [server_none_33] using ready_hosted_session _ _, by decide, rfl⟩,
    (initialize_none_33 bare_library
      (hosted_session (server_none_33 640 480 rgb888 [])
        [HostCall.set_auth_type VNC_CONNECTION_AUTH_NONE]) 640 480 0 rgb888 [] [] []
      (by decide) (by decide) (by decide) (by decide) (by decide)
      (by simpa [server_none_33] using ready_hosted_session _ _) rfl rfl rfl rfl rfl rfl rfl).1
      (by decide) rfl⟩

/-! ## A failed authentication with a long reason -/

/-- C16, the code at a failing input. Protocol 3.8, the server offers the one auth
type None, the host picks it, and the server answers with the auth result 1 and
the reason length 1024, then the byte 2 and closes. `vnc_connection_check_auth_result`
returns FALSE without setting the error flag; `vnc_connection_initialize` returns
TRUE; the session task emits `initialized` and enters the message loop, where the
byte 2 is taken as a Bell message. -/
theorem auth_failure_long_reason :
    (vnc_connection_check_auth_result (session rgb888 0 0 [0, 0, 0, 1, 0, 0, 4, 0, 2])).1 =
      false ∧
    (vnc_connection_check_auth_result
      (session rgb888 0 0 [0, 0, 0, 1, 0, 0, 4, 0, 2])).2.coroutine_stop = false ∧
    (vnc_connection_check_auth_result
      (session rgb888 0 0 [0, 0, 0, 1, 0, 0, 4, 0, 2])).2.error = none ∧
    (vnc_connection_check_auth_result
      (session rgb888 0 0 [0, 0, 0, 1, 0, 0, 4, 0, 2])).2.signals = [] ∧
    ( vnc_connection_initialize bare_library
      (hosted_session (banner 3 8 ++ [1, 1] ++ [0, 0, 0, 1, 0, 0, 4, 0, 2])
        [HostCall.set_auth_type VNC_CONNECTION_AUTH_NONE])).1 = true ∧
    ( vnc_connection_initialize bare_library
      (hosted_session (banner 3 8 ++ [1, 1] ++ [0, 0, 0, 1, 0, 0, 4, 0, 2])
        [HostCall.set_auth_type VNC_CONNECTION_AUTH_NONE])).2.coroutine_stop = false ∧
    (vnc_connection_coroutine idle_external bare_library
      (hosted_session (banner 3 8 ++ [1, 1] ++ [0, 0, 0, 1, 0, 0, 4, 0, 2])
        [HostCall.set_auth_type VNC_CONNECTION_AUTH_NONE])).map (fun t => t.signals) =
      some [Signal.connected, Signal.auth_choose_type [1], Signal.initialized, Signal.bell,
        Signal.error (ErrorText.lit "Server closed the connection"), Signal.disconnected] := by
  decide

/-! ## Hextile tiles with a background only -/

theorem solid_tile_bytes_append (a b : List (List UInt8)) :
    solid_tile_bytes (a ++ b) = solid_tile_bytes a ++ solid_tile_bytes b := by
  induction a with
  | nil => rfl
  | cons p t ih => simp [solid_tile_bytes, ih]

theorem solid_tile_fills_append (a b : List Rect) (p q : List (List UInt8))
    (h : a.length = p.length) :
    solid_tile_fills (a ++ b) (p ++ q) = solid_tile_fills a p ++ solid_tile_fills b q := by
  induction a generalizing p with
  | nil =>
    cases p with
    | nil => rfl
    | cons _ _ => simp at h
  | cons r rs ih =>
    cases p with
    | nil => simp at h
    | cons p0 ps =>
      simp only [List.length_cons, Nat.add_right_cancel_iff] at h
      simp [solid_tile_fills, ih ps h]

theorem solid_tile_fills_length (a : List Rect) (p : List (List UInt8))
    (h : a.length = p.length) : (solid_tile_fills a p).length = a.length := by
  induction a generalizing p with
  | nil => cases p <;> rfl
  | cons r rs ih =>
    cases p with
    | nil => simp at h
    | cons p0 ps =>
      simp only [List.length_cons, Nat.add_right_cancel_iff] at h
      simp [solid_tile_fills, ih ps h]

theorem hextile_tile_at (x y w h r c : Nat) (hc : c < (w + 15) / 16) :
    hextile_tile x y w h (r * ((w + 15) / 16) + c) =
      { x := x + 16 * c, y := y + 16 * r, width := min 16 (w - 16 * c),
        height := min 16 (h - 16 * r) } := by
  have hm : (r * ((w + 15) / 16) + c) % ((w + 15) / 16) = c := by
    rw [Nat.mul_add_mod_of_lt hc]
  have hd : (r * ((w + 15) / 16) + c) / ((w + 15) / 16) = r := by
    rw [Nat.add_comm, Nat.add_mul_div_right _ _ (by omega), Nat.div_eq_of_lt hc, Nat.zero_add]
  simp only [hextile_tile, hm, hd]

/-- One tile with flag byte 0x02: the flag and the pixel are read and the tile is
filled. -/
theorem hextile_solid_tile (s : Conn) (X Y W H : Nat) (p fg bg rest : List UInt8)
    (hlen : p.length = vnc_connection_pixel_size s) (hr : Ready s (2 :: p ++ rest)) :
    ∃ io1 io2, vnc_connection_read_u8 s = (2, { s with io := io1 }) ∧
      vnc_connection_hextile_rect { s with io := io1 } 2 X Y W H fg bg =
        (fg, p ++ bg.drop p.length, { s with
          io := io2
          fbops := s.fbops ++ [FbOp.fill (p ++ bg.drop p.length) X Y W H] }) ∧
      Ready { s with io := io2 } rest := by
  obtain ⟨io1, e1, r1, _⟩ := read_u8_ok s 2 (p ++ rest) hr
  obtain ⟨io2, e2, r2, _⟩ := read_pixel_ok { s with io := io1 } p rest bg hlen r1
  refine ⟨io1, io2, e1, ?_, r2⟩
  have h1 : (2 : Nat) &&& 1 = 0 := by decide
  have h2 : (2 : Nat) &&& 2 = 2 := by decide
  have h4 : (2 : Nat) &&& 4 = 0 := by decide
  have h8 : (2 : Nat) &&& 8 = 0 := by decide
  simp [vnc_connection_hextile_rect, e2, h1, h2, h4, h8]

/-- One row of tiles that all carry the flag byte 0x02, from column `c` on. -/
theorem hextile_cols_solid (x y w h r : Nat) (hx : x + w ≤ 65536) (hy : y + 16 * r < 65536) :
    ∀ (len c fuel : Nat) (s : Conn) (bgs : List (List UInt8)) (fg bg rest : List UInt8),
      c + len = (w + 15) / 16 → len ≤ fuel → bgs.length = len →
      (∀ p ∈ bgs, p.length = vnc_connection_pixel_size s) →
      bg.drop (vnc_connection_pixel_size s) =
        ([0, 0, 0, 0] : List UInt8).drop (vnc_connection_pixel_size s) →
      Ready s (solid_tile_bytes bgs ++ rest) →
      ∃ io' bg', hextile_update_cols x y w h (16 * r) fuel (16 * c) s fg bg =
          (fg, bg', { s with
            io := io'
            fbops := s.fbops ++
              solid_tile_fills ((List.range' (r * ((w + 15) / 16) + c) len).map
                (hextile_tile x y w h)) bgs }) ∧
        Ready { s with io := io' } rest ∧
        bg'.drop (vnc_connection_pixel_size s) =
          ([0, 0, 0, 0] : List UInt8).drop (vnc_connection_pixel_size s) := by
  intro len
  induction len with
  | zero =>
    intro c fuel s bgs fg bg rest hc _ hb _ hbg hr
    have hb' : bgs = [] := List.length_eq_zero.mp hb
    subst hb'
    refine ⟨s.io, bg, ?_, hr, hbg⟩
    have hs : ({ s with
        io := s.io
        fbops := s.fbops ++
          solid_tile_fills ((List.range' (r * ((w + 15) / 16) + c) 0).map
            (hextile_tile x y w h)) [] } : Conn) = s := by
      cases s; simp [solid_tile_fills]
    rw [hs]
    cases fuel with
    | zero => rfl
    | succ f =>
      have : ¬ 16 * c < w := by omega
      simp [hextile_update_cols, this]
  | succ len ih =>
    intro c fuel s bgs fg bg rest hc hf hb hlen hbg hr
    obtain ⟨f, rfl⟩ : ∃ f, fuel = f + 1 := ⟨fuel - 1, by omega⟩
    obtain ⟨p, ps, rfl⟩ : ∃ p ps, bgs = p :: ps := by
      cases bgs with
      | nil => simp at hb
      | cons p ps => exact ⟨p, ps, rfl⟩
    have hcw : c < (w + 15) / 16 := by omega
    have hi : 16 * c < w := by omega
    have hpl : p.length = vnc_connection_pixel_size s := hlen p (List.mem_cons_self _ _)
    have hr' : Ready s (2 :: p ++ (solid_tile_bytes ps ++ rest)) := by
      simpa [solid_tile_bytes] using hr
    obtain ⟨io1, io2, e1, e2, r2⟩ := hextile_solid_tile s ((x + 16 * c) % 65536)
      ((y + 16 * r) % 65536) (min 16 (w - 16 * c)) (min 16 (h - 16 * r)) p fg bg _ hpl hr'
    have hbg2 : (p ++ bg.drop p.length).drop (vnc_connection_pixel_size s) =
        ([0, 0, 0, 0] : List UInt8).drop (vnc_connection_pixel_size s) := by
      rw [← hpl, List.drop_left, hpl, hbg]
    have r2' : Ready { s with
      io := io2
      fbops := s.fbops ++ [FbOp.fill (p ++ bg.drop p.length) ((x + 16 * c) % 65536 : Nat)
          ((y + 16 * r) % 65536 : Nat) (min 16 (w - 16 * c) : Nat) (min 16 (h - 16 * r) : Nat)] }
      (solid_tile_bytes ps ++ rest) := r2
    obtain ⟨io3, bg3, e3, r3, hbg3⟩ := ih (c + 1) f { s with
      io := io2
      fbops := s.fbops ++ [FbOp.fill (p ++ bg.drop p.length) ((x + 16 * c) % 65536 : Nat)
          ((y + 16 * r) % 65536 : Nat) (min 16 (w - 16 * c) : Nat) (min 16 (h - 16 * r) : Nat)] }
      ps fg (p ++ bg.drop p.length) rest
      (by omega) (by omega) (by simpa using hb)
      (fun q hq => hlen q (List.mem_cons_of_mem _ hq)) hbg2 r2'
    refine ⟨io3, bg3, ?_, r3, hbg3⟩
    rw [hextile_update_cols, if_pos hi]
    simp only [e1, e2]
    rw [show 16 * c + 16 = 16 * (c + 1) by omega, e3]
    have hxm : (x + 16 * c) % 65536 = x + 16 * c := Nat.mod_eq_of_lt (by omega)
    have hym : (y + 16 * r) % 65536 = y + 16 * r := Nat.mod_eq_of_lt hy
    have hpd : p ++ bg.drop p.length = p ++ ([0, 0, 0, 0] : List UInt8).drop p.length := by
      rw [hpl, hbg]
    simp only [List.range'_succ, List.map_cons, solid_tile_fills, hextile_tile_at x y w h r c hcw,
      hxm, hym, hpd, List.append_assoc, List.singleton_append, Nat.add_assoc]

/-- The rows of tiles from row `r` on, all tiles with the flag byte 0x02. -/
theorem hextile_rows_solid (x y w h : Nat) (hx : x + w ≤ 65536) (hy : y + h ≤ 65536) :
    ∀ (len r fuel : Nat) (s : Conn) (bgs : List (List UInt8)) (fg bg rest : List UInt8),
      r + len = (h + 15) / 16 → len ≤ fuel → bgs.length = len * ((w + 15) / 16) →
      (∀ p ∈ bgs, p.length = vnc_connection_pixel_size s) →
      bg.drop (vnc_connection_pixel_size s) =
        ([0, 0, 0, 0] : List UInt8).drop (vnc_connection_pixel_size s) →
      Ready s (solid_tile_bytes bgs ++ rest) →
      ∃ io' bg', hextile_update_rows x y w h fuel (16 * r) s fg bg =
          (fg, bg', { s with
            io := io'
            fbops := s.fbops ++
              solid_tile_fills ((List.range' (r * ((w + 15) / 16)) (len * ((w + 15) / 16))).map
                (hextile_tile x y w h)) bgs }) ∧
        Ready { s with io := io' } rest ∧
        bg'.drop (vnc_connection_pixel_size s) =
          ([0, 0, 0, 0] : List UInt8).drop (vnc_connection_pixel_size s) := by
  intro len
  induction len with
  | zero =>
    intro r fuel s bgs fg bg rest hrl _ hb _ hbg hr
    have hb' : bgs = [] := List.length_eq_zero.mp (by simpa using hb)
    subst hb'
    refine ⟨s.io, bg, ?_, hr, hbg⟩
    have hs : ({ s with
        io := s.io
        fbops := s.fbops ++
          solid_tile_fills ((List.range' (r * ((w + 15) / 16)) (0 * ((w + 15) / 16))).map
            (hextile_tile x y w h)) [] } : Conn) = s := by
      cases s; simp [solid_tile_fills]
    rw [hs]
    cases fuel with
    | zero => rfl
    | succ f =>
      have : ¬ 16 * r < h := by omega
      simp [hextile_update_rows, this]
  | succ len ih =>
    intro r fuel s bgs fg bg rest hrl hf hb hlen hbg hr
    obtain ⟨f, rfl⟩ : ∃ f, fuel = f + 1 := ⟨fuel - 1, by omega⟩
    have hj : 16 * r < h := by omega
    have hnw : (w + 15) / 16 ≤ w := by omega
    have hb1 : (bgs.take ((w + 15) / 16)).length = (w + 15) / 16 := by
      rw [List.length_take, hb, Nat.add_mul, Nat.one_mul]; omega
    have hb2 : (bgs.drop ((w + 15) / 16)).length = len * ((w + 15) / 16) := by
      rw [List.length_drop, hb, Nat.add_mul, Nat.one_mul]; omega
    have hr' : Ready s (solid_tile_bytes (bgs.take ((w + 15) / 16)) ++
        (solid_tile_bytes (bgs.drop ((w + 15) / 16)) ++ rest)) := by
      rw [← List.append_assoc, ← solid_tile_bytes_append, List.take_append_drop]
      exact hr
    obtain ⟨io1, bg1, e1, r1, hbg1⟩ := hextile_cols_solid x y w h r hx (by omega)
      ((w + 15) / 16) 0 w s (bgs.take ((w + 15) / 16)) fg bg _ (by omega) hnw hb1
      (fun q hq => hlen q (List.mem_of_mem_take hq)) hbg hr'
    obtain ⟨io2, bg2, e2, r2, hbg2⟩ := ih (r + 1) f { s with
      io := io1
      fbops := s.fbops ++
        solid_tile_fills ((List.range' (r * ((w + 15) / 16) + 0) ((w + 15) / 16)).map
          (hextile_tile x y w h)) (bgs.take ((w + 15) / 16)) }
      (bgs.drop ((w + 15) / 16)) fg bg1 rest
      (by omega) (by omega) hb2
      (fun q hq => hlen q (List.mem_of_mem_drop hq)) hbg1 r1
    dsimp only at e2 r2 hbg2
    refine ⟨io2, bg2, ?_, r2, hbg2⟩
    rw [hextile_update_rows, if_pos hj]
    rw [show 16 * 0 = 0 from rfl] at e1
    simp only [e1]
    rw [show 16 * r + 16 = 16 * (r + 1) by omega, e2]
    have hsplit : List.range' (r * ((w + 15) / 16)) ((len + 1) * ((w + 15) / 16)) =
        List.range' (r * ((w + 15) / 16) + 0) ((w + 15) / 16) ++
          List.range' ((r + 1) * ((w + 15) / 16)) (len * ((w + 15) / 16)) := by
      simp only [Nat.add_zero, Nat.add_mul, Nat.one_mul]
      rw [List.range'_append_1]
    have hfill : solid_tile_fills
        ((List.range' (r * ((w + 15) / 16)) ((len + 1) * ((w + 15) / 16))).map
          (hextile_tile x y w h)) bgs =
        solid_tile_fills ((List.range' (r * ((w + 15) / 16) + 0) ((w + 15) / 16)).map
          (hextile_tile x y w h)) (bgs.take ((w + 15) / 16)) ++
        solid_tile_fills ((List.range' ((r + 1) * ((w + 15) / 16)) (len * ((w + 15) / 16))).map
          (hextile_tile x y w h)) (bgs.drop ((w + 15) / 16)) := by
      rw [hsplit, List.map_append, ← solid_tile_fills_append _ _ _ _ (by simp [hb1]),
        List.take_append_drop]
    rw [hfill]
    simp only [List.append_assoc]

theorem hextile_tiles_disjoint (x y w h : Nat) :
    (hextile_tiles x y w h).Pairwise
      (fun a b => ∀ px py, ¬ (a.covers px py ∧ b.covers px py)) := by
  rw [List.pairwise_iff_getElem]
  intro i j hi hj hij px py hcov
  simp only [hextile_tiles, List.getElem_map, List.getElem_range, Rect.covers,
    hextile_tile] at hcov
  have hi' := Nat.div_add_mod i ((w + 15) / 16)
  have hj' := Nat.div_add_mod j ((w + 15) / 16)
  generalize i % ((w + 15) / 16) = ci at hcov hi'
  generalize j % ((w + 15) / 16) = cj at hcov hj'
  generalize i / ((w + 15) / 16) = ri at hcov hi'
  generalize j / ((w + 15) / 16) = rj at hcov hj'
  have hc : ci = cj := by omega
  have hr : ri = rj := by omega
  subst hc hr
  omega

theorem hextile_tiles_cover (x y w h px py : Nat) :
    (∃ t ∈ hextile_tiles x y w h, t.covers px py) ↔
      (x ≤ px ∧ px < x + w ∧ y ≤ py ∧ py < y + h) := by
  constructor
  · rintro ⟨t, ht, hcov⟩
    obtain ⟨k, hk, rfl⟩ := List.mem_map.mp ht
    have hk' : k < ((h + 15) / 16) * ((w + 15) / 16) := List.mem_range.mp hk
    have hN : 0 < (w + 15) / 16 := by
      rcases Nat.eq_zero_or_pos ((w + 15) / 16) with h0 | h0
      · rw [h0] at hk'; simp at hk'
      · exact h0
    have hc : k % ((w + 15) / 16) < (w + 15) / 16 := Nat.mod_lt _ hN
    have hr : k / ((w + 15) / 16) < (h + 15) / 16 := (Nat.div_lt_iff_lt_mul hN).mpr hk'
    simp only [Rect.covers, hextile_tile] at hcov
    generalize k % ((w + 15) / 16) = c at hcov hc
    generalize k / ((w + 15) / 16) = r at hcov hr
    omega
  · intro hin
    have hc : (px - x) / 16 < (w + 15) / 16 := by omega
    have hr : (py - y) / 16 < (h + 15) / 16 := by omega
    have hk : (py - y) / 16 * ((w + 15) / 16) + (px - x) / 16 <
        ((h + 15) / 16) * ((w + 15) / 16) :=
      calc (py - y) / 16 * ((w + 15) / 16) + (px - x) / 16
          < (py - y) / 16 * ((w + 15) / 16) + (w + 15) / 16 := Nat.add_lt_add_left hc _
        _ = ((py - y) / 16 + 1) * ((w + 15) / 16) := by rw [Nat.add_mul, Nat.one_mul]
        _ ≤ ((h + 15) / 16) * ((w + 15) / 16) := Nat.mul_le_mul_right _ hr
    refine ⟨_, List.mem_map.mpr ⟨_, List.mem_range.mpr hk, rfl⟩, ?_⟩
    rw [hextile_tile_at x y w h _ _ hc]
    simp only [Rect.covers]
    omega

/-- C18. A Hextile rectangle (x, y, w, h) inside the 16-bit coordinate range in which
every tile carries the flag byte 0x02 and its background pixel: the decoder issues
one fill per tile in row-major tile order, ceil(w/16) * ceil(h/16) in all, each
with the pixel read for that tile, at (x + i, y + j) with the size
min(16, w - i) x min(16, h - j); it consumes exactly the tiles' bytes; the tiles
are pairwise disjoint and cover exactly the rectangle. -/
theorem hextile_update_solid (s : Conn) (x y w h : Nat) (bgs : List (List UInt8))
    (rest : List UInt8) (hx : x + w ≤ 65536) (hy : y + h ≤ 65536)
    (hn : bgs.length = (hextile_tiles x y w h).length)
    (hlen : ∀ p ∈ bgs, p.length = vnc_connection_pixel_size s)
    (hr : Ready s (solid_tile_bytes bgs ++ rest)) :
    (∃ io', vnc_connection_hextile_update s x y w h =
        { s with
          io := io'
          fbops := s.fbops ++ solid_tile_fills (hextile_tiles x y w h) bgs } ∧
      io'.pending = rest) ∧
    (solid_tile_fills (hextile_tiles x y w h) bgs).length =
      ((w + 15) / 16) * ((h + 15) / 16) ∧
    (∀ k, k < ((w + 15) / 16) * ((h + 15) / 16) →
      (hextile_tiles x y w h)[k]? = some
        { x := x + 16 * (k % ((w + 15) / 16))
          y := y + 16 * (k / ((w + 15) / 16))
          width := min 16 (w - 16 * (k % ((w + 15) / 16)))
          height := min 16 (h - 16 * (k / ((w + 15) / 16))) }) ∧
    (hextile_tiles x y w h).Pairwise
      (fun a b => ∀ px py, ¬ (a.covers px py ∧ b.covers px py)) ∧
    (∀ px py, (∃ t ∈ hextile_tiles x y w h, t.covers px py) ↔
      (x ≤ px ∧ px < x + w ∧ y ≤ py ∧ py < y + h)) := by
  have hcount : (hextile_tiles x y w h).length = ((h + 15) / 16) * ((w + 15) / 16) := by
    simp [hextile_tiles]
  refine ⟨?_, ?_, ?_, hextile_tiles_disjoint x y w h, hextile_tiles_cover x y w h⟩
  · obtain ⟨io1, bg1, e1, r1, _⟩ := hextile_rows_solid x y w h hx hy ((h + 15) / 16) 0 h s bgs
      [0, 0, 0, 0] [0, 0, 0, 0] rest (by omega) (by omega) (by rw [hn, hcount]) hlen rfl hr
    refine ⟨io1, ?_, r1.2.2⟩
    rw [show 16 * 0 = 0 from rfl, Nat.zero_mul, ← List.range_eq_range'] at e1
    rw [vnc_connection_hextile_update, e1]
    rfl
  · rw [solid_tile_fills_length _ _ hn.symm, hcount, Nat.mul_comm]
  · intro k hk
    rw [Nat.mul_comm] at hk
    simp [hextile_tiles, List.getElem?_map, List.getElem?_range hk, hextile_tile]

theorem hextile_update_solid_witness :
    ((32 + 16 ≤ 65536 ∧ 48 + 16 ≤ 65536) ∧
      [[(0xFF : UInt8), 0x00, 0xFF, 0x00]].length = (hextile_tiles 32 48 16 16).length ∧
      (∀ p ∈ [[(0xFF : UInt8), 0x00, 0xFF, 0x00]],
        p.length = vnc_connection_pixel_size (session rgb888 640 480 [2, 0xFF, 0x00, 0xFF, 0x00])) ∧
      Ready (session rgb888 640 480 [2, 0xFF, 0x00, 0xFF, 0x00])
        (solid_tile_bytes [[0xFF, 0x00, 0xFF, 0x00]] ++ [])) ∧
    (∃ io', vnc_connection_hextile_update (session rgb888 640 480 [2, 0xFF, 0x00, 0xFF, 0x00])
        32 48 16 16 =
        { session rgb888 640 480 [2, 0xFF, 0x00, 0xFF, 0x00] with
          io := io'
          fbops := [FbOp.fill [0xFF, 0x00, 0xFF, 0x00] 32 48 16 16] } ∧
      io'.pending = []) :=
  ⟨⟨by decide, by decide, by decide, ready_session _ _ _ _⟩,
    (hextile_update_solid (session rgb888 640 480 [2, 0xFF, 0x00, 0xFF, 0x00]) 32 48 16 16
      [[0xFF, 0x00, 0xFF, 0x00]] [] (by decide) (by decide) (by decide) (by decide)
      (ready_session _ _ _ _)).1⟩

/-! ## ZRLE packed palette -/

theorem read_cpixel_ok (s : Conn) (p rest pixel : List UInt8)
    (hlen : p.length = cpixel_size s.fmt) (h : Ready s (p ++ rest)) :
    ∃ io', vnc_connection_read_cpixel s pixel =
        (cpixel_buffer s.fmt p pixel, { s with io := io' }) ∧
      Ready { s with io := io' } rest ∧ SameOutput s.io io' := by
  unfold vnc_connection_read_cpixel cpixel_buffer vnc_connection_pixel_size
  unfold cpixel_size at hlen
  by_cases h1 : s.fmt.bits_per_pixel / 8 = 4 ∧ s.fmt.true_color_flag ≠ 0
  · by_cases h2 : (s.fmt.red_shift > 7 ∧ s.fmt.green_shift > 7 ∧ s.fmt.blue_shift > 7) ∨
        (shl_int s.fmt.red_max s.fmt.red_shift < 2 ^ 24 ∧
          shl_int s.fmt.green_max s.fmt.green_shift < 2 ^ 24 ∧
          shl_int s.fmt.blue_max s.fmt.blue_shift < 2 ^ 24)
    · rw [if_pos h1, if_pos h2] at hlen
      by_cases h3 : s.fmt.depth = 24 ∧ s.fmt.byte_order = G_BIG_ENDIAN
      · obtain ⟨io', heq, hr, hso⟩ := read_ok s p rest
          ((List.replicate (s.fmt.bits_per_pixel / 8) 0 ++
            pixel.drop (s.fmt.bits_per_pixel / 8)).drop 1) h
        rw [hlen] at heq
        refine ⟨io', ?_, hr, hso⟩
        simp only [if_pos h1, if_pos h2, if_pos h3, heq, hlen]
        rw [if_pos ⟨h1.1, h1.2, h2, h3⟩]
      · obtain ⟨io', heq, hr, hso⟩ := read_ok s p rest
          (List.replicate (s.fmt.bits_per_pixel / 8) 0 ++
            pixel.drop (s.fmt.bits_per_pixel / 8)) h
        rw [hlen] at heq
        refine ⟨io', ?_, hr, hso⟩
        simp only [if_pos h1, if_pos h2, if_neg h3, heq, hlen]
        rw [if_neg (fun hc => h3 hc.2.2.2)]
    · rw [if_pos h1, if_neg h2] at hlen
      obtain ⟨io', heq, hr, hso⟩ := read_ok s p rest
        (List.replicate (s.fmt.bits_per_pixel / 8) 0 ++
          pixel.drop (s.fmt.bits_per_pixel / 8)) h
      rw [hlen] at heq
      refine ⟨io', ?_, hr, hso⟩
      simp only [if_pos h1, if_neg h2, heq, hlen]
      rw [if_neg (fun hc => h2 hc.2.2.1)]
  · rw [if_neg h1] at hlen
    obtain ⟨io', heq, hr, hso⟩ := read_ok s p rest
      (List.replicate (s.fmt.bits_per_pixel / 8) 0 ++
        pixel.drop (s.fmt.bits_per_pixel / 8)) h
    rw [hlen] at heq
    refine ⟨io', ?_, hr, hso⟩
    simp only [if_neg h1, heq, hlen]
    rw [if_neg (fun hc => h1 ⟨hc.1, hc.2.1⟩)]

theorem packed_index2_lt (b : UInt8) (k : Nat) : packed_index2 b k ≤ 3 :=
  Nat.and_le_right

/-- The first index of a row with a palette of 4: a byte is read and its two upper
bits are the index. -/
theorem read_zrle_pi_first (t : Conn) (b : UInt8) (rest : List UInt8)
    (hbits : t.zrle_pi_bits = 0) (hr : Ready t (b :: rest)) :
    ∃ io', vnc_connection_read_zrle_pi t 4 =
        (packed_index2 b 0, { t with
          io := io'
          zrle_pi := b.toNat
          zrle_pi_bits := 6 }) ∧
      Ready { t with io := io' } rest := by
  obtain ⟨io1, e1, r1, _⟩ := read_u8_ok t b rest hr
  refine ⟨io1, ?_, r1⟩
  unfold vnc_connection_read_zrle_pi
  rw [if_pos hbits, e1]
  have hw : wrap_int 6 = 6 := by decide
  have hs : ∀ a : Nat, shr_int a 6 = a >>> 6 := fun a => rfl
  simp [hw, hs, packed_index2]

/-- The second index of a row with a palette of 4 comes from the byte held. -/
theorem read_zrle_pi_second (t : Conn) (b : UInt8) (hpi : t.zrle_pi = b.toNat)
    (hbits : t.zrle_pi_bits = 6) :
    vnc_connection_read_zrle_pi t 4 = (packed_index2 b 1, { t with zrle_pi_bits := 4 }) := by
  unfold vnc_connection_read_zrle_pi
  have hw : wrap_int 4 = 4 := by decide
  have hs : ∀ a : Nat, shr_int a 4 = a >>> 4 := fun a => rfl
  simp [hbits, hpi, hw, hs, packed_index2]

/-- A row of two pixels with a palette of 4: one byte is read, its two upper bit
pairs are the two indices. -/
theorem zrle_palette_row_two (palette : List (List UInt8)) (x y j : Nat) (t : Conn) (b : UInt8)
    (rest : List UInt8) (hr : Ready t (b :: rest)) :
    ∃ io', zrle_palette_row 4 palette x y j 2 0 { t with zrle_pi_bits := 0 } =
        { t with
          io := io'
          zrle_pi := b.toNat
          zrle_pi_bits := 4
          fbops := t.fbops ++
            [FbOp.set_pixel_at (palette.getD (packed_index2 b 0 &&& 0x7F) [0, 0, 0, 0])
                (x : Int) ((y : Int) + (j : Int)),
              FbOp.set_pixel_at (palette.getD (packed_index2 b 1 &&& 0x7F) [0, 0, 0, 0])
                ((x : Int) + 1) ((y : Int) + (j : Int))] } ∧
      Ready { t with io := io' } rest := by
  have hr0 : Ready { t with zrle_pi_bits := 0 } (b :: rest) := hr
  obtain ⟨io1, e1, r1⟩ := read_zrle_pi_first { t with zrle_pi_bits := 0 } b rest rfl hr0
  dsimp only at e1 r1
  refine ⟨io1, ?_, r1⟩
  have e2 := read_zrle_pi_second { t with
    io := io1
    zrle_pi := b.toNat
    zrle_pi_bits := 6
    fbops := t.fbops ++
      [FbOp.set_pixel_at (palette.getD (packed_index2 b 0 &&& 0x7F) [0, 0, 0, 0])
        (x : Int) ((y : Int) + (j : Int))] } b rfl rfl
  dsimp only at e2
  simp only [zrle_palette_row, Nat.cast_ofNat, e1, Nat.cast_zero, add_zero, e2,
    List.append_assoc, List.singleton_append, Nat.cast_one, zero_add]

theorem palette_four (pa pb pc pd : List UInt8) (k : Nat) (hk : k ≤ 3) :
    (((((List.replicate 128 ([0, 0, 0, 0] : List UInt8)).set 0 pa).set 1 pb).set 2 pc).set 3
      pd).getD (k &&& 0x7F) [0, 0, 0, 0] = [pa, pb, pc, pd].getD k [0, 0, 0, 0] := by
  interval_cases k <;> rfl

/-- C19, as amended. A ZRLE packed-palette tile of size 2x2 at (x, y) with the
palette [A, B, C, D] of 4 entries takes two index bytes, one for each row: the
indices of a row are the bit pairs of its byte from the most significant end, and
the lower four bits of the byte are padding. The pixel for the first pair of `b1`
goes to (x, y), for its second pair to (x+1, y), for the first pair of `b2` to
(x, y+1) and for its second pair to (x+1, y+1), and exactly the palette and these
two bytes are consumed. -/
theorem zrle_palette_tile_rows (s : Conn) (x y : Nat) (A B C D : List UInt8) (b1 b2 : UInt8)
    (rest : List UInt8) (hA : A.length = cpixel_size s.fmt) (hB : B.length = cpixel_size s.fmt)
    (hC : C.length = cpixel_size s.fmt) (hD : D.length = cpixel_size s.fmt)
    (hr : Ready s (A ++ B ++ C ++ D ++ b1 :: b2 :: rest)) :
    ∃ io', vnc_connection_zrle_update_tile_palette s 4 x y 2 2 =
        { s with
          io := io'
          zrle_pi := b2.toNat
          zrle_pi_bits := 4
          fbops := s.fbops ++
            [FbOp.set_pixel_at (palette_pixel s.fmt [A, B, C, D] (packed_index2 b1 0))
                (x : Int) (y : Int),
              FbOp.set_pixel_at (palette_pixel s.fmt [A, B, C, D] (packed_index2 b1 1))
                ((x : Int) + 1) (y : Int),
              FbOp.set_pixel_at (palette_pixel s.fmt [A, B, C, D] (packed_index2 b2 0))
                (x : Int) ((y : Int) + 1),
              FbOp.set_pixel_at (palette_pixel s.fmt [A, B, C, D] (packed_index2 b2 1))
                ((x : Int) + 1) ((y : Int) + 1)] } ∧
      io'.pending = rest := by
  have hr' : Ready s (A ++ (B ++ (C ++ (D ++ b1 :: b2 :: rest)))) := by
    simpa only [List.append_assoc] using hr
  obtain ⟨io1, e1, r1, _⟩ := read_cpixel_ok s A _ [0, 0, 0, 0] hA hr'
  obtain ⟨io2, e2, r2, _⟩ := read_cpixel_ok { s with io := io1 } B _ [0, 0, 0, 0] hB r1
  obtain ⟨io3, e3, r3, _⟩ := read_cpixel_ok { s with io := io2 } C _ [0, 0, 0, 0] hC r2
  obtain ⟨io4, e4, r4, _⟩ := read_cpixel_ok { s with io := io3 } D _ [0, 0, 0, 0] hD r3
  dsimp only at e2 e3 e4 r2 r3 r4
  obtain ⟨io5, e5, r5⟩ := zrle_palette_row_two
    (((((List.replicate 128 ([0, 0, 0, 0] : List UInt8)).set 0
      (cpixel_buffer s.fmt A [0, 0, 0, 0])).set 1 (cpixel_buffer s.fmt B [0, 0, 0, 0])).set 2
      (cpixel_buffer s.fmt C [0, 0, 0, 0])).set 3 (cpixel_buffer s.fmt D [0, 0, 0, 0]))
    x y 0 { s with io := io4 } b1 _ r4
  dsimp only at e5 r5
  simp only [palette_four _ _ _ _ _ (packed_index2_lt _ _), Nat.cast_zero, add_zero] at e5
  have r5' : Ready { s with
    io := io5
    zrle_pi := b1.toNat
    zrle_pi_bits := 4
    fbops := s.fbops ++
      [FbOp.set_pixel_at ([cpixel_buffer s.fmt A [0, 0, 0, 0], cpixel_buffer s.fmt B [0, 0, 0, 0],
          cpixel_buffer s.fmt C [0, 0, 0, 0], cpixel_buffer s.fmt D [0, 0, 0, 0]].getD
            (packed_index2 b1 0) [0, 0, 0, 0]) (x : Int) (y : Int),
        FbOp.set_pixel_at ([cpixel_buffer s.fmt A [0, 0, 0, 0],
          cpixel_buffer s.fmt B [0, 0, 0, 0], cpixel_buffer s.fmt C [0, 0, 0, 0],
          cpixel_buffer s.fmt D [0, 0, 0, 0]].getD (packed_index2 b1 1) [0, 0, 0, 0])
          ((x : Int) + 1) (y : Int)] } (b2 :: rest) := r5
  obtain ⟨io6, e6, r6⟩ := zrle_palette_row_two
    (((((List.replicate 128 ([0, 0, 0, 0] : List UInt8)).set 0
      (cpixel_buffer s.fmt A [0, 0, 0, 0])).set 1 (cpixel_buffer s.fmt B [0, 0, 0, 0])).set 2
      (cpixel_buffer s.fmt C [0, 0, 0, 0])).set 3 (cpixel_buffer s.fmt D [0, 0, 0, 0]))
    x y 1 _ b2 _ r5'
  dsimp only at e6 r6
  simp only [palette_four _ _ _ _ _ (packed_index2_lt _ _), Nat.cast_one] at e6
  refine ⟨io6, ?_, r6.2.2⟩
  have g0 : (List.replicate 128 ([0, 0, 0, 0] : List UInt8)).getD 0 [0, 0, 0, 0] =
      [0, 0, 0, 0] := rfl
  have g1 : ∀ pa : List UInt8, ((List.replicate 128 ([0, 0, 0, 0] : List UInt8)).set 0
      pa).getD 1 [0, 0, 0, 0] = [0, 0, 0, 0] := fun _ => rfl
  have g2 : ∀ pa pb : List UInt8, (((List.replicate 128 ([0, 0, 0, 0] : List UInt8)).set 0
      pa).set 1 pb).getD 2 [0, 0, 0, 0] = [0, 0, 0, 0] := fun _ _ => rfl
  have g3 : ∀ pa pb pc : List UInt8, ((((List.replicate 128 ([0, 0, 0, 0] : List UInt8)).set 0
      pa).set 1 pb).set 2 pc).getD 3 [0, 0, 0, 0] = [0, 0, 0, 0] := fun _ _ _ => rfl
  unfold vnc_connection_zrle_update_tile_palette
  simp only [zrle_palette_read, Nat.zero_add, Nat.reduceAdd, g0, e1, g1, e2, g2, e3, g3, e4,
    zrle_palette_rows, e5]
  rw [e6]
  simp [palette_pixel]

theorem zrle_palette_tile_rows_witness :
    (([0xA1, 0xA2, 0xA3] : List UInt8).length =
        cpixel_size (session rgb888 640 480 (palette_abcd ++ [0x10, 0xB0])).fmt ∧
      ([0xB1, 0xB2, 0xB3] : List UInt8).length =
        cpixel_size (session rgb888 640 480 (palette_abcd ++ [0x10, 0xB0])).fmt ∧
      ([0xC1, 0xC2, 0xC3] : List UInt8).length =
        cpixel_size (session rgb888 640 480 (palette_abcd ++ [0x10, 0xB0])).fmt ∧
      ([0xD1, 0xD2, 0xD3] : List UInt8).length =
        cpixel_size (session rgb888 640 480 (palette_abcd ++ [0x10, 0xB0])).fmt ∧
      Ready (session rgb888 640 480 (palette_abcd ++ [0x10, 0xB0]))
        ([0xA1, 0xA2, 0xA3] ++ [0xB1, 0xB2, 0xB3] ++ [0xC1, 0xC2, 0xC3] ++ [0xD1, 0xD2, 0xD3] ++
          0x10 :: 0xB0 :: [])) ∧
    ∃ io', vnc_connection_zrle_update_tile_palette
        (session rgb888 640 480 (palette_abcd ++ [0x10, 0xB0])) 4 10 20 2 2 =
        { session rgb888 640 480 (palette_abcd ++ [0x10, 0xB0]) with
          io := io'
          zrle_pi := 0xB0
          zrle_pi_bits := 4
          fbops := [FbOp.set_pixel_at [0xA1, 0xA2, 0xA3, 0] 10 20,
            FbOp.set_pixel_at [0xB1, 0xB2, 0xB3, 0] 11 20,
            FbOp.set_pixel_at [0xC1, 0xC2, 0xC3, 0] 10 21,
            FbOp.set_pixel_at [0xD1, 0xD2, 0xD3, 0] 11 21] } ∧
      io'.pending = [] :=
  ⟨⟨by decide, by decide, by decide, by decide, ready_session _ _ _ _⟩,
    zrle_palette_tile_rows (session rgb888 640 480 (palette_abcd ++ [0x10, 0xB0])) 10 20
      [0xA1, 0xA2, 0xA3] [0xB1, 0xB2, 0xB3] [0xC1, 0xC2, 0xC3] [0xD1, 0xD2, 0xD3] 0x10 0xB0 []
      (by decide) (by decide) (by decide) (by decide) (ready_session _ _ _ _)⟩

/-- C19, the claim as stated fails. With the palette [A, B, C, D] and the index byte
0b11100100 the first row of the 2x2 tile gets D at (x, y) and C at (x+1, y): the
indices are taken from the most significant bits. The second row takes its indices
from a second byte (here 0, so A and A), which is consumed; when the server sends
no second byte the read fails. -/
theorem zrle_palette_tile_one_byte :
    (vnc_connection_zrle_update_tile_palette
      (session rgb888 640 480 (palette_abcd ++ [0b11100100, 0])) 4 10 20 2 2).fbops =
      [FbOp.set_pixel_at [0xD1, 0xD2, 0xD3, 0] 10 20,
        FbOp.set_pixel_at [0xC1, 0xC2, 0xC3, 0] 11 20,
        FbOp.set_pixel_at [0xA1, 0xA2, 0xA3, 0] 10 21,
        FbOp.set_pixel_at [0xA1, 0xA2, 0xA3, 0] 11 21] ∧
    (vnc_connection_zrle_update_tile_palette
      (session rgb888 640 480 (palette_abcd ++ [0b11100100, 0])) 4 10 20 2 2).io.pending = [] ∧
    (vnc_connection_zrle_update_tile_palette
      (session rgb888 640 480 (palette_abcd ++ [0b11100100, 0])) 4 10 20 2 2).coroutine_stop =
      false ∧
    (vnc_connection_zrle_update_tile_palette
      (session rgb888 640 480 (palette_abcd ++ [0b11100100])) 4 10 20 2 2).signals =
      [Signal.error (ErrorText.lit "Server closed the connection")] := by
  decide

/-! ## SASL data -/

theorem sent_tx (txs : List (List UInt8)) : sent (txs.map WireEvent.tx) = txs := by
  induction txs with
  | nil => rfl
  | cons a t ih => simp [sent, ih]

/-- A write on a live session adds the data to what is sent or staged. -/
theorem write_outgoing (s : Conn) (data : List UInt8) (hstop : s.coroutine_stop = false)
    (hwb : s.io.write_buffer.length ≤ 4096) :
    ∃ io', vnc_connection_write s data = { s with io := io' } ∧
      transmitted io' ++ io'.write_buffer = transmitted s.io ++ s.io.write_buffer ++ data ∧
      io'.write_buffer.length ≤ 4096 := by
  obtain ⟨txs, wb, e, hcat, hlen⟩ := write_loop_live data.length s data hstop hwb (Nat.le_refl _)
  refine ⟨_, e, ?_, hlen⟩
  simp only [transmitted, sent_append, sent_tx, List.flatten_append, List.append_assoc]
  rw [hcat]

/-- A flush on a live session sends what is staged. -/
theorem flush_outgoing (s : Conn) (hstop : s.coroutine_stop = false) :
    ∃ io', vnc_connection_flush s = { s with io := io' } ∧
      transmitted io' = transmitted s.io ++ s.io.write_buffer ∧ io'.write_buffer = [] := by
  refine ⟨_, flush_live s hstop, ?_, rfl⟩
  by_cases h : s.io.write_buffer.length = 0
  · have h' : s.io.write_buffer = [] := List.length_eq_zero.mp h
    simp [transmitted, h']
  · simp [transmitted, h, sent_append, sent]

/-- The client's data goes out as the length word and the bytes at the pointer. -/
theorem sasl_write_some (s : Conn) (buf : List UInt8) (n : Nat) (hn : n + 1 < 2 ^ 32)
    (hstop : s.coroutine_stop = false) (hwb : s.io.write_buffer.length ≤ 4096) :
    ∃ io', perform_auth_sasl_write_clientout s (some buf) n = { s with io := io' } ∧
      transmitted io' = transmitted s.io ++ s.io.write_buffer ++
        (be_bytes 4 (n + 1) ++ buf.take (n + 1)) ∧
      io'.write_buffer = [] := by
  obtain ⟨io1, e1, h1, l1⟩ := write_outgoing s (be_bytes 4 (n + 1)) hstop hwb
  obtain ⟨io2, e2, h2, l2⟩ := write_outgoing { s with io := io1 } (buf.take (n + 1)) hstop l1
  obtain ⟨io3, e3, h3, w3⟩ := flush_outgoing { s with io := io2 } hstop
  dsimp only at e2 h2 l2 e3 h3 w3
  refine ⟨io3, ?_, ?_, w3⟩
  · simp only [perform_auth_sasl_write_clientout, vnc_connection_write_u32,
      Nat.mod_eq_of_lt hn, e1, e2, e3]
  · rw [h3, h2, h1]; simp

theorem sasl_write_none (s : Conn) (n : Nat)
    (hstop : s.coroutine_stop = false) (hwb : s.io.write_buffer.length ≤ 4096) :
    ∃ io', perform_auth_sasl_write_clientout s none n = { s with io := io' } ∧
      transmitted io' = transmitted s.io ++ s.io.write_buffer ++ be_bytes 4 0 ∧
      io'.write_buffer = [] := by
  obtain ⟨io1, e1, h1, l1⟩ := write_outgoing s (be_bytes 4 0) hstop hwb
  obtain ⟨io3, e3, h3, w3⟩ := flush_outgoing { s with io := io1 } hstop
  dsimp only at e3 h3 w3
  refine ⟨io3, ?_, ?_, w3⟩
  · simp only [perform_auth_sasl_write_clientout, vnc_connection_write_u32, e1, e3]
  · rw [h3, h1]

/-- The server's data with a length word above 0: the buffer holds the bytes with
the last one set to NUL, and the length is one less. -/
theorem sasl_read_some (t : Conn) (blob rest : List UInt8) (last : UInt8) (k : Nat)
    (hn : blob.length < 2 ^ 20)
    (hr : Ready t (be_bytes 4 (blob.length + 1) ++ blob ++ [last] ++ rest)) :
    ∃ io', perform_auth_sasl_read_serverin t k =
        (true, some (blob ++ [0]), blob.length, { t with io := io' }) ∧
      io'.pending = rest := by
  have hstop : t.coroutine_stop = false := hr.1
  cases t
  simp only at hstop
  subst hstop
  have hr' := hr
  simp only [be_bytes, List.nil_append, List.append_assoc, List.cons_append] at hr'
  obtain ⟨io1, e1, r1, _⟩ := read_u32_ok _ _ _ _ _ _ hr'
  dsimp only at e1 r1
  rw [u32_value (blob.length + 1) (by omega)] at e1
  have happ : blob ++ last :: rest = (blob ++ [last]) ++ rest := by simp
  have r1' := r1
  rw [happ] at r1'
  obtain ⟨io2, e2, r2, _⟩ := read_ok _ (blob ++ [last]) rest
    (List.replicate (blob.length + 1) 0) r1'
  dsimp only at e2 r2
  have hl : (blob ++ [last]).length = blob.length + 1 := by simp
  rw [hl] at e2
  refine ⟨io2, ?_, r2.2.2⟩
  dsimp only
  have hmax : ¬ blob.length + 1 > SASL_MAX_DATA_LEN := by
    unfold SASL_MAX_DATA_LEN; omega
  have hset : (blob ++ [last] ++ (List.replicate (blob.length + 1) (0 : UInt8)).drop
      (blob.length + 1)).set (blob.length + 1 - 1) 0 = blob ++ [0] := by
    simp
  unfold perform_auth_sasl_read_serverin
  simp only [e1, hmax, e2, hset]
  simp

theorem sasl_read_none (t : Conn) (rest : List UInt8) (k : Nat)
    (hr : Ready t (be_bytes 4 0 ++ rest)) :
    ∃ io', perform_auth_sasl_read_serverin t k = (true, none, 0, { t with io := io' }) ∧
      io'.pending = rest := by
  have hr' : Ready t (0 :: 0 :: 0 :: 0 :: rest) := hr
  obtain ⟨io1, e1, r1, _⟩ := read_u32_ok _ _ _ _ _ _ hr'
  refine ⟨io1, ?_, r1.2.2⟩
  have hstop : t.coroutine_stop = false := hr.1
  unfold perform_auth_sasl_read_serverin
  simp [e1, hstop, SASL_MAX_DATA_LEN]

/-- C20. An optional blob `b` of fewer than 2^20 bytes, which the SASL library hands
over as a pointer and a length with a NUL byte after the blob (`tail` is what
follows in memory). Absent, it is sent as the 32-bit length 0 and nothing else;
present with n bytes, as the 32-bit length n + 1, the n bytes and one NUL byte.
The statements that read the server's data, applied to these bytes, give back `b`:
length 0 gives no buffer, a length L above 0 gives a buffer whose first L - 1 bytes
are the blob. Absent and present-but-empty differ on the wire. -/
theorem sasl_blob_roundtrip (s t : Conn) (b : Option (List UInt8)) (tail rest : List UInt8)
    (clientoutlen k : Nat)
    (hlen : b.isSome = true → clientoutlen = (b.getD []).length)
    (hsize : (b.getD []).length < 2 ^ 20)
    (hstop : s.coroutine_stop = false) (hwb : s.io.write_buffer.length ≤ 4096)
    (ht : Ready t (sasl_blob_bytes b ++ rest)) :
    (∃ io', perform_auth_sasl_write_clientout s (b.map fun blob => blob ++ 0 :: tail)
          clientoutlen = { s with io := io' } ∧
        transmitted io' = transmitted s.io ++ s.io.write_buffer ++ sasl_blob_bytes b ∧
        io'.write_buffer = []) ∧
    (∃ serverin serverinlen io', perform_auth_sasl_read_serverin t k =
          (true, serverin, serverinlen, { t with io := io' }) ∧
        sasl_blob serverin serverinlen = b ∧ io'.pending = rest) ∧
    sasl_blob_bytes none = [0, 0, 0, 0] ∧ sasl_blob_bytes (some []) = [0, 0, 0, 1, 0] := by
  refine ⟨?_, ?_, rfl, rfl⟩
  · cases b with
    | none => exact sasl_write_none s clientoutlen hstop hwb
    | some blob =>
      have hlen' : clientoutlen = blob.length := hlen rfl
      have hsize' : blob.length < 2 ^ 20 := hsize
      subst hlen'
      obtain ⟨io', e, htx, hw⟩ := sasl_write_some s (blob ++ 0 :: tail) blob.length (by omega)
        hstop hwb
      refine ⟨io', e, ?_, hw⟩
      rw [htx]
      simp [sasl_blob_bytes, List.take_append_eq_append_take]
  · cases b with
    | none =>
      obtain ⟨io', e, hp⟩ := sasl_read_none t rest k ht
      exact ⟨none, 0, io', e, rfl, hp⟩
    | some blob =>
      have hsize' : blob.length < 2 ^ 20 := hsize
      obtain ⟨io', e, hp⟩ := sasl_read_some t blob rest 0 k hsize' ht
      exact ⟨some (blob ++ [0]), blob.length, io', e, by simp [sasl_blob], hp⟩

theorem sasl_blob_roundtrip_witness :
    (((some ([] : List UInt8)).isSome = true → 0 = ((some ([] : List UInt8)).getD []).length) ∧
      ((some ([] : List UInt8)).getD []).length < 2 ^ 20 ∧
      (session rgb888 0 0 []).coroutine_stop = false ∧
      (session rgb888 0 0 []).io.write_buffer.length ≤ 4096 ∧
      Ready (session rgb888 0 0 [0, 0, 0, 1, 0, 9]) (sasl_blob_bytes (some []) ++ [9])) ∧
    ((∃ io', perform_auth_sasl_write_clientout (session rgb888 0 0 [])
          ((some ([] : List UInt8)).map fun blob => blob ++ 0 :: [7]) 0 =
            { session rgb888 0 0 [] with io := io' } ∧
        transmitted io' = transmitted (session rgb888 0 0 []).io ++
          (session rgb888 0 0 []).io.write_buffer ++ sasl_blob_bytes (some []) ∧
        io'.write_buffer = []) ∧
    (∃ serverin serverinlen io', perform_auth_sasl_read_serverin
          (session rgb888 0 0 [0, 0, 0, 1, 0, 9]) 0 =
          (true, serverin, serverinlen, { session rgb888 0 0 [0, 0, 0, 1, 0, 9] with io := io' }) ∧
        sasl_blob serverin serverinlen = some [] ∧ io'.pending = [9]) ∧
    sasl_blob_bytes none = [0, 0, 0, 0] ∧ sasl_blob_bytes (some []) = [0, 0, 0, 1, 0]) :=
  ⟨⟨fun _ => rfl, by decide, rfl, by decide, ready_session _ _ _ _⟩,
    sasl_blob_roundtrip (session rgb888 0 0 []) (session rgb888 0 0 [0, 0, 0, 1, 0, 9])
      (some []) [7] [9] 0 0 (fun _ => rfl) (by decide) rfl (by decide)
      (ready_session _ _ _ _)⟩

/-! ## Key events -/

theorem flush_only_io (s : Conn) : ∃ io', vnc_connection_flush s = { s with io := io' } := by
  by_cases h1 : s.io.write_buffer.length = 0
  · refine ⟨{ s.io with write_buffer := [] }, ?_⟩
    simp only [vnc_connection_flush, vnc_connection_flush_plain, vnc_connection_flush_wire, h1,
      if_true]
  · cases h2 : s.coroutine_stop
    · refine ⟨{ s.io with
        write_buffer := []
        log := s.io.log ++ [WireEvent.tx s.io.write_buffer] }, ?_⟩
      simp only [vnc_connection_flush, vnc_connection_flush_plain, vnc_connection_flush_wire, h1,
        if_false, h2, Bool.false_eq_true]
    · refine ⟨{ s.io with write_buffer := [] }, ?_⟩
      simp only [vnc_connection_flush, vnc_connection_flush_plain, vnc_connection_flush_wire, h1,
        if_false, h2, if_true]

theorem write_loop_only_io : ∀ (fuel : Nat) (s : Conn) (data : List UInt8),
    ∃ io', vnc_connection_write_loop fuel s data = { s with io := io' } := by
  intro fuel
  induction fuel with
  | zero => intro s data; exact ⟨s.io, rfl⟩
  | succ fuel ih =>
    intro s data
    rw [vnc_connection_write_loop]
    by_cases hd : data.length = 0
    · exact ⟨s.io, by simp only [hd, if_true]⟩
    · simp only [hd, if_false]
      by_cases hf : s.io.write_buffer.length = 4096
      · obtain ⟨io1, e1⟩ := flush_only_io s
        simp only [hf, if_true, e1]
        obtain ⟨io2, e2⟩ := ih
          { s with
            io := { io1 with
              write_buffer := io1.write_buffer ++
                data.take (min (4096 - io1.write_buffer.length) data.length) } }
          (data.drop (min (4096 - io1.write_buffer.length) data.length))
        exact ⟨io2, e2⟩
      · simp only [hf, if_false]
        obtain ⟨io2, e2⟩ := ih
          { s with
            io := { s.io with
              write_buffer := s.io.write_buffer ++
                data.take (min (4096 - s.io.write_buffer.length) data.length) } }
          (data.drop (min (4096 - s.io.write_buffer.length) data.length))
        exact ⟨io2, e2⟩

theorem write_only_io (s : Conn) (data : List UInt8) :
    ∃ io', vnc_connection_write s data = { s with io := io' } :=
  write_loop_only_io _ s data

theorem be_bytes_length (n v : Nat) : (be_bytes n v).length = n := by
  induction n generalizing v with
  | zero => rfl
  | succ n ih => simp [be_bytes, ih]

theorem write_encodings_ext_key (k : Nat) : ∀ (encs : List Int) (s : Conn),
    (write_encodings k s encs).has_ext_key_event = s.has_ext_key_event := by
  intro encs
  induction encs with
  | nil => intro s; rfl
  | cons e es ih =>
    intro s
    rw [write_encodings]
    by_cases h : k ≠ 0 ∧ e = VNC_CONNECTION_ENCODING_ZRLE
    · rw [if_pos h, ih]
    · rw [if_neg h, ih]; rfl

theorem resend_request_ext_key (s : Conn) :
    (vnc_connection_resend_framebuffer_update_request s).2.has_ext_key_event =
      s.has_ext_key_event := by
  unfold vnc_connection_resend_framebuffer_update_request vnc_connection_write_u8
    vnc_connection_write_u16
  obtain ⟨io1, e1⟩ := write_only_io s (be_bytes 1 VNC_CONNECTION_CLIENT_MESSAGE_FRAMEBUFFER_UPDATE_REQUEST)
  simp only [e1]
  obtain ⟨io2, e2⟩ := write_only_io { s with io := io1 }
    (be_bytes 1 (if s.lastUpdateRequest.incremental then 1 else 0))
  simp only [e2]
  obtain ⟨io3, e3⟩ := write_only_io { s with io := io2 } (be_bytes 2 s.lastUpdateRequest.x)
  simp only [e3]
  obtain ⟨io4, e4⟩ := write_only_io { s with io := io3 } (be_bytes 2 s.lastUpdateRequest.y)
  simp only [e4]
  obtain ⟨io5, e5⟩ := write_only_io { s with io := io4 } (be_bytes 2 s.lastUpdateRequest.width)
  simp only [e5]
  obtain ⟨io6, e6⟩ := write_only_io { s with io := io5 } (be_bytes 2 s.lastUpdateRequest.height)
  simp only [e6]
  obtain ⟨io7, e7⟩ := flush_only_io { s with io := io6 }
  simp only [e7]

/-- C21. `vnc_connection_key_event` appends to the xmit queue exactly the 12-byte
extended message (255, 0, u16 down, u32 key, u32 scancode) when the
extended-key-event capability is set, and exactly the 8-byte legacy message
(4, down, two pad bytes, u32 key) when it is not; it leaves the capability as it
is. `vnc_connection_set_encodings` clears the capability for every encoding list,
so the key events after it are legacy ones; a rectangle with the ExtKeyEvent
pseudo-encoding sets it, unless the error flag is set. -/
theorem key_event_enqueues (s : Conn) (down : Bool) (key scancode : Nat) (encoding : List Int)
    (ext : External) (x y w h : Nat) :
    (vnc_connection_key_event s down key scancode).2.xmit_buffer =
      s.xmit_buffer ++ key_event_message s.has_ext_key_event down key scancode ∧
    (key_event_message true down key scancode).length = 12 ∧
    (key_event_message false down key scancode).length = 8 ∧
    (vnc_connection_key_event s down key scancode).2.has_ext_key_event = s.has_ext_key_event ∧
    (vnc_connection_set_encodings s encoding).2.has_ext_key_event = false ∧
    (vnc_connection_key_event (vnc_connection_set_encodings s encoding).2 down key
        scancode).2.xmit_buffer =
      (vnc_connection_set_encodings s encoding).2.xmit_buffer ++
        key_event_message false down key scancode ∧
    (vnc_connection_key_event (vnc_connection_key_event
        (vnc_connection_set_encodings s encoding).2 down key scancode).2 down key
        scancode).2.xmit_buffer =
      (vnc_connection_set_encodings s encoding).2.xmit_buffer ++
        key_event_message false down key scancode ++
        key_event_message false down key scancode ∧
    (vnc_connection_framebuffer_update ext s VNC_CONNECTION_ENCODING_EXT_KEY_EVENT
        x y w h).2.has_ext_key_event = (s.has_ext_key_event || !s.coroutine_stop) := by
  have hkey : ∀ (t : Conn) (d : Bool) (k c : Nat),
      (vnc_connection_key_event t d k c).2.xmit_buffer =
        t.xmit_buffer ++ key_event_message t.has_ext_key_event d k c ∧
      (vnc_connection_key_event t d k c).2.has_ext_key_event = t.has_ext_key_event := by
    intro t d k c
    cases hx : t.has_ext_key_event <;> cases d <;>
      simp [vnc_connection_key_event, hx, key_event_message, vnc_connection_buffered_flush,
        vnc_connection_buffered_write_u8, vnc_connection_buffered_write_u16,
        vnc_connection_buffered_write_u32, vnc_connection_buffered_write,
        VNC_CONNECTION_CLIENT_MESSAGE_QEMU, VNC_CONNECTION_CLIENT_MESSAGE_KEY, be_bytes]
  have hset : (vnc_connection_set_encodings s encoding).2.has_ext_key_event = false := by
    simp only [vnc_connection_set_encodings, vnc_connection_buffered_flush,
      write_encodings_ext_key]
    rfl
  refine ⟨(hkey s down key scancode).1, ?_, ?_, (hkey s down key scancode).2, hset, ?_, ?_, ?_⟩
  · simp [key_event_message, be_bytes_length]
  · simp [key_event_message, be_bytes_length]
  · rw [(hkey _ down key scancode).1, hset]
  · rw [(hkey _ down key scancode).1, (hkey _ down key scancode).2, hset,
      (hkey _ down key scancode).1, hset]
  · unfold vnc_connection_framebuffer_update
    by_cases hstop : s.coroutine_stop = true
    · simp [vnc_connection_has_error, hstop]
    · have hstop' : s.coroutine_stop = false := by simpa using hstop
      have h1 : ¬ (VNC_CONNECTION_ENCODING_EXT_KEY_EVENT = VNC_CONNECTION_ENCODING_RAW) := by
        decide
      have h2 : ¬ (VNC_CONNECTION_ENCODING_EXT_KEY_EVENT = VNC_CONNECTION_ENCODING_COPY_RECT) := by
        decide
      have h3 : ¬ (VNC_CONNECTION_ENCODING_EXT_KEY_EVENT = VNC_CONNECTION_ENCODING_RRE) := by
        decide
      have h4 : ¬ (VNC_CONNECTION_ENCODING_EXT_KEY_EVENT = VNC_CONNECTION_ENCODING_HEXTILE) := by
        decide
      have h5 : ¬ (VNC_CONNECTION_ENCODING_EXT_KEY_EVENT = VNC_CONNECTION_ENCODING_ZRLE) := by
        decide
      have h6 : ¬ (VNC_CONNECTION_ENCODING_EXT_KEY_EVENT = VNC_CONNECTION_ENCODING_TIGHT) := by
        decide
      have h7 : ¬ (VNC_CONNECTION_ENCODING_EXT_KEY_EVENT =
          VNC_CONNECTION_ENCODING_DESKTOP_RESIZE) := by decide
      have h8 : ¬ (VNC_CONNECTION_ENCODING_EXT_KEY_EVENT =
          VNC_CONNECTION_ENCODING_POINTER_CHANGE) := by decide
      have h9 : ¬ (VNC_CONNECTION_ENCODING_EXT_KEY_EVENT = VNC_CONNECTION_ENCODING_LED_STATE) := by
        decide
      have h10 : ¬ (VNC_CONNECTION_ENCODING_EXT_KEY_EVENT = VNC_CONNECTION_ENCODING_WMVi) := by
        decide
      have h11 : ¬ (VNC_CONNECTION_ENCODING_EXT_KEY_EVENT =
          VNC_CONNECTION_ENCODING_RICH_CURSOR) := by decide
      have h12 : ¬ (VNC_CONNECTION_ENCODING_EXT_KEY_EVENT = VNC_CONNECTION_ENCODING_XCURSOR) := by
        decide
      simp only [vnc_connection_has_error, hstop', Bool.false_eq_true, if_false, h1, h2, h3, h4,
        h5, h6, h7, h8, h9, h10, h11, h12, if_true, resend_request_ext_key,
        vnc_connection_ext_key_event, Bool.not_false, Bool.or_true]

/-! ## The count of offered authentication types -/

/-- C27, the code at a failing input. Protocol 3.8, the server announces 11
authentication types (all None) and the host picks None. The count is compared
with `sizeof(auth)`, which is 40 for the array of 10 entries, so 11 is accepted:
no "Too many auth types" error is set, the 11 bytes are read and stored as
`auth[0]` to `auth[10]`, and all 11 are offered to the host. The same holds for a
count of 40; the first count that is refused is 41. -/
theorem perform_auth_eleven_types :
    (vnc_connection_perform_auth bare_library
      (hosted_session ([11] ++ List.replicate 11 1 ++ [0, 0, 0, 0])
        [HostCall.set_auth_type VNC_CONNECTION_AUTH_NONE])).1 = true ∧
    (vnc_connection_perform_auth bare_library
      (hosted_session ([11] ++ List.replicate 11 1 ++ [0, 0, 0, 0])
        [HostCall.set_auth_type VNC_CONNECTION_AUTH_NONE])).2.signals =
      [Signal.auth_choose_type [1, 1, 1, 1, 1, 1, 1, 1, 1, 1, 1]] ∧
    (vnc_connection_perform_auth bare_library
      (hosted_session ([11] ++ List.replicate 11 1 ++ [0, 0, 0, 0])
        [HostCall.set_auth_type VNC_CONNECTION_AUTH_NONE])).2.error = none ∧
    (vnc_connection_perform_auth bare_library
      (hosted_session ([11] ++ List.replicate 11 1 ++ [0, 0, 0, 0])
        [HostCall.set_auth_type VNC_CONNECTION_AUTH_NONE])).2.io.pending = [] ∧
    (vnc_connection_perform_auth bare_library
      (hosted_session ([40] ++ List.replicate 40 1 ++ [0, 0, 0, 0])
        [HostCall.set_auth_type VNC_CONNECTION_AUTH_NONE])).2.signals =
      [Signal.auth_choose_type (List.replicate 40 1)] ∧
    (vnc_connection_perform_auth bare_library
      (hosted_session ([41] ++ List.replicate 41 1 ++ [0, 0, 0, 0])
        [HostCall.set_auth_type VNC_CONNECTION_AUTH_NONE])).2.signals =
      [Signal.error (ErrorText.fmt "Too many auth types %u" [41])] := by
  decide

/-! ## RRE sub-rectangles -/

/-- C30, the code at failing inputs. An RRE rectangle (0, 0, 2, 2) in a session of
640 x 480 passes the boundary check; its one sub-rectangle (100, 100, 50, 50) is
filled as it stands, outside the rectangle, and the sub-rectangle
(65535, 65535, 65535, 65535) is filled outside the session as well: no check is
made on a sub-rectangle, and no error is set. -/
theorem rre_subrect_outside :
    (vnc_connection_framebuffer_update idle_external
      (session rgb888 640 480
        ([0, 0, 0, 1] ++ [1, 2, 3, 4] ++ [5, 6, 7, 8] ++ [0, 100, 0, 100, 0, 50, 0, 50]))
      VNC_CONNECTION_ENCODING_RRE 0 0 2 2).1 = true ∧
    (vnc_connection_framebuffer_update idle_external
      (session rgb888 640 480
        ([0, 0, 0, 1] ++ [1, 2, 3, 4] ++ [5, 6, 7, 8] ++ [0, 100, 0, 100, 0, 50, 0, 50]))
      VNC_CONNECTION_ENCODING_RRE 0 0 2 2).2.fbops =
      [FbOp.fill [1, 2, 3, 4] 0 0 2 2, FbOp.fill [5, 6, 7, 8] 100 100 50 50] ∧
    (vnc_connection_framebuffer_update idle_external
      (session rgb888 640 480
        ([0, 0, 0, 1] ++ [1, 2, 3, 4] ++ [5, 6, 7, 8] ++ [0, 100, 0, 100, 0, 50, 0, 50]))
      VNC_CONNECTION_ENCODING_RRE 0 0 2 2).2.error = none ∧
    (vnc_connection_framebuffer_update idle_external
      (session rgb888 640 480
        ([0, 0, 0, 1] ++ [1, 2, 3, 4] ++ [5, 6, 7, 8] ++
          [255, 255, 255, 255, 255, 255, 255, 255]))
      VNC_CONNECTION_ENCODING_RRE 0 0 2 2).2.fbops =
      [FbOp.fill [1, 2, 3, 4] 0 0 2 2, FbOp.fill [5, 6, 7, 8] 65535 65535 65535 65535] ∧
    (vnc_connection_framebuffer_update idle_external
      (session rgb888 640 480
        ([0, 0, 0, 1] ++ [1, 2, 3, 4] ++ [5, 6, 7, 8] ++
          [255, 255, 255, 255, 255, 255, 255, 255]))
      VNC_CONNECTION_ENCODING_RRE 0 0 2 2).2.signals = [Signal.framebuffer_update 0 0 2 2] := by
  decide

/-! ## The version held after the exchange -/

/-- The version exchange for a banner "RFB MMM.mmm\n", by cases on the server's
version. -/
theorem initialize_version_cases (s : Conn) (M m : Nat) (rest : List UInt8)
    (hM : M < 1000) (hm : m < 1000) (h : Ready s (banner M m ++ rest))
    (hw : s.io.write_buffer = []) :
    (version_older (M, m) (3, 3) →
      ∃ io', vnc_connection_initialize_version s =
          (false, { s with
            absPointer := 1
            major := (M : Int)
            minor := (m : Int)
            error := some (ErrorText.fmt "Server version is not supported (%d.%d)" [(M : Int), (m : Int)])
            coroutine_stop := true
            signals := s.signals ++ [Signal.error
              (ErrorText.fmt "Server version is not supported (%d.%d)" [(M : Int), (m : Int)])]
            io := io' }) ∧
        SameOutput s.io io' ∧ io'.pending = rest) ∧
    (¬ version_older (M, m) (3, 3) →
      ∃ (io' : IOState) (rxs : List (List UInt8)),
        vnc_connection_initialize_version s =
          (true, { s with
            absPointer := 1
            major := ((pinned_version (M, m)).1 : Int)
            minor := ((pinned_version (M, m)).2 : Int)
            io := io' }) ∧
        io'.log = s.io.log ++ rxs.map WireEvent.rx ++
          [WireEvent.tx (banner (pinned_version (M, m)).1 (pinned_version (M, m)).2)] ∧
        io'.write_buffer = [] ∧ io'.pending = rest ∧
        io'.read_offset ≤ io'.read_buffer.length ∧
        io'.compressed.isSome = s.io.compressed.isSome ∧
        (pinned_version (M, m) = (3, 3) ∨ pinned_version (M, m) = (3, 7) ∨
          pinned_version (M, m) = (3, 8))) := by
  obtain ⟨io1, ⟨hcmp, hwb1, rxs, hlog1⟩, hpend1, hoff1, hread, hscan⟩ :=
    initialize_version_scan s M m rest hM hm h
  have hstop : s.coroutine_stop = false := h.1
  obtain ⟨fmt, err, stop, w0, h0, ma, mi, io⟩ := s
  dsimp only at hstop hw hcmp hwb1 hlog1 hread hscan
  subst hstop
  unfold vnc_connection_initialize_version
  dsimp only
  rw [hread]
  dsimp only [vnc_connection_has_error]
  rw [hscan]
  dsimp only [vnc_connection_before_version, vnc_connection_after_version]
  simp only [ne_eq, not_true_eq_false, if_false]
  constructor
  · intro hold
    have hb33 : (decide ((M : Int) < 3) || (decide ((M : Int) = 3) && decide ((m : Int) < 3))) =
        true := by
      unfold version_older at hold
      simp only [Bool.or_eq_true, Bool.and_eq_true, decide_eq_true_eq]
      omega
    rw [hb33]
    refine ⟨io1, ?_, ⟨hcmp, hwb1, rxs, hlog1⟩, hpend1⟩
    simp [vnc_connection_set_error, vnc_connection_emit_main_context]
  · intro hnew
    have hb33 : (decide ((M : Int) < 3) || (decide ((M : Int) = 3) && decide ((m : Int) < 3))) =
        false := by
      unfold version_older at hnew
      simp only [Bool.or_eq_false_iff, Bool.and_eq_false_iff, decide_eq_false_iff_not]
      omega
    rw [hb33]
    have hpend : ∀ b : List UInt8,
        ({ io1 with write_buffer := [], log := io1.log ++ [WireEvent.tx b] } : IOState).pending =
          rest := by
      intro b
      rw [← hpend1]; rfl
    by_cases hA : version_older (M, m) (3, 7)
    · -- server versions 3.3 to 3.6
      have hM3 : M = 3 := by
        unfold version_older at hA hnew; dsimp only at hA hnew; omega
      subst hM3
      have hb37 : (decide (((3 : Nat) : Int) < 3) ||
          (decide (((3 : Nat) : Int) = 3) && decide ((m : Int) < 7))) = true := by
        unfold version_older at hA
        simp only [Bool.or_eq_true, Bool.and_eq_true, decide_eq_true_eq]
        dsimp only at hA
        omega
      have hp : pinned_version (3, m) = (3, 3) := by simp [pinned_version, hA]
      rw [hb37, hp]
      refine ⟨{ io1 with write_buffer := [], log := io1.log ++ [WireEvent.tx (banner 3 3)] }, rxs,
        ?_, ?_, rfl, hpend _, hoff1, hcmp, Or.inl rfl⟩
      · simp only [Bool.false_eq_true, if_false, if_true, Nat.cast_ofNat]
        rw [snprintf_pinned.1, write_banner _ _ (banner_length 3 3) rfl (hwb1.trans hw)]
      · simp [hlog1]
    · have hb37 : (decide ((M : Int) < 3) ||
          (decide ((M : Int) = 3) && decide ((m : Int) < 7))) = false := by
        unfold version_older at hA
        simp only [Bool.or_eq_false_iff, Bool.and_eq_false_iff, decide_eq_false_iff_not]
        dsimp only at hA
        omega
      rw [hb37]
      by_cases hB : version_older (M, m) (3, 8)
      · -- server version 3.7
        have hM3 : M = 3 := by
          unfold version_older at hA hB; dsimp only at hA hB; omega
        have hm7 : m = 7 := by
          unfold version_older at hA hB; dsimp only at hA hB; omega
        subst hM3 hm7
        have hp : pinned_version (3, 7) = (3, 7) := by decide
        rw [hp]
        refine ⟨{ io1 with write_buffer := [], log := io1.log ++ [WireEvent.tx (banner 3 7)] },
          rxs, ?_, ?_, rfl, hpend _, hoff1, hcmp, Or.inr (Or.inl rfl)⟩
        · simp only [Nat.cast_ofNat, Int.reduceAdd, Int.reduceLT, decide_True, decide_False,
            Bool.or_true, Bool.true_or, Bool.and_true, Bool.not_true, Bool.false_eq_true, if_false,
            Bool.or_self, Bool.and_self, Bool.false_or]
          rw [snprintf_pinned.2.1, write_banner _ _ (banner_length 3 7) rfl (hwb1.trans hw)]
        · simp [hlog1]
      · -- server version 3.8 or newer
        have hp : pinned_version (M, m) = (3, 8) := by
          simp [pinned_version, version_min, hA, hB]
        rw [hp]
        refine ⟨{ io1 with write_buffer := [], log := io1.log ++ [WireEvent.tx (banner 3 8)] },
          rxs, ?_, ?_, rfl, hpend _, hoff1, hcmp, Or.inr (Or.inr rfl)⟩
        · by_cases h9 : (decide ((M : Int) < 3) ||
              (decide ((M : Int) = 3) && decide ((m : Int) < 8 + 1))) = true
          · have hM3 : M = 3 := by
              simp only [Bool.or_eq_true, Bool.and_eq_true, decide_eq_true_eq] at h9
              unfold version_older at hA hB; dsimp only at hA hB; omega
            have hm8 : m = 8 := by
              simp only [Bool.or_eq_true, Bool.and_eq_true, decide_eq_true_eq] at h9
              unfold version_older at hA hB; dsimp only at hA hB; omega
            subst hM3 hm8
            simp only [Nat.cast_ofNat, Int.reduceAdd, Int.reduceLT, decide_True, decide_False,
              Bool.or_true, Bool.true_or, Bool.and_true, Bool.not_true, Bool.false_eq_true,
              if_false, Bool.or_self, Bool.and_self, Bool.false_or]
            rw [snprintf_pinned.2.2, write_banner _ _ (banner_length 3 8) rfl (hwb1.trans hw)]
          · simp only [Bool.not_eq_true] at h9
            rw [h9]
            simp only [Bool.not_false, Bool.false_eq_true, if_true, if_false]
            rw [snprintf_pinned.2.2, write_banner _ _ (banner_length 3 8) rfl (hwb1.trans hw)]
            rfl
        · simp [hlog1]

/-- C29. For a server banner "RFB MMM.mmm\n" whose version is not older than 3.3, the
version exchange succeeds and the version held by the session afterwards is 3.3
when the server reports 3.3 up to 3.6, 3.7 when it reports 3.7, and 3.8 when it
reports 3.8 or anything newer (any minor above 8, any major above 3); so it is one
of 3.3, 3.7 and 3.8. -/
theorem version_held_after_exchange (s : Conn) (M m : Nat) (rest : List UInt8)
    (hM : M < 1000) (hm : m < 1000) (h : Ready s (banner M m ++ rest))
    (hw : s.io.write_buffer = []) (hnew : ¬ version_older (M, m) (3, 3)) :
    (vnc_connection_initialize_version s).1 = true ∧
    ((vnc_connection_initialize_version s).2.major,
      (vnc_connection_initialize_version s).2.minor) =
      (if version_older (M, m) (3, 7) then ((3 : Int), (3 : Int))
        else if (M, m) = (3, 7) then (3, 7) else (3, 8)) ∧
    (((vnc_connection_initialize_version s).2.major,
        (vnc_connection_initialize_version s).2.minor) = (3, 3) ∨
      ((vnc_connection_initialize_version s).2.major,
        (vnc_connection_initialize_version s).2.minor) = (3, 7) ∨
      ((vnc_connection_initialize_version s).2.major,
        (vnc_connection_initialize_version s).2.minor) = (3, 8)) := by
  obtain ⟨io', rxs, e, _, _, _, _, _, _⟩ :=
    (initialize_version_cases s M m rest hM hm h hw).2 hnew
  rw [e]
  dsimp only
  have hp : (((pinned_version (M, m)).1 : Int), ((pinned_version (M, m)).2 : Int)) =
      (if version_older (M, m) (3, 7) then ((3 : Int), (3 : Int))
        else if (M, m) = (3, 7) then (3, 7) else (3, 8)) := by
    unfold pinned_version version_min
    by_cases hA : version_older (M, m) (3, 7)
    · rw [if_pos hA, if_pos hA]; rfl
    · by_cases hB : version_older (M, m) (3, 8)
      · have h1 : M = 3 := by
          unfold version_older at hA hB; dsimp only at hA hB; omega
        have h2 : m = 7 := by
          unfold version_older at hA hB; dsimp only at hA hB; omega
        subst h1 h2
        rfl
      · have h37 : ¬ (M, m) = (3, 7) := by
          intro hc
          rw [hc] at hB
          exact hB (by decide)
        rw [if_neg hA, if_neg hB, if_neg hA, if_neg h37]; rfl
  refine ⟨rfl, hp, ?_⟩
  rw [hp]
  by_cases hA : version_older (M, m) (3, 7)
  · rw [if_pos hA]; exact Or.inl rfl
  · by_cases h37 : (M, m) = (3, 7)
    · rw [if_neg hA, if_pos h37]; exact Or.inr (Or.inl rfl)
    · rw [if_neg hA, if_neg h37]; exact Or.inr (Or.inr rfl)

theorem version_held_after_exchange_witness :
    ((4 < 1000 ∧ 0 < 1000) ∧ Ready (session rgb888 0 0 (banner 4 0 ++ [1])) (banner 4 0 ++ [1]) ∧
      (session rgb888 0 0 (banner 4 0 ++ [1])).io.write_buffer = [] ∧
      ¬ version_older (4, 0) (3, 3)) ∧
    ((vnc_connection_initialize_version (session rgb888 0 0 (banner 4 0 ++ [1]))).2.major,
      (vnc_connection_initialize_version (session rgb888 0 0 (banner 4 0 ++ [1]))).2.minor) =
      (if version_older (4, 0) (3, 7) then ((3 : Int), (3 : Int))
        else if ((4 : Nat), (0 : Nat)) = (3, 7) then (3, 7) else (3, 8)) :=
  ⟨⟨⟨by decide, by decide⟩, ready_session _ _ _ _, rfl, by decide⟩,
    (version_held_after_exchange (session rgb888 0 0 (banner 4 0 ++ [1])) 4 0 [1] (by decide)
      (by decide) (ready_session _ _ _ _) rfl (by decide)).2.1⟩

/-! ## Audio data -/

theorem set_error_audio_sample (s : Conn) (msg : ErrorText) :
    (vnc_connection_set_error s msg).audio_sample = s.audio_sample := rfl

/-- One audio Data message keeps the pending sample within its capacity. -/
theorem audio_data_step_within (s : Conn) (n : Nat) (hs : sample_within s) :
    sample_within (server_message_audio_data s n) := by
  unfold server_message_audio_data
  by_cases hn : n > 1024 * 1024
  · rw [if_pos hn]; exact hs
  · rw [if_neg hn]
    by_cases hstop : s.coroutine_stop = true
    · rw [if_pos hstop]; exact hs
    · rw [if_neg hstop]
      by_cases haud : (!s.audio) = true
      · rw [if_pos haud]; exact hs
      · rw [if_neg haud]
        cases hsm : s.audio_sample with
        | none =>
          intro a ha
          simp only [hsm] at ha
          simp only [Option.some.injEq] at ha
          subst ha
          exact ⟨by simp only [Nat.zero_add]; omega, rfl⟩
        | some a0 =>
          obtain ⟨h1, h2⟩ := hs a0 hsm
          by_cases hfull : (a0.capacity + 2 ^ 32 - a0.length) % 2 ^ 32 < n
          · intro a ha
            simp only [hsm, hfull, if_true] at ha
            simp only [Option.some.injEq] at ha
            subst ha
            exact ⟨by simp only [Nat.zero_add]; omega, rfl⟩
          · intro a ha
            simp only [hsm, hfull, if_false] at ha
            simp only [Option.some.injEq] at ha
            subst ha
            refine ⟨?_, h2⟩
            dsimp only
            omega

theorem audio_data_sequence_within (lengths : List Nat) : ∀ (s : Conn), sample_within s →
    sample_within (lengths.foldl server_message_audio_data s) := by
  induction lengths with
  | nil => intro s hs; exact hs
  | cons n t ih => intro s hs; exact ih _ (audio_data_step_within s n hs)

/-- C26. QEMU audio Data messages with a sink configured, starting from a pending
sample (if any) within its capacity of 1 MiB. A length above 1 MiB sets the error
and reads nothing. Otherwise, with the payload at hand: a pending sample with less
room than the length is handed to the sink and replaced by a fresh sample of
1 MiB, to which the payload is appended; a pending sample with enough room gets
the payload appended; without a pending sample a fresh one is made. After every
sequence of such messages the pending sample holds no more than its capacity of
1 MiB. -/
theorem audio_data_sample_bounded (s : Conn) (n : Nat) (payload rest : List UInt8)
    (lengths : List Nat) (hs : sample_within s) (haudio : s.audio = true)
    (hlen : payload.length = n) (hr : Ready s (payload ++ rest)) :
    sample_within (lengths.foldl server_message_audio_data s) ∧
    (n > 1024 * 1024 →
      server_message_audio_data s n = vnc_connection_set_error s
        (ErrorText.fmt "Audio sample length %u longer than permitted %d" [n, 1024 * 1024]) ∧
      (server_message_audio_data s n).io = s.io) ∧
    (n ≤ 1024 * 1024 →
      ∃ io', io'.pending = rest ∧
        server_message_audio_data s n =
          match s.audio_sample with
          | none => { s with
              io := io'
              audio_timer := 1
              audio_sample := some (VncAudioSample.mk payload n (1024 * 1024)) }
          | some a =>
            if a.capacity - a.length < n then
              { s with
                io := io'
                audio_timer := 1
                audioops := s.audioops ++ [AudioOp.playback_data (some a)]
                audio_sample := some (VncAudioSample.mk payload n (1024 * 1024)) }
            else
              { s with
                io := io'
                audio_sample := some (VncAudioSample.mk (a.data ++ payload) (a.length + n)
                  a.capacity) }) := by
  refine ⟨audio_data_sequence_within lengths s hs, ?_, ?_⟩
  · intro hn
    unfold server_message_audio_data
    rw [if_pos hn]
    exact ⟨rfl, rfl⟩
  · intro hn
    have hn' : ¬ n > 1024 * 1024 := by omega
    have hstop : s.coroutine_stop = false := hr.1
    unfold server_message_audio_data
    rw [if_neg hn', if_neg (by simp [hstop]), if_neg (by simp [haudio])]
    cases hsm : s.audio_sample with
    | none =>
      have hr1 : Ready { s with
        audio_sample := some (VncAudioSample.mk [] 0 (1024 * 1024))
        audio_timer := 1 } (payload ++ rest) := hr
      obtain ⟨io', e, r, _⟩ := read_ok _ payload rest [] hr1
      rw [hlen] at e
      refine ⟨io', r.2.2, ?_⟩
      simp only [hsm, e]
      have hmod : (0 + n) % 2 ^ 32 = n := by omega
      simp only [hmod, List.nil_append, List.drop_nil, List.append_nil]
    | some a =>
      obtain ⟨h1, h2⟩ := hs a hsm
      have hroom : (a.capacity + 2 ^ 32 - a.length) % 2 ^ 32 = a.capacity - a.length := by
        omega
      simp only [hsm, hroom]
      by_cases hfull : a.capacity - a.length < n
      · have hr1 : Ready { s with
          audio_sample := some (VncAudioSample.mk [] 0 (1024 * 1024))
          audio_timer := 1
          audioops := s.audioops ++ [AudioOp.playback_data (some a)] } (payload ++ rest) := hr
        obtain ⟨io', e, r, _⟩ := read_ok _ payload rest [] hr1
        rw [hlen] at e
        refine ⟨io', r.2.2, ?_⟩
        simp only [hfull, if_true, vnc_connection_audio_action, hsm]
        have hmod : (0 + n) % 2 ^ 32 = n := by omega
        simp only [show ¬ (2 = 0) by decide, show ¬ (2 = 1) by decide, if_false, e, hmod,
          List.nil_append, List.drop_nil, List.append_nil]
      · obtain ⟨io', e, r, _⟩ := read_ok s payload rest [] hr
        rw [hlen] at e
        refine ⟨io', r.2.2, ?_⟩
        simp only [hfull, if_false, hsm, e]
        have hsum : (a.length + n) % 2 ^ 32 = a.length + n := by omega
        simp only [hsum, List.drop_nil, List.append_nil]

theorem audio_data_sample_bounded_witness :
    (sample_within { audio_session [1, 2, 3, 9] with
        audio_sample := some (VncAudioSample.mk [7] 1 (1024 * 1024)) } ∧
      ({ audio_session [1, 2, 3, 9] with
        audio_sample := some (VncAudioSample.mk [7] 1 (1024 * 1024)) } : Conn).audio = true ∧
      ([1, 2, 3] : List UInt8).length = 3 ∧
      Ready { audio_session [1, 2, 3, 9] with
        audio_sample := some (VncAudioSample.mk [7] 1 (1024 * 1024)) } ([1, 2, 3] ++ [9]) ∧
      3 ≤ 1024 * 1024) ∧
    sample_within (List.foldl server_message_audio_data
      { audio_session [1, 2, 3, 9] with
        audio_sample := some (VncAudioSample.mk [7] 1 (1024 * 1024)) } [3, 1]) ∧
    ∃ io', io'.pending = [9] ∧
      server_message_audio_data { audio_session [1, 2, 3, 9] with
          audio_sample := some (VncAudioSample.mk [7] 1 (1024 * 1024)) } 3 =
        { audio_session [1, 2, 3, 9] with
          io := io'
          audio_sample := some (VncAudioSample.mk [7, 1, 2, 3] 4 (1024 * 1024)) } :=
  ⟨⟨by simp [sample_within, audio_session, session], rfl, rfl,
      ⟨rfl, Nat.le_refl _, by simp [IOState.pending, audio_session, session]⟩, by decide⟩,
    (audio_data_sample_bounded { audio_session [1, 2, 3, 9] with
        audio_sample := some (VncAudioSample.mk [7] 1 (1024 * 1024)) } 3 [1, 2, 3] [9] [3, 1]
      (by simp [sample_within, audio_session, session]) rfl rfl
      ⟨rfl, Nat.le_refl _, by simp [IOState.pending, audio_session, session]⟩).1,
    (audio_data_sample_bounded { audio_session [1, 2, 3, 9] with
        audio_sample := some (VncAudioSample.mk [7] 1 (1024 * 1024)) } 3 [1, 2, 3] [9] [3, 1]
      (by simp [sample_within, audio_session, session]) rfl rfl
      ⟨rfl, Nat.le_refl _, by simp [IOState.pending, audio_session, session]⟩).2.2 (by decide)⟩

/-! ## Reads and the chunks of the transport -/

theorem recvSize_le (sizes : List Nat) (len : Nat) (h : 0 < len) : recvSize sizes len ≤ len := by
  unfold recvSize
  cases sizes with
  | nil => exact Nat.le_refl _
  | cons n t => simp only; omega

theorem read_plain_bound (s : Conn) (h : s.io.read_buffer.length ≤ 4096) :
    (vnc_connection_read_plain false s).2.io.read_buffer.length ≤ 4096 := by
  have hsz := recvSize_le s.io.recv_sizes 4096 (by decide)
  unfold vnc_connection_read_plain vnc_connection_read_wire
  by_cases hstop : s.coroutine_stop = true
  · simp [hstop, EINVAL, h]
  · have hstop' : s.coroutine_stop = false := by simpa using hstop
    simp only [hstop', Bool.false_eq_true, if_false]
    by_cases hd : (s.io.incoming.take (recvSize s.io.recv_sizes 4096)).length = 0
    · simp only [hd, if_true]
      have : - EPIPE < 0 := by decide
      simp only [this, if_true]
      exact h
    · have hnn : ¬ (((s.io.incoming.take (recvSize s.io.recv_sizes 4096)).length : Nat) : Int) < 0 := by
        omega
      have hlen : (s.io.incoming.take (recvSize s.io.recv_sizes 4096)).length ≤ 4096 := by
        rw [List.length_take]; omega
      simp only [hd, if_false, hnn]
      exact hlen

theorem read_loop_bound (len : Nat) : ∀ (fuel : Nat) (s : Conn) (acc : List UInt8),
    s.io.read_buffer.length ≤ 4096 →
    (vnc_connection_read_loop false len fuel s acc).2.2.io.read_buffer.length ≤ 4096 := by
  intro fuel
  induction fuel with
  | zero => intro s acc h; exact h
  | succ fuel ih =>
    intro s acc h
    rw [vnc_connection_read_loop]
    by_cases hlt : acc.length < len
    · rw [if_pos hlt]
      by_cases hcomp : vnc_connection_use_compression s = true
      · rw [if_pos hcomp]
        have hz : (vnc_connection_zread s len).2.2.io.read_buffer = s.io.read_buffer := by
          unfold vnc_connection_zread
          by_cases hsz : len ≤ (s.io.compressed.getD []).length
          · rw [if_pos hsz]
          · rw [if_neg hsz]
        generalize vnc_connection_zread s len = z at hz
        obtain ⟨ret, bytes, s1⟩ := z
        dsimp only at hz ⊢
        by_cases hret : ret = -1
        · rw [if_pos hret]
          show s1.io.read_buffer.length ≤ 4096
          rw [hz]; exact h
        · rw [if_neg hret]
          exact ih s1 _ (by rw [hz]; exact h)
      · rw [if_neg hcomp]
        have hr : (if s.io.read_offset = s.io.read_buffer.length then
            match vnc_connection_read_buf false s with
            | (ret, s1) =>
              if ret < 0 then (ret, s1)
              else (0, { s1 with io := { s1.io with read_offset := 0 } })
          else (0, s)).2.io.read_buffer.length ≤ 4096 := by
          by_cases hfull : s.io.read_offset = s.io.read_buffer.length
          · rw [if_pos hfull]
            have hb := read_plain_bound s h
            unfold vnc_connection_read_buf
            generalize vnc_connection_read_plain false s = r at hb
            obtain ⟨ret, s1⟩ := r
            dsimp only at hb ⊢
            by_cases hret : ret < 0
            · rw [if_pos hret]; exact hb
            · rw [if_neg hret]; exact hb
          · rw [if_neg hfull]; exact h
        generalize (if s.io.read_offset = s.io.read_buffer.length then
            match vnc_connection_read_buf false s with
            | (ret, s1) =>
              if ret < 0 then (ret, s1)
              else (0, { s1 with io := { s1.io with read_offset := 0 } })
          else (0, s)) = r at hr
        obtain ⟨ret, s2⟩ := r
        dsimp only at hr ⊢
        by_cases hret : ret < 0
        · rw [if_pos hret]; exact hr
        · rw [if_neg hret]
          exact ih _ _ hr
    · rw [if_neg hlt]; exact h

/-- A read on the plain transport keeps the read buffer within 4096 bytes. -/
theorem read_bound (s : Conn) (init : List UInt8) (len : Nat)
    (h : s.io.read_buffer.length ≤ 4096) :
    (vnc_connection_read s init len).2.2.io.read_buffer.length ≤ 4096 := by
  unfold vnc_connection_read vnc_connection_read_gen
  by_cases hstop : s.coroutine_stop = true
  · rw [if_pos hstop]; exact h
  · rw [if_neg hstop]
    have hb := read_loop_bound len len s [] h
    generalize vnc_connection_read_loop false len len s [] = r at hb
    obtain ⟨ret, got, s1⟩ := r
    exact hb

theorem read_each_segments (segs : List (List UInt8)) : ∀ (s : Conn) (rest : List UInt8),
    Ready s (segs.flatten ++ rest) → s.io.compressed = none →
    s.io.read_buffer.length ≤ 4096 →
    ∃ io', read_each s (segs.map List.length) =
        (segs.map (fun g => ((0 : Int), g)), { s with io := io' }) ∧
      io'.pending = rest ∧ read_buffer_bounds io' ∧ io'.compressed = none := by
  induction segs with
  | nil =>
    intro s rest hr hc hb
    exact ⟨s.io, rfl, by simpa using hr.2.2, ⟨hr.2.1, hb⟩, hc⟩
  | cons g t ih =>
    intro s rest hr hc hb
    have hr' : Ready s (g ++ (t.flatten ++ rest)) := by
      simpa only [List.flatten_cons, List.append_assoc] using hr
    obtain ⟨io1, e1, r1, o1⟩ := read_ok s g (t.flatten ++ rest) (List.replicate g.length 0) hr'
    have hb1 : io1.read_buffer.length ≤ 4096 := by
      have := read_bound s (List.replicate g.length 0) g.length hb
      rw [e1] at this
      exact this
    have hc1 : io1.compressed = none := by
      have := o1.1
      rw [hc] at this
      cases hio : io1.compressed with
      | none => rfl
      | some d => rw [hio] at this; simp at this
    obtain ⟨io2, e2, p2, b2, c2⟩ := ih { s with io := io1 } rest r1 hc1 hb1
    refine ⟨io2, ?_, p2, b2, c2⟩
    simp only [List.map_cons, read_each, e1, e2]
    simp

/-- C25. On a live session with no compressed region, whose transport will deliver
the byte stream `segs.flatten ++ rest` in chunks of any sizes (`sizes`; every
receive yields 1 to 4096 bytes): calls of `vnc_connection_read` with the lengths
of `segs` return 0 and fill their buffers with the segments of the stream in
order, whatever the chunk sizes are, and after each call the read buffer satisfies
0 <= read_offset <= read_size <= 4096 and what is still to come is the rest of
the stream. -/
theorem reads_follow_stream (s : Conn) (segs : List (List UInt8)) (rest : List UInt8)
    (sizes : List Nat) (k : Nat) (hr : Ready s (segs.flatten ++ rest))
    (hc : s.io.compressed = none) (hb : s.io.read_buffer.length ≤ 4096) :
    ∃ io', read_each { s with io := { s.io with recv_sizes := sizes } }
        ((segs.take k).map List.length) =
        ((segs.take k).map (fun g => ((0 : Int), g)), { s with io := io' }) ∧
      read_buffer_bounds io' ∧ io'.pending = (segs.drop k).flatten ++ rest := by
  have hr' : Ready { s with io := { s.io with recv_sizes := sizes } }
      ((segs.take k).flatten ++ ((segs.drop k).flatten ++ rest)) := by
    refine ⟨hr.1, hr.2.1, ?_⟩
    have hp : ({ s.io with recv_sizes := sizes } : IOState).pending = s.io.pending := rfl
    show ({ s.io with recv_sizes := sizes } : IOState).pending = _
    rw [hp, hr.2.2, ← List.append_assoc, ← List.flatten_append, List.take_append_drop]
  obtain ⟨io', e, p, b, _⟩ := read_each_segments (segs.take k)
    { s with io := { s.io with recv_sizes := sizes } } _ hr' hc hb
  exact ⟨io', e, b, p⟩

theorem reads_follow_stream_witness :
    (Ready (session rgb888 0 0 [1, 2, 3, 4, 5, 6]) ([[1, 2], [3, 4, 5]].flatten ++ [6]) ∧
      (session rgb888 0 0 [1, 2, 3, 4, 5, 6]).io.compressed = none ∧
      (session rgb888 0 0 [1, 2, 3, 4, 5, 6]).io.read_buffer.length ≤ 4096) ∧
    ∃ io', read_each { session rgb888 0 0 [1, 2, 3, 4, 5, 6] with
          io := { (session rgb888 0 0 [1, 2, 3, 4, 5, 6]).io with recv_sizes := [1, 4, 1] } }
        [2, 3] =
        ([(0, [1, 2]), (0, [3, 4, 5])], { session rgb888 0 0 [1, 2, 3, 4, 5, 6] with io := io' }) ∧
      read_buffer_bounds io' ∧ io'.pending = [6] :=
  ⟨⟨ready_session _ _ _ _, rfl, by decide⟩,
    reads_follow_stream (session rgb888 0 0 [1, 2, 3, 4, 5, 6]) [[1, 2], [3, 4, 5]] [6] [1, 4, 1] 2
      (ready_session _ _ _ _) rfl (by decide)⟩

/-! ## TPIXEL -/

theorem byte_reversed_eq (v : Nat) :
    byte_reversed v = (v % 256) * 16777216 + (v / 256 % 256) * 65536 +
      (v / 65536 % 256) * 256 + v / 16777216 % 256 := by
  simp only [byte_reversed, be_bytes, be_value, List.nil_append, List.reverse_append,
    List.reverse_cons, List.reverse_nil, List.singleton_append, List.cons_append, List.foldl_cons,
    List.foldl_nil, ofNat_toNat, Nat.div_div_eq_div_mul, Nat.reduceMul, Nat.mod_mod]
  omega

theorem swap_expression (v : Nat) :
    ((((v >>> 0) &&& 0xFF) <<< 24) ||| (((v >>> 8) &&& 0xFF) <<< 16) |||
      (((v >>> 16) &&& 0xFF) <<< 8) ||| (((v >>> 24) &&& 0xFF) <<< 0)) % 2 ^ 32 =
      byte_reversed v := by
  rw [byte_reversed_eq]
  have hm : ∀ x : Nat, x &&& 0xFF = x % 256 := fun x => Nat.and_pow_two_sub_one_eq_mod x 8
  have h0 : v >>> 0 = v := rfl
  have h8 : v >>> 8 = v / 256 := Nat.shiftRight_eq_div_pow v 8
  have h16 : v >>> 16 = v / 65536 := Nat.shiftRight_eq_div_pow v 16
  have h24 : v >>> 24 = v / 16777216 := Nat.shiftRight_eq_div_pow v 24
  rw [h0, h8, h16, h24, hm, hm, hm, hm, Nat.shiftLeft_zero]
  have hD : v / 16777216 % 256 < 2 ^ 8 := Nat.mod_lt _ (by decide)
  have e1 := or_shl (v / 16777216 % 256) (v / 65536 % 256) 8 hD
  have hE1 : v / 16777216 % 256 + v / 65536 % 256 * 2 ^ 8 < 2 ^ 16 := by omega
  have e2 := or_shl _ (v / 256 % 256) 16 hE1
  have hE2 : v / 16777216 % 256 + v / 65536 % 256 * 2 ^ 8 + v / 256 % 256 * 2 ^ 16 < 2 ^ 24 := by
    omega
  have e3 := or_shl _ (v % 256) 24 hE2
  rw [Nat.lor_comm _ (v / 16777216 % 256), Nat.lor_comm _ ((v / 65536 % 256) <<< 8),
    Nat.lor_comm ((v % 256) <<< 24) _, ← Nat.lor_assoc, ← Nat.lor_assoc, e1, e2, e3]
  omega

/-- C24. `vnc_connection_read_tpixel` consumes exactly `vnc_connection_tpixel_size`
bytes: 3 for a format of depth 24, bits_per_pixel / 8 for any other. For depth 24
(shifts below 32) the buffer then holds, as a 32-bit word of the host, the value
(r << red_shift) | (g << green_shift) | (b << blue_shift) of the three bytes
r, g, b, byte-reversed when the byte order of the format is not the host's; for
any other depth it holds the bytes as they arrived. -/
theorem read_tpixel_value (host_order : Nat) (s : Conn) (p rest pixel : List UInt8)
    (hlen : p.length = vnc_connection_tpixel_size s) (hr : Ready s (p ++ rest))
    (hsh : s.fmt.depth = 24 →
      s.fmt.red_shift < 32 ∧ s.fmt.green_shift < 32 ∧ s.fmt.blue_shift < 32) :
    ∃ io', vnc_connection_read_tpixel host_order s pixel =
        (tpixel_buffer host_order s.fmt p pixel, { s with io := io' }) ∧
      io'.pending = rest ∧
      p.length = (if s.fmt.depth = 24 then 3 else s.fmt.bits_per_pixel / 8) := by
  unfold vnc_connection_tpixel_size at hlen
  by_cases hd : s.fmt.depth = 24
  · rw [if_pos hd] at hlen
    obtain ⟨hrs, hgs, hbs⟩ := hsh hd
    obtain ⟨io', e, r, _⟩ := read_ok s p rest pixel hr
    rw [hlen] at e
    refine ⟨io', ?_, r.2.2, by rw [if_pos hd]; exact hlen⟩
    obtain ⟨a, t1, rfl⟩ : ∃ a t1, p = a :: t1 := by
      cases p with
      | nil => simp at hlen
      | cons a t1 => exact ⟨a, t1, rfl⟩
    obtain ⟨b, t2, rfl⟩ : ∃ b t2, t1 = b :: t2 := by
      cases t1 with
      | nil => simp at hlen
      | cons b t2 => exact ⟨b, t2, rfl⟩
    obtain ⟨c, t3, rfl⟩ : ∃ c t3, t2 = c :: t3 := by
      cases t2 with
      | nil => simp at hlen
      | cons c t3 => exact ⟨c, t3, rfl⟩
    have ht3 : t3 = [] := by
      cases t3 with
      | nil => rfl
      | cons _ _ => simp at hlen
    subst ht3
    unfold vnc_connection_read_tpixel tpixel_buffer
    rw [if_pos hd, if_pos hd, e]
    simp only [List.cons_append, List.nil_append, List.getD_cons_zero, List.getD_cons_succ,
      Nat.mod_eq_of_lt hrs, Nat.mod_eq_of_lt hgs, Nat.mod_eq_of_lt hbs, swap_expression,
      List.drop_succ_cons, List.drop_drop, tpixel_value]
  · rw [if_neg hd] at hlen
    have hlen' : p.length = vnc_connection_pixel_size s := hlen
    obtain ⟨io', e, r, _⟩ := read_pixel_ok s p rest pixel hlen' hr
    refine ⟨io', ?_, r.2.2, by rw [if_neg hd]; exact hlen⟩
    unfold vnc_connection_read_tpixel tpixel_buffer
    rw [if_neg hd, if_neg hd, e]

theorem read_tpixel_value_witness :
    (([0x11, 0x22, 0x33] : List UInt8).length =
        vnc_connection_tpixel_size (session rgbx_be 640 480 [0x11, 0x22, 0x33, 9]) ∧
      Ready (session rgbx_be 640 480 [0x11, 0x22, 0x33, 9]) ([0x11, 0x22, 0x33] ++ [9]) ∧
      ((session rgbx_be 640 480 [0x11, 0x22, 0x33, 9]).fmt.depth = 24 →
        (session rgbx_be 640 480 [0x11, 0x22, 0x33, 9]).fmt.red_shift < 32 ∧
        (session rgbx_be 640 480 [0x11, 0x22, 0x33, 9]).fmt.green_shift < 32 ∧
        (session rgbx_be 640 480 [0x11, 0x22, 0x33, 9]).fmt.blue_shift < 32)) ∧
    tpixel_value rgbx_be 0x11 0x22 0x33 = 0x11223300 ∧
    byte_reversed 0x11223300 = 0x00332211 ∧
    ∃ io', vnc_connection_read_tpixel G_LITTLE_ENDIAN
        (session rgbx_be 640 480 [0x11, 0x22, 0x33, 9]) [0, 0, 0, 0] =
        ([0x11, 0x22, 0x33, 0x00], { session rgbx_be 640 480 [0x11, 0x22, 0x33, 9] with io := io' }) ∧
      io'.pending = [9] ∧
      ([0x11, 0x22, 0x33] : List UInt8).length =
        (if (session rgbx_be 640 480 [0x11, 0x22, 0x33, 9]).fmt.depth = 24 then 3
          else (session rgbx_be 640 480 [0x11, 0x22, 0x33, 9]).fmt.bits_per_pixel / 8) :=
  ⟨⟨by decide, ready_session _ _ _ _, fun _ => by decide⟩, by decide, by decide,
    read_tpixel_value G_LITTLE_ENDIAN (session rgbx_be 640 480 [0x11, 0x22, 0x33, 9])
      [0x11, 0x22, 0x33] [9] [0, 0, 0, 0] (by decide) (ready_session _ _ _ _)
      (fun _ => by decide)⟩

/-! ## ZRLE packed palettes in general -/

theorem getD_set_ne (l : List (List UInt8)) (i k : Nat) (e z : List UInt8) (h : k ≠ i) :
    (l.set i e).getD k z = l.getD k z := by
  simp only [List.getD_eq_getElem?_getD]
  rw [List.getElem?_set_ne (Ne.symm h)]

theorem getD_set_eq (l : List (List UInt8)) (i : Nat) (e z : List UInt8) (h : i < l.length) :
    (l.set i e).getD i z = e := by
  simp only [List.getD_eq_getElem?_getD]
  rw [List.getElem?_set_self h]
  rfl

/-- The palette loop: the entries arrive one CPIXEL each and land at the indices from
`i` on; the rest of the array stays. -/
theorem zrle_palette_read_ok (entries : List (List UInt8)) :
    ∀ (i : Nat) (s : Conn) (palette : List (List UInt8)) (rest : List UInt8),
      (∀ e ∈ entries, e.length = cpixel_size s.fmt) →
      Ready s (entries.flatten ++ rest) →
      i + entries.length ≤ palette.length →
      (∀ k, i ≤ k → palette.getD k [0, 0, 0, 0] = [0, 0, 0, 0]) →
      ∃ io' palette', zrle_palette_read entries.length i s palette =
          (palette', { s with io := io' }) ∧
        Ready { s with io := io' } rest ∧
        palette'.length = palette.length ∧
        ∀ k, palette'.getD k [0, 0, 0, 0] =
          if k < i then palette.getD k [0, 0, 0, 0]
          else (entries.map fun e => cpixel_buffer s.fmt e [0, 0, 0, 0]).getD (k - i)
            [0, 0, 0, 0] := by
  induction entries with
  | nil =>
    intro i s palette rest _ hr _ hz
    refine ⟨s.io, palette, rfl, hr, rfl, ?_⟩
    intro k
    by_cases hk : k < i
    · rw [if_pos hk]
    · rw [if_neg hk, hz k (by omega)]
      rfl
  | cons e es ih =>
    intro i s palette rest hlen hr hcap hz
    have hr' : Ready s (e ++ (es.flatten ++ rest)) := by
      simpa only [List.flatten_cons, List.append_assoc] using hr
    obtain ⟨io1, e1, r1, _⟩ := read_cpixel_ok s e _ (palette.getD i [0, 0, 0, 0])
      (hlen e (List.mem_cons_self _ _)) hr'
    rw [hz i (Nat.le_refl _)] at e1
    simp only [List.length_cons] at hcap
    obtain ⟨io2, pal2, e2, r2, l2, g2⟩ := ih (i + 1) { s with io := io1 }
      (palette.set i (cpixel_buffer s.fmt e [0, 0, 0, 0])) rest
      (fun e' he' => hlen e' (List.mem_cons_of_mem _ he')) r1
      (by simp only [List.length_set]; omega)
      (fun k hk => by rw [getD_set_ne _ _ _ _ _ (by omega)]; exact hz k (by omega))
    dsimp only at e2 r2 g2
    refine ⟨io2, pal2, ?_, r2, ?_, ?_⟩
    · simp only [List.length_cons, zrle_palette_read]
      rw [hz i (Nat.le_refl _), e1]
      exact e2
    · rw [l2, List.length_set]
    · intro k
      rw [g2 k]
      by_cases hk : k < i
      · rw [if_pos (by omega), if_pos hk, getD_set_ne _ _ _ _ _ (by omega)]
      · by_cases hk2 : k = i
        · subst hk2
          rw [if_pos (by omega), if_neg hk, getD_set_eq _ _ _ _ (by omega)]
          simp
        · rw [if_neg (by omega), if_neg hk]
          have : k - i = (k - (i + 1)) + 1 := by omega
          rw [this]
          simp only [List.map_cons, List.getD_cons_succ]

theorem index_bits_cases (ps : Nat) : index_bits ps = 1 ∨ index_bits ps = 2 ∨ index_bits ps = 4 := by
  unfold index_bits
  split
  · exact Or.inl rfl
  · split
    · exact Or.inr (Or.inl rfl)
    · exact Or.inr (Or.inr rfl)

/-- An index taken from the byte held: `k` bits of it are left, the index is the
`b` bits below them. -/
theorem read_zrle_pi_held (t : Conn) (ps k : Nat) (h2 : 2 ≤ ps) (h16 : ps ≤ 16)
    (hbits : t.zrle_pi_bits = (k : Int)) (hk : index_bits ps ≤ k) (hk8 : k ≤ 8) :
    vnc_connection_read_zrle_pi t (ps : Int) =
      ((t.zrle_pi >>> (k - index_bits ps)) &&& (2 ^ index_bits ps - 1),
        { t with zrle_pi_bits := ((k - index_bits ps : Nat) : Int) }) := by
  have hk0 : t.zrle_pi_bits ≠ 0 := by
    rw [hbits]
    have := index_bits_cases ps
    omega
  unfold vnc_connection_read_zrle_pi
  rw [if_neg hk0]
  have hs : ∀ (a : Nat) (n : Nat), n ≤ 8 → shr_int a (n : Int) = a >>> n := by
    intro a n hn
    unfold shr_int
    congr 1
    omega
  have hw : ∀ n : Nat, n ≤ 8 → wrap_int (n : Int) = (n : Int) := by
    intro n hn
    apply wrap_int_small
    · omega
    · have : ((2 : Int) ^ 31) = 2147483648 := by norm_num
      omega
  by_cases c1 : ps = 2
  · have hb : index_bits ps = 1 := by simp [index_bits, c1]
    rw [hb] at hk ⊢
    have e : t.zrle_pi_bits - 1 = ((k - 1 : Nat) : Int) := by omega
    simp only [c1, Nat.cast_ofNat, if_true, hbits]
    rw [← hbits, e, hs _ _ (by omega), hw _ (by omega)]
    rfl
  · by_cases c2 : ps = 3 ∨ ps = 4
    · have hb : index_bits ps = 2 := by simp [index_bits, c1, c2]
      rw [hb] at hk ⊢
      have e : t.zrle_pi_bits - 2 = ((k - 2 : Nat) : Int) := by omega
      have n1 : ¬ ((ps : Int) = 2) := by omega
      have n2 : ((ps : Int) = 3 ∨ (ps : Int) = 4) := by omega
      rw [if_neg n1, if_pos n2, e, hs _ _ (by omega), hw _ (by omega)]
      rfl
    · have hb : index_bits ps = 4 := by simp [index_bits, c1, c2]
      rw [hb] at hk ⊢
      have e : t.zrle_pi_bits - 4 = ((k - 4 : Nat) : Int) := by omega
      have n1 : ¬ ((ps : Int) = 2) := by omega
      have n2 : ¬ ((ps : Int) = 3 ∨ (ps : Int) = 4) := by omega
      have n3 : ((ps : Int) ≥ 5 ∧ (ps : Int) ≤ 16) := by omega
      rw [if_neg n1, if_neg n2, if_pos n3, e, hs _ _ (by omega), hw _ (by omega)]
      rfl

/-- An index at the start of a byte: the byte is read and its upper `b` bits are
the index. -/
theorem read_zrle_pi_fresh (t : Conn) (ps : Nat) (c : UInt8) (rest : List UInt8) (h2 : 2 ≤ ps)
    (h16 : ps ≤ 16) (hbits : t.zrle_pi_bits = 0) (hr : Ready t (c :: rest)) :
    ∃ io', vnc_connection_read_zrle_pi t (ps : Int) =
        ((c.toNat >>> (8 - index_bits ps)) &&& (2 ^ index_bits ps - 1),
          { t with
            io := io'
            zrle_pi := c.toNat
            zrle_pi_bits := ((8 - index_bits ps : Nat) : Int) }) ∧
      Ready { t with io := io' } rest := by
  obtain ⟨io1, e1, r1, _⟩ := read_u8_ok t c rest hr
  refine ⟨io1, ?_, r1⟩
  have hstep : vnc_connection_read_zrle_pi t (ps : Int) =
      vnc_connection_read_zrle_pi { t with
        io := io1
        zrle_pi := c.toNat
        zrle_pi_bits := 8 } (ps : Int) := by
    unfold vnc_connection_read_zrle_pi
    rw [if_pos hbits, e1]
    rfl
  rw [hstep, read_zrle_pi_held _ ps 8 h2 h16 rfl
    (by have := index_bits_cases ps; omega) (Nat.le_refl _)]

/-- Bit offsets within a row: where the next index starts a byte. -/
theorem packed_offsets_fresh (b i w : Nat) (hb : b = 1 ∨ b = 2 ∨ b = 4) (hi : i < w)
    (ho : i * b % 8 = 0) :
    i * b / 8 < (w * b + 7) / 8 ∧ (i * b + 7) / 8 = i * b / 8 ∧
      (8 - (i + 1) * b % 8) % 8 = 8 - b ∧ (i + 1) * b / 8 = i * b / 8 ∧
      ((i + 1) * b + 7) / 8 = i * b / 8 + 1 ∧ 8 - b - i * b % 8 = 8 - b ∧
      (i + 1) * b % 8 ≠ 0 := by
  rcases hb with rfl | rfl | rfl <;> omega

/-- Bit offsets within a row: where the next index lies in the byte held. -/
theorem packed_offsets_held (b i w : Nat) (hb : b = 1 ∨ b = 2 ∨ b = 4) (hi : i < w)
    (ho : i * b % 8 ≠ 0) :
    (8 - i * b % 8) % 8 = 8 - i * b % 8 ∧ b ≤ 8 - i * b % 8 ∧
      8 - i * b % 8 - b = 8 - b - i * b % 8 ∧
      (8 - (i + 1) * b % 8) % 8 = 8 - i * b % 8 - b ∧
      ((i + 1) * b % 8 ≠ 0 → (i + 1) * b / 8 = i * b / 8) ∧
      ((i + 1) * b + 7) / 8 = (i * b + 7) / 8 ∧ i * b / 8 < (w * b + 7) / 8 := by
  rcases hb with rfl | rfl | rfl <;> omega

/-- The inner loop of the packed-palette decoder from column `i` on: each index is the
next `b` bits of the row's bytes, a byte is read when the one held is used up, and
the row's bytes are consumed when the row is done. -/
theorem zrle_palette_row_ok (ps : Nat) (palette : List (List UInt8)) (x y j w : Nat)
    (row rest : List UInt8) (h2 : 2 ≤ ps) (h16 : ps ≤ 16)
    (hrow : row.length = packed_row_length w (index_bits ps)) :
    ∀ (n i : Nat) (s : Conn), i + n = w →
      s.zrle_pi_bits = (((8 - i * index_bits ps % 8) % 8 : Nat) : Int) →
      (i * index_bits ps % 8 ≠ 0 →
        s.zrle_pi = (row.getD (i * index_bits ps / 8) 0).toNat) →
      Ready s (row.drop ((i * index_bits ps + 7) / 8) ++ rest) →
      ∃ io' pi bits, zrle_palette_row ps palette x y j n i s =
          { s with
            io := io'
            zrle_pi := pi
            zrle_pi_bits := bits
            fbops := s.fbops ++ (List.range' i n).map fun c =>
              FbOp.set_pixel_at
                (palette.getD (packed_index (index_bits ps) row c &&& 0x7F) [0, 0, 0, 0])
                (x + c) (y + j) } ∧
        Ready { s with io := io' } rest := by
  have hbc := index_bits_cases ps
  unfold packed_row_length at hrow
  generalize hb : index_bits ps = b at hbc hrow ⊢
  intro n
  induction n with
  | zero =>
    intro i s hi _ _ hr
    refine ⟨s.io, s.zrle_pi, s.zrle_pi_bits, ?_, ?_⟩
    · simp [zrle_palette_row]
    · have hw : i = w := by omega
      subst hw
      rw [← hrow, List.drop_length, List.nil_append] at hr
      exact hr
  | succ n ih =>
    intro i s hi hbits hpi hr
    have hiw : i < w := by omega
    by_cases ho : i * b % 8 = 0
    · obtain ⟨a1, a2, a3, a4, a5, a6, a7⟩ := packed_offsets_fresh b i w hbc hiw ho
      have hk : i * b / 8 < row.length := by omega
      rw [a2, List.drop_eq_getElem_cons hk, List.cons_append] at hr
      have hb0 : s.zrle_pi_bits = 0 := by
        rw [hbits, ho]
        rfl
      obtain ⟨io1, e1, r1⟩ := read_zrle_pi_fresh s ps row[i * b / 8] _ h2 h16 hb0 hr
      rw [hb] at e1
      have r1' : Ready { s with
          io := io1
          zrle_pi := row[i * b / 8].toNat
          zrle_pi_bits := ((8 - b : Nat) : Int)
          fbops := s.fbops ++ [FbOp.set_pixel_at
            (palette.getD (packed_index b row i &&& 0x7F) [0, 0, 0, 0])
            ((x : Int) + (i : Int)) ((y : Int) + (j : Int))] }
          (row.drop (((i + 1) * b + 7) / 8) ++ rest) := by
        rw [a5]
        exact r1
      obtain ⟨io2, pi2, bits2, e2, r2⟩ := ih (i + 1) _ (by omega)
        (by dsimp only; rw [a3]) (fun _ => by
          dsimp only
          rw [a4, List.getD_eq_getElem?_getD, List.getElem?_eq_getElem hk]
          rfl) r1'
      dsimp only at e2 r2
      refine ⟨io2, pi2, bits2, ?_, r2⟩
      have hidx : (row[i * b / 8].toNat >>> (8 - b)) &&& (2 ^ b - 1) = packed_index b row i := by
        unfold packed_index
        rw [a6, List.getD_eq_getElem?_getD, List.getElem?_eq_getElem hk]
        rfl
      rw [hidx] at e1
      simp only [zrle_palette_row, e1]
      rw [e2]
      simp [List.range'_succ]
    · obtain ⟨a1, a2, a3, a4, a5, a6, a7⟩ := packed_offsets_held b i w hbc hiw ho
      have hk : i * b / 8 < row.length := by omega
      rw [a1] at hbits
      have e1 := read_zrle_pi_held s ps (8 - i * b % 8) h2 h16 hbits (by rw [hb]; exact a2)
        (by omega)
      rw [hb, a3, hpi ho] at e1
      have r1' : Ready { s with
          zrle_pi := (row.getD (i * b / 8) 0).toNat
          zrle_pi_bits := ((8 - b - i * b % 8 : Nat) : Int)
          fbops := s.fbops ++ [FbOp.set_pixel_at
            (palette.getD (packed_index b row i &&& 0x7F) [0, 0, 0, 0])
            ((x : Int) + (i : Int)) ((y : Int) + (j : Int))] }
          (row.drop (((i + 1) * b + 7) / 8) ++ rest) := by
        rw [a6]
        exact hr
      obtain ⟨io2, pi2, bits2, e2, r2⟩ := ih (i + 1) _ (by omega)
        (by dsimp only; rw [a4, a3]) (fun h => by
          dsimp only
          rw [a5 h]) r1'
      dsimp only at e2 r2
      refine ⟨io2, pi2, bits2, ?_, r2⟩
      have hidx : ((row.getD (i * b / 8) 0).toNat >>> (8 - b - i * b % 8)) &&& (2 ^ b - 1) =
          packed_index b row i := rfl
      rw [hidx] at e1
      simp only [zrle_palette_row, e1]
      rw [e2]
      simp [List.range'_succ]

theorem packed_index_and (b : Nat) (row : List UInt8) (i : Nat) (hb : b = 1 ∨ b = 2 ∨ b = 4) :
    packed_index b row i &&& 0x7F = packed_index b row i := by
  have h : packed_index b row i ≤ 2 ^ b - 1 := Nat.and_le_right
  have h15 : 2 ^ b - 1 ≤ 15 := by
    rcases hb with rfl | rfl | rfl <;> decide
  rw [and_127]
  omega

/-- The outer loop of the packed-palette decoder from row `j` on: every row starts at
a byte of its own. -/
theorem zrle_palette_rows_ok (ps : Nat) (fmt : VncPixelFormat) (entries : List (List UInt8))
    (palette : List (List UInt8)) (x y w : Nat) (rest : List UInt8) (h2 : 2 ≤ ps)
    (h16 : ps ≤ 16)
    (hpal : ∀ k, palette.getD k [0, 0, 0, 0] = palette_pixel fmt entries k)
    (rows : List (List UInt8)) :
    ∀ (j : Nat) (s : Conn),
      (∀ row ∈ rows, row.length = packed_row_length w (index_bits ps)) →
      Ready s (rows.flatten ++ rest) →
      ∃ io' pi bits, zrle_palette_rows ps palette x y w rows.length j s =
          { s with
            io := io'
            zrle_pi := pi
            zrle_pi_bits := bits
            fbops := s.fbops ++ packed_tile_fbops fmt entries (index_bits ps) x y w j rows } ∧
        Ready { s with io := io' } rest := by
  induction rows with
  | nil =>
    intro j s _ hr
    refine ⟨s.io, s.zrle_pi, s.zrle_pi_bits, ?_, hr⟩
    simp [zrle_palette_rows, packed_tile_fbops]
  | cons row rows ih =>
    intro j s hlen hr
    have hr' : Ready { s with zrle_pi_bits := 0 }
        (row.drop ((0 * index_bits ps + 7) / 8) ++ (rows.flatten ++ rest)) := by
      have : (0 * index_bits ps + 7) / 8 = 0 := by omega
      rw [this, List.drop_zero]
      simpa only [List.flatten_cons, List.append_assoc] using hr
    obtain ⟨io1, pi1, bits1, e1, r1⟩ := zrle_palette_row_ok ps palette x y j w row
      (rows.flatten ++ rest) h2 h16 (hlen row (List.mem_cons_self _ _)) w 0
      { s with zrle_pi_bits := 0 } (by omega)
      (by
        have : (8 - 0 * index_bits ps % 8) % 8 = 0 := by omega
        rw [this]
        rfl)
      (fun h => absurd (by omega) h) hr'
    dsimp only at e1 r1
    have r1' : Ready { s with
        io := io1
        zrle_pi := pi1
        zrle_pi_bits := bits1
        fbops := s.fbops ++ (List.range' 0 w).map fun c =>
          FbOp.set_pixel_at
            (palette.getD (packed_index (index_bits ps) row c &&& 0x7F) [0, 0, 0, 0])
            ((x : Int) + (c : Int)) ((y : Int) + (j : Int)) } (rows.flatten ++ rest) := r1
    obtain ⟨io2, pi2, bits2, e2, r2⟩ := ih (j + 1) _
      (fun r hr => hlen r (List.mem_cons_of_mem _ hr)) r1'
    dsimp only at e2 r2
    refine ⟨io2, pi2, bits2, ?_, r2⟩
    simp only [List.length_cons, zrle_palette_rows, e1]
    rw [e2]
    simp only [packed_tile_fbops, packed_row_fbops, List.range_eq_range', List.append_assoc,
      packed_index_and _ _ _ (index_bits_cases ps), hpal]

/-- C23. A ZRLE packed-palette tile of width `w` with a palette of `ps` entries
(2..16) at b = `index_bits ps` bits per index (1 for 2 entries, 2 for 3 or 4, 4 for
5..16): after the palette entries, every row takes exactly ceil(w*b/8) bytes, the
pixel at column i of row j is set to the palette entry named by the b-bit field of
that row's bytes at bit offset i*b from the most significant bit of its first byte,
and the bits left in a row's last byte are not used: whatever the rows hold, the
decoder makes exactly the calls `packed_tile_fbops` lists and leaves exactly the
bytes after the last row unread. -/
theorem zrle_packed_palette_tile (s : Conn) (ps x y w : Nat) (entries rows : List (List UInt8))
    (rest : List UInt8) (h2 : 2 ≤ ps) (h16 : ps ≤ 16) (hn : entries.length = ps)
    (he : ∀ e ∈ entries, e.length = cpixel_size s.fmt)
    (hrows : ∀ row ∈ rows, row.length = packed_row_length w (index_bits ps))
    (hr : Ready s (entries.flatten ++ rows.flatten ++ rest)) :
    ∃ io' pi bits, vnc_connection_zrle_update_tile_palette s ps x y w rows.length =
        { s with
          io := io'
          zrle_pi := pi
          zrle_pi_bits := bits
          fbops := s.fbops ++ packed_tile_fbops s.fmt entries (index_bits ps) x y w 0 rows } ∧
      io'.pending = rest := by
  have hr' : Ready s (entries.flatten ++ (rows.flatten ++ rest)) := by
    simpa only [List.append_assoc] using hr
  obtain ⟨io1, pal, e1, r1, _, g1⟩ := zrle_palette_read_ok entries 0 s
    (List.replicate 128 [0, 0, 0, 0]) _ he hr'
    (by simp only [List.length_replicate]; omega)
    (fun k _ => by
      simp only [List.getD_eq_getElem?_getD, List.getElem?_replicate]
      split <;> rfl)
  rw [hn] at e1
  have hpal : ∀ k, pal.getD k [0, 0, 0, 0] = palette_pixel s.fmt entries k := by
    intro k
    rw [g1 k, if_neg (by omega)]
    rfl
  obtain ⟨io2, pi2, bits2, e2, r2⟩ := zrle_palette_rows_ok ps s.fmt entries pal x y w rest h2 h16
    hpal rows 0 { s with io := io1 } hrows r1
  dsimp only at e2 r2
  refine ⟨io2, pi2, bits2, ?_, r2.2.2⟩
  unfold vnc_connection_zrle_update_tile_palette
  rw [e1]
  exact e2

theorem zrle_packed_palette_tile_witness :
    (2 ≤ 5 ∧ 5 ≤ 16 ∧ palette_five.length = 5 ∧
      (∀ e ∈ palette_five, e.length = cpixel_size
        (session rgb888 640 480 (palette_five.flatten ++ rows_five.flatten ++ [9])).fmt) ∧
      (∀ row ∈ rows_five, row.length = packed_row_length 3 (index_bits 5)) ∧
      Ready (session rgb888 640 480 (palette_five.flatten ++ rows_five.flatten ++ [9]))
        (palette_five.flatten ++ rows_five.flatten ++ [9])) ∧
    (∃ io' pi bits, vnc_connection_zrle_update_tile_palette
        (session rgb888 640 480 (palette_five.flatten ++ rows_five.flatten ++ [9])) 5 10 20 3
          rows_five.length =
        { session rgb888 640 480 (palette_five.flatten ++ rows_five.flatten ++ [9]) with
          io := io'
          zrle_pi := pi
          zrle_pi_bits := bits
          fbops := (session rgb888 640 480
              (palette_five.flatten ++ rows_five.flatten ++ [9])).fbops ++
            packed_tile_fbops (session rgb888 640 480
              (palette_five.flatten ++ rows_five.flatten ++ [9])).fmt palette_five
              (index_bits 5) 10 20 3 0 rows_five } ∧
      io'.pending = [9]) ∧
    packed_tile_fbops rgb888 palette_five (index_bits 5) 10 20 3 0 rows_five =
      [FbOp.set_pixel_at [0xA1, 0xA2, 0xA3, 0] 10 20,
        FbOp.set_pixel_at [0xE1, 0xE2, 0xE3, 0] 11 20,
        FbOp.set_pixel_at [0xC1, 0xC2, 0xC3, 0] 12 20,
        FbOp.set_pixel_at [0xD1, 0xD2, 0xD3, 0] 10 21,
        FbOp.set_pixel_at [0xB1, 0xB2, 0xB3, 0] 11 21,
        FbOp.set_pixel_at [0xA1, 0xA2, 0xA3, 0] 12 21] :=
  ⟨⟨by decide, by decide, by decide, by decide, by decide, ready_session _ _ _ _⟩,
    zrle_packed_palette_tile
      (session rgb888 640 480 (palette_five.flatten ++ rows_five.flatten ++ [9])) 5 10 20 3
      palette_five rows_five [9] (by decide) (by decide) (by decide) (by decide) (by decide)
      (ready_session _ _ _ _),
    by decide⟩

/-! ## Palette arrays -/

theorem be_value_single (b : UInt8) : be_value [b] = b.toNat := by
  simp [be_value]

/-- One byte asked for: the loop of `vnc_connection_read` copies at most one. -/
theorem read_loop_one (b : Bool) (s : Conn) :
    (vnc_connection_read_loop b 1 1 s []).2.1.length ≤ 1 := by
  simp only [vnc_connection_read_loop, List.length_nil, Nat.lt_one_iff, if_true,
    List.nil_append]
  by_cases hc : vnc_connection_use_compression s = true
  · rw [if_pos hc]
    unfold vnc_connection_zread
    by_cases hd : 1 ≤ (s.io.compressed.getD []).length
    · rw [if_pos hd]
      simp only [Int.reduceNeg, Nat.cast_one, List.length_take]
      rw [if_neg (by decide)]
      show (List.take 1 (s.io.compressed.getD [])).length ≤ 1
      rw [List.length_take]
      exact Nat.min_le_left _ _
    · rw [if_neg hd]
      simp only [Int.reduceNeg, if_true]
      omega
  · rw [if_neg hc]
    generalize (if s.io.read_offset = s.io.read_buffer.length then
      match vnc_connection_read_buf b s with
      | (ret, s1) =>
        if ret < 0 then (ret, s1)
        else (0, { s1 with io := { s1.io with read_offset := 0 } })
      else (0, s)) = r
    split
    · simp
    · simp only [List.length_take, List.length_drop, Nat.sub_zero]
      omega

/-- A byte read is a byte: whatever the state, `vnc_connection_read_u8` gives a value
below 256. -/
theorem read_u8_lt (s : Conn) : (vnc_connection_read_u8 s).1 < 256 := by
  have hb : ∀ b : UInt8, be_value [b] < 256 := by
    intro b
    rw [be_value_single]
    exact b.toNat_lt
  have key : ∀ got : List UInt8, got.length ≤ 1 → be_value (got ++ [0].drop got.length) < 256 := by
    intro got hg
    match got, hg with
    | [], _ => exact hb 0
    | [b], _ => exact hb b
  unfold vnc_connection_read_u8 vnc_connection_read vnc_connection_read_gen
  split
  rename_i r buf s1 heq
  split at heq
  · cases heq
    exact hb 0
  · have h1 := read_loop_one false s
    generalize vnc_connection_read_loop false 1 1 s [] = q at heq h1
    obtain ⟨a, got, t⟩ := q
    cases heq
    exact key got h1

theorem getElem_opt_eq_getD (l : List (List UInt8)) (k : Nat) (z : List UInt8) (h : k < l.length) :
    l[k]? = some (l.getD k z) := by
  rw [List.getD_eq_getElem?_getD, List.getElem?_eq_getElem h]
  rfl

/-- The palette loop keeps the size of the array. -/
theorem zrle_palette_read_length :
    ∀ (n i : Nat) (s : Conn) (palette : List (List UInt8)),
      (zrle_palette_read n i s palette).1.length = palette.length := by
  intro n
  induction n with
  | zero =>
    intro i s palette
    rfl
  | succ n ih =>
    intro i s palette
    simp only [zrle_palette_read]
    rw [ih]
    exact List.length_set _ _ _

/-- The palette loop stays inside the array when the entries asked for fit in it. -/
theorem zrle_palette_read_checked_eq :
    ∀ (n i : Nat) (s : Conn) (palette : List (List UInt8)), i + n ≤ palette.length →
      zrle_palette_read_checked n i s palette = some (zrle_palette_read n i s palette) := by
  intro n
  induction n with
  | zero =>
    intro i s palette _
    rfl
  | succ n ih =>
    intro i s palette h
    simp only [zrle_palette_read_checked, zrle_palette_read]
    rw [getElem_opt_eq_getD palette i [0, 0, 0, 0] (by omega)]
    dsimp only
    rw [ih]
    rw [List.length_set]
    omega

/-- The inner loop of the packed-palette decoder stays inside an array of 128
entries. -/
theorem zrle_palette_row_checked_eq (ps : Nat) (palette : List (List UInt8)) (x y j : Nat)
    (hp : palette.length = 128) :
    ∀ (n i : Nat) (s : Conn),
      zrle_palette_row_checked ps palette x y j n i s =
        some (zrle_palette_row ps palette x y j n i s) := by
  intro n
  induction n with
  | zero =>
    intro i s
    rfl
  | succ n ih =>
    intro i s
    simp only [zrle_palette_row_checked, zrle_palette_row]
    rw [getElem_opt_eq_getD palette _ [0, 0, 0, 0] (by rw [hp, and_127]; omega)]
    dsimp only
    rw [ih]

theorem zrle_palette_rows_checked_eq (ps : Nat) (palette : List (List UInt8)) (x y w : Nat)
    (hp : palette.length = 128) :
    ∀ (n j : Nat) (s : Conn),
      zrle_palette_rows_checked ps palette x y w n j s =
        some (zrle_palette_rows ps palette x y w n j s) := by
  intro n
  induction n with
  | zero =>
    intro j s
    rfl
  | succ n ih =>
    intro j s
    simp only [zrle_palette_rows_checked, zrle_palette_rows]
    rw [zrle_palette_row_checked_eq ps palette x y j hp]
    dsimp only
    rw [ih]

/-- The packed-palette decoder with the bounds kept agrees with the decoder as it
is, for every palette size up to 128. -/
theorem zrle_update_tile_palette_checked_eq (s : Conn) (ps x y w h : Nat) (hps : ps ≤ 128) :
    vnc_connection_zrle_update_tile_palette_checked s ps x y w h =
      some (vnc_connection_zrle_update_tile_palette s ps x y w h) := by
  unfold vnc_connection_zrle_update_tile_palette_checked vnc_connection_zrle_update_tile_palette
  rw [zrle_palette_read_checked_eq ps 0 s _ (by simp only [List.length_replicate]; omega)]
  have hl := zrle_palette_read_length ps 0 s (List.replicate 128 [0, 0, 0, 0])
  generalize zrle_palette_read ps 0 s (List.replicate 128 [0, 0, 0, 0]) = r at hl
  obtain ⟨pal, t⟩ := r
  dsimp only at hl ⊢
  rw [zrle_palette_rows_checked_eq ps pal x y w (by rw [hl, List.length_replicate])]

theorem byte_low_bit7 (v : Nat) (hv : v < 256) (h : ¬ (v &&& 0x80 ≠ 0)) : v < 128 := by
  have := (byte_bits ⟨v, hv⟩).1
  simp only at this
  by_contra hc
  rw [if_neg hc] at this
  omega

/-- The inner loop of the palette run-length decoder stays inside an array of 128
entries: the index it holds is always below 128. -/
theorem zrle_prle_row_some (palette : List (List UInt8)) (x y j : Nat)
    (hp : palette.length = 128) :
    ∀ (n i : Nat) (s : Conn) (rl : Int) (pi : Nat), pi < 128 →
      ∃ r, zrle_prle_row palette x y j n i s rl pi = some r ∧ r.2.2 < 128 := by
  intro n
  induction n with
  | zero =>
    intro i s rl pi hpi
    exact ⟨(s, rl, pi), rfl, hpi⟩
  | succ n ih =>
    intro i s rl pi hpi
    simp only [zrle_prle_row]
    by_cases hrl : rl = 0
    · rw [if_pos hrl]
      have hv := read_u8_lt s
      by_cases hbit : (vnc_connection_read_u8 s).1 &&& 128 ≠ 0
      · rw [if_pos hbit]
        have hlt : (vnc_connection_read_u8 s).1 &&& 127 < 128 := by
          rw [and_127]
          omega
        dsimp only
        rw [getElem_opt_eq_getD palette _ [0, 0, 0, 0] (by omega)]
        exact ih _ _ _ _ hlt
      · rw [if_neg hbit]
        have hlt := byte_low_bit7 _ hv hbit
        dsimp only
        rw [getElem_opt_eq_getD palette _ [0, 0, 0, 0] (by omega)]
        exact ih _ _ _ _ hlt
    · rw [if_neg hrl]
      dsimp only
      rw [getElem_opt_eq_getD palette _ [0, 0, 0, 0] (by omega)]
      exact ih _ _ _ _ hpi

theorem zrle_prle_rows_some (palette : List (List UInt8)) (x y w : Nat)
    (hp : palette.length = 128) :
    ∀ (n j : Nat) (s : Conn) (rl : Int) (pi : Nat), pi < 128 →
      (zrle_prle_rows palette x y w n j s rl pi).isSome = true := by
  intro n
  induction n with
  | zero =>
    intro j s rl pi _
    rfl
  | succ n ih =>
    intro j s rl pi hpi
    obtain ⟨r, e, hr⟩ := zrle_prle_row_some palette x y j hp w 0 s rl pi hpi
    simp only [zrle_prle_rows, e]
    exact ih _ _ _ _ hr

/-- The palette run-length decoder stays inside its array for every palette size up
to 128. -/
theorem zrle_update_tile_prle_some (s : Conn) (ps x y w h : Nat) (hps : ps ≤ 128) :
    (vnc_connection_zrle_update_tile_prle s ps x y w h).isSome = true := by
  unfold vnc_connection_zrle_update_tile_prle
  rw [zrle_palette_read_checked_eq ps 0 s _ (by simp only [List.length_replicate]; omega)]
  have hl := zrle_palette_read_length ps 0 s (List.replicate 128 [0, 0, 0, 0])
  generalize zrle_palette_read ps 0 s (List.replicate 128 [0, 0, 0, 0]) = r at hl
  obtain ⟨pal, t⟩ := r
  dsimp only at hl ⊢
  exact zrle_prle_rows_some pal x y w (by rw [hl, List.length_replicate]) h 0 t 0 0 (by decide)

/-- Every tile of ZRLE is decoded without an access outside a palette array. -/
theorem zrle_update_tile_some (s : Conn) (x y w h : Nat) :
    (vnc_connection_zrle_update_tile s x y w h).isSome = true := by
  unfold vnc_connection_zrle_update_tile
  have hv := read_u8_lt s
  generalize vnc_connection_read_u8 s = r at hv
  obtain ⟨v, t⟩ := r
  dsimp only at hv ⊢
  split
  · rfl
  · split
    · rfl
    · split
      · rename_i h16
        rw [zrle_update_tile_palette_checked_eq t v x y w h (by omega)]
        rfl
      · split
        · rfl
        · split
          · rfl
          · split
            · rfl
            · split
              · exact zrle_update_tile_prle_some t (v - 128) x y w h (by omega)
              · rfl

/-- The palette loop of the Tight decoder stays inside the array when the entries
asked for fit in it, and keeps the size of the array. -/
theorem tight_palette_read_some (host_order : Nat) :
    ∀ (n i : Nat) (s : Conn) (palette : List (List UInt8)), i + n ≤ palette.length →
      ∃ r, tight_palette_read host_order n i s palette = some r ∧
        r.1.length = palette.length := by
  intro n
  induction n with
  | zero =>
    intro i s palette _
    exact ⟨(palette, s), rfl, rfl⟩
  | succ n ih =>
    intro i s palette h
    simp only [tight_palette_read]
    rw [getElem_opt_eq_getD palette i [0, 0, 0, 0] (by omega)]
    dsimp only
    obtain ⟨r, e, hr⟩ := ih (i + 1)
      (vnc_connection_read_tpixel host_order s (palette.getD i [0, 0, 0, 0])).2
      (palette.set i (vnc_connection_read_tpixel host_order s (palette.getD i [0, 0, 0, 0])).1)
      (by rw [List.length_set]; omega)
    refine ⟨r, e, ?_⟩
    rw [hr, List.length_set]

/-- The inner loop of the Tight palette filter stays inside an array of 256
entries. -/
theorem tight_palette_row_some (ps : Nat) (palette : List (List UInt8)) (x y j : Nat)
    (hp : palette.length = 256) :
    ∀ (n i : Nat) (s : Conn) (ra : Nat),
      (tight_palette_row ps palette x y j n i s ra).isSome = true := by
  intro n
  induction n with
  | zero =>
    intro i s ra
    rfl
  | succ n ih =>
    intro i s ra
    simp only [tight_palette_row]
    rw [getElem_opt_eq_getD palette _ [0, 0, 0, 0] (by rw [hp]; exact Nat.mod_lt _ (by decide))]
    exact ih _ _ _

theorem tight_palette_rows_some (ps : Nat) (palette : List (List UInt8)) (x y w : Nat)
    (hp : palette.length = 256) :
    ∀ (n j : Nat) (s : Conn), (tight_palette_rows ps palette x y w n j s).isSome = true := by
  intro n
  induction n with
  | zero =>
    intro j s
    rfl
  | succ n ih =>
    intro j s
    simp only [tight_palette_rows]
    have h1 := tight_palette_row_some ps palette x y j hp w 0 s 0
    generalize tight_palette_row ps palette x y j w 0 s 0 = r at h1
    match r, h1 with
    | some t, _ => exact ih _ _

/-- Basic compression of Tight is decoded without an access outside the palette
array. -/
theorem tight_update_basic_some (ext : TightExternal) (s : Conn) (c x y w h : Nat) :
    (tight_update_basic ext s c x y w h).isSome = true := by
  unfold tight_update_basic
  generalize (if c &&& 0x04 ≠ 0 then vnc_connection_read_u8 s else (0, s)) = r
  obtain ⟨filter_id, t⟩ := r
  dsimp only
  by_cases hf : filter_id = 1
  · subst hf
    simp only [if_true]
    have hv := read_u8_lt t
    obtain ⟨r, e, hr⟩ := tight_palette_read_some ext.byte_order
      ((vnc_connection_read_u8 t).1 + 1) 0 (vnc_connection_read_u8 t).2
      (List.replicate 256 [0, 0, 0, 0]) (by simp only [List.length_replicate]; omega)
    rw [e]
    obtain ⟨pal, u⟩ := r
    dsimp only at hr ⊢
    rw [if_neg (by decide)]
    unfold vnc_connection_tight_update_palette
    have h1 := fun u' => tight_palette_rows_some ((vnc_connection_read_u8 t).1 + 1) pal x y w
      (by rw [hr, List.length_replicate]) h 0 u'
    split
    · rename_i heq
      rw [← Option.not_isSome_iff_eq_none] at heq
      exact absurd (h1 _) heq
    · rfl
  · rw [if_neg hf]
    dsimp only
    by_cases hf0 : filter_id = 0
    · rw [if_pos hf0]
      rfl
    · rw [if_neg hf0, if_neg hf]
      by_cases hf2 : filter_id = 2
      · rw [if_pos hf2]
        rfl
      · rw [if_neg hf2]
        rfl

/-- A Tight rectangle is decoded without an access outside the palette array. -/
theorem tight_update_some (ext : TightExternal) (s : Conn) (x y w h : Nat) :
    (vnc_connection_tight_update ext s x y w h).2.isSome = true := by
  unfold vnc_connection_tight_update
  generalize vnc_connection_read_u8 s = r
  obtain ⟨v, t⟩ := r
  dsimp only
  split
  · exact tight_update_basic_some ext t _ x y w h
  · split
    · rfl
    · split
      · rfl
      · rfl

/-- C28. Whatever the state of the connection and whatever bytes arrive, the palette
decoders stay inside their arrays: a ZRLE tile (packed palette, palette run-length
and the other kinds) and a Tight rectangle are decoded with every palette access at
an entry of the array (128 entries for ZRLE, 256 for Tight); the packed-palette
decoder with the bounds kept is the decoder as it is, and the palette run-length
decoder stays inside for every palette size up to 128; the Tight palette filter
stays inside an array of 256 entries; the palette sizes taken from the wire are
2..127 for palette run-length (the sub-encoding less 128) and 1..256 for Tight. -/
theorem palette_access_in_bounds (ext : TightExternal) (s : Conn) (x y w h : Nat) :
    (vnc_connection_zrle_update_tile s x y w h).isSome = true ∧
    (vnc_connection_tight_update ext s x y w h).2.isSome = true ∧
    (∀ ps, ps ≤ 128 →
      vnc_connection_zrle_update_tile_palette_checked s ps x y w h =
        some (vnc_connection_zrle_update_tile_palette s ps x y w h)) ∧
    (∀ ps, ps ≤ 128 → (vnc_connection_zrle_update_tile_prle s ps x y w h).isSome = true) ∧
    (∀ ps palette, palette.length = 256 →
      (vnc_connection_tight_update_palette s ps palette x y w h).isSome = true) ∧
    (∀ ps, ps ≤ 256 → ∃ r, tight_palette_read ext.byte_order ps 0 s
      (List.replicate 256 [0, 0, 0, 0]) = some r ∧ r.1.length = 256) ∧
    ((vnc_connection_read_u8 s).1 ≥ 130 →
      2 ≤ (vnc_connection_read_u8 s).1 - 128 ∧ (vnc_connection_read_u8 s).1 - 128 ≤ 127) ∧
    (1 ≤ (vnc_connection_read_u8 s).1 + 1 ∧ (vnc_connection_read_u8 s).1 + 1 ≤ 256) := by
  have hv := read_u8_lt s
  refine ⟨zrle_update_tile_some s x y w h, tight_update_some ext s x y w h,
    fun ps hps => zrle_update_tile_palette_checked_eq s ps x y w h hps,
    fun ps hps => zrle_update_tile_prle_some s ps x y w h hps,
    fun ps palette hp => tight_palette_rows_some ps palette x y w hp h 0 s,
    fun ps hps => ?_, fun _ => by omega, by omega⟩
  obtain ⟨r, e, hr⟩ := tight_palette_read_some ext.byte_order ps 0 s
    (List.replicate 256 [0, 0, 0, 0]) (by simp only [List.length_replicate]; omega)
  exact ⟨r, e, by rw [hr, List.length_replicate]⟩

/-- The bounds that are kept are real ones: a palette loop that would pass the end of
the array is refused, in the ZRLE decoders and in the Tight decoder alike. -/
theorem palette_read_beyond_array (host_order : Nat) :
    ∀ (n i : Nat) (s : Conn) (palette : List (List UInt8)),
      palette.length < i + n → i ≤ palette.length →
      zrle_palette_read_checked n i s palette = none ∧
        tight_palette_read host_order n i s palette = none := by
  intro n
  induction n with
  | zero =>
    intro i s palette h1 h2
    omega
  | succ n ih =>
    intro i s palette h1 h2
    simp only [zrle_palette_read_checked, tight_palette_read]
    by_cases hi : i = palette.length
    · rw [List.getElem?_eq_none (by omega)]
      exact ⟨rfl, rfl⟩
    · rw [getElem_opt_eq_getD palette i [0, 0, 0, 0] (by omega)]
      dsimp only
      exact ⟨(ih (i + 1) _ _ (by rw [List.length_set]; omega)
          (by rw [List.length_set]; omega)).1,
        (ih (i + 1) _ _ (by rw [List.length_set]; omega) (by rw [List.length_set]; omega)).2⟩

theorem palette_access_in_bounds_witness :
    (vnc_connection_zrle_update_tile
      (session rgb888 640 480 [130, 1, 2, 3, 4, 5, 6, 0x81, 0]) 0 0 2 1).isSome = true ∧
    (vnc_connection_tight_update idle_tight
      (session rgb888 640 480 [0x40, 1, 1, 1, 2, 3, 4, 5, 6, 0x40]) 0 0 2 1).2.isSome = true :=
  ⟨(palette_access_in_bounds idle_tight
      (session rgb888 640 480 [130, 1, 2, 3, 4, 5, 6, 0x81, 0]) 0 0 2 1).1,
    (palette_access_in_bounds idle_tight
      (session rgb888 640 480 [0x40, 1, 1, 1, 2, 3, 4, 5, 6, 0x40]) 0 0 2 1).2.1⟩

/-! ## The Tight control byte -/

set_option maxRecDepth 1000000 in
theorem control_byte_bits : ∀ c : Fin 256,
    tight_stream_resets c.val =
        ((List.range 4).filter fun i => c.val.testBit i).map (fun i => i + 1) ∧
      (c.val >>> 4) &&& 0x0F = c.val / 16 := by
  decide

/-- C22 (counterexample). The control byte 0x80 has its low four bits clear and bit 7
set: the decoder fills the rectangle with the pixel that follows and resets no
stream. The control byte 0x08 has the value 8 in its low four bits and its high
four bits clear: the decoder resets stream 4 and takes the rectangle as basic
compression, here one raw pixel. -/
theorem tight_control_byte_nibbles :
    (vnc_connection_tight_update idle_tight
        (session rgb888 640 480 [0x80, 1, 2, 3]) 0 0 2 2).1 = [] ∧
    (vnc_connection_tight_update idle_tight
        (session rgb888 640 480 [0x80, 1, 2, 3]) 0 0 2 2).2.map (fun t => (t.fbops, t.error)) =
      some ([FbOp.fill [3, 2, 1, 0] 0 0 2 2], none) ∧
    (vnc_connection_tight_update idle_tight
        (session rgb888 640 480 [0x08, 1, 2, 3]) 0 0 1 1).1 = [4] ∧
    (vnc_connection_tight_update idle_tight
        (session rgb888 640 480 [0x08, 1, 2, 3]) 0 0 1 1).2.map (fun t => (t.fbops, t.error)) =
      some ([FbOp.set_pixel_at [3, 2, 1, 0] 0 0], none) := by
  decide

/-- C22, as amended. For every Tight control byte c: the high 4 bits of c select the
behaviour (0..7 basic compression, 8 solid fill, 9 JPEG, any other value an error)
and bit i of c (i = 0..3) resets Tight inflate context i+1. -/
theorem tight_control_byte (ext : TightExternal) (s : Conn) (c : UInt8) (rest : List UInt8)
    (x y w h : Nat) (hr : Ready s (c :: rest)) :
    ∃ io', Ready { s with io := io' } rest ∧
      (vnc_connection_tight_update ext s x y w h).1 =
        ((List.range 4).filter fun i => c.toNat.testBit i).map (fun i => i + 1) ∧
      (∀ i, i < 4 →
        (i + 1 ∈ (vnc_connection_tight_update ext s x y w h).1 ↔ c.toNat.testBit i = true)) ∧
      (c.toNat / 16 ≤ 7 → (vnc_connection_tight_update ext s x y w h).2 =
        tight_update_basic ext { s with io := io' } (c.toNat / 16) x y w h) ∧
      (c.toNat / 16 = 8 → (vnc_connection_tight_update ext s x y w h).2 =
        some (tight_update_fill ext { s with io := io' } x y w h)) ∧
      (c.toNat / 16 = 9 → (vnc_connection_tight_update ext s x y w h).2 =
        some (tight_update_jpeg_data ext { s with io := io' } x y w h)) ∧
      (10 ≤ c.toNat / 16 → (vnc_connection_tight_update ext s x y w h).2 =
        some (vnc_connection_set_error { s with io := io' }
          (ErrorText.fmt "Unexpected tight ccontrol %d" [((c.toNat / 16 : Nat) : Int)]))) := by
  obtain ⟨io1, e1, r1, _⟩ := read_u8_ok s c rest hr
  obtain ⟨hres, hnib⟩ := control_byte_bits ⟨c.toNat, c.toNat_lt⟩
  dsimp only at hres hnib
  have hfst : (vnc_connection_tight_update ext s x y w h).1 =
      ((List.range 4).filter fun i => c.toNat.testBit i).map (fun i => i + 1) := by
    unfold vnc_connection_tight_update
    rw [e1]
    exact hres
  have hsnd : (vnc_connection_tight_update ext s x y w h).2 =
      if c.toNat / 16 ≤ 7 then tight_update_basic ext { s with io := io1 } (c.toNat / 16) x y w h
      else if c.toNat / 16 = 8 then some (tight_update_fill ext { s with io := io1 } x y w h)
      else if c.toNat / 16 = 9 then
        some (tight_update_jpeg_data ext { s with io := io1 } x y w h)
      else some (vnc_connection_set_error { s with io := io1 }
        (ErrorText.fmt "Unexpected tight ccontrol %d" [((c.toNat / 16 : Nat) : Int)])) := by
    unfold vnc_connection_tight_update
    rw [e1]
    dsimp only
    rw [hnib]
  refine ⟨io1, r1, hfst, ?_, ?_, ?_, ?_, ?_⟩
  · intro i hi
    rw [hfst]
    simp only [List.mem_map, List.mem_filter, List.mem_range]
    constructor
    · rintro ⟨a, ⟨_, ha⟩, hai⟩
      have : a = i := by omega
      subst this
      exact ha
    · intro hb
      exact ⟨i, ⟨hi, hb⟩, rfl⟩
  · intro hk
    rw [hsnd, if_pos hk]
  · intro hk
    rw [hsnd, if_neg (by omega), if_pos hk]
  · intro hk
    rw [hsnd, if_neg (by omega), if_neg (by omega), if_pos hk]
  · intro hk
    rw [hsnd, if_neg (by omega), if_neg (by omega), if_neg (by omega)]

theorem tight_control_byte_witness :
    Ready (session rgb888 640 480 [0xA3, 1, 2, 3]) (0xA3 :: [1, 2, 3]) ∧
    ∃ io', Ready { session rgb888 640 480 [0xA3, 1, 2, 3] with io := io' } [1, 2, 3] ∧
      (vnc_connection_tight_update idle_tight (session rgb888 640 480 [0xA3, 1, 2, 3])
          0 0 2 2).1 =
        ((List.range 4).filter fun i => (0xA3 : UInt8).toNat.testBit i).map (fun i => i + 1) ∧
      (∀ i, i < 4 →
        (i + 1 ∈ (vnc_connection_tight_update idle_tight
            (session rgb888 640 480 [0xA3, 1, 2, 3]) 0 0 2 2).1 ↔
          (0xA3 : UInt8).toNat.testBit i = true)) ∧
      ((0xA3 : UInt8).toNat / 16 ≤ 7 →
        (vnc_connection_tight_update idle_tight (session rgb888 640 480 [0xA3, 1, 2, 3])
            0 0 2 2).2 =
          tight_update_basic idle_tight { session rgb888 640 480 [0xA3, 1, 2, 3] with io := io' }
            ((0xA3 : UInt8).toNat / 16) 0 0 2 2) ∧
      ((0xA3 : UInt8).toNat / 16 = 8 →
        (vnc_connection_tight_update idle_tight (session rgb888 640 480 [0xA3, 1, 2, 3])
            0 0 2 2).2 =
          some (tight_update_fill idle_tight
            { session rgb888 640 480 [0xA3, 1, 2, 3] with io := io' } 0 0 2 2)) ∧
      ((0xA3 : UInt8).toNat / 16 = 9 →
        (vnc_connection_tight_update idle_tight (session rgb888 640 480 [0xA3, 1, 2, 3])
            0 0 2 2).2 =
          some (tight_update_jpeg_data idle_tight
            { session rgb888 640 480 [0xA3, 1, 2, 3] with io := io' } 0 0 2 2)) ∧
      (10 ≤ (0xA3 : UInt8).toNat / 16 →
        (vnc_connection_tight_update idle_tight (session rgb888 640 480 [0xA3, 1, 2, 3])
            0 0 2 2).2 =
          some (vnc_connection_set_error
            { session rgb888 640 480 [0xA3, 1, 2, 3] with io := io' }
            (ErrorText.fmt "Unexpected tight ccontrol %d"
              [(((0xA3 : UInt8).toNat / 16 : Nat) : Int)]))) :=
  ⟨ready_session _ _ _ _,
    tight_control_byte idle_tight (session rgb888 640 480 [0xA3, 1, 2, 3]) 0xA3 [1, 2, 3]
      0 0 2 2 (ready_session _ _ _ _)⟩

end GtkVnc
